import Mathlib

/-!
Sardana device pool: the group execution engine.

A shallow embedding of the motion part of the device pool
(`Pool/src/PoolThread.cpp`, `Pool/src/MotorGroup/MotorGroup.cpp`,
`Pool/src/MeasurementGroup/MeasurementGroup.cpp`, `Pool/src/Motor/Motor.cpp`).

Conventions of the embedding:

* positions (`double` in the source) are the elements of a type `P` with a
  zero and the operations a function uses; no law of arithmetic is assumed of
  them.  The concrete runs take `P := Int` on whole numbers, on which the
  additions and subtractions of `double` are exact;
* a `vector<T>` is a `List T`; in the functions of a motor group an access
  outside the bounds of a vector is reported as a failure of the enclosing
  function; the vectors of the motion thread are sized by their callers, and
  the entry read for an index outside them is noted at the function;
* calls into a controller plugin or through a `DeviceProxy` are answered by an
  environment record passed to the function; every call made, lock taken and
  event fired is appended to a list of `Ev`.
-/

set_option linter.unusedSectionVars false
set_option linter.unusedVariables false

namespace Tango

/-- The values of `Tango::DevState`, in the order of the IDL enumeration. -/
inductive DevState
  | ON | OFF | CLOSE | OPEN | INSERT | EXTRACT | MOVING | STANDBY
  | FAULT | INIT | RUNNING | ALARM | DISABLE | UNKNOWN
  deriving DecidableEq, Repr, Inhabited

end Tango

open Tango

namespace Pool_ns

/-- What `update_state_from_ctrls` reads of an `IndEltGrp`: `get_family()` and `get_alias()`. -/
structure IndEltName where
  family : String
  alias_name : String
  deriving DecidableEq, Repr, Inhabited

/-- The per-tier loop of `update_state_from_ctrls`
(`for (loop = 0; loop < nb; loop++)`): each round finds the next entry equal
to `s` from `v_sta_start` on, appends the line of the element at that distance
and restarts the search one past it.  `nb` rounds are left, `loop` have been
done. -/
def tier_status (state_array : List DevState) (ind_elts : List IndEltName) (s : DevState)
    (suffix : String) : Nat → Nat → Nat → String → String
  | 0, _, _, status => status
  | nb + 1, loop, v_sta_start, status =>
    let dist := v_sta_start + (state_array.drop v_sta_start).indexOf s
    let ind := ind_elts.getD dist default
    let status1 := if loop != 0 then status ++ "\n" else status
    tier_status state_array ind_elts s suffix nb (loop + 1) (dist + 1)
      (status1 ++ ind.family ++ " " ++ ind.alias_name ++ suffix)

/-- The part of the device a call of `update_state_from_ctrls` reads besides
the state array: the state before the call, the calling thread, the motion
thread registered for the group and the abort flag. -/
structure GrpCtx where
  old_state : DevState
  th_id : Int
  mov_th_id : Int
  abort_cmd_executed : Bool
  deriving DecidableEq, Repr

end Pool_ns

open Pool_ns

namespace MotorGroup_ns

/-- `MotorGroup::update_state_from_ctrls`, from "Are there any elements in
FAULT" to the end (MotorGroup.cpp 2160-2292): the state set on the device and
the status string, which was cleared just before.  `StatusNotSet` is the
constant of that name. -/
def update_state_from_ctrls (StatusNotSet : String) (state_array : List DevState)
    (ind_elts : List IndEltName) (g : GrpCtx) : DevState × String :=
  if state_array.count DevState.FAULT != 0 then
    (DevState.FAULT,
      tier_status state_array ind_elts DevState.FAULT " is in FAULT"
        (state_array.count DevState.FAULT) 0 0 "")
  else if state_array.count DevState.UNKNOWN != 0 then
    (DevState.UNKNOWN,
      tier_status state_array ind_elts DevState.UNKNOWN " is in UNKNOWN state"
        (state_array.count DevState.UNKNOWN) 0 0 "")
  else if state_array.count DevState.ALARM != 0 then
    (DevState.ALARM,
      tier_status state_array ind_elts DevState.ALARM " is in ALARM"
        (state_array.count DevState.ALARM) 0 0 "")
  else if state_array.count DevState.MOVING != 0 then
    (DevState.MOVING,
      tier_status state_array ind_elts DevState.MOVING " is MOVING"
        (state_array.count DevState.MOVING) 0 0 "")
  else if g.mov_th_id != 0 then
    if g.old_state = DevState.MOVING ∧ g.th_id ≠ g.mov_th_id ∧ g.abort_cmd_executed = false then
      (DevState.MOVING, "")
    else
      (DevState.ON, StatusNotSet)
  else
    (DevState.ON, StatusNotSet)

end MotorGroup_ns

namespace MeasurementGroup_ns

/-- `MeasurementGroup::update_state_from_ctrls`, from "Are there any channels
in FAULT" to the end (MeasurementGroup.cpp 757-889). -/
def update_state_from_ctrls (StatusNotSet : String) (state_array : List DevState)
    (ind_elts : List IndEltName) (g : GrpCtx) : DevState × String :=
  if state_array.count DevState.FAULT != 0 then
    (DevState.FAULT,
      tier_status state_array ind_elts DevState.FAULT " is in FAULT"
        (state_array.count DevState.FAULT) 0 0 "")
  else if state_array.count DevState.UNKNOWN != 0 then
    (DevState.UNKNOWN,
      tier_status state_array ind_elts DevState.UNKNOWN " is in UNKNOWN state"
        (state_array.count DevState.UNKNOWN) 0 0 "")
  else if state_array.count DevState.ALARM != 0 then
    (DevState.ALARM,
      tier_status state_array ind_elts DevState.ALARM " is in ALARM"
        (state_array.count DevState.ALARM) 0 0 "")
  else if state_array.count DevState.MOVING != 0 then
    (DevState.MOVING,
      tier_status state_array ind_elts DevState.MOVING " is MOVING"
        (state_array.count DevState.MOVING) 0 0 "")
  else if g.mov_th_id != 0 then
    if g.old_state = DevState.MOVING ∧ g.th_id ≠ g.mov_th_id ∧ g.abort_cmd_executed = false then
      (DevState.MOVING, "")
    else
      (DevState.ON, StatusNotSet)
  else
    (DevState.ON, StatusNotSet)

end MeasurementGroup_ns

namespace Pool_ns

/-- The source of a notification: a motor device or the motor group of the session. -/
inductive Src
  | mot (mot_id : Int)
  | grp
  deriving DecidableEq, Repr

/-- What a session does that another thread, a controller or a client can
observe.  `P` is the type of positions. -/
inductive Ev (P : Type)
  /-- `MotInMove::Lock` or `IndEltGrp::Lock`: the monitor of a motor device is taken. -/
  | lock_mot (mot_id : Int)
  /-- `MotInMove::Unlock` or `IndEltGrp::Unlock`. -/
  | unlock_mot (mot_id : Int)
  /-- `CtrlInMove::lock` or `new AutoPoolLock(cp->get_ctrl_fica_mon())`. -/
  | lock_ctrl (ctrl_id : Int)
  /-- `CtrlInMove::unlock` or `delete lock_ptr`. -/
  | unlock_ctrl (ctrl_id : Int)
  | PreStartAll (ctrl_id : Int)
  | PreStartOne (ctrl_id : Int) (obj_idx : Int) (pos : P)
  | StartOne (ctrl_id : Int) (obj_idx : Int) (pos : P)
  | StartAll (ctrl_id : Int)
  | PreReadAll (ctrl_id : Int)
  | PreReadOne (ctrl_id : Int) (obj_idx : Int)
  | ReadAll (ctrl_id : Int)
  | ReadOne (ctrl_id : Int) (obj_idx : Int)
  /-- `obj_proxy->write_attribute` of `Position` on a motor. -/
  | write_attribute (mot_id : Int) (pos : P)
  /-- `proxy_dev->command_inout("Abort")`. -/
  | command_Abort
  /-- `state_att.fire_change_event()`: the state event sent to clients, with the state of the device at that moment. -/
  | state_change (src : Src) (state : DevState)
  /-- `fire_pool_elem_change` of a `StateChange` event. -/
  | elem_state_change (src : Src) (old_state new_state : DevState)
  /-- `pos_att.fire_change_event`: the position event sent to clients;
  `last_call` tells the forced read after the loop, `failed` that the event carries the read error. -/
  | position_change (src : Src) (last_call : Bool) (failed : Bool)
  /-- `fire_pool_elem_change` of a `PositionChange` or `PositionArrayChange` event, `priority = last_call`. -/
  | elem_position_change (src : Src) (last_call : Bool) (failed : Bool)
  /-- `fire_pool_elem_change` of the `MotionEnded` event. -/
  | MotionEnded (src : Src)
  /-- `read_Position` on the attribute of the group or of the single motor, from `read_pos_while_moving`. -/
  | read_Position (src : Src)
  /-- `th->mon_ptr->signal()`. -/
  | signal
  deriving DecidableEq, Repr

/-- The kind of an event: its constructor. -/
inductive Tag
  | lock_mot | unlock_mot | lock_ctrl | unlock_ctrl
  | PreStartAll | PreStartOne | StartOne | StartAll
  | PreReadAll | PreReadOne | ReadAll | ReadOne
  | write_attribute | command_Abort
  | state_change | elem_state_change | position_change | elem_position_change
  | MotionEnded | read_Position | signal
  deriving DecidableEq, Repr

/-- The kind of an event. -/
def Ev.tag {P : Type} : Ev P → Tag
  | Ev.lock_mot _ => Tag.lock_mot
  | Ev.unlock_mot _ => Tag.unlock_mot
  | Ev.lock_ctrl _ => Tag.lock_ctrl
  | Ev.unlock_ctrl _ => Tag.unlock_ctrl
  | Ev.PreStartAll _ => Tag.PreStartAll
  | Ev.PreStartOne _ _ _ => Tag.PreStartOne
  | Ev.StartOne _ _ _ => Tag.StartOne
  | Ev.StartAll _ => Tag.StartAll
  | Ev.PreReadAll _ => Tag.PreReadAll
  | Ev.PreReadOne _ _ => Tag.PreReadOne
  | Ev.ReadAll _ => Tag.ReadAll
  | Ev.ReadOne _ _ => Tag.ReadOne
  | Ev.write_attribute _ _ => Tag.write_attribute
  | Ev.command_Abort => Tag.command_Abort
  | Ev.state_change _ _ => Tag.state_change
  | Ev.elem_state_change _ _ _ => Tag.elem_state_change
  | Ev.position_change _ _ _ => Tag.position_change
  | Ev.elem_position_change _ _ _ => Tag.elem_position_change
  | Ev.MotionEnded _ => Tag.MotionEnded
  | Ev.read_Position _ => Tag.read_Position
  | Ev.signal => Tag.signal

/-- The calls of the start protocol made to the controllers, in the order of the run. -/
def ctrl_calls {P : Type} (evs : List (Ev P)) : List (Ev P) :=
  evs.filter (fun e => decide (e.tag ∈ [Tag.PreStartAll, Tag.PreStartOne, Tag.StartOne, Tag.StartAll]))

/-- The fields of `MotorPool` read by the motion thread. -/
structure MotorPool where
  id : Int
  name : String
  obj_tango_name : String
  ctrl_id : Int
  obj_idx : Int
  has_listeners : Bool
  deriving DecidableEq, Repr

/-- The fields of a `Motor` device read or written by the motion thread, and
its simulation flag `simu`, which `Motor::write_Position` reads. -/
structure MotorDev (P : Type) where
  state : DevState
  mov_th_id : Int
  grp_mov : Bool
  dial_pos : P
  back_pos : P
  th_failed : Bool
  simu : Bool
  deriving DecidableEq, Repr

/-- The fields of the `MotorGroup` device of the session read or written by the motion thread. -/
structure GroupDev where
  state : DevState
  mov_th_id : Int
  th_failed : Bool
  has_listeners : Bool
  event_fired_array : List Bool
  deriving DecidableEq, Repr

/-- The devices a session touches: the motors by identifier and the group of the thread. -/
structure PoolSt (P : Type) where
  motor : Int → MotorDev P
  group : GroupDev
  proxy_created : Bool

/-- Update of one motor device. -/
def PoolSt.set_motor {P : Type} (st : PoolSt P) (mot_id : Int) (f : MotorDev P → MotorDev P) :
    PoolSt P :=
  { st with motor := fun i => if i = mot_id then f (st.motor i) else st.motor i }

/-- The fields of `PoolThread` read by the session, and the identifier of the running thread. -/
structure PoolThread where
  group_id : Int
  th_id : Int
  deriving DecidableEq, Repr

/-- `MotInMove`: the motor and the identifier of its controller. -/
structure MotInMove where
  mot_id : Int
  mot : MotorPool
  ctrl_id : Int
  deriving DecidableEq, Repr

/-- Result of `PreStartOne`. -/
inductive PreStartOneRes
  | ret_true
  | ret_false
  | throws
  deriving DecidableEq, Repr

/-- The answers of the outside world to the calls of one `send_to_ctrl`.
Calls are numbered by their place in the loop that makes them: the k-th entry
of `implied_ctrls`, the `loop`-th motor.  `write_Position loop` is the outcome
of the proxy write of the `loop`-th motor, `none` when the request throws
before `Motor::write_Position` changes the device, else the dial position and
the backlash position `Motor::write_Position` leaves in the motor (the write
is done with `grp_mov` set and starts no thread).  What the write does to the
state of the motor and the events it fires are not part of the answer: they
are those of `simulated_write`. -/
structure StartEnv (P : Type) where
  PreStartAll_throws : Nat → Bool
  write_Position : Nat → Option (P × P)
  PreStartOne : Nat → PreStartOneRes
  StartOne_throws : Nat → Bool
  StartAll_throws : Nat → Bool

/-- How a start fails. -/
inductive Failure
  /-- `get_motor_from_id` threw: the identifier is unknown, nothing was locked. -/
  | not_found (mot_id : Int)
  /-- The exception rethrown by `manage_thread_exception`, with the `except_func` and `loop` it was given. -/
  | ctrl_failed (except_func : String) (loop : Int)
  /-- A `DevFailed` thrown by a call on a device proxy outside every `try` block. -/
  | proxy_failed (cmd : String)
  deriving DecidableEq, Repr

/-- A run of the session code: the devices, the locals `back_pos` and
`internal_events`, the events so far, and the exception in flight if any. -/
structure Run (P : Type) where
  st : PoolSt P
  back_pos : List P
  internal_events : List (Ev P)
  evs : List (Ev P)
  err : Option Failure

/-- Sequencing: a statement is skipped while an exception is in flight. -/
def Run.andThen {P : Type} (r : Run P) (f : Run P → Run P) : Run P :=
  if r.err.isSome then r else f r

/-- The event `e` is appended to the run. -/
def Run.emit {P : Type} (r : Run P) (e : Ev P) : Run P :=
  { r with evs := r.evs ++ [e] }

/-- The inner loop of `send_to_ctrl` at lines 345-350,
`for (l = 0; l < implied_ctrls.size(); l++) { if (implied_ctrls[l].ctrl_id == ct_id) break; implied_ctrls.push_back(tmp_ctrl); }`:
the `push_back` is inside the loop.  `fuel` bounds the number of rounds. -/
def scan_implied_ctrls (ct_id : Int) : Nat → Nat → List Int → List Int
  | 0, _, implied_ctrls => implied_ctrls
  | fuel + 1, l, implied_ctrls =>
    if l < implied_ctrls.length then
      if implied_ctrls.getD l 0 = ct_id then implied_ctrls
      else scan_implied_ctrls ct_id fuel (l + 1) (implied_ctrls ++ [ct_id])
    else implied_ctrls

/-- One round of the first loop of `send_to_ctrl` (lines 340-351) on the list of controller identifiers. -/
def add_implied_ctrl (ct_id : Int) (implied_ctrls : List Int) : List Int :=
  if implied_ctrls.isEmpty then [ct_id]
  else scan_implied_ctrls ct_id (implied_ctrls.length + 1) 0 implied_ctrls

/-- The first loop of `send_to_ctrl` (lines 330-352): `implied_mots` and
`implied_ctrls`, or the identifier `get_motor_from_id` does not know.
`get_motor_from_id` is the lookup of the pool. -/
def find_implied (get_motor_from_id : Int → Option MotorPool) :
    List Int → List MotInMove → List Int → Except Int (List MotInMove × List Int)
  | [], implied_mots, implied_ctrls => .ok (implied_mots, implied_ctrls)
  | mot_id :: rest, implied_mots, implied_ctrls =>
    match get_motor_from_id mot_id with
    | none => .error mot_id
    | some mot_ref =>
      find_implied get_motor_from_id rest
        (implied_mots ++ [⟨mot_id, mot_ref, mot_ref.ctrl_id⟩])
        (add_implied_ctrl mot_ref.ctrl_id implied_ctrls)

/-- Modelled from the spec: `MotorGroup::clear_event_fired_array` is declared
in `MotorGroup.h`, which is not among the sources.  Every flag is reset and the
size is kept: the loop of `moving_loop` reads `event_array[loop]` for every
motor of the group afterwards. -/
def clear_event_fired_array (a : List Bool) : List Bool :=
  a.map (fun _ => false)

section session

variable {P : Type} [DecidableEq P] [Zero P]

/-- Lines 403-407 of `send_to_ctrl`: every motor is locked and gets the thread identifier. -/
def lock_motors_loop (th : PoolThread) : List MotInMove → Run P → Run P
  | [], r => r
  | m :: rest, r =>
    let r1 := r.emit (Ev.lock_mot m.mot_id)
    lock_motors_loop th rest
      { r1 with st := r1.st.set_motor m.mot_id (fun d => { d with mov_th_id := th.th_id }) }

/-- Lines 401-411 of `send_to_ctrl`.  In a single-motor session the motor is
`implied_mots[0]`. -/
def lock_motors (th : PoolThread) (implied_mots : List MotInMove) (r : Run P) : Run P :=
  if th.group_id != -1 then
    let r1 := lock_motors_loop th implied_mots r
    { r1 with st := { r1.st with group := { r1.st.group with mov_th_id := th.th_id } } }
  else
    match implied_mots.head? with
    | some m => { r with st := r.st.set_motor m.mot_id (fun d => { d with mov_th_id := th.th_id }) }
    | none => r

/-- Lines 417-422 of `send_to_ctrl`: every implied controller is locked. -/
def lock_ctrls : List Int → Run P → Run P
  | [], r => r
  | c :: rest, r => lock_ctrls rest (r.emit (Ev.lock_ctrl c))

/-- Lines 428-437 of `send_to_ctrl`: `PreStartAll` on every implied controller;
`except_func` is "PreStartAll" and `loop` is -1 there.  `k` numbers the call. -/
def PreStartAll_loop (env : StartEnv P) : Nat → List Int → Run P → Run P
  | _, [], r => r
  | k, c :: rest, r =>
    let r1 := r.emit (Ev.PreStartAll c)
    if env.PreStartAll_throws k then { r1 with err := some (Failure.ctrl_failed "PreStartAll" (-1)) }
    else PreStartAll_loop env (k + 1) rest r1

/-- The last branch of `Motor::write_Position` (Motor.cpp 1737-1755), taken
when the motor is in simulation mode: the state is set to MOVING and its event
fired, then to ON and its event fired, and the position is read and its event
fired without test of the change (`set_change_event(true,false)`). -/
def simulated_write (mot_id : Int) (r : Run P) : Run P :=
  let r1 := { r with st := r.st.set_motor mot_id (fun d => { d with state := DevState.MOVING }) }
  let r2 := r1.emit (Ev.state_change (Src.mot mot_id) DevState.MOVING)
  let r3 := { r2 with st := r2.st.set_motor mot_id (fun d => { d with state := DevState.ON }) }
  let r4 := r3.emit (Ev.state_change (Src.mot mot_id) DevState.ON)
  (r4.emit (Ev.read_Position (Src.mot mot_id))).emit (Ev.position_change (Src.mot mot_id) true false)

/-- The end of `Motor::write_Position` (Motor.cpp 1698-1755) for a write done
with `grp_mov` set: out of simulation mode `th_failed` is cleared and no
thread is started; in simulation mode the events of the motion are fired. -/
def write_Position_end (mot_id : Int) (r : Run P) : Run P :=
  if (r.st.motor mot_id).simu then simulated_write mot_id r
  else { r with st := r.st.set_motor mot_id (fun d => { d with th_failed := false }) }

/-- Lines 459-486 of `send_to_ctrl`: the position to send to the `loop`-th
motor, and the backlash position recorded in `back_pos`.  A position missing
in `positions` reads as 0 (the two vectors of a thread have the same size). -/
def send_position (env : StartEnv P) (th : PoolThread) (wait_flag : Bool) (positions : List P)
    (loop : Nat) (m : MotInMove) (r : Run P) : Run P × P :=
  if th.group_id != -1 then
    if wait_flag then
      let r1 := { r with st := r.st.set_motor m.mot_id (fun d => { d with grp_mov := true }) }
      let r2 := r1.emit (Ev.write_attribute m.mot_id (positions.getD loop 0))
      match env.write_Position loop with
      | none => ({ r2 with err := some (Failure.ctrl_failed "NoFunc" loop) }, 0)
      | some (dial, back) =>
        let st3 := r2.st.set_motor m.mot_id
          (fun d => { d with dial_pos := dial, back_pos := back })
        let r3 := write_Position_end m.mot_id { r2 with st := st3 }
        let r4 := if back ≠ 0 then { r3 with back_pos := r3.back_pos.set loop back } else r3
        ({ r4 with st := r4.st.set_motor m.mot_id (fun d => { d with grp_mov := false }) }, dial)
    else (r, positions.getD loop 0)
  else
    let backlash := (r.st.motor m.mot_id).back_pos
    (if backlash ≠ 0 ∧ wait_flag = true then { r with back_pos := r.back_pos.set loop backlash }
     else r, positions.getD loop 0)

/-- Lines 448-508 of `send_to_ctrl`: the body of the loop over the motors.
A `false` from `PreStartOne` throws `Pool_PrestartOne` while `except_func` is
still "PreStartOne". -/
def start_motor (env : StartEnv P) (th : PoolThread) (wait_flag : Bool) (positions : List P)
    (loop : Nat) (m : MotInMove) (r : Run P) : Run P :=
  let rp := send_position env th wait_flag positions loop m r
  if rp.1.err.isSome then rp.1
  else
    let r2 := rp.1.emit (Ev.PreStartOne m.ctrl_id m.mot.obj_idx rp.2)
    match env.PreStartOne loop with
    | PreStartOneRes.throws => { r2 with err := some (Failure.ctrl_failed "PreStartOne" loop) }
    | PreStartOneRes.ret_false => { r2 with err := some (Failure.ctrl_failed "PreStartOne" loop) }
    | PreStartOneRes.ret_true =>
      let r3 := r2.emit (Ev.StartOne m.ctrl_id m.mot.obj_idx rp.2)
      if env.StartOne_throws loop then { r3 with err := some (Failure.ctrl_failed "StartOne" loop) }
      else r3

/-- Lines 446-509 of `send_to_ctrl`: the loop over the motors, left at the first exception. -/
def start_motors_loop (env : StartEnv P) (th : PoolThread) (wait_flag : Bool) (positions : List P) :
    Nat → List MotInMove → Run P → Run P
  | _, [], r => r
  | loop, m :: rest, r =>
    let r1 := start_motor env th wait_flag positions loop m r
    if r1.err.isSome then r1
    else start_motors_loop env th wait_flag positions (loop + 1) rest r1

/-- Lines 523-542 of `send_to_ctrl`, the body of the loop: the motor is set
to MOVING; with `wait_flag` its state event is fired and its internal event is
queued. -/
def set_motor_moving (wait_flag : Bool) (m : MotInMove) (r : Run P) : Run P :=
  let old_state := (r.st.motor m.mot_id).state
  let r1 := { r with st := r.st.set_motor m.mot_id (fun d => { d with state := DevState.MOVING }) }
  if wait_flag then
    let r3 := r1.emit (Ev.state_change (Src.mot m.mot_id) DevState.MOVING)
    let queued := r3.internal_events ++
      [Ev.elem_state_change (Src.mot m.mot_id) old_state DevState.MOVING]
    if m.mot.has_listeners then { r3 with internal_events := queued } else r3
  else r1

/-- Lines 521-543 of `send_to_ctrl`: the loop over the motors. -/
def set_motors_moving (wait_flag : Bool) : List MotInMove → Run P → Run P
  | [], r => r
  | m :: rest, r => set_motors_moving wait_flag rest (set_motor_moving wait_flag m r)

/-- Lines 545-563 of `send_to_ctrl`: the group is set to MOVING. -/
def set_group_moving (th : PoolThread) (wait_flag : Bool) (r : Run P) : Run P :=
  if th.group_id != -1 then
    let old_state := r.st.group.state
    let grp : GroupDev := { r.st.group with
      event_fired_array := clear_event_fired_array r.st.group.event_fired_array,
      state := DevState.MOVING }
    let r1 := { r with st := { r.st with group := grp } }
    if wait_flag then
      let r2 := r1.emit (Ev.state_change Src.grp DevState.MOVING)
      let queued := r2.internal_events ++ [Ev.elem_state_change Src.grp old_state DevState.MOVING]
      if r2.st.group.has_listeners then { r2 with internal_events := queued } else r2
    else r1
  else r

/-- Lines 569-578 of `send_to_ctrl`: `StartAll` on every implied controller;
`except_func` is "StartAll" and `loop` is -1 there. -/
def StartAll_loop (env : StartEnv P) : Nat → List Int → Run P → Run P
  | _, [], r => r
  | k, c :: rest, r =>
    let r1 := r.emit (Ev.StartAll c)
    if env.StartAll_throws k then { r1 with err := some (Failure.ctrl_failed "StartAll" (-1)) }
    else StartAll_loop env (k + 1) rest r1

/-- Every controller of the list is unlocked (`manage_thread_exception` 1707-1709, `send_to_ctrl` 609-612). -/
def unlock_ctrls : List Int → Run P → Run P
  | [], r => r
  | c :: rest, r => unlock_ctrls rest (r.emit (Ev.unlock_ctrl c))

/-- Every motor of the list is unlocked (`manage_thread_exception` 1774-1777, `send_to_ctrl` 620-623). -/
def unlock_motors : List MotInMove → Run P → Run P
  | [], r => r
  | m :: rest, r => unlock_motors rest (r.emit (Ev.unlock_mot m.mot_id))

/-- Lines 1732-1749 of `manage_thread_exception`, the body of the loop: the
motor is set to ON and its events are fired. -/
def reset_motor_ON (m : MotInMove) (r : Run P) : Run P :=
  let old_state := (r.st.motor m.mot_id).state
  let r1 := { r with st := r.st.set_motor m.mot_id (fun d => { d with state := DevState.ON }) }
  let r2 := r1.emit (Ev.state_change (Src.mot m.mot_id) DevState.ON)
  if m.mot.has_listeners then
    r2.emit (Ev.elem_state_change (Src.mot m.mot_id) old_state DevState.ON)
  else r2

/-- Lines 1730-1750 of `manage_thread_exception`: the loop over the motors. -/
def reset_motors_ON : List MotInMove → Run P → Run P
  | [], r => r
  | m :: rest, r => reset_motors_ON rest (reset_motor_ON m r)

/-- Lines 1752-1767 of `manage_thread_exception`: the group is set to ON and its events are fired. -/
def reset_group_ON (th : PoolThread) (r : Run P) : Run P :=
  if th.group_id != -1 then
    let old_state := r.st.group.state
    let r1 := { r with st := { r.st with group := { r.st.group with state := DevState.ON } } }
    let r2 := r1.emit (Ev.state_change Src.grp DevState.ON)
    if r2.st.group.has_listeners then r2.emit (Ev.elem_state_change Src.grp old_state DevState.ON)
    else r2
  else r

/-- `PoolThread::manage_thread_exception` (PoolThread.cpp 1696-1794): the
controllers are unlocked, the states are reset to ON when they had been
changed, the motors of a group are unlocked, and the exception is rethrown. -/
def manage_thread_exception (th : PoolThread) (implied_ctrls : List Int)
    (implied_mots : List MotInMove) (except_func : String) (state_changed : Bool) (loop : Int)
    (r : Run P) : Run P :=
  let r1 := unlock_ctrls implied_ctrls r
  let r2 := if state_changed then reset_group_ON th (reset_motors_ON implied_mots r1) else r1
  let r3 := if th.group_id != -1 then unlock_motors implied_mots r2 else r2
  { r3 with err := some (Failure.ctrl_failed except_func loop) }

/-- The `except_func` and `loop` of the exception in flight. -/
def Failure.except_func : Failure → String
  | Failure.not_found _ => "NoFunc"
  | Failure.ctrl_failed f _ => f
  | Failure.proxy_failed _ => "NoFunc"

/-- The `loop` of the exception in flight. -/
def Failure.loop : Failure → Int
  | Failure.not_found _ => -1
  | Failure.ctrl_failed _ l => l
  | Failure.proxy_failed _ => -1

/-- The `catch` blocks of `send_to_ctrl` (lines 580-603). -/
def catch_start (th : PoolThread) (implied_ctrls : List Int) (implied_mots : List MotInMove)
    (state_changed : Bool) (r : Run P) : Run P :=
  match r.err with
  | none => r
  | some f =>
    manage_thread_exception th implied_ctrls implied_mots f.except_func state_changed f.loop
      { r with err := none }

/-- Lines 605-648 of `send_to_ctrl`, run when no exception left the `try`
block: controllers then motors are unlocked, `th_failed` is cleared, the
waiting thread is signalled and the queued internal events are fired. -/
def finish_start (th : PoolThread) (implied_ctrls : List Int) (implied_mots : List MotInMove)
    (r : Run P) : Run P :=
  let r1 := unlock_ctrls implied_ctrls r
  let r2 := if th.group_id != -1 then unlock_motors implied_mots r1 else r1
  let r3 :=
    if th.group_id = -1 then
      match implied_mots.head? with
      | some m => { r2 with st := r2.st.set_motor m.mot_id (fun d => { d with th_failed := false }) }
      | none => r2
    else { r2 with st := { r2.st with group := { r2.st.group with th_failed := false } } }
  let r4 := r3.emit Ev.signal
  { r4 with evs := r4.evs ++ r4.internal_events }

/-- The `try` block of `send_to_ctrl` up to the end of the loop over the motors (lines 391-509). -/
def try_start (env : StartEnv P) (th : PoolThread) (wait_flag : Bool) (positions : List P)
    (implied_ctrls : List Int) (implied_mots : List MotInMove) (r : Run P) : Run P :=
  ((lock_ctrls implied_ctrls (lock_motors th implied_mots r)).andThen
      (PreStartAll_loop env 0 implied_ctrls)).andThen
    (start_motors_loop env th wait_flag positions 0 implied_mots)

/-- `Pool::send_to_ctrl` (PoolThread.cpp 311-649).  `st` and `back_pos` are
the devices and the vector of backlash positions at the call; the run returned
has the events of the call, and `err` set when the call throws. -/
def send_to_ctrl (get_motor_from_id : Int → Option MotorPool) (env : StartEnv P)
    (mot_ids : List Int) (positions : List P) (th : PoolThread) (wait_flag : Bool)
    (back_pos : List P) (st : PoolSt P) : Run P :=
  match find_implied get_motor_from_id mot_ids [] [] with
  | .error mot_id => ⟨st, back_pos, [], [], some (Failure.not_found mot_id)⟩
  | .ok (implied_mots, implied_ctrls) =>
    let r0 : Run P := ⟨{ st with proxy_created := true }, back_pos, [], [], none⟩
    let r3 := try_start env th wait_flag positions implied_ctrls implied_mots r0
    if r3.err.isSome then catch_start th implied_ctrls implied_mots false r3
    else
      let r5 := StartAll_loop env 0 implied_ctrls
                  (set_group_moving th wait_flag (set_motors_moving wait_flag implied_mots r3))
      if r5.err.isSome then catch_start th implied_ctrls implied_mots true r5
      else finish_start th implied_ctrls implied_mots r5

end session

end Pool_ns

namespace Pool_ns

/-- The events of `simulated_write` for the motor `mot_id`. -/
def simu_write_evs {P : Type} (mot_id : Int) : List (Ev P) :=
  [Ev.state_change (Src.mot mot_id) DevState.MOVING, Ev.state_change (Src.mot mot_id) DevState.ON,
   Ev.read_Position (Src.mot mot_id), Ev.position_change (Src.mot mot_id) true false]

/-- The motors of `ids` are written through their proxy: the session is one of a group with `wait_flag`. -/
def proxy_written (th : PoolThread) (wait_flag : Bool) (ids : List Int) (i : Int) : Prop :=
  wait_flag = true ∧ (th.group_id != -1) = true ∧ i ∈ ids

/-- The event `e` is fired by the simulated write of a motor of `ids` that is
in simulation mode in `s` and is written through its proxy. -/
def simu_event {P : Type} (th : PoolThread) (wait_flag : Bool) (s : PoolSt P) (ids : List Int)
    (e : Ev P) : Prop :=
  ∃ i, proxy_written th wait_flag ids i ∧ (s.motor i).simu = true ∧ e ∈ simu_write_evs i

/-- The states of the motors and of the group are the same in `s` and `t`,
but that a motor in simulation mode for which `w` holds may be in ON in `t`;
no motor changes its simulation mode. -/
def same_states_but {P : Type} (w : Int → Prop) (s t : PoolSt P) : Prop :=
  (∀ i, (t.motor i).simu = (s.motor i).simu) ∧
  (∀ i, (t.motor i).state = (s.motor i).state ∨
    (w i ∧ (s.motor i).simu = true ∧ (t.motor i).state = DevState.ON)) ∧
  t.group.state = s.group.state

section

variable {P : Type} [DecidableEq P] [Zero P]

/-- The states of the motors and of the group are the same in `s` and `t`. -/
def same_states (s t : PoolSt P) : Prop :=
  (∀ i, (t.motor i).state = (s.motor i).state) ∧ t.group.state = s.group.state

/-- The tags of the events of the loop over the motors, those of a simulated write apart. -/
def motor_tags : List Tag := [Tag.write_attribute, Tag.PreStartOne, Tag.StartOne]

/-- The target sent for the `loop`-th motor (lines 459-486 of `send_to_ctrl`):
in a group session with `wait_flag` the dial position the proxy write left in
the motor, else the position given for it. -/
def sent_position (env : StartEnv P) (th : PoolThread) (wait_flag : Bool) (positions : List P)
    (loop : Nat) : P :=
  if (th.group_id != -1) = true ∧ wait_flag = true then
    match env.write_Position loop with
    | some (dial, _) => dial
    | none => 0
  else positions.getD loop 0

/-- The targets sent for the motors `loop`, `loop + 1`, ... of a move of `n` motors. -/
def sent_positions (env : StartEnv P) (th : PoolThread) (wait_flag : Bool) (positions : List P)
    (loop n : Nat) : List P :=
  (List.range' loop n).map (sent_position env th wait_flag positions)

/-- The calls of the loop over the motors when every call returns: for each
motor in turn `PreStartOne` then `StartOne`, both with the target of the motor. -/
def start_calls : List MotInMove → List P → List (Ev P)
  | m :: ms, p :: ps =>
    Ev.PreStartOne m.ctrl_id m.mot.obj_idx p :: Ev.StartOne m.ctrl_id m.mot.obj_idx p ::
      start_calls ms ps
  | _, _ => []

/-- The tags of the events fired when the states are reset. -/
def reset_tags : List Tag := [Tag.state_change, Tag.elem_state_change]

/-- The locks taken at the start of a session: the motors of a group, then the controllers. -/
def lock_evs (th : PoolThread) (ms : List MotInMove) (cs : List Int) : List (Ev P) :=
  (if th.group_id != -1 then ms.map (fun m => Ev.lock_mot m.mot_id) else []) ++
    cs.map (fun c => Ev.lock_ctrl c)

/-- The locks released at the end of a session: the controllers, then the motors of a group. -/
def unlock_evs (th : PoolThread) (ms : List MotInMove) (cs : List Int) : List (Ev P) :=
  cs.map (fun c => Ev.unlock_ctrl c) ++
    (if th.group_id != -1 then ms.map (fun m => Ev.unlock_mot m.mot_id) else [])

end

end Pool_ns

namespace Pool_ns

/-- The place of a controller call in the four phases of the start protocol as
the specification words it: `PreStartAll`, then `PreStartOne`, then `StartAll`,
then `StartOne`. -/
def claimed_phase {P : Type} : Ev P → Option Nat
  | Ev.PreStartAll _ => some 0
  | Ev.PreStartOne _ _ _ => some 1
  | Ev.StartAll _ => some 2
  | Ev.StartOne _ _ _ => some 3
  | _ => none

/-- The controller calls of a run come in the order of the four phases of the specification. -/
def four_phase_order {P : Type} (evs : List (Ev P)) : Prop :=
  (evs.filterMap claimed_phase).Pairwise (fun a b => a ≤ b)

instance {P : Type} (evs : List (Ev P)) : Decidable (four_phase_order evs) := by
  unfold four_phase_order; infer_instance

/-- A pool with one motor, of identifier 1, at index 1 of controller 10. -/
def one_motor_pool : Int → Option MotorPool :=
  fun i => if i = 1 then some ⟨1, "m1", "motor/ctrl10/1", 10, 1, false⟩ else none

/-- A pool with two motors of controller 10, of identifiers 1 and 2. -/
def two_motor_pool : Int → Option MotorPool :=
  fun i =>
    if i = 1 then some ⟨1, "m1", "motor/ctrl10/1", 10, 1, false⟩
    else if i = 2 then some ⟨2, "m2", "motor/ctrl10/2", 10, 2, false⟩
    else none

/-- Every call of the start returns, `PreStartOne` with `true`; a proxy write leaves the dial position 5 and no backlash. -/
def env_all_ok : StartEnv Int :=
  ⟨fun _ => false, fun _ => some (5, 0), fun _ => PreStartOneRes.ret_true, fun _ => false, fun _ => false⟩

/-- As `env_all_ok`, but the first `PreStartAll` throws. -/
def env_PreStartAll_throws : StartEnv Int :=
  { env_all_ok with PreStartAll_throws := fun k => decide (k = 0) }

/-- Devices at rest: every motor and the group in state `s`, no thread registered. -/
def st_at_rest (s : DevState) : PoolSt Int :=
  ⟨fun _ => ⟨s, 0, false, 0, 0, false, false⟩, ⟨s, 0, false, false, [false, false]⟩, false⟩

/-- As `env_all_ok`, but `PreStartOne` returns `false` for the first motor. -/
def env_PreStartOne_false : StartEnv Int :=
  { env_all_ok with
    PreStartOne := fun k => if k = 0 then PreStartOneRes.ret_false else PreStartOneRes.ret_true }

/-- Devices at rest in state `s`, every motor in simulation mode. -/
def st_simulated (s : DevState) : PoolSt Int :=
  ⟨fun _ => ⟨s, 0, false, 0, 0, false, true⟩, ⟨s, 0, false, false, [false, false]⟩, false⟩

end Pool_ns

namespace Pool_ns

/-- Why an operation on a group does not return normally. -/
inductive Fault
  /-- A `Tango::DevFailed` is thrown, with this reason. -/
  | DevFailed (reason : String)
  /-- A vector is read or written outside its bounds, or an `assert` fails:
  the C++ code has no defined result. -/
  | out_of_bounds (what : String)
  deriving DecidableEq, Repr

/-- `Pool_ns::GrpEltType`. -/
inductive GrpEltType
  | MOTOR | GROUP | PSEUDO_MOTOR
  deriving DecidableEq, Repr

/-- The fields of `PseudoMotorPool`, of its device and of the class of its
controller that a motor group reads: the names of `mot_elts`, the controller
object (`get_ctrl`, `get_pm_ctrl`), the role `get_controller_idx()` counted
from 1, and the numbers of roles `get_pseudo_motor_role_nb()` and
`get_motor_role_nb()`. -/
structure PseudoMotorPool where
  name : String
  mot_elts : List String
  ctrl : Int
  controller_idx : Int
  pseudo_motor_role_nb : Nat
  motor_role_nb : Nat
  fica_built : Bool
  deriving DecidableEq, Repr

/-- The fields of `MotorGroupPool` and of its device read by a group that
contains it. -/
structure MotorGroupPool where
  id : Int
  name : String
  mot_ids : List Int
  phys_group_elt : List String
  pos_spectrum_dim_x : Int
  deriving DecidableEq, Repr

/-- The registry of the pool device: motors, motor groups and pseudo motors. -/
structure Pool where
  mot_list : List MotorPool
  motor_group_list : List MotorGroupPool
  psm_list : List PseudoMotorPool
  deriving Repr

/-- `transform(s.begin(), s.end(), s.begin(), ::tolower)`. -/
def tolower (s : String) : String :=
  String.mk (s.data.map Char.toLower)

/-- Modelled from the spec: `Pool::get_motor_from_name` is defined in
`Pool.cpp`, which is not among the sources; the Element Registry owns the
identity of every element, an unknown name is the error `ElementNotFound`. -/
def Pool.get_motor_from_name (pool : Pool) (name : String) : Option MotorPool :=
  pool.mot_list.find? (fun m => tolower m.name == tolower name)

/-- Modelled from the spec: `Pool::get_motor_group_from_name`, as `get_motor_from_name`. -/
def Pool.get_motor_group_from_name (pool : Pool) (name : String) : Option MotorGroupPool :=
  pool.motor_group_list.find? (fun m => tolower m.name == tolower name)

/-- Modelled from the spec: `Pool::get_pseudo_motor_from_name`, as `get_motor_from_name`. -/
def Pool.get_pseudo_motor_from_name (pool : Pool) (name : String) : Option PseudoMotorPool :=
  pool.psm_list.find? (fun m => tolower m.name == tolower name)

/-- Read of `v[i]` for a signed index. -/
def vec_get {α : Type} (v : List α) (i : Int) : Option α :=
  if 0 ≤ i then v.get? i.toNat else none

/-- Write of `v[i] = x` for a signed index; `none` outside the bounds. -/
def vec_set {α : Type} (v : List α) (i : Int) (x : α) : Option (List α) :=
  if 0 ≤ i ∧ i.toNat < v.length then some (v.set i.toNat x) else none

end Pool_ns

namespace MotorGroup_ns

open Pool_ns

/-- `MotorGroup::IndMov`: a motor of the physical closure.  `name` is the
alias, `ctrl_id` the controller of `ctrl_grp`. -/
structure IndMov where
  id : Int
  name : String
  ctrl_id : Int
  idx_in_grp : Int
  idx_in_ctrl : Int
  idx_in_usr : Int
  deriving DecidableEq, Repr

/-- `MotorGroup::GrpInGrp`: a group member of the group. -/
structure GrpInGrp where
  grp_id : Int
  name : String
  mot_nb : Int
  pos_len : Int
  start_idx : Int
  idx_in_usr : Int
  deriving DecidableEq, Repr

/-- `MotorGroup::PsmInGrp`: a pseudo motor member of the group. -/
structure PsmInGrp where
  pool_psm : PseudoMotorPool
  psm_alias : String
  mot_nb : Int
  start_idx : Int
  idx_in_usr : Int
  psm_ctrl_idx : Int
  deriving DecidableEq, Repr

/-- `MotorGroup::PsmCtrlInGrp`: a pseudo motor controller with a pseudo motor in the group. -/
structure PsmCtrlInGrp where
  pool_psm_ctrl : Int
  pm_count : Nat
  mot_count : Nat
  psm_in_grp_idx : List Int
  is_complete : Bool
  mot_nb : Int
  start_idx : Int
  deriving DecidableEq, Repr

/-- The members of the `MotorGroup` device that describe its composition: the
six device properties, then what `update_elements` derives from them. -/
structure MotorGroup where
  motor_group_id : Int
  motor_list : List String
  motor_group_list : List String
  pseudo_motor_list : List String
  user_group_elt : List String
  phys_group_elt : List String
  pos_spectrum_dim_x : Int
  ind_elt_nb : Int
  usr_elt_nb : Int
  ind_elts : List IndMov
  implied_ctrls : List Int
  user_group_elt_type : List GrpEltType
  grp_in_grp : List GrpInGrp
  psm_in_grp : List PsmInGrp
  psm_ctrls_in_grp : List PsmCtrlInGrp
  nb_psm_in_grp : Int
  nb_grp_in_grp : Int
  deriving DecidableEq, Repr

/-- A group with no element. -/
def MotorGroup.empty (motor_group_id : Int) : MotorGroup :=
  ⟨motor_group_id, [], [], [], [], [], 0, 0, 0, [], [], [], [], [], [], 0, 0⟩

/-- `find_in_user_group_lst` and its siblings (MotorGroup.cpp 3444-3554): the
position of the first entry equal to the name, case ignored; the length of the
list is `end()`. -/
def find_in_lst (lst : List String) (elt_name : String) : Nat :=
  lst.findIdx (fun x => tolower x == tolower elt_name)

/-- `v_ite = find_in_..._lst(name); if (v_ite != lst.end()) lst.erase(v_ite);` -/
def erase_from_lst (lst : List String) (elt_name : String) : List String :=
  lst.eraseIdx (find_in_lst lst elt_name)

/-- `std::find(lst.begin(), lst.end(), name)`: the position of the first entry equal to the name. -/
def std_find (lst : List String) (name : String) : Nat :=
  lst.findIdx (fun x => x == name)

/-- Lines 2403-2424 of `build_grp`: the controller is appended to
`implied_ctrls` unless it is there already. -/
def add_ctrl (ct_id : Int) (implied_ctrls : List Int) : List Int :=
  if implied_ctrls.isEmpty then [ct_id]
  else if implied_ctrls.any (fun c => c == ct_id) then implied_ctrls
  else implied_ctrls ++ [ct_id]

/-- Lines 2387-2449 of `build_grp`, the loop over `phys_group_elt`: the
remaining names, the index `i`, and `implied_ctrls` and `ind_elts` so far. -/
def build_grp_loop (pool : Pool) (user_group_elt : List String) :
    List String → Int → List Int → List IndMov → Except Fault (List Int × List IndMov)
  | [], _, implied_ctrls, ind_elts => .ok (implied_ctrls, ind_elts)
  | name :: rest, i, implied_ctrls, ind_elts =>
    match pool.get_motor_from_name name with
    | none => .error (Fault.DevFailed "Pool_BadArgument")
    | some mot_ref =>
      let ite := std_find user_group_elt mot_ref.name
      let idx_in_usr : Int := if ite ≠ user_group_elt.length then (ite : Int) else -1
      build_grp_loop pool user_group_elt rest (i + 1) (add_ctrl mot_ref.ctrl_id implied_ctrls)
        (ind_elts ++ [⟨mot_ref.id, mot_ref.name, mot_ref.ctrl_id, i, mot_ref.obj_idx, idx_in_usr⟩])

/-- `MotorGroup::build_grp` for a group that is not the ghost group
(MotorGroup.cpp 2359-2473): `implied_ctrls` and `ind_elts` are filled from
`phys_group_elt`; both are empty at the call. -/
def build_grp (pool : Pool) (g : MotorGroup) : Except Fault MotorGroup :=
  match build_grp_loop pool g.user_group_elt g.phys_group_elt 0 g.implied_ctrls g.ind_elts with
  | .error e => .error e
  | .ok (implied_ctrls, ind_elts) =>
    .ok { g with implied_ctrls := implied_ctrls, ind_elts := ind_elts }

/-- `ind_elts[i]->idx_in_usr = idx_in_usr`. -/
def set_idx_in_usr (ind_elts : List IndMov) (i : Int) (idx_in_usr : Int) : Option (List IndMov) :=
  match vec_get ind_elts i with
  | none => none
  | some m => vec_set ind_elts i { m with idx_in_usr := idx_in_usr }

/-- Lines 2512-2517 of `build_grp_struct`: the motors of a member group get
consecutive user indexes.  `n` rounds are left, `i` is the loop counter. -/
def fix_idx_in_usr (start_idx : Int) : Nat → Int → List IndMov → Int → Option (List IndMov × Int)
  | 0, _, ind_elts, idx_in_usr => some (ind_elts, idx_in_usr)
  | n + 1, i, ind_elts, idx_in_usr =>
    match set_idx_in_usr ind_elts (i + start_idx) idx_in_usr with
    | none => none
    | some ind_elts1 => fix_idx_in_usr start_idx n (i + 1) ind_elts1 (idx_in_usr + 1)

/-- The locals and members the first loop of `build_grp_struct` works on. -/
structure StructAcc where
  mot_idx : Int
  idx_in_usr : Int
  ind_elts : List IndMov
  user_group_elt_type : List GrpEltType
  grp_in_grp : List GrpInGrp
  psm_in_grp : List PsmInGrp
  deriving DecidableEq, Repr

/-- Lines 2494-2547 of `build_grp_struct`: the body of the loop over
`user_group_elt`, for the element `elt` at position `loop`. -/
def build_grp_struct_elt (pool : Pool) (g : MotorGroup) (loop : Nat) (elt : String)
    (a : StructAcc) : Except Fault StructAcc :=
  if std_find g.motor_list elt ≠ g.motor_list.length then
    match set_idx_in_usr a.ind_elts a.mot_idx a.idx_in_usr with
    | none => .error (Fault.out_of_bounds "ind_elts[mot_idx]")
    | some ind_elts =>
      .ok { a with ind_elts := ind_elts, mot_idx := a.mot_idx + 1, idx_in_usr := a.idx_in_usr + 1,
                   user_group_elt_type := a.user_group_elt_type ++ [GrpEltType.MOTOR] }
  else if std_find g.motor_group_list elt ≠ g.motor_group_list.length then
    match pool.get_motor_group_from_name elt with
    | none => .error (Fault.DevFailed "Pool_BadArgument")
    | some grp =>
      let mot_nb : Int := grp.mot_ids.length
      let tmp_grp : GrpInGrp := ⟨grp.id, grp.name, mot_nb, grp.pos_spectrum_dim_x, a.mot_idx, loop⟩
      match fix_idx_in_usr tmp_grp.start_idx grp.mot_ids.length 0 a.ind_elts a.idx_in_usr with
      | none => .error (Fault.out_of_bounds "ind_elts[i + tmp_grp.start_idx]")
      | some (ind_elts, idx_in_usr) =>
        .ok { a with ind_elts := ind_elts, mot_idx := a.mot_idx + mot_nb, idx_in_usr := idx_in_usr,
                     grp_in_grp := a.grp_in_grp ++ [tmp_grp],
                     user_group_elt_type := a.user_group_elt_type ++ [GrpEltType.GROUP] }
  else
    match pool.get_pseudo_motor_from_name elt with
    | none => .error (Fault.DevFailed "Pool_BadArgument")
    | some psm =>
      match psm.mot_elts.head? with
      | none => .error (Fault.out_of_bounds "psm.mot_elts[0]")
      | some first_mot =>
        let m_ite := find_in_lst g.phys_group_elt first_mot
        if m_ite = g.phys_group_elt.length then
          .error (Fault.out_of_bounds "assert(m_ite != phys_group_elt.end())")
        else
          let local_idx : Int := m_ite
          let mot_nb : Int := psm.mot_elts.length
          let tmp_psm : PsmInGrp := ⟨psm, psm.name, mot_nb, local_idx, a.idx_in_usr, -1⟩
          .ok { a with idx_in_usr := a.idx_in_usr + 1,
                       mot_idx := if local_idx = a.mot_idx then a.mot_idx + mot_nb else a.mot_idx,
                       psm_in_grp := a.psm_in_grp ++ [tmp_psm],
                       user_group_elt_type := a.user_group_elt_type ++ [GrpEltType.PSEUDO_MOTOR] }

/-- Lines 2492-2548 of `build_grp_struct`: the loop over `user_group_elt`. -/
def build_grp_struct_loop (pool : Pool) (g : MotorGroup) :
    Nat → List String → StructAcc → Except Fault StructAcc
  | _, [], a => .ok a
  | loop, elt :: rest, a =>
    match build_grp_struct_elt pool g loop elt a with
    | .error e => .error e
    | .ok a1 => build_grp_struct_loop pool g (loop + 1) rest a1

/-- Lines 2558-2563 of `build_grp_struct`: the index of the controller in
`psm_ctrls_in_grp`, its size when the controller is not there. -/
def find_psm_ctrl (psm_ctrls_in_grp : List PsmCtrlInGrp) (curr_psm_ctrl : Int) : Nat :=
  psm_ctrls_in_grp.findIdx (fun c => c.pool_psm_ctrl == curr_psm_ctrl)

/-- Lines 2555-2587 of `build_grp_struct`: the body of the loop that groups
the pseudo motors by controller, for the pseudo motor at `psm_idx`. -/
def group_psm_by_ctrl (psm_idx : Nat) (psm : PsmInGrp) (psm_ctrls_in_grp : List PsmCtrlInGrp) :
    Except Fault (PsmInGrp × List PsmCtrlInGrp) :=
  let ctrl_idx := find_psm_ctrl psm_ctrls_in_grp psm.pool_psm.ctrl
  let ctrls1 :=
    if ctrl_idx = psm_ctrls_in_grp.length then
      psm_ctrls_in_grp ++ [⟨psm.pool_psm.ctrl, psm.pool_psm.pseudo_motor_role_nb,
        psm.pool_psm.motor_role_nb, List.replicate psm.pool_psm.pseudo_motor_role_nb (-1), true,
        psm.mot_nb, psm.start_idx⟩]
    else psm_ctrls_in_grp
  let role := psm.pool_psm.controller_idx
  match ctrls1.get? ctrl_idx with
  | none => .error (Fault.out_of_bounds "psm_ctrls_in_grp[ctrl_idx]")
  | some c =>
    match vec_set c.psm_in_grp_idx (role - 1) (psm_idx : Int) with
    | none => .error (Fault.out_of_bounds "psm_in_grp_idx[role-1]")
    | some idxs =>
      .ok ({ psm with psm_ctrl_idx := ctrl_idx },
           ctrls1.set ctrl_idx { c with psm_in_grp_idx := idxs })

/-- Lines 2553-2588 of `build_grp_struct`: the loop over `psm_in_grp`; `done`
are the pseudo motors already treated. -/
def group_psm_loop : Nat → List PsmInGrp → List PsmInGrp → List PsmCtrlInGrp →
    Except Fault (List PsmInGrp × List PsmCtrlInGrp)
  | _, [], done, ctrls => .ok (done, ctrls)
  | psm_idx, psm :: rest, done, ctrls =>
    match group_psm_by_ctrl psm_idx psm ctrls with
    | .error e => .error e
    | .ok (psm1, ctrls1) => group_psm_loop (psm_idx + 1) rest (done ++ [psm1]) ctrls1

/-- Lines 2594-2602 of `build_grp_struct`: a controller one of whose roles has
no pseudo motor in the group is not complete. -/
def mark_complete (c : PsmCtrlInGrp) : PsmCtrlInGrp :=
  if c.psm_in_grp_idx.any (fun i => i == -1) then { c with is_complete := false } else c

/-- `MotorGroup::build_grp_struct` (MotorGroup.cpp 2485-2606). -/
def build_grp_struct (pool : Pool) (g : MotorGroup) : Except Fault MotorGroup :=
  match build_grp_struct_loop pool g 0 g.user_group_elt
      ⟨0, 0, g.ind_elts, g.user_group_elt_type, g.grp_in_grp, g.psm_in_grp⟩ with
  | .error e => .error e
  | .ok a =>
    match group_psm_loop 0 a.psm_in_grp [] g.psm_ctrls_in_grp with
    | .error e => .error e
    | .ok (psm_in_grp, ctrls) =>
      .ok { g with ind_elts := a.ind_elts, user_group_elt_type := a.user_group_elt_type,
                   grp_in_grp := a.grp_in_grp, psm_in_grp := psm_in_grp,
                   psm_ctrls_in_grp := ctrls.map mark_complete,
                   nb_psm_in_grp := psm_in_grp.length, nb_grp_in_grp := a.grp_in_grp.length }

/-- `MotorGroup::update_elements` (MotorGroup.cpp 1690-1766): the counters are
updated, the derived structures are cleared and built again by `build_grp` and
`build_grp_struct`. -/
def update_elements (pool : Pool) (g : MotorGroup) : Except Fault MotorGroup :=
  let g1 : MotorGroup := { g with
    ind_elt_nb := g.phys_group_elt.length, usr_elt_nb := g.user_group_elt.length,
    ind_elts := [], implied_ctrls := [], user_group_elt_type := [], grp_in_grp := [],
    psm_in_grp := [], psm_ctrls_in_grp := [] }
  match build_grp pool g1 with
  | .error e => .error e
  | .ok g2 => build_grp_struct pool g2

end MotorGroup_ns

namespace MotorGroup_ns

open Pool_ns

/-- Modelled from the spec: `Pool::get_motor_groups_in_hierarchy_containing_elt`
is defined in `Pool.cpp`, which is not among the sources.  The element is
refused when it "is already present, directly or through a different nested
group, in the same group's closure": it is a user element of the group or a
motor of its physical closure.  The groups that contain this group are not
part of the model. -/
def in_hierarchy (g : MotorGroup) (elt_name : String) : Bool :=
  decide (find_in_lst g.user_group_elt elt_name ≠ g.user_group_elt.length) ||
  decide (find_in_lst g.phys_group_elt elt_name ≠ g.phys_group_elt.length)

/-- Modelled from the spec: `MotorGroupPool::is_user_member` is declared in
`Pool.h`, which is not among the sources: the name is one of the user elements
of the group. -/
def is_user_member (g : MotorGroup) (elt_name : String) : Bool :=
  decide (find_in_lst g.user_group_elt elt_name ≠ g.user_group_elt.length)

/-- `get_ind_mov_from_id(id)` returns: a motor of `ind_elts` has this identifier. -/
def has_ind_mov_id (g : MotorGroup) (id : Int) : Bool :=
  g.ind_elts.any (fun m => m.id == id)

/-- `get_ind_mov_from_name(name)` returns: a motor of `ind_elts` has this name. -/
def has_ind_mov_name (g : MotorGroup) (name : String) : Bool :=
  g.ind_elts.any (fun m => tolower m.name == tolower name)

/-- Lines 1276-1305 and 1515-1546: the kind of the element of this name, a
motor first, then a motor group, then a pseudo motor. -/
def elt_type (pool : Pool) (elt_name : String) : Option GrpEltType :=
  if (pool.get_motor_from_name elt_name).isSome then some GrpEltType.MOTOR
  else if (pool.get_motor_group_from_name elt_name).isSome then some GrpEltType.GROUP
  else if (pool.get_pseudo_motor_from_name elt_name).isSome then some GrpEltType.PSEUDO_MOTOR
  else none

/-- `MotorGroup::add_element` (MotorGroup.cpp 1214-1456), for a group that no
pseudo motor uses: the properties of the group after the call and the
structures rebuilt by `update_elements`, or the exception thrown. -/
def add_element (pool : Pool) (g : MotorGroup) (argin : String) : Except Fault MotorGroup :=
  if in_hierarchy g argin then .error (Fault.DevFailed "MotorGroup_BadArgument")
  else
    match elt_type pool argin with
    | none => .error (Fault.DevFailed "MotorGroup_BadArgument")
    | some GrpEltType.GROUP =>
      match pool.get_motor_group_from_name argin with
      | none => .error (Fault.DevFailed "MotorGroup_BadArgument")
      | some grp =>
        if grp.mot_ids.any (fun id => has_ind_mov_id g id) then
          .error (Fault.DevFailed "MotorGroup_BadArgument")
        else
          update_elements pool { g with
            user_group_elt := g.user_group_elt ++ [grp.name],
            motor_group_list := g.motor_group_list ++ [grp.name],
            phys_group_elt := g.phys_group_elt ++ grp.phys_group_elt,
            pos_spectrum_dim_x := g.pos_spectrum_dim_x + grp.pos_spectrum_dim_x }
    | some GrpEltType.PSEUDO_MOTOR =>
      match pool.get_pseudo_motor_from_name argin with
      | none => .error (Fault.DevFailed "MotorGroup_BadArgument")
      | some pm =>
        if g.psm_ctrls_in_grp.any (fun c => c.pool_psm_ctrl == pm.ctrl) then
          update_elements pool { g with
            user_group_elt := g.user_group_elt ++ [pm.name],
            pseudo_motor_list := g.pseudo_motor_list ++ [pm.name],
            pos_spectrum_dim_x := g.pos_spectrum_dim_x + 1 }
        else if pm.mot_elts.any (fun n => has_ind_mov_name g n) then
          .error (Fault.DevFailed "MotorGroup_BadArgument")
        else
          update_elements pool { g with
            phys_group_elt := g.phys_group_elt ++ pm.mot_elts.map tolower,
            user_group_elt := g.user_group_elt ++ [pm.name],
            pseudo_motor_list := g.pseudo_motor_list ++ [pm.name],
            pos_spectrum_dim_x := g.pos_spectrum_dim_x + 1 }
    | some GrpEltType.MOTOR =>
      match pool.get_motor_from_name argin with
      | none => .error (Fault.DevFailed "MotorGroup_BadArgument")
      | some m =>
        update_elements pool { g with
          user_group_elt := g.user_group_elt ++ [m.name],
          phys_group_elt := g.phys_group_elt ++ [m.name],
          motor_list := g.motor_list ++ [m.name],
          pos_spectrum_dim_x := g.pos_spectrum_dim_x + 1 }

/-- Lines 1592-1600 of `remove_element`: another pseudo motor of the group has
the controller of the pseudo motor `pm`. -/
def other_psm_of_ctrl (g : MotorGroup) (pm : PseudoMotorPool) : Bool :=
  g.psm_in_grp.any (fun p => !(p.psm_alias == pm.name) && p.pool_psm.ctrl == pm.ctrl)

/-- `MotorGroup::remove_element` (MotorGroup.cpp 1469-1679), for a group that
no pseudo motor uses. -/
def remove_element (pool : Pool) (g : MotorGroup) (argin : String) : Except Fault MotorGroup :=
  if !is_user_member g argin then .error (Fault.DevFailed "MotorGroup_BadArgument")
  else
    match elt_type pool argin with
    | none => .error (Fault.DevFailed "MotorGroup_Unexpected")
    | some GrpEltType.GROUP =>
      match pool.get_motor_group_from_name argin with
      | none => .error (Fault.DevFailed "MotorGroup_Unexpected")
      | some grp =>
        update_elements pool { g with
          user_group_elt := erase_from_lst g.user_group_elt grp.name,
          motor_group_list := erase_from_lst g.motor_group_list grp.name,
          phys_group_elt := grp.phys_group_elt.foldl erase_from_lst g.phys_group_elt,
          pos_spectrum_dim_x := g.pos_spectrum_dim_x - grp.pos_spectrum_dim_x }
    | some GrpEltType.PSEUDO_MOTOR =>
      match pool.get_pseudo_motor_from_name argin with
      | none => .error (Fault.DevFailed "MotorGroup_Unexpected")
      | some pm =>
        update_elements pool { g with
          user_group_elt := erase_from_lst g.user_group_elt pm.name,
          pseudo_motor_list := erase_from_lst g.pseudo_motor_list pm.name,
          phys_group_elt :=
            if other_psm_of_ctrl g pm then g.phys_group_elt
            else pm.mot_elts.foldl erase_from_lst g.phys_group_elt,
          pos_spectrum_dim_x := g.pos_spectrum_dim_x - 1 }
    | some GrpEltType.MOTOR =>
      match pool.get_motor_from_name argin with
      | none => .error (Fault.DevFailed "MotorGroup_Unexpected")
      | some m =>
        update_elements pool { g with
          user_group_elt := erase_from_lst g.user_group_elt m.name,
          motor_list := erase_from_lst g.motor_list m.name,
          phys_group_elt := erase_from_lst g.phys_group_elt m.name,
          pos_spectrum_dim_x := g.pos_spectrum_dim_x - 1 }

/-- A call of `add_element` or of `remove_element`. -/
inductive GroupOp
  | add (elt_name : String)
  | remove (elt_name : String)
  deriving DecidableEq, Repr

/-- The group after a sequence of calls, each of which returns. -/
def apply_ops (pool : Pool) : List GroupOp → MotorGroup → Except Fault MotorGroup
  | [], g => .ok g
  | GroupOp.add n :: rest, g =>
    match add_element pool g n with
    | .error e => .error e
    | .ok g1 => apply_ops pool rest g1
  | GroupOp.remove n :: rest, g =>
    match remove_element pool g n with
    | .error e => .error e
    | .ok g1 => apply_ops pool rest g1

end MotorGroup_ns

namespace MotorGroup_ns

open Pool_ns

section transform

variable {P : Type} [Zero P]

/-- The answers of the outside world to the calls of the transform layer:
`CalcAllPseudo ctrl phy_pos` and `CalcAllPhysical ctrl psm_pos` are the
contents of the output vector after the call of the controller `ctrl`;
`read_mg_Position psm` is what `mg->read_attribute("Position")` returns for
the motor group of the pseudo motor `psm`, `none` when it throws;
`psm_write_ok psm pos` tells whether the simulated write of `pos` on the
pseudo motor `psm` returns. -/
structure CalcEnv (P : Type) where
  CalcAllPseudo : Int → List P → List P
  CalcAllPhysical : Int → List P → List P
  read_mg_Position : String → Option (List P)
  psm_write_ok : String → P → Bool

/-- `for (k = 0; k < n; k++) dst[dst_start + k] = src[src_start + k];` on
vectors, `n - k` rounds left. -/
def copy_range (src : List P) (src_start dst_start : Int) :
    Nat → Int → List P → Option (List P)
  | 0, _, dst => some dst
  | n + 1, k, dst =>
    match vec_get src (src_start + k) with
    | none => none
    | some x =>
      match vec_set dst (dst_start + k) x with
      | none => none
      | some dst1 => copy_range src src_start dst_start n (k + 1) dst1

/-- Lines 2726-2733 and 2869-2877 of `from_grp_2_phys`: the positions of the
motors of the member groups. -/
def fill_grp_positions (user_pos : List P) : List GrpInGrp → List P → Option (List P)
  | [], phys_mot_pos => some phys_mot_pos
  | grp :: rest, phys_mot_pos =>
    match copy_range user_pos grp.idx_in_usr grp.start_idx grp.mot_nb.toNat 0 phys_mot_pos with
    | none => none
    | some p1 => fill_grp_positions user_pos rest p1

/-- Lines 2855-2863 of `from_grp_2_phys`: every motor with `idx_in_usr >= 0`
takes the user position of that index. -/
def fill_motor_positions (user_pos : List P) : List IndMov → List P → Option (List P)
  | [], phys_mot_pos => some phys_mot_pos
  | m :: rest, phys_mot_pos =>
    if 0 ≤ m.idx_in_usr then
      match vec_get user_pos m.idx_in_usr with
      | none => none
      | some x =>
        match vec_set phys_mot_pos m.idx_in_grp x with
        | none => none
        | some p1 => fill_motor_positions user_pos rest p1
    else fill_motor_positions user_pos rest phys_mot_pos

/-- Lines 2752-2771 of `from_grp_2_phys`: a write of the user position is
simulated on every pseudo motor of the group. -/
def check_psm_limits (env : CalcEnv P) (user_pos : List P) : List PsmInGrp → Except Fault Unit
  | [] => .ok ()
  | psm :: rest =>
    match vec_get user_pos psm.idx_in_usr with
    | none => .error (Fault.out_of_bounds "user_pos[psm.idx_in_usr]")
    | some position =>
      if env.psm_write_ok psm.psm_alias position then check_psm_limits env user_pos rest
      else .error (Fault.DevFailed "write_attribute")

/-- Lines 2819-2831 of `from_grp_2_phys`: the user positions of the pseudo
motors of the controller are written in `psm_pos`, each at `role - 1`. -/
def fill_psm_pos (psm_in_grp : List PsmInGrp) (user_pos : List P) :
    List Int → List P → Except Fault (List P)
  | [], psm_pos => .ok psm_pos
  | idx :: rest, psm_pos =>
    if idx = -1 then fill_psm_pos psm_in_grp user_pos rest psm_pos
    else
      match vec_get psm_in_grp idx with
      | none => .error (Fault.out_of_bounds "psm_in_grp[idx]")
      | some psm =>
        match vec_get user_pos psm.idx_in_usr with
        | none => .error (Fault.out_of_bounds "user_pos[psm.idx_in_usr]")
        | some x =>
          match vec_set psm_pos (psm.pool_psm.controller_idx - 1) x with
          | none => .error (Fault.out_of_bounds "psm_pos[role-1]")
          | some p1 => fill_psm_pos psm_in_grp user_pos rest p1

/-- Lines 2776-2831 of `from_grp_2_phys`: the vector `psm_pos` that is passed
to `CalcAllPhysical` for the controller `psm_ctrl`.  For a controller that is
not complete the motor group of `first_psm`, the pseudo motor at
`psm_in_grp_idx[0]`, is read and `CalcAllPseudo` fills `psm_pos`. -/
def psm_pos_for_ctrl (env : CalcEnv P) (g : MotorGroup) (user_pos : List P)
    (psm_ctrl : PsmCtrlInGrp) : Except Fault (List P) :=
  let psm_pos0 : List P := List.replicate psm_ctrl.pm_count 0
  if psm_ctrl.is_complete = false then
    match psm_ctrl.psm_in_grp_idx.head? with
    | none => .error (Fault.out_of_bounds "psm_in_grp_idx[0]")
    | some i0 =>
      match vec_get g.psm_in_grp i0 with
      | none => .error (Fault.out_of_bounds "psm_in_grp[psm_in_grp_idx[0]]")
      | some first_psm =>
        match env.read_mg_Position first_psm.psm_alias with
        | none => .error (Fault.DevFailed "read_attribute")
        | some phy_pos =>
          fill_psm_pos g.psm_in_grp user_pos psm_ctrl.psm_in_grp_idx
            (env.CalcAllPseudo psm_ctrl.pool_psm_ctrl phy_pos)
  else fill_psm_pos g.psm_in_grp user_pos psm_ctrl.psm_in_grp_idx psm_pos0

/-- Lines 2774-2849 of `from_grp_2_phys`: for every pseudo motor controller
the physical positions computed by `CalcAllPhysical` are stored from
`start_idx` on. -/
def fill_ctrl_positions (env : CalcEnv P) (g : MotorGroup) (user_pos : List P) :
    List PsmCtrlInGrp → List P → Except Fault (List P)
  | [], phys_mot_pos => .ok phys_mot_pos
  | psm_ctrl :: rest, phys_mot_pos =>
    match psm_pos_for_ctrl env g user_pos psm_ctrl with
    | .error e => .error e
    | .ok psm_pos =>
      let phy_pos := env.CalcAllPhysical psm_ctrl.pool_psm_ctrl psm_pos
      match copy_range phy_pos 0 psm_ctrl.start_idx psm_ctrl.mot_nb.toNat 0 phys_mot_pos with
      | none => .error (Fault.out_of_bounds "phys_mot_pos[psm_ctrl.start_idx + idx] = phy_pos[idx]")
      | some p1 => fill_ctrl_positions env g user_pos rest p1

/-- `MotorGroup::from_grp_2_phys` (MotorGroup.cpp 2705-2879): the array
`phys_mot_pos` after the call, from the array before the call and the user
positions. -/
def from_grp_2_phys (env : CalcEnv P) (g : MotorGroup) (user_pos : List P)
    (phys_mot_pos : List P) : Except Fault (List P) :=
  if g.nb_psm_in_grp = 0 then
    match copy_range user_pos 0 0 g.ind_elt_nb.toNat 0 phys_mot_pos with
    | none => .error (Fault.out_of_bounds "phys_mot_pos[loop] = user_pos[loop]")
    | some p1 =>
      if 0 < g.nb_grp_in_grp then
        match fill_grp_positions user_pos g.grp_in_grp p1 with
        | none => .error (Fault.out_of_bounds "phys_mot_pos[grp.start_idx + ll] = user_pos[grp.idx_in_usr + ll]")
        | some p2 => .ok p2
      else .ok p1
  else
    match check_psm_limits env user_pos g.psm_in_grp with
    | .error e => .error e
    | .ok _ =>
      match fill_ctrl_positions env g user_pos g.psm_ctrls_in_grp phys_mot_pos with
      | .error e => .error e
      | .ok p1 =>
        match fill_motor_positions user_pos g.ind_elts p1 with
        | none => .error (Fault.out_of_bounds "phys_mot_pos[m->idx_in_grp] = user_pos[m->idx_in_usr]")
        | some p2 =>
          match fill_grp_positions user_pos g.grp_in_grp p2 with
          | none => .error (Fault.out_of_bounds "phys_mot_pos[grp.start_idx + ll] = user_pos[grp.idx_in_usr + ll]")
          | some p3 => .ok p3

/-- `phy_pos.push_back(phys_mot_pos[mot_idx])` for `mot_idx` from `start_idx`
to `start_idx + mot_nb - 1` (lines 2650-2653 of `from_phys_2_grp`). -/
def slice (phys_mot_pos : List P) (start_idx : Int) : Nat → Int → Option (List P)
  | 0, _ => some []
  | n + 1, k =>
    match vec_get phys_mot_pos (start_idx + k) with
    | none => none
    | some x =>
      match slice phys_mot_pos start_idx n (k + 1) with
      | none => none
      | some r => some (x :: r)

/-- Lines 2667-2678 of `from_phys_2_grp`: the computed pseudo positions are
stored at the user indexes of the pseudo motors of the controller. -/
def store_psm_pos (psm_in_grp : List PsmInGrp) (pm_pos : List P) :
    List Int → List P → Except Fault (List P)
  | [], attr_Position_read => .ok attr_Position_read
  | psm_idx_in_grp :: rest, attr_Position_read =>
    if psm_idx_in_grp = -1 then store_psm_pos psm_in_grp pm_pos rest attr_Position_read
    else
      match vec_get psm_in_grp psm_idx_in_grp with
      | none => .error (Fault.out_of_bounds "psm_in_grp[psm_idx_in_grp]")
      | some psm =>
        match vec_get pm_pos (psm.pool_psm.controller_idx - 1) with
        | none => .error (Fault.out_of_bounds "pm_pos[psm_role-1]")
        | some x =>
          match vec_set attr_Position_read psm.idx_in_usr x with
          | none => .error (Fault.out_of_bounds "attr_Position_read[psm.idx_in_usr]")
          | some a1 => store_psm_pos psm_in_grp pm_pos rest a1

/-- Lines 2638-2679 of `from_phys_2_grp`: the loop over the pseudo motor
controllers.  The reference `first_psm` taken at line 2645 is not used. -/
def store_ctrl_positions (env : CalcEnv P) (g : MotorGroup) (phys_mot_pos : List P) :
    List PsmCtrlInGrp → List P → Except Fault (List P)
  | [], attr_Position_read => .ok attr_Position_read
  | psm_ctrl :: rest, attr_Position_read =>
    match slice phys_mot_pos psm_ctrl.start_idx psm_ctrl.mot_nb.toNat 0 with
    | none => .error (Fault.out_of_bounds "phys_mot_pos[mot_idx]")
    | some phy_pos =>
      let pm_pos := env.CalcAllPseudo psm_ctrl.pool_psm_ctrl phy_pos
      match store_psm_pos g.psm_in_grp pm_pos psm_ctrl.psm_in_grp_idx attr_Position_read with
      | .error e => .error e
      | .ok a1 => store_ctrl_positions env g phys_mot_pos rest a1

/-- Lines 2684-2692 of `from_phys_2_grp`: every motor with `idx_in_usr >= 0`
gives its position to the user index. -/
def store_motor_positions (phys_mot_pos : List P) : List IndMov → List P → Option (List P)
  | [], attr_Position_read => some attr_Position_read
  | m :: rest, attr_Position_read =>
    if 0 ≤ m.idx_in_usr then
      match vec_get phys_mot_pos m.idx_in_grp with
      | none => none
      | some x =>
        match vec_set attr_Position_read m.idx_in_usr x with
        | none => none
        | some a1 => store_motor_positions phys_mot_pos rest a1
    else store_motor_positions phys_mot_pos rest attr_Position_read

/-- `MotorGroup::from_phys_2_grp` (MotorGroup.cpp 2619-2694): the array
`attr_Position_read` after the call, from the array before the call and
`phys_mot_pos`. -/
def from_phys_2_grp (env : CalcEnv P) (g : MotorGroup) (phys_mot_pos : List P)
    (attr_Position_read : List P) : Except Fault (List P) :=
  if g.nb_psm_in_grp = 0 then
    match copy_range phys_mot_pos 0 0 g.ind_elt_nb.toNat 0 attr_Position_read with
    | none => .error (Fault.out_of_bounds "attr_Position_read[loop] = phys_mot_pos[loop]")
    | some a1 => .ok a1
  else
    match store_ctrl_positions env g phys_mot_pos g.psm_ctrls_in_grp attr_Position_read with
    | .error e => .error e
    | .ok a1 =>
      match store_motor_positions phys_mot_pos g.ind_elts a1 with
      | none => .error (Fault.out_of_bounds "attr_Position_read[m->idx_in_usr] = phys_mot_pos[m->idx_in_grp]")
      | some a2 => .ok a2

end transform

end MotorGroup_ns

namespace MotorGroup_ns

open Pool_ns

section read

variable {P : Type} [Zero P] [Add P]

/-- Result of `ReadOne`: an exception, a NaN, or the dial position. -/
inductive ReadOneRes (P : Type)
  | throws
  | nan
  | value (p : P)

/-- The answers of the controllers to the calls of one `read_Position`,
numbered as in `StartEnv`, and the offsets of the motors. -/
structure ReadEnv (P : Type) where
  PreReadAll_throws : Nat → Bool
  PreReadOne_throws : Nat → Bool
  ReadAll_throws : Nat → Bool
  ReadOne : Nat → ReadOneRes P
  get_offset : Int → P

/-- A run of `read_Position`: the two arrays, the events so far, and the
exception in flight or the undefined access met, if any. -/
structure ReadRun (P : Type) where
  phys_mot_pos : List P
  attr_Position_read : List P
  evs : List (Ev P)
  err : Option Fault

/-- The event `e` is appended to the run. -/
def ReadRun.emit (r : ReadRun P) (e : Ev P) : ReadRun P :=
  { r with evs := r.evs ++ [e] }

/-- Sequencing: a statement is skipped while an exception is in flight. -/
def ReadRun.andThen (r : ReadRun P) (f : ReadRun P → ReadRun P) : ReadRun P :=
  if r.err.isSome then r else f r

/-- Lines 838-839 of `read_Position`: every motor of the group is locked. -/
def lock_ind_elts : List IndMov → ReadRun P → ReadRun P
  | [], r => r
  | m :: rest, r => lock_ind_elts rest (r.emit (Ev.lock_mot m.id))

/-- Lines 849-853 of `read_Position`: every implied controller is locked. -/
def lock_implied_ctrls : List Int → ReadRun P → ReadRun P
  | [], r => r
  | c :: rest, r => lock_implied_ctrls rest (r.emit (Ev.lock_ctrl c))

/-- Lines 950-957 and 985-992 of `read_Position`: every implied controller is unlocked. -/
def unlock_implied_ctrls : List Int → ReadRun P → ReadRun P
  | [], r => r
  | c :: rest, r => unlock_implied_ctrls rest (r.emit (Ev.unlock_ctrl c))

/-- Lines 961-964 and 997-1000 of `read_Position`: every motor of the group is unlocked. -/
def unlock_ind_elts : List IndMov → ReadRun P → ReadRun P
  | [], r => r
  | m :: rest, r => unlock_ind_elts rest (r.emit (Ev.unlock_mot m.id))

/-- Lines 864-873 of `read_Position`: `PreReadAll` on every implied controller. -/
def PreReadAll_loop (env : ReadEnv P) : Nat → List Int → ReadRun P → ReadRun P
  | _, [], r => r
  | k, c :: rest, r =>
    let r1 := r.emit (Ev.PreReadAll c)
    if env.PreReadAll_throws k then { r1 with err := some (Fault.DevFailed "PreReadAll") }
    else PreReadAll_loop env (k + 1) rest r1

/-- Lines 881-891 of `read_Position`: `PreReadOne` on every motor. -/
def PreReadOne_loop (env : ReadEnv P) : Nat → List IndMov → ReadRun P → ReadRun P
  | _, [], r => r
  | loop, m :: rest, r =>
    let r1 := r.emit (Ev.PreReadOne m.ctrl_id m.idx_in_ctrl)
    if env.PreReadOne_throws loop then { r1 with err := some (Fault.DevFailed "PreReadOne") }
    else PreReadOne_loop env (loop + 1) rest r1

/-- Lines 900-909 of `read_Position`: `ReadAll` on every implied controller. -/
def ReadAll_loop (env : ReadEnv P) : Nat → List Int → ReadRun P → ReadRun P
  | _, [], r => r
  | k, c :: rest, r =>
    let r1 := r.emit (Ev.ReadAll c)
    if env.ReadAll_throws k then { r1 with err := some (Fault.DevFailed "ReadAll") }
    else ReadAll_loop env (k + 1) rest r1

/-- Lines 919-943 of `read_Position`: `ReadOne` on every motor; the dial
position plus the offset of the motor is stored at `idx_in_grp`. -/
def ReadOne_loop (env : ReadEnv P) : Nat → List IndMov → ReadRun P → ReadRun P
  | _, [], r => r
  | loop, m :: rest, r =>
    let r1 := r.emit (Ev.ReadOne m.ctrl_id m.idx_in_ctrl)
    match env.ReadOne loop with
    | ReadOneRes.throws => { r1 with err := some (Fault.DevFailed "ReadOne") }
    | ReadOneRes.nan => { r1 with err := some (Fault.DevFailed "ReadOne") }
    | ReadOneRes.value mot_dial_pos =>
      match vec_set r1.phys_mot_pos m.idx_in_grp (mot_dial_pos + env.get_offset m.id) with
      | none => { r1 with err := some (Fault.out_of_bounds "phys_mot_pos[ind_mov->idx_in_grp]") }
      | some p1 => ReadOne_loop env (loop + 1) rest { r1 with phys_mot_pos := p1 }

/-- An exception is in flight, not an undefined access. -/
def is_DevFailed : Option Fault → Bool
  | some (Fault.DevFailed _) => true
  | _ => false

/-- Lines 835-943 of `read_Position`: the locks are taken and the four phases
of the read cycle are run, up to the first exception. -/
def try_read (env : ReadEnv P) (g : MotorGroup) (r : ReadRun P) : ReadRun P :=
  (((PreReadAll_loop env 0 g.implied_ctrls
        (lock_implied_ctrls g.implied_ctrls (lock_ind_elts g.ind_elts r))).andThen
      (PreReadOne_loop env 0 g.ind_elts)).andThen
      (ReadAll_loop env 0 g.implied_ctrls)).andThen
    (ReadOne_loop env 0 g.ind_elts)

/-- Lines 946-1017 of `read_Position`: after an exception the `catch` block
unlocks the controllers and the motors and rethrows; else the controllers and
the motors are unlocked and `from_phys_2_grp` fills `attr_Position_read`.
`cenv` answers the calls of `from_phys_2_grp`. -/
def finish_read (cenv : CalcEnv P) (g : MotorGroup) (r2 : ReadRun P) : ReadRun P :=
  if is_DevFailed r2.err then
    let r3 := unlock_ind_elts g.ind_elts (unlock_implied_ctrls g.implied_ctrls r2)
    { r3 with err := some (Fault.DevFailed "Motor_ControllerFailed") }
  else if r2.err.isSome then r2
  else
    let r3 := unlock_ind_elts g.ind_elts (unlock_implied_ctrls g.implied_ctrls r2)
    match from_phys_2_grp cenv g r3.phys_mot_pos r3.attr_Position_read with
    | .error e => { r3 with err := some e }
    | .ok a => { r3 with attr_Position_read := a }

/-- `MotorGroup::read_Position` (MotorGroup.cpp 801-1026).  The loops over
`loop < ind_elt_nb` run over `ind_elts`, whose size `update_elements` stores in
`ind_elt_nb`. -/
def read_Position (env : ReadEnv P) (cenv : CalcEnv P) (g : MotorGroup)
    (phys_mot_pos attr_Position_read : List P) : ReadRun P :=
  if g.nb_psm_in_grp ≠ 0 ∧ g.psm_in_grp.any (fun p => !p.pool_psm.fica_built) then
    ⟨phys_mot_pos, attr_Position_read, [], some (Fault.DevFailed "MotorGroup_InvalidPseudoMotor")⟩
  else
    finish_read cenv g (try_read env g ⟨phys_mot_pos, attr_Position_read, [], none⟩)

end read

end MotorGroup_ns

namespace Pool_ns

/-- No lock of a controller is followed, anywhere later in the run, by the
lock of an element: every element lock is taken before any controller lock. -/
def locks_elements_first {P : Type} (evs : List (Ev P)) : Prop :=
  evs.Pairwise (fun a b => ¬ (a.tag = Tag.lock_ctrl ∧ b.tag = Tag.lock_mot))

/-- No unlock of an element is followed, anywhere later in the run, by the
unlock of a controller: every controller lock is released before any element
lock. -/
def unlocks_ctrls_first {P : Type} (evs : List (Ev P)) : Prop :=
  evs.Pairwise (fun a b => ¬ (a.tag = Tag.unlock_mot ∧ b.tag = Tag.unlock_ctrl))

/-- The events of a run that take or release a lock, in the order of the run. -/
def lock_events {P : Type} (evs : List (Ev P)) : List (Ev P) :=
  evs.filter (fun e =>
    decide (e.tag ∈ [Tag.lock_mot, Tag.unlock_mot, Tag.lock_ctrl, Tag.unlock_ctrl]))

section

variable {P : Type} [DecidableEq P] [Zero P]

/-- The events that take or release no lock. -/
def quiet (evs : List (Ev P)) : Prop :=
  ∀ e ∈ evs, e.tag ∉ [Tag.lock_mot, Tag.unlock_mot, Tag.lock_ctrl, Tag.unlock_ctrl]

end

end Pool_ns

namespace MotorGroup_ns

open Pool_ns

/-- The tags of the calls of a read cycle. -/
def read_tags : List Tag := [Tag.PreReadAll, Tag.PreReadOne, Tag.ReadAll, Tag.ReadOne]

end MotorGroup_ns

namespace MotorGroup_ns

open Pool_ns

/-- A transform environment whose controllers compute the identity in both
directions (so `CalcAllPseudo (CalcAllPhysical x) = x`), whose motor groups of
pseudo motors are read at `[1, 2]`, and that accepts every simulated write. -/
def identity_env : CalcEnv Int :=
  ⟨fun _ x => x, fun _ x => x, fun _ => some [1, 2], fun _ _ => true⟩

/-- A pool with three motors `m1`, `m2`, `m3` on the controller 10 and two
motor groups, `g1` of `m1` and `m2`, and `g2` of `m3`. -/
def nested_pool : Pool :=
  ⟨[⟨1, "m1", "motor/c/1", 10, 1, false⟩, ⟨2, "m2", "motor/c/2", 10, 2, false⟩,
    ⟨3, "m3", "motor/c/3", 10, 3, false⟩],
   [⟨101, "g1", [1, 2], ["m1", "m2"], 2⟩, ⟨102, "g2", [3], ["m3"], 1⟩],
   []⟩

/-- A pool with three motors `a`, `b`, `m` on the controller 10 and two pseudo
motors `pmx` (role 1) and `pmy` (role 2) of the pseudo motor controller 50,
which has two pseudo motor roles and the two motor roles `a` and `b`. -/
def pseudo_pool : Pool :=
  ⟨[⟨1, "a", "motor/c/1", 10, 1, false⟩, ⟨2, "b", "motor/c/2", 10, 2, false⟩,
    ⟨3, "m", "motor/c/3", 10, 3, false⟩],
   [],
   [⟨"pmx", ["a", "b"], 50, 1, 2, 2, true⟩, ⟨"pmy", ["a", "b"], 50, 2, 2, 2, true⟩]⟩

/-- A group whose user elements are the member groups `g1` and `g2`. -/
def nested_ops : List GroupOp := [GroupOp.add "g1", GroupOp.add "g2"]

/-- The calls that leave the motor `m` and the pseudo motor `pmx` in the group. -/
def pseudo_ops : List GroupOp :=
  [GroupOp.add "pmy", GroupOp.add "m", GroupOp.add "pmx", GroupOp.remove "pmy"]

/-- Every call of the read cycle returns; every motor is read at dial position
5 and has no offset. -/
def read_all_ok : ReadEnv Int :=
  ⟨fun _ => false, fun _ => false, fun _ => false, fun _ => ReadOneRes.value 5, fun _ => 0⟩

/-- A group of the two motors `m1` and `m2` of the controller 10, as
`update_elements` builds it. -/
def two_motor_group : MotorGroup :=
  ⟨100, ["m1", "m2"], [], [], ["m1", "m2"], ["m1", "m2"], 2, 2, 2,
   [⟨1, "m1", 10, 0, 1, 0⟩, ⟨2, "m2", 10, 1, 2, 1⟩], [10],
   [GrpEltType.MOTOR, GrpEltType.MOTOR], [], [], [], 0, 0⟩

end MotorGroup_ns

namespace Pool_ns

/-- What the read of the state at the top of a round of `moving_loop` gives
(PoolThread.cpp 728-752): the state, a `DevFailed` whose reason is
`API_DeviceNotExported`, or another `DevFailed`. -/
inductive StateRead
  | ok (d_state : DevState)
  | API_DeviceNotExported
  | DevFailed
  deriving DecidableEq, Repr

/-- The answers of the outside world during one round of the loop of
`moving_loop`: the read of the state; `abort_cmd_executed` of the group (of the
motor in a single-motor session); `sta_array[loop]` of the group and
`abort_cmd_executed` of the `loop`-th motor; whether `command_inout("Abort")`
throws; the answers to a backlash move started in this round; whether
`read_Position` throws in the read of the positions of this round. -/
structure Tick (P : Type) where
  state : StateRead
  abort_cmd_executed : Bool
  sta_array : Nat → DevState
  mot_abort : Nat → Bool
  Abort_throws : Bool
  start_env : StartEnv P
  read_throws : Bool

/-- The answers of the outside world to one `moving_loop`: the rounds of the
loop, whether `read_Position` throws in the forced read after the loop, and the
state a device has when its delayed state event is fired. -/
structure MoveEnv (P : Type) where
  ticks : List (Tick P)
  last_read_throws : Bool
  last_state : Src → DevState

/-- The locals of `moving_loop` (PoolThread.cpp 688-721): the run with
`back_pos` and the `internal_events` of the round, `by_proxy`, `read_ctr`,
`d_state`, and the two vectors of delayed events. -/
structure Loop (P : Type) where
  run : Run P
  by_proxy : Bool
  read_ctr : Int
  d_state : DevState
  end_mot_ext_evts : List Src
  end_mot_int_evts : List (Ev P)

/-- The locals of the loop at lines 776-807 of `moving_loop`. -/
structure Early (P : Type) where
  run : Run P
  abort_cmd_executed : Bool
  back_id : List Int
  ba : List P

section moving

variable {P : Type} [DecidableEq P] [Zero P]

/-- `implied_mots[ctr].Lock()` for every motor (lines 1170-1171). -/
def lock_mots : List MotInMove → Run P → Run P
  | [], r => r
  | m :: rest, r => lock_mots rest (r.emit (Ev.lock_mot m.mot_id))

/-- An internal event of `read_pos_while_moving`: pushed on `internal_events`
when the caller gave the vector (`delay_evt`), fired at once otherwise. -/
def fire_or_delay (delay_evt : Bool) (e : Ev P) (r : Run P) : Run P :=
  if delay_evt then { r with internal_events := r.internal_events ++ [e] } else r.emit e

/-- Lines 1290-1336 of `read_pos_while_moving`, the body of the loop over the
motors of a group: the position event of the motor carries the exception of the
read of the group, its internal event the entry of `attr_Position_read`. -/
def read_motor_pos (has_int_listeners delay_evt last_call send_event read_except : Bool)
    (m : MotInMove) (r : Run P) : Run P :=
  if send_event then
    let r1 := r.emit (Ev.position_change (Src.mot m.mot_id) last_call read_except)
    if has_int_listeners then
      fire_or_delay delay_evt (Ev.elem_position_change (Src.mot m.mot_id) last_call false) r1
    else r1
  else r

/-- Lines 1290-1356 of `read_pos_while_moving`: the loop over the motors of a group. -/
def read_motors_pos (has_int_listeners delay_evt last_call send_event read_except : Bool) :
    List MotInMove → Run P → Run P
  | [], r => r
  | m :: rest, r =>
    read_motors_pos has_int_listeners delay_evt last_call send_event read_except rest
      (read_motor_pos has_int_listeners delay_evt last_call send_event read_except m r)

/-- `Pool::read_pos_while_moving` (PoolThread.cpp 1151-1502).  The motors are
`m0 :: rest`; `delay_evt` tells that `internal_events` is not `NULL`;
`read_except` that `read_Position` throws.  The polling buffer is not part of
the model. -/
def read_pos_while_moving (th : PoolThread) (m0 : MotInMove) (rest : List MotInMove)
    (delay_evt last_call send_event read_except : Bool) (r : Run P) : Run P :=
  if th.group_id != -1 then
    let has_int_listeners := r.st.group.has_listeners
    let r1 := lock_mots (m0 :: rest) r
    let r2 := r1.emit (Ev.read_Position Src.grp)
    let r3 := if send_event then r2.emit (Ev.position_change Src.grp last_call read_except) else r2
    let r4 :=
      if send_event && has_int_listeners then
        fire_or_delay delay_evt (Ev.elem_position_change Src.grp last_call read_except) r3
      else r3
    unlock_motors (m0 :: rest)
      (read_motors_pos has_int_listeners delay_evt last_call send_event read_except (m0 :: rest) r4)
  else
    let has_int_listeners := m0.mot.has_listeners
    let r1 := r.emit (Ev.read_Position (Src.mot m0.mot_id))
    let r2 :=
      if send_event then r1.emit (Ev.position_change (Src.mot m0.mot_id) last_call read_except)
      else r1
    if send_event && has_int_listeners then
      fire_or_delay delay_evt (Ev.elem_position_change (Src.mot m0.mot_id) last_call read_except) r2
    else r2

/-- Lines 778-806 of `moving_loop`, the body of the loop over the motors of the
group: a motor that no longer moves and whose event is not fired yet either
gets its backlash move queued or has its state event fired; the event carries
the state `sta_array[loop]`.  `event_fired_array` has an entry for each motor
of the group. -/
def early_motor (tick : Tick P) (loop : Nat) (m : MotInMove) (a : Early P) : Early P :=
  if tick.sta_array loop ≠ DevState.MOVING ∧
      a.run.st.group.event_fired_array.getD loop false ≠ true then
    let mot_abort := tick.mot_abort loop
    let abort := a.abort_cmd_executed || mot_abort
    if mot_abort = false then
      if a.run.back_pos.getD loop 0 ≠ 0 then
        let r1 := { a.run with back_pos := a.run.back_pos.set loop 0 }
        ⟨r1, abort, a.back_id ++ [m.mot_id], a.ba ++ [a.run.back_pos.getD loop 0]⟩
      else
        let r1 := a.run.emit (Ev.state_change (Src.mot m.mot_id) (tick.sta_array loop))
        let r2 :=
          if m.mot.has_listeners then
            r1.emit (Ev.elem_state_change (Src.mot m.mot_id) DevState.MOVING (tick.sta_array loop))
          else r1
        let grp : GroupDev := { r2.st.group with
          event_fired_array := r2.st.group.event_fired_array.set loop true }
        ⟨{ r2 with st := { r2.st with group := grp } }, abort, a.back_id, a.ba⟩
    else { a with abort_cmd_executed := abort }
  else a

/-- Lines 776-807 of `moving_loop`: the loop over the motors of the group. -/
def early_motors (tick : Tick P) : Nat → List MotInMove → Early P → Early P
  | _, [], a => a
  | loop, m :: rest, a => early_motors tick (loop + 1) rest (early_motor tick loop m a)

/-- Lines 835-848 and 932-943 of `moving_loop`: the backlash move,
`forward_move(back_id, ba, th, false)`, which is `send_to_ctrl` with a fresh
`back_pos` and returns without waiting; when it throws,
`manage_thread_exception` is run on the motors and controllers of the session
with `state_changed = true` and throws again. -/
def backlash_move (get_motor_from_id : Int → Option MotorPool) (env : StartEnv P)
    (th : PoolThread) (implied_ctrls : List Int) (implied_mots : List MotInMove)
    (back_id : List Int) (ba : List P) (r : Run P) : Run P :=
  let n := send_to_ctrl get_motor_from_id env back_id ba th false
    (List.replicate back_id.length 0) r.st
  let r1 := { r with st := n.st, evs := r.evs ++ n.evs }
  if n.err.isSome then manage_thread_exception th implied_ctrls implied_mots "NoFunc" true (-1) r1
  else r1

/-- Lines 880-897 of `moving_loop`, the body of the loop run after an abort:
the state event of a motor whose event is not fired yet is fired, its internal
event is delayed to the end of the motion. -/
def pending_motor (tick : Tick P) (loop : Nat) (m : MotInMove) (l : Loop P) : Loop P :=
  if l.run.st.group.event_fired_array.getD loop false ≠ true then
    let r1 := l.run.emit (Ev.state_change (Src.mot m.mot_id) (tick.sta_array loop))
    let queued :=
      if m.mot.has_listeners then
        l.end_mot_int_evts ++
          [Ev.elem_state_change (Src.mot m.mot_id) DevState.MOVING (tick.sta_array loop)]
      else l.end_mot_int_evts
    let grp : GroupDev := { r1.st.group with
      event_fired_array := r1.st.group.event_fired_array.set loop true }
    { l with run := { r1 with st := { r1.st with group := grp } }, end_mot_int_evts := queued }
  else l

/-- Lines 878-898 of `moving_loop`: the loop over the motors of the group. -/
def pending_motors (tick : Tick P) : Nat → List MotInMove → Loop P → Loop P
  | _, [], l => l
  | loop, m :: rest, l => pending_motors tick (loop + 1) rest (pending_motor tick loop m l)

/-- Lines 976-998 of `moving_loop`, the end of a round that does not leave the
loop: every `nbStatePerRead` rounds the positions are read and their events
sent, then the queued internal events are fired. -/
def end_round (nbStatePerRead : Int) (th : PoolThread) (m0 : MotInMove) (rest : List MotInMove)
    (tick : Tick P) (l : Loop P) : Loop P :=
  let read_ctr := l.read_ctr + 1
  let l1 : Loop P :=
    if read_ctr = nbStatePerRead then
      { l with read_ctr := 0,
               run := read_pos_while_moving th m0 rest true false true tick.read_throws l.run }
    else { l with read_ctr := read_ctr }
  { l1 with run := { l1.run with evs := l1.run.evs ++ l1.run.internal_events,
                                 internal_events := [] } }

/-- Lines 852-918 of `moving_loop`: the group no longer moves.  The positions
are read without event, after an abort the pending state events of the motors
are sent, and the state event of the group is delayed to the end of the
motion; the loop is left. -/
def group_motion_end (th : PoolThread) (m0 : MotInMove) (rest : List MotInMove) (tick : Tick P)
    (abort_cmd_executed : Bool) (l : Loop P) : Loop P :=
  let r2 := read_pos_while_moving th m0 rest false false false tick.read_throws l.run
  let l2 := { l with run := r2 }
  let l3 := if abort_cmd_executed then pending_motors tick 0 (m0 :: rest) l2 else l2
  let l4 := { l3 with end_mot_ext_evts := l3.end_mot_ext_evts ++ [Src.grp] }
  if l4.run.st.group.has_listeners then
    { l4 with end_mot_int_evts :=
        l4.end_mot_int_evts ++ [Ev.elem_state_change Src.grp DevState.MOVING l.d_state] }
  else l4

/-- Lines 764-918 and 976-998 of `moving_loop`: a round of a group session
after the read of the state.  The result tells whether the loop is left by
`break`; an exception is in `run.err`. -/
def group_round (get_motor_from_id : Int → Option MotorPool) (nbStatePerRead : Int)
    (th : PoolThread) (implied_ctrls : List Int) (m0 : MotInMove) (rest : List MotInMove)
    (tick : Tick P) (l : Loop P) : Loop P × Bool :=
  let abort0 := tick.abort_cmd_executed
  let a0 : Early P := ⟨l.run, abort0, [], []⟩
  let a := if abort0 = false then early_motors tick 0 (m0 :: rest) a0 else a0
  if abort0 = false ∧ l.d_state = DevState.ALARM then
    let r1 := a.run.emit Ev.command_Abort
    if tick.Abort_throws then
      ({ l with run := { r1 with err := some (Failure.proxy_failed "Abort") } }, false)
    else ({ l with run := r1 }, true)
  else
    let r1 :=
      if abort0 = false ∧ a.back_id ≠ [] then
        backlash_move get_motor_from_id tick.start_env th implied_ctrls (m0 :: rest)
          a.back_id a.ba a.run
      else a.run
    if r1.err.isSome then ({ l with run := r1 }, false)
    else if l.d_state ≠ DevState.MOVING then
      (group_motion_end th m0 rest tick a.abort_cmd_executed { l with run := r1 }, true)
    else (end_round nbStatePerRead th m0 rest tick { l with run := r1 }, false)

/-- Lines 950-968 of `moving_loop`: the single motor no longer moves and has
no backlash move to do.  The position is read without event and the state
event of the motor is delayed to the end of the motion; the loop is left. -/
def motor_motion_end (th : PoolThread) (m0 : MotInMove) (rest : List MotInMove) (tick : Tick P)
    (l : Loop P) : Loop P :=
  let r1 := read_pos_while_moving th m0 rest false false false tick.read_throws l.run
  let l1 := { l with run := r1, end_mot_ext_evts := l.end_mot_ext_evts ++ [Src.mot m0.mot_id] }
  if m0.mot.has_listeners then
    { l1 with end_mot_int_evts :=
        l1.end_mot_int_evts ++ [Ev.elem_state_change (Src.mot m0.mot_id) DevState.MOVING l.d_state] }
  else l1

/-- Lines 852 and 920-998 of `moving_loop`: a round of a single-motor session
after the read of the state. -/
def motor_round (get_motor_from_id : Int → Option MotorPool) (nbStatePerRead : Int)
    (th : PoolThread) (implied_ctrls : List Int) (m0 : MotInMove) (rest : List MotInMove)
    (tick : Tick P) (l : Loop P) : Loop P × Bool :=
  if l.d_state ≠ DevState.MOVING then
    if l.run.back_pos.getD 0 0 ≠ 0 ∧ tick.abort_cmd_executed = false then
      let r0 := { l.run with back_pos := l.run.back_pos.set 0 0 }
      let r1 := backlash_move get_motor_from_id tick.start_env th implied_ctrls (m0 :: rest)
        [m0.mot_id] [l.run.back_pos.getD 0 0] r0
      if r1.err.isSome then ({ l with run := r1 }, false)
      else (end_round nbStatePerRead th m0 rest tick { l with run := r1 }, false)
    else (motor_motion_end th m0 rest tick l, true)
  else (end_round nbStatePerRead th m0 rest tick l, false)

/-- The value of `d_state` after the read of the state: a read that throws
leaves the variable as it was. -/
def d_state_after (s : StateRead) (d_state : DevState) : DevState :=
  match s with
  | StateRead.ok d => d
  | _ => d_state

/-- The `while (1)` loop of `moving_loop` (lines 723-1006), one tick a round.
A read of the state that fails with `API_DeviceNotExported` clears `by_proxy`
and starts the next round.  The result tells whether the loop was left by
`break`; it is `false` with `run.err = none` when the loop is still running
after the last tick. -/
def loop_rounds (get_motor_from_id : Int → Option MotorPool) (nbStatePerRead : Int)
    (th : PoolThread) (implied_ctrls : List Int) (m0 : MotInMove) (rest : List MotInMove) :
    List (Tick P) → Loop P → Loop P × Bool
  | [], l => (l, false)
  | tick :: ticks, l =>
    if tick.state = StateRead.API_DeviceNotExported then
      loop_rounds get_motor_from_id nbStatePerRead th implied_ctrls m0 rest ticks
        { l with by_proxy := false }
    else
      let l1 := { l with d_state := d_state_after tick.state l.d_state }
      let res :=
        if th.group_id != -1 then
          group_round get_motor_from_id nbStatePerRead th implied_ctrls m0 rest tick l1
        else motor_round get_motor_from_id nbStatePerRead th implied_ctrls m0 rest tick l1
      if res.2 then res
      else if res.1.run.err.isSome then res
      else loop_rounds get_motor_from_id nbStatePerRead th implied_ctrls m0 rest ticks res.1

/-- Lines 1124-1128 of `moving_loop`: `set_mov_th_id(0)` on every motor. -/
def clear_mov_th_id : List MotInMove → PoolSt P → PoolSt P
  | [], st => st
  | m :: rest, st =>
    clear_mov_th_id rest (st.set_motor m.mot_id (fun d => { d with mov_th_id := 0 }))

/-- The element whose motion the thread follows: the group, or the single
motor `implied_mots[0]`. -/
def moved_elt (th : PoolThread) (m0 : MotInMove) : Src :=
  if th.group_id != -1 then Src.grp else Src.mot m0.mot_id

/-- The element the thread follows has internal listeners: `has_listeners()`
of `implied_group->mgp` or of `implied_mots[0].mot`. -/
def moved_has_listeners (th : PoolThread) (m0 : MotInMove) (st : PoolSt P) : Bool :=
  if th.group_id != -1 then st.group.has_listeners else m0.mot.has_listeners

/-- Lines 1008-1130 of `moving_loop`, after the loop: the forced read of the
positions with its events, the delayed state events to the clients, the
delayed internal events, `MotionEnded` for an element with listeners, and the
thread identifiers are cleared. -/
def finish_move (env : MoveEnv P) (th : PoolThread) (m0 : MotInMove) (rest : List MotInMove)
    (l : Loop P) : Run P :=
  let r0 := { l.run with internal_events := [] }
  let r1 := read_pos_while_moving th m0 rest true true true env.last_read_throws r0
  let r2 := { r1 with evs := r1.evs ++ r1.internal_events, internal_events := [] }
  let r3 := { r2 with evs := r2.evs ++
    l.end_mot_ext_evts.map (fun s => Ev.state_change s (env.last_state s)) ++ l.end_mot_int_evts }
  let r4 :=
    if moved_has_listeners th m0 r3.st then r3.emit (Ev.MotionEnded (moved_elt th m0)) else r3
  let st5 := clear_mov_th_id (m0 :: rest) r4.st
  let st6 :=
    if th.group_id != -1 then { st5 with group := { st5.group with mov_th_id := 0 } } else st5
  { r4 with st := st6 }

/-- `Pool::moving_loop` (PoolThread.cpp 668-1130) for the motors `m0 :: rest`
(`implied_mots[0]` is read at line 702).  `d_state` is the value the local
variable of that name has before the first read of the state; `st` and
`back_pos` are the devices and the backlash positions left by `send_to_ctrl`.
The result tells whether the loop was left: when it is not, the run stops in
the loop, with the exception that left the function in `err` if there is one.
The sleeps and the polling buffer are not part of the model. -/
def moving_loop (get_motor_from_id : Int → Option MotorPool) (nbStatePerRead : Int)
    (env : MoveEnv P) (implied_ctrls : List Int) (m0 : MotInMove) (rest : List MotInMove)
    (th : PoolThread) (back_pos : List P) (d_state : DevState) (st : PoolSt P) : Run P × Bool :=
  let res := loop_rounds get_motor_from_id nbStatePerRead th implied_ctrls m0 rest env.ticks
    ⟨⟨st, back_pos, [], [], none⟩, true, 0, d_state, [], []⟩
  if res.2 then (finish_move env th m0 rest res.1, true) else (res.1.run, false)

end moving

end Pool_ns

namespace Pool_ns

/-- The tags of the events of a start of a move. -/
def start_tags : List Tag :=
  [Tag.lock_mot, Tag.unlock_mot, Tag.lock_ctrl, Tag.unlock_ctrl, Tag.PreStartAll, Tag.PreStartOne,
   Tag.StartOne, Tag.StartAll, Tag.write_attribute, Tag.state_change, Tag.elem_state_change,
   Tag.signal]

/-- The tags of the events of a read of the positions by the motion thread. -/
def read_pos_tags : List Tag :=
  [Tag.lock_mot, Tag.unlock_mot, Tag.read_Position, Tag.position_change, Tag.elem_position_change]

section

variable {P : Type} [DecidableEq P] [Zero P]

/-- The notifications of the end of a motion: a position event of the forced
read (`last_call`), to the clients or to the internal listeners, and
`MotionEnded`. -/
def Ev.ends_motion : Ev P → Bool
  | Ev.position_change _ true _ => true
  | Ev.elem_position_change _ true _ => true
  | Ev.MotionEnded _ => true
  | _ => false

/-- The number of `MotionEnded` notifications of a run. -/
def count_MotionEnded (evs : List (Ev P)) : Nat :=
  evs.countP (fun e => decide (e.tag = Tag.MotionEnded))

/-- The run `r2` continues the run `r1`: its events and its queue of internal
events are those of `r1` followed by events that satisfy `p`. -/
def Run.grows (p : Ev P → Prop) (r1 r2 : Run P) : Prop :=
  (∃ X, r2.evs = r1.evs ++ X ∧ ∀ e ∈ X, p e) ∧
  (∃ I, r2.internal_events = r1.internal_events ++ I ∧ ∀ e ∈ I, p e)

/-- Every event of the run, fired or queued, satisfies `p`. -/
def Run.all (p : Ev P → Prop) (r : Run P) : Prop :=
  (∀ e ∈ r.evs, p e) ∧ (∀ e ∈ r.internal_events, p e)

/-- An event of a read of the positions; it does not end a motion unless the read is the last. -/
def read_ev (last_call : Bool) (e : Ev P) : Prop :=
  e.tag ∈ read_pos_tags ∧ (last_call = false → e.ends_motion = false)

/-- The invariant of the loop of `moving_loop`: no event fired or queued so
far ends the motion, and the delayed internal events are state events. -/
def Loop.inv (l : Loop P) : Prop :=
  Run.all (fun e => e.ends_motion = false) l.run ∧
  (∀ e ∈ l.end_mot_int_evts, e.tag = Tag.elem_state_change)

/-- What is known when the loop is left: no exception is in flight, and the
state event of the element the thread follows is delayed to the end of the
motion, unless a group session left the loop by an `Abort`. -/
def Loop.left_ok (th : PoolThread) (m0 : MotInMove) (l : Loop P) : Prop :=
  l.run.err = none ∧
  (moved_elt th m0 ∈ l.end_mot_ext_evts ∨ (th.group_id ≠ -1 ∧ Ev.command_Abort ∈ l.run.evs))

end

end Pool_ns

namespace Pool_ns

/-- A round of the loop in which the group, or the single motor, and every
motor are read in the state `s`, nothing is aborted and every call returns. -/
def tick_in_state (s : DevState) : Tick Int :=
  ⟨StateRead.ok s, false, fun _ => s, fun _ => false, false, env_all_ok, false⟩

/-- A motion that is seen MOVING in the first round and ON in the second. -/
def env_motion_ends : MoveEnv Int :=
  ⟨[tick_in_state DevState.MOVING, tick_in_state DevState.ON], false, fun _ => DevState.ON⟩

/-- The motor 1 of `one_motor_pool` in a move, with or without internal listeners. -/
def motor_1_in_move (has_listeners : Bool) : MotInMove :=
  ⟨1, ⟨1, "m1", "motor/ctrl10/1", 10, 1, has_listeners⟩, 10⟩

/-- The motor 2 of `two_motor_pool` in a move. -/
def motor_2_in_move : MotInMove :=
  ⟨2, ⟨2, "m2", "motor/ctrl10/2", 10, 2, false⟩, 10⟩

/-- The devices as `send_to_ctrl` leaves them: every motor and the group
MOVING for the thread 7; the group with or without internal listeners. -/
def st_in_motion (has_listeners : Bool) : PoolSt Int :=
  ⟨fun _ => ⟨DevState.MOVING, 7, false, 0, 0, false, false⟩,
   ⟨DevState.MOVING, 7, false, has_listeners, [false, false]⟩, true⟩

end Pool_ns

namespace Pool_ns

/-- The line of an element in the status text: family, a blank, alias, and the
text of the tier. -/
def status_line (suffix : String) (ind : IndEltName) : String :=
  ind.family ++ " " ++ ind.alias_name ++ suffix

/-- The lines of a tier as the specification words them: one line for every
element whose state is `s`, in the order of the elements. -/
def tier_lines (state_array : List DevState) (ind_elts : List IndEltName) (s : DevState)
    (suffix : String) : List String :=
  ((state_array.zip ind_elts).filter (fun p => decide (p.1 = s))).map
    (fun p => status_line suffix p.2)

/-- The lines `ls` appended to `status` as the per-tier loop does it: a line
feed comes before every line but the one of round zero. -/
def append_lines : Nat → String → List String → String
  | _, status, [] => status
  | loop, status, l :: ls =>
    append_lines (loop + 1) ((if loop != 0 then status ++ "\n" else status) ++ l) ls

/-- Two motors of a group, for the status text. -/
def two_names : List IndEltName := [⟨"Motor", "m1"⟩, ⟨"Motor", "m2"⟩]

/-- Three motors of a group, for the status text. -/
def three_names : List IndEltName := [⟨"Motor", "m1"⟩, ⟨"Motor", "m2"⟩, ⟨"Motor", "m3"⟩]

end Pool_ns

namespace Pool_ns

/-- What a call of `base_abort` leaves behind: the abort flag, the elements to
whose proxy the command Abort was sent, in the order of the calls, the elements
whose failure was stored in `v_except`, whether the state event of the group
was fired, and the exception thrown to the caller. -/
structure AbortRun where
  abort_cmd_executed : Bool
  sent : List Int
  v_except : List Int
  state_event : Bool
  err : Option Fault
  deriving DecidableEq, Repr

/-- The end of both `base_abort` functions, under the comment "Report
exception to caller in case of": a single stored exception is thrown again with
the reason given; the `else` branch, taken for two exceptions or more, is
empty. -/
def report_exception (reason : String) (v_except : List Int) : Option Fault :=
  if v_except.length != 0 then
    if v_except.length == 1 then some (Fault.DevFailed reason) else none
  else none

/-- One `command_inout("Abort")` inside its `try`: the call is recorded, and
the element is stored in `v_except` when the call throws. -/
def abort_elt (Abort_throws : Int → Bool) (id : Int) (r : AbortRun) : AbortRun :=
  { r with
    sent := r.sent ++ [id],
    v_except := if Abort_throws id then r.v_except ++ [id] else r.v_except }

end Pool_ns

namespace MotorGroup_ns

open Pool_ns

/-- The loop of `MotorGroup::base_abort` over `ind_elts` (MotorGroup.cpp 1173-1183). -/
def abort_loop (Abort_throws : Int → Bool) : List IndMov → AbortRun → AbortRun
  | [], r => r
  | m :: rest, r => abort_loop Abort_throws rest (abort_elt Abort_throws m.id r)

/-- `MotorGroup::base_abort` (MotorGroup.cpp 1164-1201).  `Abort_throws id`
tells whether the command Abort of the motor `id` throws.  The argument
`send_evt` is not read by the function. -/
def base_abort (Abort_throws : Int → Bool) (g : MotorGroup) (send_evt : Bool) : AbortRun :=
  let r := abort_loop Abort_throws g.ind_elts ⟨true, [], [], false, none⟩
  { r with err := report_exception "Motor_ExcepAbort" r.v_except }

end MotorGroup_ns

namespace MeasurementGroup_ns

open Pool_ns

/-- The members of the `MeasurementGroup` device that `base_abort` reads: the
master channel (`none` for `NULL`) and the channels of `ind_elts`, by their
identifiers. -/
structure MeasurementGroup where
  master : Option Int
  ind_elts : List Int
  deriving DecidableEq, Repr

/-- Modelled from the spec: `IndEltGrp::abort_no_evt` is declared in `Pool.h`,
which is not among the sources.  "Abort requests that themselves fail against
one element are accumulated": the command Abort is sent to the element and a
failure is stored in `v_except`.  `MeasurementGroup::abort_all_channels`
(MeasurementGroup.cpp 3328-3332) applies it to every channel of `ind_elts`. -/
def abort_all_channels (Abort_throws : Int → Bool) : List Int → AbortRun → AbortRun
  | [], r => r
  | id :: rest, r => abort_all_channels Abort_throws rest (abort_elt Abort_throws id r)

/-- `MeasurementGroup::base_abort` (MeasurementGroup.cpp 3243-3317): the master
first, then all the channels, the state event when `send_evt` is set, and the
report to the caller. -/
def base_abort (Abort_throws : Int → Bool) (g : MeasurementGroup) (send_evt : Bool) : AbortRun :=
  let r0 : AbortRun := ⟨true, [], [], false, none⟩
  let r1 :=
    match g.master with
    | some id => abort_elt Abort_throws id r0
    | none => r0
  let r2 := abort_all_channels Abort_throws g.ind_elts r1
  let r3 := if send_evt then { r2 with state_event := true } else r2
  { r3 with err := report_exception "CTExpChannel_ExceptStop" r3.v_except }

/-- A measurement group of the channels 1 and 2, without master. -/
def two_channel_group : MeasurementGroup := ⟨none, [1, 2]⟩

end MeasurementGroup_ns

namespace MotorGroup_ns

open Pool_ns

/-- The members of the device that are device properties: `add_element` and
`remove_element` change them before `update_elements` is called. -/
structure Props where
  user_group_elt : List String
  phys_group_elt : List String
  motor_list : List String
  motor_group_list : List String
  pseudo_motor_list : List String
  pos_spectrum_dim_x : Int
  deriving DecidableEq, Repr

/-- The six properties of a group. -/
def MotorGroup.props (g : MotorGroup) : Props :=
  ⟨g.user_group_elt, g.phys_group_elt, g.motor_list, g.motor_group_list, g.pseudo_motor_list,
    g.pos_spectrum_dim_x⟩

/-- `MotorGroup::add_element` (MotorGroup.cpp 1214-1411), the six properties
as the call leaves them on the device, also when it throws: the checks throw
before any `push_back`; `update_elements`, called after them, does not write
the properties. -/
def add_element_props (pool : Pool) (g : MotorGroup) (argin : String) : Props :=
  if in_hierarchy g argin then g.props
  else
    match elt_type pool argin with
    | none => g.props
    | some GrpEltType.GROUP =>
      match pool.get_motor_group_from_name argin with
      | none => g.props
      | some grp =>
        if grp.mot_ids.any (fun id => has_ind_mov_id g id) then g.props
        else
          { g.props with
            user_group_elt := g.user_group_elt ++ [grp.name],
            motor_group_list := g.motor_group_list ++ [grp.name],
            phys_group_elt := g.phys_group_elt ++ grp.phys_group_elt,
            pos_spectrum_dim_x := g.pos_spectrum_dim_x + grp.pos_spectrum_dim_x }
    | some GrpEltType.PSEUDO_MOTOR =>
      match pool.get_pseudo_motor_from_name argin with
      | none => g.props
      | some pm =>
        if g.psm_ctrls_in_grp.any (fun c => c.pool_psm_ctrl == pm.ctrl) then
          { g.props with
            user_group_elt := g.user_group_elt ++ [pm.name],
            pseudo_motor_list := g.pseudo_motor_list ++ [pm.name],
            pos_spectrum_dim_x := g.pos_spectrum_dim_x + 1 }
        else if pm.mot_elts.any (fun n => has_ind_mov_name g n) then g.props
        else
          { g.props with
            phys_group_elt := g.phys_group_elt ++ pm.mot_elts.map tolower,
            user_group_elt := g.user_group_elt ++ [pm.name],
            pseudo_motor_list := g.pseudo_motor_list ++ [pm.name],
            pos_spectrum_dim_x := g.pos_spectrum_dim_x + 1 }
    | some GrpEltType.MOTOR =>
      match pool.get_motor_from_name argin with
      | none => g.props
      | some m =>
        { g.props with
          user_group_elt := g.user_group_elt ++ [m.name],
          phys_group_elt := g.phys_group_elt ++ [m.name],
          motor_list := g.motor_list ++ [m.name],
          pos_spectrum_dim_x := g.pos_spectrum_dim_x + 1 }

/-- A group of the motor `a` of `pseudo_pool`, as `update_elements` builds it. -/
def motor_a_group : MotorGroup :=
  ⟨100, ["a"], [], [], ["a"], ["a"], 1, 1, 1, [⟨1, "a", 10, 0, 1, 0⟩], [10],
   [GrpEltType.MOTOR], [], [], [], 0, 0⟩

end MotorGroup_ns

namespace Tango

/-- `Tango::DevDouble`, for the runs in which a value is not finite: an
integer value, or `nan`, which stands for NaN and the infinities. -/
inductive DevDouble
  | val (x : Int)
  | nan
  deriving DecidableEq, Repr

instance : Zero DevDouble := ⟨DevDouble.val 0⟩

instance : Add DevDouble :=
  ⟨fun a b =>
    match a, b with
    | DevDouble.val x, DevDouble.val y => DevDouble.val (x + y)
    | _, _ => DevDouble.nan⟩

/-- The value is finite. -/
def DevDouble.isfinite : DevDouble → Bool
  | DevDouble.val _ => true
  | DevDouble.nan => false

end Tango

namespace Pool_ns

section thread

variable {P : Type} [DecidableEq P] [Zero P]

/-- The loop of the `catch` block of `PoolThread::run` (PoolThread.cpp
206-211): `set_mov_th_id(0)` on every motor of the thread.  `none` when
`get_motor_from_id` throws: the exception leaves `run`. -/
def reset_mov_th_id (get_motor_from_id : Int → Option MotorPool) :
    List Int → PoolSt P → Option (PoolSt P)
  | [], st => some st
  | mot_id :: rest, st =>
    match get_motor_from_id mot_id with
    | none => none
    | some mot_ref =>
      reset_mov_th_id get_motor_from_id rest
        (st.set_motor mot_ref.id (fun d => { d with mov_th_id := 0 }))

/-- `PoolThread::run` (PoolThread.cpp 190-232), up to the moment the thread
that waits on the monitor is signalled: the start of the move by
`forward_move`, which calls `send_to_ctrl` with `wait_flag` set and a vector
`back_pos` of zeros, and the `catch` block.  The second component is
`th_except`, the exception stored in the group, or in the motor that created
the thread (`failed_mot`, the first of `mot_ids`), when the start failed.
After the signal of `send_to_ctrl` the thread goes on with `moving_loop`, while
the writer returns. -/
def PoolThread.run (get_motor_from_id : Int → Option MotorPool) (env : StartEnv P)
    (mot_ids : List Int) (positions : List P) (th : PoolThread) (st : PoolSt P) :
    Run P × Option Failure :=
  let r := send_to_ctrl get_motor_from_id env mot_ids positions th true
    (List.replicate mot_ids.length 0) st
  match r.err with
  | none => (r, none)
  | some e =>
    match reset_mov_th_id get_motor_from_id mot_ids r.st with
    | none => (r, none)
    | some st1 =>
      let st2 : PoolSt P :=
        if th.group_id != -1 then
          { st1 with group := { st1.group with th_failed := true, mov_th_id := 0 } }
        else
          match mot_ids.head? with
          | some failed_mot => st1.set_motor failed_mot (fun d => { d with th_failed := true })
          | none => st1
      let r1 : Run P := { r with st := st2, err := none }
      (r1.emit Ev.signal, some e)

end thread

end Pool_ns

namespace MotorGroup_ns

open Pool_ns

section write

variable {P : Type} [DecidableEq P] [Zero P]

/-- What a call of `MotorGroup::write_Position` leaves behind: the devices,
the member `phys_mot_pos` (`none` when `from_grp_2_phys` threw while it was
filling it), whether the motion thread was created and started, the vectors
given to it, the events of the call and of the thread up to the signal, the
exception thrown by a statement of the function, the exception of the thread
thrown again at the end, and whether the call comes back: it waits on the
monitor until the thread signals it. -/
structure WriteRun (P : Type) where
  st : PoolSt P
  phys_mot_pos : Option (List P)
  thread_started : Bool
  mot_id_vector : List Int
  pos_vector : List P
  evs : List (Ev P)
  err : Option Fault
  th_except : Option Failure
  returns : Bool

/-- Lines 1058-1074 of `write_Position`: every pseudo motor of the group is
built.  `n` rounds are left. -/
def check_psm_built (psm_in_grp : List PsmInGrp) : Nat → Nat → Except Fault Unit
  | 0, _ => .ok ()
  | n + 1, loop =>
    match psm_in_grp.get? loop with
    | none => .error (Fault.out_of_bounds "psm_in_grp[loop]")
    | some psm =>
      if psm.pool_psm.fica_built then check_psm_built psm_in_grp n (loop + 1)
      else .error (Fault.DevFailed "MotorGroup_InvalidPseudoMotor")

/-- Lines 1088-1097 of `write_Position`: `pos_vector`, the entry of
`phys_mot_pos` at `idx_in_grp` for every motor of `ind_elts`. -/
def fill_pos_vector (phys_mot_pos : List P) : List IndMov → Option (List P)
  | [] => some []
  | ind_mov :: rest =>
    match vec_get phys_mot_pos ind_mov.idx_in_grp with
    | none => none
    | some p =>
      match fill_pos_vector phys_mot_pos rest with
      | none => none
      | some ps => some (p :: ps)

/-- `MotorGroup::write_Position` (MotorGroup.cpp 1035-1134).  `received_data`
is the vector written by the client, `phys_mot_pos` the member before the
call, `new_th_id` the identifier of the thread created, `st` the devices.  The
flag `abort_cmd_executed`, cleared with `th_failed` before the thread is
created, is not a field of `GroupDev`. -/
def write_Position (get_motor_from_id : Int → Option MotorPool) (cenv : CalcEnv P)
    (senv : StartEnv P) (g : MotorGroup) (new_th_id : Int) (received_data : List P)
    (phys_mot_pos : List P) (st : PoolSt P) : WriteRun P :=
  if (received_data.length : Int) ≠ g.pos_spectrum_dim_x then
    ⟨st, some phys_mot_pos, false, [], [], [], some (Fault.DevFailed "Motor_CantMoveGroup"), none,
      true⟩
  else
    match check_psm_built g.psm_in_grp g.nb_psm_in_grp.toNat 0 with
    | .error e => ⟨st, some phys_mot_pos, false, [], [], [], some e, none, true⟩
    | .ok _ =>
      match from_grp_2_phys cenv g received_data phys_mot_pos with
      | .error e => ⟨st, none, false, [], [], [], some e, none, true⟩
      | .ok phys =>
        match fill_pos_vector phys g.ind_elts with
        | none =>
          ⟨st, some phys, false, [], [], [],
            some (Fault.out_of_bounds "phys_mot_pos[ind_mov->idx_in_grp]"), none, true⟩
        | some pos_vector =>
          let mot_id_vector := g.ind_elts.map (fun m => m.id)
          let st1 : PoolSt P := { st with group := { st.group with th_failed := false } }
          let t := PoolThread.run get_motor_from_id senv mot_id_vector pos_vector
            ⟨g.motor_group_id, new_th_id⟩ st1
          ⟨t.1.st, some phys, true, mot_id_vector, pos_vector, t.1.evs, none,
            if t.1.st.group.th_failed then t.2 else none,
            decide (Ev.signal ∈ t.1.evs)⟩

end write

/-- Devices at rest, for any type of positions: every motor and the group in
state `s`, no thread registered. -/
def st_rest {P : Type} [Zero P] (s : DevState) : PoolSt P :=
  ⟨fun _ => ⟨s, 0, false, 0, 0, false, false⟩, ⟨s, 0, false, false, [false, false]⟩, false⟩

/-- The motors `a`, `b` and `m` of `pseudo_pool`, by identifier. -/
def pseudo_pool_motor : Int → Option MotorPool :=
  fun i =>
    if i = 1 then some ⟨1, "a", "motor/c/1", 10, 1, false⟩
    else if i = 2 then some ⟨2, "b", "motor/c/2", 10, 2, false⟩
    else if i = 3 then some ⟨3, "m", "motor/c/3", 10, 3, false⟩
    else none

end MotorGroup_ns

namespace MotorGroup_ns

open Pool_ns Tango

/-- The group whose only user element is the pseudo motor `pmx` of
`pseudo_pool`, as `add_element` builds it: one user position, the two motors
`a` and `b` in the physical closure. -/
def pmx_group : MotorGroup :=
  ⟨100, [], [], ["pmx"], ["pmx"], ["a", "b"], 1, 2, 1,
   [⟨1, "a", 10, 0, 1, -1⟩, ⟨2, "b", 10, 1, 2, -1⟩], [10],
   [GrpEltType.PSEUDO_MOTOR], [],
   [⟨⟨"pmx", ["a", "b"], 50, 1, 2, 2, true⟩, "pmx", 2, 0, 0, 0⟩],
   [⟨50, 2, 2, [0, -1], false, 2, 0⟩], 1, 0⟩

/-- The group of the pseudo motors `pmx` and `pmy` of `pseudo_pool`, as
`add_element` builds it. -/
def pmx_pmy_group : MotorGroup :=
  ⟨100, [], [], ["pmx", "pmy"], ["pmx", "pmy"], ["a", "b"], 2, 2, 2,
   [⟨1, "a", 10, 0, 1, -1⟩, ⟨2, "b", 10, 1, 2, -1⟩], [10],
   [GrpEltType.PSEUDO_MOTOR, GrpEltType.PSEUDO_MOTOR], [],
   [⟨⟨"pmx", ["a", "b"], 50, 1, 2, 2, true⟩, "pmx", 2, 0, 0, 0⟩,
    ⟨⟨"pmy", ["a", "b"], 50, 2, 2, 2, true⟩, "pmy", 2, 0, 1, 0⟩],
   [⟨50, 2, 2, [0, 1], true, 2, 0⟩], 2, 0⟩

/-- A transform environment whose `CalcAllPhysical` returns NaN for both
motors. -/
def nan_env : CalcEnv DevDouble :=
  ⟨fun _ x => x, fun _ _ => [DevDouble.nan, DevDouble.nan],
   fun _ => some [DevDouble.val 1, DevDouble.val 2], fun _ _ => true⟩

/-- Every call of the start returns; the proxy write of a motor leaves the
dial position NaN and no backlash. -/
def start_accepts_nan : StartEnv DevDouble :=
  ⟨fun _ => false, fun _ => some (DevDouble.nan, 0), fun _ => PreStartOneRes.ret_true,
   fun _ => false, fun _ => false⟩

/-- As `start_accepts_nan`, but the proxy write of a motor throws. -/
def start_refuses_nan : StartEnv DevDouble :=
  { start_accepts_nan with write_Position := fun _ => none }

end MotorGroup_ns

namespace MotorGroup_ns

open Pool_ns Tango

/-- What a state query of a motor group reads outside the group: the flag
`pool_init_cmd` of the pool, for a controller (by identifier) the flag
`ctrl_fica_built` and whether its controller object `ctrl` is `NULL`, the
controllers of `failed_ctrls`, for a motor (by identifier) the result of
`should_be_in_fault()` and whether its monitor `atm_ptr` is `NULL`, and the
answer of `StateOne` of a controller for an axis: the state and the switches,
`none` when the call throws.  The three functions of the base class that the
query calls are not among the sources: `base_hook_throws`,
`base_dev_state_throws` and `read_state_throws` tell whether
`PoolGroupBaseDev::always_executed_hook`, `PoolGroupBaseDev::dev_state` and
`read_state_from_ctrls` throw. -/
structure StateEnv where
  pool_init_cmd : Bool
  ctrl_fica_built : Int → Bool
  ctrl_null : Int → Bool
  failed_ctrls : List Int
  should_be_in_fault : Int → Bool
  atm_null : Int → Bool
  StateOne : Int → Int → Option (DevState × Nat)
  base_hook_throws : Bool
  base_dev_state_throws : Bool
  read_state_throws : Bool

/-- `Motor::set_motor_state_from_group` (Motor.cpp 1800-1811): the state the
motor takes from the answer of `StateOne`. -/
def set_motor_state_from_group (state : DevState) (switches : Nat) : DevState :=
  if 2 ≤ switches ∧ state ≠ DevState.MOVING then DevState.ALARM else state

/-- The body of the loop of `MotorGroup::State_all_ind` (MotorGroup.cpp
3211-3260): the state set on the motor and pushed on `state_array`.  A
`DevFailed` of `StateOne` is caught by the function (3256-3259). -/
def state_of_ind (env : StateEnv) (ind_mov : IndMov) : DevState :=
  if env.should_be_in_fault ind_mov.id then DevState.FAULT
  else if !env.ctrl_null ind_mov.ctrl_id then
    if ind_mov.ctrl_id ∈ env.failed_ctrls then DevState.UNKNOWN
    else if env.atm_null ind_mov.id then DevState.UNKNOWN
    else
      match env.StateOne ind_mov.ctrl_id ind_mov.idx_in_ctrl with
      | none => DevState.UNKNOWN
      | some (state, switches) => set_motor_state_from_group state switches
  else DevState.FAULT

/-- `MotorGroup::State_all_ind` (MotorGroup.cpp 3205-3262): one state is
pushed on `state_array` for each of the first `ind_elt_nb` motors; the
function reads `ind_elts[loop]` for every `loop < ind_elt_nb`. -/
def State_all_ind (env : StateEnv) (g : MotorGroup) (state_array : List DevState) :
    Except Fault (List DevState) :=
  if g.ind_elt_nb.toNat ≤ g.ind_elts.length then
    .ok (state_array ++ (g.ind_elts.take g.ind_elt_nb.toNat).map (state_of_ind env))
  else .error (Fault.out_of_bounds "ind_elts[loop]")

/-- Modelled from the spec: `read_state_from_ctrls` is a function of the base
class of the group, which is not among the sources.  "Group aggregate state is
a pure function of its physical closure's current raw states": unless it
throws, the states of the elements are read by `State_all_ind`, with the
controllers whose state calls failed in `failed_ctrls`. -/
def read_state_from_ctrls (env : StateEnv) (g : MotorGroup) (state_array : List DevState) :
    Except Fault (List DevState) :=
  if env.read_state_throws then .error (Fault.DevFailed "read_state_from_ctrls")
  else State_all_ind env g state_array

/-- `MotorGroup::always_executed_hook` (MotorGroup.cpp 683-703): the state of
the device after the hook; `state` is the state the hook of the base class
leaves when it returns. -/
def always_executed_hook (env : StateEnv) (g : MotorGroup) (state : DevState) :
    Except Fault DevState :=
  if env.base_hook_throws then .error (Fault.DevFailed "PoolGroupBaseDev::always_executed_hook")
  else if g.implied_ctrls.any (fun c => env.ctrl_fica_built c == false || env.ctrl_null c) then
    .ok DevState.FAULT
  else .ok state

/-- `MotorGroup::dev_state` (MotorGroup.cpp 2304-2315) for a group that is not
the ghost group: the state returned.  `update_state_from_ctrls` is called
with its default arguments: it clears `state_array` and reads the states.
`names` are the families and aliases of the elements, `ctx` the state of the
device before the call, the calling thread, the motion thread and the abort
flag. -/
def dev_state (StatusNotSet : String) (env : StateEnv) (g : MotorGroup)
    (names : List IndEltName) (ctx : GrpCtx) : Except Fault DevState :=
  if env.base_dev_state_throws then .error (Fault.DevFailed "PoolGroupBaseDev::dev_state")
  else if env.pool_init_cmd = true then .ok DevState.UNKNOWN
  else
    match read_state_from_ctrls env g [] with
    | .error e => .error e
    | .ok state_array => .ok (update_state_from_ctrls StatusNotSet state_array names ctx).1

/-- A state query: `always_executed_hook`, then `dev_state` on the state the
hook leaves. -/
def state_query (StatusNotSet : String) (env : StateEnv) (g : MotorGroup)
    (names : List IndEltName) (ctx : GrpCtx) : Except Fault DevState :=
  match always_executed_hook env g ctx.old_state with
  | .error e => .error e
  | .ok s => dev_state StatusNotSet env g names { ctx with old_state := s }

/-- The controller 10 has no controller object; the pool executes its command
`Init` when `pool_init_cmd` is set; every motor answers ON; no function of the
base class throws. -/
def null_ctrl_env (pool_init_cmd : Bool) : StateEnv :=
  ⟨pool_init_cmd, fun _ => false, fun c => decide (c = 10), [], fun _ => false, fun _ => false,
   fun _ _ => some (DevState.ON, 0), false, false, false⟩

end MotorGroup_ns

namespace Pool_ns

open MotorGroup_ns

section

variable {P : Type} [DecidableEq P] [Zero P]

/-- One round of the loop of `moving_loop` after the read of the state: the
body of `loop_rounds` for a read that does not fail with
`API_DeviceNotExported`. -/
def one_round (get_motor_from_id : Int → Option MotorPool) (nbStatePerRead : Int)
    (th : PoolThread) (implied_ctrls : List Int) (m0 : MotInMove) (rest : List MotInMove)
    (tick : Tick P) (l : Loop P) : Loop P × Bool :=
  if th.group_id != -1 then
    group_round get_motor_from_id nbStatePerRead th implied_ctrls m0 rest tick
      { l with d_state := d_state_after tick.state l.d_state }
  else motor_round get_motor_from_id nbStatePerRead th implied_ctrls m0 rest tick
      { l with d_state := d_state_after tick.state l.d_state }

/-- Only the state event of the group is delayed to the end of the motion. -/
def Loop.ext_grp (l : Loop P) : Prop :=
  ∀ s ∈ l.end_mot_ext_evts, s = Src.grp

/-- A position event sent to the clients carries the read error exactly when
`rx` is set. -/
def carries (rx : Bool) (e : Ev P) : Prop :=
  ∀ s b f, e = Ev.position_change s b f → f = rx

/-- The events of one motor in the loop over the motors of
`read_pos_while_moving` with `send_event` set (PoolThread.cpp 1290-1359): the
position event to the clients, which carries the exception of the read of the
group if there is one, and then, fired at once when the group has internal
listeners and the events are not delayed, the internal event of the motor,
which carries the entry of `attr_Position_read` and no error. -/
def motor_pos_evs (has_int_listeners delay_evt last_call read_except : Bool) (m : MotInMove) :
    List (Ev P) :=
  Ev.position_change (Src.mot m.mot_id) last_call read_except ::
    (if has_int_listeners && !delay_evt then
      [Ev.elem_position_change (Src.mot m.mot_id) last_call false]
     else [])

/-- The read of the group in `read_pos_while_moving` (PoolThread.cpp 1205):
`implied_group->grp->read_Position` throws a `DevFailed`. -/
def group_read_except [Add P] (renv : ReadEnv P) (cenv : CalcEnv P) (grp : MotorGroup)
    (phys_mot_pos attr_Position_read : List P) : Bool :=
  is_DevFailed (MotorGroup_ns.read_Position renv cenv grp phys_mot_pos attr_Position_read).err

/-- A read of the positions by the motion thread of a group:
`read_pos_while_moving` with the outcome of the read of the group `grp`,
whose arrays are `phys_mot_pos` and `attr_Position_read` before the read. -/
def group_read_cycle [Add P] (renv : ReadEnv P) (cenv : CalcEnv P) (grp : MotorGroup)
    (phys_mot_pos attr_Position_read : List P) (th : PoolThread) (m0 : MotInMove)
    (rest : List MotInMove) (delay_evt last_call send_event : Bool) (r : Run P) : Run P :=
  read_pos_while_moving th m0 rest delay_evt last_call send_event
    (group_read_except renv cenv grp phys_mot_pos attr_Position_read) r

end

/-- As `read_all_ok`, but `ReadOne` of the first motor throws. -/
def read_fails_first : ReadEnv Int :=
  { read_all_ok with
    ReadOne := fun k => if k = 0 then ReadOneRes.throws else ReadOneRes.value 5 }

end Pool_ns

namespace Pool_ns

/-- A pool with three motors: the motor 1 of the controller 10, the motors 2
and 3 of the controller 20. -/
def two_ctrl_pool : Int → Option MotorPool :=
  fun i =>
    if i = 1 then some ⟨1, "m1", "motor/ctrl10/1", 10, 1, false⟩
    else if i = 2 then some ⟨2, "m2", "motor/ctrl20/1", 20, 1, false⟩
    else if i = 3 then some ⟨3, "m3", "motor/ctrl20/2", 20, 2, false⟩
    else none

/-- A motion of a group that is seen MOVING in the first round and in ALARM in
the second. -/
def env_motion_alarm : MoveEnv Int :=
  ⟨[tick_in_state DevState.MOVING, tick_in_state DevState.ALARM], false, fun _ => DevState.ALARM⟩

end Pool_ns

namespace Pool_ns

/-- A pool with three motors of the controller 10, of identifiers 1, 2 and 3. -/
def three_motor_pool : Int → Option MotorPool :=
  fun i =>
    if i = 1 then some ⟨1, "m1", "motor/ctrl10/1", 10, 1, false⟩
    else if i = 2 then some ⟨2, "m2", "motor/ctrl10/2", 10, 2, false⟩
    else if i = 3 then some ⟨3, "m3", "motor/ctrl10/3", 10, 3, false⟩
    else none

/-- The motor 3 of `three_motor_pool` in a move. -/
def motor_3_in_move : MotInMove :=
  ⟨3, ⟨3, "m3", "motor/ctrl10/3", 10, 3, false⟩, 10⟩

/-- A round of the loop in which the group is read in the state `s` and the
three motors in the states `s1`, `s2` and `s3`; nothing is aborted and every
call returns. -/
def tick_of_three (s s1 s2 s3 : DevState) : Tick Int :=
  ⟨StateRead.ok s, false, fun k => if k = 0 then s1 else if k = 1 then s2 else s3,
   fun _ => false, false, env_all_ok, false⟩

/-- A motion of three motors: the first stops in the first round, the second
in the second round and has a backlash move to do, which is seen in the third
round; all have stopped in the fourth round. -/
def env_backlash_in_group : MoveEnv Int :=
  ⟨[tick_of_three DevState.MOVING DevState.ON DevState.MOVING DevState.MOVING,
    tick_of_three DevState.MOVING DevState.ON DevState.ON DevState.MOVING,
    tick_of_three DevState.MOVING DevState.ON DevState.MOVING DevState.MOVING,
    tick_of_three DevState.ON DevState.ON DevState.ON DevState.ON],
   false, fun _ => DevState.ON⟩

/-- The devices of a group of three motors as `send_to_ctrl` leaves them:
every motor and the group MOVING for the thread 7, no state event fired. -/
def st_three_in_motion : PoolSt Int :=
  ⟨fun _ => ⟨DevState.MOVING, 7, false, 0, 0, false, false⟩,
   ⟨DevState.MOVING, 7, false, false, [false, false, false]⟩, true⟩

end Pool_ns

namespace Motor_ns

open Pool_ns

section motor

variable {P : Type} [DecidableEq P] [Zero P] [Add P] [Sub P] [LT P]
  [DecidableRel (fun a b : P => a < b)]

/-- The members of a `Motor` device used by `write_Position`, apart from those
of `MotorDev`, which the motion thread reads: `backlash_depl` is
`attr_Backlash_write * depl_per_step` and `depl_per_step` is
`1 / attr_Step_per_unit_write` (Motor.cpp 860-864). -/
structure Motor (P : Type) where
  motor_id : Int
  attr_Position_write : P
  attr_Offset_write : P
  attr_Backlash_write : P
  backlash_depl : P
  depl_per_step : P
  writed_pos : P
  abort_cmd_executed : Bool

/-- The features of the controller asked by `write_Position`. -/
structure MotCtrlFiCa where
  ctrl_has_backlash : Bool
  ctrl_want_rounding : Bool
  deriving DecidableEq, Repr

/-- Lines 1622-1670 of `Motor::write_Position`: the dial position to command
and `back_pos`, from the position written, the dial position before the write
and the backlash.  `round_step dial_pos depl_per_step` stands for
`round(dial_pos / depl_per_step) * depl_per_step`.  The result is
(`dial_pos`, `back_pos`, `modified_pos`).  The sums, differences and
comparisons are those of `P`, of which no law is assumed: `back_pos` is the
sum `dial_pos + backlash_depl` of the position commanded, as the source
computes it, not the position asked. -/
def dial_target (round_step : P → P → P) (fica : MotCtrlFiCa) (m : Motor P) (old_dial : P) :
    P × P × Bool :=
  let dial_pos := m.attr_Position_write - m.attr_Offset_write
  let modified_pos : Bool :=
    if m.attr_Backlash_write ≠ 0 ∧ fica.ctrl_has_backlash = false then
      let pos_depl : Bool := decide (dial_pos > old_dial)
      if m.attr_Backlash_write > 0 then
        if pos_depl = false then true else false
      else
        if pos_depl = true then true else false
    else false
  let dial_pos1 := if modified_pos then dial_pos - m.backlash_depl else dial_pos
  let dial_pos2 := if fica.ctrl_want_rounding then round_step dial_pos1 m.depl_per_step else dial_pos1
  let back_pos := if modified_pos then dial_pos2 + m.backlash_depl else 0
  (dial_pos2, back_pos, modified_pos)

/-- What a call of `Motor::write_Position` leaves behind: the members of the
motor, the devices, whether the motion thread was created and started, the
vector of positions given to it, the vector `back_pos` of `forward_move` after
`send_to_ctrl`, the events of the call and of the thread up to the signal, the
exception thrown by a statement of the function, the exception of the thread
thrown again at the end, and whether the call comes back. -/
structure MotorWrite (P : Type) where
  mot : Motor P
  st : PoolSt P
  thread_started : Bool
  pos_vector : List P
  back_pos : List P
  evs : List (Ev P)
  err : Option Fault
  th_except : Option Failure
  returns : Bool

/-- `Motor::write_Position` (Motor.cpp 1532-1756).  `w_val` is the value
written by the client, `th_id` the identifier of the calling thread,
`new_th_id` that of the thread created, `psm_refuses` tells whether a pseudo
motor that has the motor as member refuses the position for its limits (lines
1553-1616).  A thread created without group has the `group_id` -1.  In
simulation (`simu` of the device) the state events, the read of the position
and the forced position event are fired by the function itself
(`simulated_write`). -/
def write_Position (get_motor_from_id : Int → Option MotorPool) (senv : StartEnv P)
    (round_step : P → P → P) (psm_refuses : P → Bool) (fica : MotCtrlFiCa)
    (th_id new_th_id : Int) (w_val : P) (m : Motor P) (st : PoolSt P) : MotorWrite P :=
  let old_pos := m.attr_Position_write
  let old_dial := (st.motor m.motor_id).dial_pos
  let m1 := { m with attr_Position_write := w_val }
  if (st.motor m.motor_id).mov_th_id ≠ 0 ∧ th_id ≠ (st.motor m.motor_id).mov_th_id ∧
      psm_refuses w_val = true then
    ⟨m1, st, false, [], [], [], some (Fault.DevFailed "Motor_BadParameter"), none, true⟩
  else
    let t := dial_target round_step fica m1 old_dial
    let m2 := { m1 with writed_pos := t.1 }
    let st2 := st.set_motor m.motor_id (fun d => { d with dial_pos := t.1, back_pos := t.2.1 })
    if (st.motor m.motor_id).simu = false then
      let st3 := st2.set_motor m.motor_id (fun d => { d with th_failed := false })
      let m3 := { m2 with abort_cmd_executed := false }
      if (st3.motor m.motor_id).grp_mov = false then
        let r := PoolThread.run get_motor_from_id senv [m.motor_id] [t.1] ⟨-1, new_th_id⟩ st3
        if (r.1.st.motor m.motor_id).th_failed then
          ⟨{ m3 with attr_Position_write := old_pos },
            r.1.st.set_motor m.motor_id (fun d => { d with dial_pos := old_dial }),
            true, [t.1], r.1.back_pos, r.1.evs, none, r.2, decide (Ev.signal ∈ r.1.evs)⟩
        else
          ⟨m3, r.1.st, true, [t.1], r.1.back_pos, r.1.evs, none, none,
            decide (Ev.signal ∈ r.1.evs)⟩
      else ⟨m3, st3, false, [t.1], [], [], none, none, true⟩
    else
      let r := simulated_write m.motor_id (⟨st2, [], [], [], none⟩ : Run P)
      ⟨m2, r.st, false, [], [], r.evs, none, none, true⟩

/-- The positions of the calls `StartOne` of a run, in order: the targets
commanded to the controllers. -/
def commanded : List (Ev P) → List P
  | [] => []
  | Ev.StartOne _ _ pos :: rest => pos :: commanded rest
  | _ :: rest => commanded rest

end motor

/-- The motor 1 of `one_motor_pool` with the offset 0, one unit per step and
the backlash given, last written at 100. -/
def backlash_motor (backlash : Int) : Motor Int :=
  ⟨1, 100, 0, backlash, backlash, 1, 100, false⟩

/-- A controller without backlash feature that asks for no rounding. -/
def plain_fica : MotCtrlFiCa := ⟨false, false⟩

/-- No rounding: with one unit per step an integer position is a whole number
of steps. -/
def whole_steps : Int → Int → Int := fun dial_pos _ => dial_pos

/-- The motor devices at rest at the dial position `dial`, in no move. -/
def st_at_dial (dial : Int) : PoolSt Int :=
  ⟨fun _ => ⟨DevState.ON, 0, false, dial, 0, false, false⟩, ⟨DevState.ON, 0, false, false, []⟩, false⟩

/-- The write of `pos` to the motor 1 of backlash `backlash` at rest at the
dial position 100, by the thread 3; the motion thread is the thread 7, every
call of the controller returns. -/
def write_from_100 (backlash pos : Int) : MotorWrite Int :=
  write_Position one_motor_pool env_all_ok whole_steps (fun _ => false) plain_fica 3 7 pos
    (backlash_motor backlash) (st_at_dial 100)

/-- A motion of the single motor read MOVING then ON, twice: the second pair
of rounds is for a backlash move. -/
def env_two_moves : MoveEnv Int :=
  ⟨[tick_in_state DevState.MOVING, tick_in_state DevState.ON,
    tick_in_state DevState.MOVING, tick_in_state DevState.ON], false, fun _ => DevState.ON⟩

/-- The motion thread of `write_from_100` after its signal: `moving_loop` on
the devices and the vector `back_pos` left by `send_to_ctrl`. -/
def motion_from_100 (backlash pos : Int) : Run Int × Bool :=
  moving_loop one_motor_pool 1 env_two_moves [10] (motor_1_in_move false) []
    ⟨-1, 7⟩ (write_from_100 backlash pos).back_pos DevState.UNKNOWN
    (write_from_100 backlash pos).st

end Motor_ns

namespace MotorGroup_ns

open Pool_ns

/-- One entry per controller identifier of the list, in the order of first
appearance. -/
def first_appearances : List Int → List Int
  | [] => []
  | c :: rest => c :: (first_appearances rest).filter (fun d => d != c)

/-- The elements `build_grp` builds for the motors `mots`, the first at the
index `i` of the group: the fields of line 2427-2445. -/
def ind_elts_of (user_group_elt : List String) : Int → List MotorPool → List IndMov
  | _, [] => []
  | i, mot_ref :: rest =>
    ⟨mot_ref.id, mot_ref.name, mot_ref.ctrl_id, i, mot_ref.obj_idx,
      if std_find user_group_elt mot_ref.name ≠ user_group_elt.length then
        (std_find user_group_elt mot_ref.name : Int) else -1⟩ ::
      ind_elts_of user_group_elt (i + 1) rest

end MotorGroup_ns

namespace Pool_ns

section exclusion

variable {P : Type} [DecidableEq P]

/-- The controller on which a call of the start protocol or of the read cycle
is made; `none` for the other events. -/
def Ev.batch_ctrl : Ev P → Option Int
  | Ev.PreStartAll c => some c
  | Ev.PreStartOne c _ _ => some c
  | Ev.StartOne c _ _ => some c
  | Ev.StartAll c => some c
  | Ev.PreReadAll c => some c
  | Ev.PreReadOne c _ => some c
  | Ev.ReadAll c => some c
  | Ev.ReadOne c _ => some c
  | _ => none

/-- After the events `evs` of a thread, the thread holds the lock of the
controller `c`: it has taken it more often than it has released it. -/
def holds_ctrl (c : Int) (evs : List (Ev P)) : Bool :=
  decide (evs.count (Ev.unlock_ctrl c) < evs.count (Ev.lock_ctrl c))

/-- Every call of the start protocol or of the read cycle in `evs` is made
while the thread holds the lock of the controller called. -/
def calls_under_lock (evs : List (Ev P)) : Prop :=
  ∀ (pre post : List (Ev P)) (e : Ev P) (c : Int),
    evs = pre ++ e :: post → e.batch_ctrl = some c → holds_ctrl c pre = true

end exclusion

end Pool_ns

namespace MotorGroup_ns

open Pool_ns

section sessions

variable {P : Type} [DecidableEq P] [Zero P] [Add P]

/-- Modelled from the spec: the write of the attribute `Position` of a motor
is served by a thread of the ORB under the monitor of the motor device, which
is code of Tango and not among the sources; "a physical Element may be locked
independently by exactly one in-flight Session at a time".  The monitor is
held while the motion thread of the motor runs `send_to_ctrl`: the motor lock
"is already taken by the ORB thread which executes the write_attribute
request" (PoolThread.cpp 394-397), and the writer waits for the signal of the
motion thread before it returns.  The two threads act as one party, which
takes the lock of the motor before the events `evs` and releases it after
them. -/
def under_motor_monitor (mot_id : Int) (evs : List (Ev P)) : List (Ev P) :=
  Ev.lock_mot mot_id :: evs ++ [Ev.unlock_mot mot_id]

/-- A session: the start of the motors of a group by `Pool::send_to_ctrl`, the
write of the position of one motor, whose motion thread runs
`Pool::send_to_ctrl` for this motor while the writer waits, or a read of the
positions of a group by `MotorGroup::read_Position`. -/
inductive Session (P : Type)
  | group_start (get_motor_from_id : Int → Option MotorPool) (env : StartEnv P)
      (mot_ids : List Int) (positions : List P) (th : PoolThread) (wait_flag : Bool)
      (back_pos : List P) (st : PoolSt P)
  | motor_write (get_motor_from_id : Int → Option MotorPool) (env : StartEnv P)
      (mot_id : Int) (position : P) (th : PoolThread) (back_pos : List P) (st : PoolSt P)
  | group_read (env : ReadEnv P) (cenv : CalcEnv P) (g : MotorGroup)
      (phys_mot_pos attr_Position_read : List P)

/-- The events of a session. -/
def Session.evs : Session P → List (Ev P)
  | Session.group_start get_motor_from_id env mot_ids positions th wait_flag back_pos st =>
    (send_to_ctrl get_motor_from_id env mot_ids positions th wait_flag back_pos st).evs
  | Session.motor_write get_motor_from_id env mot_id position th back_pos st =>
    under_motor_monitor mot_id
      (send_to_ctrl get_motor_from_id env [mot_id] [position] th true back_pos st).evs
  | Session.group_read env cenv g phys_mot_pos attr_Position_read =>
    (read_Position env cenv g phys_mot_pos attr_Position_read).evs

/-- The identifiers of the motors of a session. -/
def Session.elts : Session P → List Int
  | Session.group_start _ _ mot_ids _ _ _ _ _ => mot_ids
  | Session.motor_write _ _ mot_id _ _ _ _ => [mot_id]
  | Session.group_read _ _ g _ _ => g.ind_elts.map (fun m => m.id)

end sessions

end MotorGroup_ns

namespace MotorGroup_ns

open Pool_ns

end MotorGroup_ns

namespace MotorGroup_ns

open Pool_ns

/-- The pseudo motors among the user elements `elts`, as the first loop of
`build_grp_struct` finds them: an element that is in neither `motor_list` nor
`motor_group_list` is looked up as a pseudo motor. -/
def psm_members (pool : Pool) (motor_list motor_group_list : List String)
    (elts : List String) : List PseudoMotorPool :=
  elts.filterMap (fun u =>
    if std_find motor_list u ≠ motor_list.length then none
    else if std_find motor_group_list u ≠ motor_group_list.length then none
    else pool.get_pseudo_motor_from_name u)

/-- The lists `motor_list`, `motor_group_list` and `pseudo_motor_list` of the
group name user elements of the group only. -/
def lists_in_user (g : MotorGroup) : Prop :=
  ∀ x ∈ g.motor_list ++ g.motor_group_list ++ g.pseudo_motor_list,
    ∃ u ∈ g.user_group_elt, tolower u = tolower x

/-- The motor group of this name, if the pool has one, lists in `mot_ids` the
identifier of every motor of its closure. -/
def group_ids_known (pool : Pool) (name : String) : Prop :=
  ∀ grp, pool.get_motor_group_from_name name = some grp →
    ∀ n ∈ grp.phys_group_elt, ∃ m, pool.get_motor_from_name n = some m ∧ m.id ∈ grp.mot_ids

/-- A group of the motor `m` of `pseudo_pool`, as `update_elements` builds it. -/
def motor_m_group : MotorGroup :=
  ⟨100, ["m"], [], [], ["m"], ["m"], 1, 1, 1, [⟨3, "m", 10, 0, 3, 0⟩], [10],
   [GrpEltType.MOTOR], [], [], [], 0, 0⟩

/-- The group `motor_m_group` after `add_element` of the pseudo motor `pmx`,
whose motors `a` and `b` join the closure. -/
def motor_m_pmx_group : MotorGroup :=
  ⟨100, ["m"], [], ["pmx"], ["m", "pmx"], ["m", "a", "b"], 2, 3, 2,
   [⟨3, "m", 10, 0, 3, 0⟩, ⟨1, "a", 10, 1, 1, -1⟩, ⟨2, "b", 10, 2, 2, -1⟩], [10],
   [GrpEltType.MOTOR, GrpEltType.PSEUDO_MOTOR], [],
   [⟨⟨"pmx", ["a", "b"], 50, 1, 2, 2, true⟩, "pmx", 2, 1, 1, 0⟩],
   [⟨50, 2, 2, [0, -1], false, 2, 1⟩], 1, 0⟩

end MotorGroup_ns

namespace MotorGroup_ns

open Pool_ns

/-- A pool with the motors `a` and `b` of the controller 10, the motor group
`gb` of the motor `b`, and the pseudo motor `pmx` of the pseudo motor
controller 50, which has one pseudo motor role and the motor roles `a` and
`b`: `gb` and `pmx` both use the motor `b`. -/
def shared_pool : Pool :=
  ⟨[⟨1, "a", "motor/c/1", 10, 1, false⟩, ⟨2, "b", "motor/c/2", 10, 2, false⟩],
   [⟨101, "gb", [2], ["b"], 1⟩],
   [⟨"pmx", ["a", "b"], 50, 1, 1, 2, true⟩]⟩

end MotorGroup_ns

namespace Pool_ns

section

variable {P : Type} [DecidableEq P] [Zero P]

theorem same_states_refl (s : PoolSt P) : same_states s s := ⟨fun _ => rfl, rfl⟩

theorem same_states_trans {s t u : PoolSt P} (h1 : same_states s t) (h2 : same_states t u) :
    same_states s u :=
  ⟨fun i => (h2.1 i).trans (h1.1 i), h2.2.trans h1.2⟩

theorem same_states_set_motor (s : PoolSt P) (i : Int) (f : MotorDev P → MotorDev P)
    (hf : ∀ d, (f d).state = d.state) : same_states s (s.set_motor i f) := by
  refine ⟨fun j => ?_, rfl⟩
  unfold PoolSt.set_motor
  by_cases h : j = i
  · simp [h, hf]
  · simp [h]

theorem same_states_step {s t : PoolSt P} (i : Int) (f : MotorDev P → MotorDev P)
    (h : same_states s t) (hf : ∀ d, (f d).state = d.state) : same_states s (t.set_motor i f) :=
  same_states_trans h (same_states_set_motor t i f hf)

theorem set_motor_simu (s : PoolSt P) (i j : Int) (f : MotorDev P → MotorDev P)
    (hf : ∀ d, (f d).simu = d.simu) : ((s.set_motor i f).motor j).simu = (s.motor j).simu := by
  unfold PoolSt.set_motor
  by_cases h : j = i
  · simp [h, hf]
  · simp [h]

theorem same_states_but_refl (w : Int → Prop) (s : PoolSt P) : same_states_but w s s :=
  ⟨fun _ => rfl, fun _ => Or.inl rfl, rfl⟩

theorem same_states_but_mono {w w' : Int → Prop} {s t : PoolSt P} (h : same_states_but w s t)
    (hw : ∀ i, w i → w' i) : same_states_but w' s t :=
  ⟨h.1, fun i => (h.2.1 i).imp id (fun ⟨a, b, c⟩ => ⟨hw i a, b, c⟩), h.2.2⟩

theorem same_states_but_trans {w : Int → Prop} {s t u : PoolSt P} (h1 : same_states_but w s t)
    (h2 : same_states_but w t u) : same_states_but w s u := by
  refine ⟨fun i => (h2.1 i).trans (h1.1 i), fun i => ?_, h2.2.2.trans h1.2.2⟩
  rcases h2.2.1 i with h | ⟨a, b, c⟩
  · rcases h1.2.1 i with h' | ⟨a', b', c'⟩
    · exact Or.inl (h.trans h')
    · exact Or.inr ⟨a', b', h.trans c'⟩
  · exact Or.inr ⟨a, by rw [← h1.1 i]; exact b, c⟩

theorem same_states_but_of_same {w : Int → Prop} {s t : PoolSt P} (h : same_states s t)
    (hs : ∀ i, (t.motor i).simu = (s.motor i).simu) : same_states_but w s t :=
  ⟨hs, fun i => Or.inl (h.1 i), h.2⟩

theorem same_states_of_but {w : Int → Prop} {s t : PoolSt P} (h : same_states_but w s t)
    (hw : ∀ i, ¬ w i) : same_states s t :=
  ⟨fun i => (h.2.1 i).elim id (fun ⟨a, _, _⟩ => absurd a (hw i)), h.2.2⟩

theorem same_states_but_set_motor (w : Int → Prop) (s : PoolSt P) (i : Int)
    (f : MotorDev P → MotorDev P) (hf : ∀ d, (f d).state = d.state)
    (hs : ∀ d, (f d).simu = d.simu) : same_states_but w s (s.set_motor i f) :=
  same_states_but_of_same (same_states_set_motor s i f hf) (fun j => set_motor_simu s i j f hs)

theorem same_states_but_step {w : Int → Prop} {s t : PoolSt P} (i : Int)
    (f : MotorDev P → MotorDev P) (h : same_states_but w s t) (hf : ∀ d, (f d).state = d.state)
    (hs : ∀ d, (f d).simu = d.simu) : same_states_but w s (t.set_motor i f) :=
  same_states_but_trans h (same_states_but_set_motor w t i f hf hs)

@[simp] theorem emit_st (r : Run P) (e : Ev P) : (r.emit e).st = r.st := rfl

@[simp] theorem emit_evs (r : Run P) (e : Ev P) : (r.emit e).evs = r.evs ++ [e] := rfl

@[simp] theorem emit_err (r : Run P) (e : Ev P) : (r.emit e).err = r.err := rfl

@[simp] theorem emit_back_pos (r : Run P) (e : Ev P) : (r.emit e).back_pos = r.back_pos := rfl

@[simp] theorem emit_internal_events (r : Run P) (e : Ev P) :
    (r.emit e).internal_events = r.internal_events := rfl

theorem lock_motors_loop_spec (th : PoolThread) (ms : List MotInMove) (r : Run P) :
    (lock_motors_loop th ms r).evs = r.evs ++ ms.map (fun m => Ev.lock_mot m.mot_id) ∧
    (lock_motors_loop th ms r).err = r.err ∧
    (lock_motors_loop th ms r).internal_events = r.internal_events ∧
    same_states r.st (lock_motors_loop th ms r).st := by
  induction ms generalizing r with
  | nil => simp [lock_motors_loop, same_states_refl]
  | cons m rest ih =>
    simp only [lock_motors_loop]
    obtain ⟨h1, h2, h3, h5⟩ := ih ({ (r.emit (Ev.lock_mot m.mot_id)) with
      st := (r.emit (Ev.lock_mot m.mot_id)).st.set_motor m.mot_id
        (fun d => { d with mov_th_id := th.th_id }) })
    refine ⟨?_, ?_, ?_, ?_⟩
    · rw [h1]; simp
    · rw [h2]; simp
    · rw [h3]; simp
    · exact same_states_trans (same_states_set_motor r.st m.mot_id
        (fun d => { d with mov_th_id := th.th_id }) (fun _ => rfl)) h5

theorem lock_motors_spec (th : PoolThread) (ms : List MotInMove) (r : Run P) :
    (lock_motors th ms r).evs =
      r.evs ++ (if th.group_id != -1 then ms.map (fun m => Ev.lock_mot m.mot_id) else []) ∧
    (lock_motors th ms r).err = r.err ∧
    (lock_motors th ms r).internal_events = r.internal_events ∧
    same_states r.st (lock_motors th ms r).st := by
  unfold lock_motors
  cases hg : (th.group_id != -1) with
  | true =>
    obtain ⟨h1, h2, h3, h4⟩ := lock_motors_loop_spec th ms r
    simp only [if_true]
    exact ⟨h1, h2, h3, h4.1, h4.2⟩
  | false =>
    simp only [Bool.false_eq_true, if_false, List.append_nil]
    cases ms.head? with
    | none => simp [same_states_refl]
    | some m =>
      exact ⟨rfl, rfl, rfl, same_states_set_motor r.st m.mot_id
        (fun d => { d with mov_th_id := th.th_id }) (fun _ => rfl)⟩

theorem lock_ctrls_spec (cs : List Int) (r : Run P) :
    (lock_ctrls cs r).evs = r.evs ++ cs.map (fun c => Ev.lock_ctrl c) ∧
    (lock_ctrls cs r).err = r.err ∧
    (lock_ctrls cs r).internal_events = r.internal_events ∧
    (lock_ctrls cs r).st = r.st := by
  induction cs generalizing r with
  | nil => simp [lock_ctrls]
  | cons c rest ih =>
    simp only [lock_ctrls]
    obtain ⟨h1, h2, h3, h4⟩ := ih (r.emit (Ev.lock_ctrl c))
    refine ⟨?_, ?_, ?_, ?_⟩
    · rw [h1]; simp
    · rw [h2]; simp
    · rw [h3]; simp
    · rw [h4]; simp

theorem unlock_ctrls_spec (cs : List Int) (r : Run P) :
    (unlock_ctrls cs r).evs = r.evs ++ cs.map (fun c => Ev.unlock_ctrl c) ∧
    (unlock_ctrls cs r).err = r.err ∧
    (unlock_ctrls cs r).internal_events = r.internal_events ∧
    (unlock_ctrls cs r).st = r.st := by
  induction cs generalizing r with
  | nil => simp [unlock_ctrls]
  | cons c rest ih =>
    simp only [unlock_ctrls]
    obtain ⟨h1, h2, h3, h4⟩ := ih (r.emit (Ev.unlock_ctrl c))
    refine ⟨?_, ?_, ?_, ?_⟩
    · rw [h1]; simp
    · rw [h2]; simp
    · rw [h3]; simp
    · rw [h4]; simp

theorem unlock_motors_spec (ms : List MotInMove) (r : Run P) :
    (unlock_motors ms r).evs = r.evs ++ ms.map (fun m => Ev.unlock_mot m.mot_id) ∧
    (unlock_motors ms r).err = r.err ∧
    (unlock_motors ms r).internal_events = r.internal_events ∧
    (unlock_motors ms r).st = r.st := by
  induction ms generalizing r with
  | nil => simp [unlock_motors]
  | cons m rest ih =>
    simp only [unlock_motors]
    obtain ⟨h1, h2, h3, h4⟩ := ih (r.emit (Ev.unlock_mot m.mot_id))
    refine ⟨?_, ?_, ?_, ?_⟩
    · rw [h1]; simp
    · rw [h2]; simp
    · rw [h3]; simp
    · rw [h4]; simp

/-- The `PreStartAll` phase: the calls made are a prefix of the list of
controllers, the whole list when no call throws. -/
theorem PreStartAll_loop_spec (env : StartEnv P) (k : Nat) (cs : List Int) (r : Run P)
    (hr : r.err = none) :
    ∃ n, n ≤ cs.length ∧
      (PreStartAll_loop env k cs r).evs = r.evs ++ (cs.take n).map (fun c => Ev.PreStartAll c) ∧
      ((PreStartAll_loop env k cs r).err = none ∧ n = cs.length ∧
          (∀ j, j < cs.length → env.PreStartAll_throws (k + j) = false) ∨
        (PreStartAll_loop env k cs r).err = some (Failure.ctrl_failed "PreStartAll" (-1))) ∧
      (PreStartAll_loop env k cs r).internal_events = r.internal_events ∧
      (PreStartAll_loop env k cs r).st = r.st := by
  induction cs generalizing r k with
  | nil => exact ⟨0, by simp [PreStartAll_loop, hr]⟩
  | cons c rest ih =>
    simp only [PreStartAll_loop]
    by_cases ht : env.PreStartAll_throws k = true
    · refine ⟨1, by simp, ?_⟩
      simp [ht]
    · simp only [ht]
      obtain ⟨n, hn, h1, h2, h3, h4⟩ := ih (k + 1) (r.emit (Ev.PreStartAll c)) (by simp [hr])
      refine ⟨n + 1, by simp [hn], ?_, ?_, ?_, ?_⟩
      · simp [h1]
      · rcases h2 with ⟨ha, hb, hc⟩ | hb
        · left
          refine ⟨by simpa using ha, by simp [hb], ?_⟩
          intro j hj
          cases j with
          | zero => simpa using ht
          | succ j =>
            have := hc j (by simpa using hj)
            rw [← this]; congr 1; omega
        · right; simpa using hb
      · simpa using h3
      · simpa using h4

theorem lock_motors_loop_simu (th : PoolThread) (ms : List MotInMove) (r : Run P) (i : Int) :
    ((lock_motors_loop th ms r).st.motor i).simu = (r.st.motor i).simu := by
  induction ms generalizing r with
  | nil => rfl
  | cons m rest ih =>
    simp only [lock_motors_loop]
    rw [ih]
    simp only [PoolSt.set_motor, emit_st]
    split <;> rfl

theorem lock_motors_simu (th : PoolThread) (ms : List MotInMove) (r : Run P) (i : Int) :
    ((lock_motors th ms r).st.motor i).simu = (r.st.motor i).simu := by
  unfold lock_motors
  cases hg : (th.group_id != -1) with
  | true => simp only [if_true]; exact lock_motors_loop_simu th ms r i
  | false =>
    simp only [Bool.false_eq_true, if_false]
    cases ms.head? with
    | none => rfl
    | some m =>
      simp only [PoolSt.set_motor]
      split <;> rfl

theorem ctrl_calls_append (a b : List (Ev P)) : ctrl_calls (a ++ b) = ctrl_calls a ++ ctrl_calls b := by
  simp [ctrl_calls]

theorem ctrl_calls_eq_nil (a : List (Ev P))
    (h : ∀ e ∈ a, e.tag ∉ [Tag.PreStartAll, Tag.PreStartOne, Tag.StartOne, Tag.StartAll]) :
    ctrl_calls a = [] := by
  simp only [ctrl_calls, List.filter_eq_nil_iff]
  intro e he
  simpa using h e he

theorem ctrl_calls_eq_self (a : List (Ev P))
    (h : ∀ e ∈ a, e.tag ∈ [Tag.PreStartAll, Tag.PreStartOne, Tag.StartOne, Tag.StartAll]) :
    ctrl_calls a = a := by
  simp only [ctrl_calls, List.filter_eq_self]
  intro e he
  simpa using h e he

/-- The tags of the events of a simulated write. -/
theorem simu_write_evs_tags (i : Int) (e : Ev P) (he : e ∈ (simu_write_evs i : List (Ev P))) :
    e.tag = Tag.state_change ∨ e.tag = Tag.read_Position ∨ e.tag = Tag.position_change := by
  simp only [simu_write_evs, List.mem_cons, List.mem_singleton, List.not_mem_nil, or_false] at he
  rcases he with h | h | h | h <;> subst h <;> simp [Ev.tag]

/-- What the computation of the position to send does to the run. -/
theorem send_position_spec (env : StartEnv P) (th : PoolThread) (wait_flag : Bool)
    (positions : List P) (loop : Nat) (m : MotInMove) (r : Run P) (hr : r.err = none) :
    ∃ new, (send_position env th wait_flag positions loop m r).1.evs = r.evs ++ new ∧
      (∀ e ∈ new, e.tag = Tag.write_attribute ∨ simu_event th wait_flag r.st [m.mot_id] e) ∧
      same_states_but (proxy_written th wait_flag [m.mot_id]) r.st
        (send_position env th wait_flag positions loop m r).1.st ∧
      (send_position env th wait_flag positions loop m r).1.internal_events = r.internal_events ∧
      ((send_position env th wait_flag positions loop m r).1.err = none ∨
        (send_position env th wait_flag positions loop m r).1.err =
          some (Failure.ctrl_failed "NoFunc" loop)) ∧
      (send_position env th wait_flag positions loop m r).2 =
        sent_position env th wait_flag positions loop := by
  unfold send_position sent_position
  cases hg : (th.group_id != -1) with
  | false =>
    simp only [Bool.false_eq_true, if_false, false_and]
    refine ⟨[], ?_⟩
    split <;> simp [hr, same_states_but_refl]
  | true =>
    simp only [if_true, true_and]
    cases wait_flag with
    | false => exact ⟨[], by simp [hr, same_states_but_refl]⟩
    | true =>
      simp only [if_true]
      cases hw : env.write_Position loop with
      | none =>
        refine ⟨[Ev.write_attribute m.mot_id (positions.getD loop 0)], rfl, ?_, ?_, rfl,
          Or.inr rfl, rfl⟩
        · intro e he; left; simp at he; subst he; rfl
        · exact same_states_but_set_motor _ r.st m.mot_id (fun d => { d with grp_mov := true })
            (fun _ => rfl) (fun _ => rfl)
      | some db =>
        obtain ⟨dial, back⟩ := db
        have hpw : proxy_written th true [m.mot_id] m.mot_id := ⟨rfl, hg, by simp⟩
        cases hs : (r.st.motor m.mot_id).simu with
        | false =>
          refine ⟨[Ev.write_attribute m.mot_id (positions.getD loop 0)], ?_, ?_, ?_, ?_, ?_, rfl⟩
          · by_cases hb : back = 0 <;>
              simp [write_Position_end, PoolSt.set_motor, Run.emit, hs, hb]
          · intro e he; left; simp at he; subst he; rfl
          · refine ⟨fun j => ?_, fun j => Or.inl ?_, ?_⟩
            · by_cases hb : back = 0 <;> by_cases hj : j = m.mot_id <;>
                simp [write_Position_end, PoolSt.set_motor, Run.emit, hs, hb, hj]
            · by_cases hb : back = 0 <;> by_cases hj : j = m.mot_id <;>
                simp [write_Position_end, PoolSt.set_motor, Run.emit, hs, hb, hj]
            · by_cases hb : back = 0 <;>
                simp [write_Position_end, PoolSt.set_motor, Run.emit, hs, hb]
          · by_cases hb : back = 0 <;>
              simp [write_Position_end, PoolSt.set_motor, Run.emit, hs, hb]
          · left
            by_cases hb : back = 0 <;>
              simp [write_Position_end, PoolSt.set_motor, Run.emit, hs, hb, hr]
        | true =>
          refine ⟨[Ev.write_attribute m.mot_id (positions.getD loop 0)] ++
            simu_write_evs m.mot_id, ?_, ?_, ?_, ?_, ?_, rfl⟩
          · by_cases hb : back = 0 <;>
              simp [write_Position_end, simulated_write, simu_write_evs, PoolSt.set_motor,
                Run.emit, hs, hb]
          · intro e he
            rcases List.mem_append.1 he with he | he
            · left; simp at he; subst he; rfl
            · right; exact ⟨m.mot_id, hpw, hs, he⟩
          · refine ⟨fun j => ?_, fun j => ?_, ?_⟩
            · by_cases hb : back = 0 <;> by_cases hj : j = m.mot_id <;>
                simp [write_Position_end, simulated_write, PoolSt.set_motor, Run.emit, hs, hb, hj]
            · by_cases hj : j = m.mot_id
              · right
                refine ⟨by rw [hj]; exact hpw, by rw [hj]; exact hs, ?_⟩
                by_cases hb : back = 0 <;>
                  simp [write_Position_end, simulated_write, PoolSt.set_motor, Run.emit, hs, hb,
                    hj]
              · left
                by_cases hb : back = 0 <;>
                  simp [write_Position_end, simulated_write, PoolSt.set_motor, Run.emit, hs, hb,
                    hj]
            · by_cases hb : back = 0 <;>
                simp [write_Position_end, simulated_write, PoolSt.set_motor, Run.emit, hs, hb]
          · by_cases hb : back = 0 <;>
              simp [write_Position_end, simulated_write, PoolSt.set_motor, Run.emit, hs, hb]
          · left
            by_cases hb : back = 0 <;>
              simp [write_Position_end, simulated_write, PoolSt.set_motor, Run.emit, hs, hb, hr]

theorem simu_event_tag (th : PoolThread) (wait_flag : Bool) (s : PoolSt P) (ids : List Int)
    (e : Ev P) (h : simu_event th wait_flag s ids e) :
    e.tag = Tag.state_change ∨ e.tag = Tag.read_Position ∨ e.tag = Tag.position_change := by
  obtain ⟨i, _, _, he⟩ := h
  exact simu_write_evs_tags i e he

theorem simu_event_mono (th : PoolThread) (wait_flag : Bool) (s t : PoolSt P) (ids ids' : List Int)
    (e : Ev P) (hs : ∀ i, (s.motor i).simu = (t.motor i).simu) (hi : ∀ i ∈ ids, i ∈ ids')
    (h : simu_event th wait_flag s ids e) : simu_event th wait_flag t ids' e := by
  obtain ⟨i, ⟨a, b, c⟩, d, he⟩ := h
  exact ⟨i, ⟨a, b, hi i c⟩, by rw [← hs i]; exact d, he⟩

theorem ctrl_calls_simu (th : PoolThread) (wait_flag : Bool) (s : PoolSt P) (ids : List Int)
    (w : List (Ev P))
    (h : ∀ e ∈ w, e.tag = Tag.write_attribute ∨ simu_event th wait_flag s ids e) :
    ctrl_calls w = [] := by
  refine ctrl_calls_eq_nil w (fun e he => ?_)
  rcases h e he with h | h
  · rw [h]; decide
  · rcases simu_event_tag th wait_flag s ids e h with h | h | h <;> rw [h] <;> decide

theorem start_motor_spec (env : StartEnv P) (th : PoolThread) (wait_flag : Bool)
    (positions : List P) (loop : Nat) (m : MotInMove) (r : Run P) (hr : r.err = none) :
    ∃ new, (start_motor env th wait_flag positions loop m r).evs = r.evs ++ new ∧
      (∀ e ∈ new, e.tag ∈ motor_tags ∨ simu_event th wait_flag r.st [m.mot_id] e) ∧
      same_states_but (proxy_written th wait_flag [m.mot_id]) r.st
        (start_motor env th wait_flag positions loop m r).st ∧
      (start_motor env th wait_flag positions loop m r).internal_events = r.internal_events ∧
      (((start_motor env th wait_flag positions loop m r).err = none ∧
          ctrl_calls new =
            [Ev.PreStartOne m.ctrl_id m.mot.obj_idx
               (sent_position env th wait_flag positions loop),
             Ev.StartOne m.ctrl_id m.mot.obj_idx
               (sent_position env th wait_flag positions loop)]) ∨
        ∃ f, (start_motor env th wait_flag positions loop m r).err =
            some (Failure.ctrl_failed f loop) ∧ f ≠ "StartAll" ∧ f ≠ "PreStartAll") := by
  obtain ⟨w, h1, h2, h3, h4, h5, h6⟩ := send_position_spec env th wait_flag positions loop m r hr
  have hw : ctrl_calls w = [] := ctrl_calls_simu th wait_flag r.st [m.mot_id] w h2
  have hwt : ∀ e ∈ w, e.tag ∈ motor_tags ∨ simu_event th wait_flag r.st [m.mot_id] e := by
    intro e he
    rcases h2 e he with h | h
    · left; rw [h]; decide
    · right; exact h
  unfold start_motor
  rcases h5 with h5 | h5
  · simp only [h5, Option.isSome_none, Bool.false_eq_true, if_false]
    cases hp : env.PreStartOne loop with
    | throws =>
      refine ⟨w ++ [Ev.PreStartOne m.ctrl_id m.mot.obj_idx
        (send_position env th wait_flag positions loop m r).2], ?_, ?_, h3, h4, Or.inr ?_⟩
      · simp [h1]
      · intro e he
        rcases List.mem_append.1 he with he | he
        · exact hwt e he
        · left; simp at he; subst he; simp [Ev.tag, motor_tags]
      · exact ⟨"PreStartOne", rfl, by decide, by decide⟩
    | ret_false =>
      refine ⟨w ++ [Ev.PreStartOne m.ctrl_id m.mot.obj_idx
        (send_position env th wait_flag positions loop m r).2], ?_, ?_, h3, h4, Or.inr ?_⟩
      · simp [h1]
      · intro e he
        rcases List.mem_append.1 he with he | he
        · exact hwt e he
        · left; simp at he; subst he; simp [Ev.tag, motor_tags]
      · exact ⟨"PreStartOne", rfl, by decide, by decide⟩
    | ret_true =>
      refine ⟨w ++ [Ev.PreStartOne m.ctrl_id m.mot.obj_idx
          (send_position env th wait_flag positions loop m r).2,
        Ev.StartOne m.ctrl_id m.mot.obj_idx
          (send_position env th wait_flag positions loop m r).2], ?_, ?_, ?_, ?_, ?_⟩
      · simp only; split <;> simp [h1]
      · intro e he
        rcases List.mem_append.1 he with he | he
        · exact hwt e he
        · left; simp at he; rcases he with he | he <;> subst he <;> simp [Ev.tag, motor_tags]
      · simp only; split <;> exact h3
      · simp only; split <;> exact h4
      · by_cases hs : env.StartOne_throws loop = true
        · right
          exact ⟨"StartOne", by simp [hs], by decide, by decide⟩
        · left
          refine ⟨by simp [hs, h5], ?_⟩
          rw [ctrl_calls_append, hw, h6]
          simp [ctrl_calls, Ev.tag]
  · refine ⟨w, ?_, hwt, ?_, ?_, Or.inr ⟨"NoFunc", ?_, by decide, by decide⟩⟩ <;>
      simp [h5, h1, h3, h4]

theorem start_calls_cons (m : MotInMove) (ms : List MotInMove) (p : P) (ps : List P) :
    start_calls (m :: ms) (p :: ps) =
      Ev.PreStartOne m.ctrl_id m.mot.obj_idx p :: Ev.StartOne m.ctrl_id m.mot.obj_idx p ::
        start_calls ms ps := rfl

theorem start_motors_loop_spec (env : StartEnv P) (th : PoolThread) (wait_flag : Bool)
    (positions : List P) (loop : Nat) (ms : List MotInMove) (r : Run P) (hr : r.err = none) :
    ∃ new, (start_motors_loop env th wait_flag positions loop ms r).evs = r.evs ++ new ∧
      (∀ e ∈ new, e.tag ∈ motor_tags ∨
        simu_event th wait_flag r.st (ms.map (fun m => m.mot_id)) e) ∧
      same_states_but (proxy_written th wait_flag (ms.map (fun m => m.mot_id))) r.st
        (start_motors_loop env th wait_flag positions loop ms r).st ∧
      (start_motors_loop env th wait_flag positions loop ms r).internal_events =
        r.internal_events ∧
      (((start_motors_loop env th wait_flag positions loop ms r).err = none ∧
          ctrl_calls new =
            start_calls ms (sent_positions env th wait_flag positions loop ms.length)) ∨
        ∃ f l, (start_motors_loop env th wait_flag positions loop ms r).err =
            some (Failure.ctrl_failed f l) ∧ f ≠ "StartAll" ∧ f ≠ "PreStartAll") := by
  induction ms generalizing r loop with
  | nil =>
    exact ⟨[], by simp [start_motors_loop], by simp, same_states_but_refl _ _, rfl,
      Or.inl ⟨hr, rfl⟩⟩
  | cons m rest ih =>
    obtain ⟨n1, a1, a2, a3, a4, a5⟩ := start_motor_spec env th wait_flag positions loop m r hr
    have hmono : ∀ i, proxy_written th wait_flag [m.mot_id] i →
        proxy_written th wait_flag ((m :: rest).map (fun m => m.mot_id)) i := by
      intro i ⟨x, y, z⟩
      exact ⟨x, y, by simp at z; simp [z]⟩
    have hmono2 : ∀ i, proxy_written th wait_flag (rest.map (fun m => m.mot_id)) i →
        proxy_written th wait_flag ((m :: rest).map (fun m => m.mot_id)) i := by
      intro i ⟨x, y, z⟩
      exact ⟨x, y, by simp at z ⊢; exact Or.inr z⟩
    have ha2 : ∀ e ∈ n1, e.tag ∈ motor_tags ∨
        simu_event th wait_flag r.st ((m :: rest).map (fun m => m.mot_id)) e := by
      intro e he
      rcases a2 e he with h | h
      · exact Or.inl h
      · exact Or.inr (simu_event_mono th wait_flag _ _ _ _ e (fun _ => rfl)
          (by intro i hi; simp at hi; simp [hi]) h)
    simp only [start_motors_loop]
    rcases a5 with ⟨a5, hp⟩ | ⟨f, a5, hf⟩
    · simp only [a5, Option.isSome_none, Bool.false_eq_true, if_false]
      obtain ⟨n2, b1, b2, b3, b4, b5⟩ := ih (loop + 1) _ a5
      refine ⟨n1 ++ n2, ?_, ?_, same_states_but_trans (same_states_but_mono a3 hmono)
        (same_states_but_mono b3 hmono2), by rw [b4, a4], ?_⟩
      · rw [b1, a1]; simp
      · intro e he
        rcases List.mem_append.1 he with he | he
        · exact ha2 e he
        · rcases b2 e he with h | h
          · exact Or.inl h
          · exact Or.inr (simu_event_mono th wait_flag _ _ _ _ e (fun i => a3.1 i)
              (by intro i hi; simp at hi ⊢; exact Or.inr hi) h)
      · rcases b5 with ⟨b5, hts⟩ | b5
        · left
          refine ⟨b5, ?_⟩
          rw [ctrl_calls_append, hp, hts]
          simp [sent_positions, List.range'_succ, start_calls_cons]
        · right; exact b5
    · refine ⟨n1, ?_, ha2, ?_, ?_, Or.inr ⟨f, loop, ?_, hf⟩⟩
      · simp [a5, a1]
      · simpa [a5] using same_states_but_mono a3 hmono
      · simp [a5, a4]
      · simp [a5]

theorem set_motor_state_eq (s : PoolSt P) (i j : Int) (x : DevState) :
    ((s.set_motor i (fun d => { d with state := x })).motor j).state =
      if j = i then x else (s.motor j).state := by
  unfold PoolSt.set_motor
  by_cases h : j = i <;> simp [h]

theorem set_motor_moving_spec (wait_flag : Bool) (m : MotInMove) (r : Run P) :
    ∃ new q, (set_motor_moving wait_flag m r).evs = r.evs ++ new ∧
      (∀ e ∈ new, e.tag = Tag.state_change) ∧
      (set_motor_moving wait_flag m r).internal_events = r.internal_events ++ q ∧
      (∀ e ∈ q, e.tag = Tag.elem_state_change) ∧
      (set_motor_moving wait_flag m r).err = r.err ∧
      (∀ i, (((set_motor_moving wait_flag m r).st.motor i).state =
        if i = m.mot_id then DevState.MOVING else (r.st.motor i).state)) ∧
      (set_motor_moving wait_flag m r).st.group = r.st.group := by
  unfold set_motor_moving
  cases wait_flag with
  | false => exact ⟨[], [], by simp [set_motor_state_eq]; rfl⟩
  | true =>
    by_cases hl : m.mot.has_listeners = true
    · refine ⟨[Ev.state_change (Src.mot m.mot_id) DevState.MOVING],
        [Ev.elem_state_change (Src.mot m.mot_id) (r.st.motor m.mot_id).state DevState.MOVING], ?_⟩
      simp [hl, Ev.tag, set_motor_state_eq]; rfl
    · refine ⟨[Ev.state_change (Src.mot m.mot_id) DevState.MOVING], [], ?_⟩
      simp [hl, Ev.tag, set_motor_state_eq]; rfl

theorem set_motors_moving_spec (wait_flag : Bool) (ms : List MotInMove) (r : Run P) :
    ∃ new q, (set_motors_moving wait_flag ms r).evs = r.evs ++ new ∧
      (∀ e ∈ new, e.tag = Tag.state_change) ∧
      (set_motors_moving wait_flag ms r).internal_events = r.internal_events ++ q ∧
      (∀ e ∈ q, e.tag = Tag.elem_state_change) ∧
      (set_motors_moving wait_flag ms r).err = r.err ∧
      (∀ i, (((set_motors_moving wait_flag ms r).st.motor i).state =
        if i ∈ ms.map (fun m => m.mot_id) then DevState.MOVING else (r.st.motor i).state)) ∧
      (set_motors_moving wait_flag ms r).st.group = r.st.group := by
  induction ms generalizing r with
  | nil => exact ⟨[], [], by simp [set_motors_moving]⟩
  | cons m rest ih =>
    simp only [set_motors_moving]
    obtain ⟨n1, q1, a1, a2, a3, a4, a5, a6, a7⟩ := set_motor_moving_spec wait_flag m r
    obtain ⟨n, q, h1, h2, h3, h4, h5, h6, h7⟩ := ih (set_motor_moving wait_flag m r)
    refine ⟨n1 ++ n, q1 ++ q, ?_, ?_, ?_, ?_, h5.trans a5, ?_, h7.trans a7⟩
    · rw [h1, a1]; simp
    · intro e he
      rcases List.mem_append.1 he with he | he
      · exact a2 e he
      · exact h2 e he
    · rw [h3, a3]; simp
    · intro e he
      rcases List.mem_append.1 he with he | he
      · exact a4 e he
      · exact h4 e he
    · intro i
      rw [h6 i, a6 i]
      by_cases hi : i = m.mot_id <;> simp [hi]

theorem set_group_moving_spec (th : PoolThread) (wait_flag : Bool) (r : Run P) :
    ∃ new q, (set_group_moving th wait_flag r).evs = r.evs ++ new ∧
      (∀ e ∈ new, e.tag = Tag.state_change) ∧
      (set_group_moving th wait_flag r).internal_events = r.internal_events ++ q ∧
      (∀ e ∈ q, e.tag = Tag.elem_state_change) ∧
      (set_group_moving th wait_flag r).err = r.err ∧
      (set_group_moving th wait_flag r).st.motor = r.st.motor ∧
      (set_group_moving th wait_flag r).st.group.state =
        (if th.group_id != -1 then DevState.MOVING else r.st.group.state) := by
  unfold set_group_moving
  cases hg : (th.group_id != -1) with
  | false => exact ⟨[], [], by simp⟩
  | true =>
    simp only [if_true]
    cases wait_flag with
    | false => exact ⟨[], [], by simp⟩
    | true =>
      simp only [if_true]
      by_cases hl : r.st.group.has_listeners = true
      · refine ⟨[Ev.state_change Src.grp DevState.MOVING],
          [Ev.elem_state_change Src.grp r.st.group.state DevState.MOVING], ?_⟩
        simp [hl, Ev.tag]
      · refine ⟨[Ev.state_change Src.grp DevState.MOVING], [], ?_⟩
        simp [hl, Ev.tag]

theorem StartAll_loop_spec (env : StartEnv P) (k : Nat) (cs : List Int) (r : Run P)
    (hr : r.err = none) :
    ∃ n, n ≤ cs.length ∧
      (StartAll_loop env k cs r).evs = r.evs ++ (cs.take n).map (fun c => Ev.StartAll c) ∧
      ((StartAll_loop env k cs r).err = none ∧ n = cs.length ∨
        (StartAll_loop env k cs r).err = some (Failure.ctrl_failed "StartAll" (-1))) ∧
      (StartAll_loop env k cs r).internal_events = r.internal_events ∧
      (StartAll_loop env k cs r).st = r.st := by
  induction cs generalizing r k with
  | nil => exact ⟨0, by simp [StartAll_loop, hr]⟩
  | cons c rest ih =>
    simp only [StartAll_loop]
    by_cases ht : env.StartAll_throws k = true
    · refine ⟨1, by simp, ?_⟩
      simp [ht]
    · simp only [ht]
      obtain ⟨n, hn, h1, h2, h3, h4⟩ := ih (k + 1) (r.emit (Ev.StartAll c)) (by simp [hr])
      refine ⟨n + 1, by simp [hn], ?_, ?_, ?_, ?_⟩
      · simp [h1]
      · rcases h2 with ⟨ha, hb⟩ | hb
        · left; exact ⟨by simpa using ha, by simp [hb]⟩
        · right; simpa using hb
      · simpa using h3
      · simpa using h4

theorem reset_motor_ON_spec (m : MotInMove) (r : Run P) :
    ∃ new, (reset_motor_ON m r).evs = r.evs ++ new ∧
      (∀ e ∈ new, e.tag ∈ reset_tags) ∧
      (reset_motor_ON m r).internal_events = r.internal_events ∧
      (reset_motor_ON m r).err = r.err ∧
      (∀ i, (((reset_motor_ON m r).st.motor i).state =
        if i = m.mot_id then DevState.ON else (r.st.motor i).state)) ∧
      (reset_motor_ON m r).st.group = r.st.group ∧
      Ev.state_change (Src.mot m.mot_id) DevState.ON ∈ new ∧
      (∀ src s, Ev.state_change src s ∈ new → src = Src.mot m.mot_id ∧ s = DevState.ON) := by
  unfold reset_motor_ON
  by_cases hl : m.mot.has_listeners = true
  · refine ⟨[Ev.state_change (Src.mot m.mot_id) DevState.ON,
      Ev.elem_state_change (Src.mot m.mot_id) (r.st.motor m.mot_id).state DevState.ON], ?_⟩
    simp [hl, Ev.tag, reset_tags, set_motor_state_eq]; rfl
  · refine ⟨[Ev.state_change (Src.mot m.mot_id) DevState.ON], ?_⟩
    simp [hl, Ev.tag, reset_tags, set_motor_state_eq]; rfl

theorem reset_motors_ON_spec (ms : List MotInMove) (r : Run P) :
    ∃ new, (reset_motors_ON ms r).evs = r.evs ++ new ∧
      (∀ e ∈ new, e.tag ∈ reset_tags) ∧
      (reset_motors_ON ms r).internal_events = r.internal_events ∧
      (reset_motors_ON ms r).err = r.err ∧
      (∀ i, (((reset_motors_ON ms r).st.motor i).state =
        if i ∈ ms.map (fun m => m.mot_id) then DevState.ON else (r.st.motor i).state)) ∧
      (reset_motors_ON ms r).st.group = r.st.group ∧
      (∀ m ∈ ms, Ev.state_change (Src.mot m.mot_id) DevState.ON ∈ new) ∧
      (∀ src s, Ev.state_change src s ∈ new →
        (∃ m ∈ ms, src = Src.mot m.mot_id) ∧ s = DevState.ON) := by
  induction ms generalizing r with
  | nil => exact ⟨[], by simp [reset_motors_ON]⟩
  | cons m rest ih =>
    simp only [reset_motors_ON]
    obtain ⟨n1, a1, a2, a3, a5, a6, a7, a8, a9⟩ := reset_motor_ON_spec m r
    obtain ⟨n, h1, h2, h3, h5, h6, h7, h8, h9⟩ := ih (reset_motor_ON m r)
    refine ⟨n1 ++ n, ?_, ?_, h3.trans a3, h5.trans a5, ?_, h7.trans a7, ?_, ?_⟩
    · rw [h1, a1]; simp
    · intro e he
      rcases List.mem_append.1 he with he | he
      · exact a2 e he
      · exact h2 e he
    · intro i
      rw [h6 i, a6 i]
      by_cases hi : i = m.mot_id <;> simp [hi]
    · intro x hx
      rcases List.mem_cons.1 hx with hx | hx
      · subst hx; exact List.mem_append_left _ a8
      · exact List.mem_append_right _ (h8 x hx)
    · intro src s hs
      rcases List.mem_append.1 hs with hs | hs
      · obtain ⟨e1, e2⟩ := a9 src s hs
        exact ⟨⟨m, List.mem_cons_self _ _, e1⟩, e2⟩
      · obtain ⟨⟨x, hx, e1⟩, e2⟩ := h9 src s hs
        exact ⟨⟨x, List.mem_cons_of_mem _ hx, e1⟩, e2⟩

theorem reset_group_ON_spec (th : PoolThread) (r : Run P) :
    ∃ new, (reset_group_ON th r).evs = r.evs ++ new ∧
      (∀ e ∈ new, e.tag ∈ reset_tags) ∧
      (reset_group_ON th r).internal_events = r.internal_events ∧
      (reset_group_ON th r).err = r.err ∧
      (reset_group_ON th r).st.motor = r.st.motor ∧
      (reset_group_ON th r).st.group.state =
        (if th.group_id != -1 then DevState.ON else r.st.group.state) ∧
      ((th.group_id != -1) = true → Ev.state_change Src.grp DevState.ON ∈ new) ∧
      (∀ src s, Ev.state_change src s ∈ new → src = Src.grp ∧ s = DevState.ON) := by
  unfold reset_group_ON
  cases hg : (th.group_id != -1) with
  | false => exact ⟨[], by simp⟩
  | true =>
    simp only [if_true]
    by_cases hl : r.st.group.has_listeners = true
    · refine ⟨[Ev.state_change Src.grp DevState.ON,
        Ev.elem_state_change Src.grp r.st.group.state DevState.ON], ?_⟩
      simp [hl, Ev.tag, reset_tags]
    · refine ⟨[Ev.state_change Src.grp DevState.ON], ?_⟩
      simp [hl, Ev.tag, reset_tags]

theorem PreStartAll_loop_st (env : StartEnv P) (k : Nat) (cs : List Int) (r : Run P) :
    (PreStartAll_loop env k cs r).st = r.st := by
  induction cs generalizing r k with
  | nil => rfl
  | cons c rest ih =>
    simp only [PreStartAll_loop]
    split
    · rfl
    · rw [ih]; rfl

theorem try_start_spec (env : StartEnv P) (th : PoolThread) (wait_flag : Bool)
    (positions : List P) (cs : List Int) (ms : List MotInMove) (r : Run P) (hr : r.err = none) :
    same_states_but (proxy_written th wait_flag (ms.map (fun m => m.mot_id))) r.st
      (try_start env th wait_flag positions cs ms r).st ∧
    (try_start env th wait_flag positions cs ms r).internal_events = r.internal_events ∧
    ((∃ n, (try_start env th wait_flag positions cs ms r).err =
          some (Failure.ctrl_failed "PreStartAll" (-1)) ∧
        (try_start env th wait_flag positions cs ms r).evs =
          r.evs ++ lock_evs th ms cs ++ (cs.take n).map (fun c => Ev.PreStartAll c) ∧
        same_states r.st (try_start env th wait_flag positions cs ms r).st) ∨
     (∃ A, (∀ e ∈ A, e.tag ∈ motor_tags ∨
          simu_event th wait_flag r.st (ms.map (fun m => m.mot_id)) e) ∧
        (∀ j, j < cs.length → env.PreStartAll_throws j = false) ∧
        (try_start env th wait_flag positions cs ms r).evs =
          r.evs ++ lock_evs th ms cs ++ cs.map (fun c => Ev.PreStartAll c) ++ A ∧
        (((try_start env th wait_flag positions cs ms r).err = none ∧
            ctrl_calls A =
              start_calls ms (sent_positions env th wait_flag positions 0 ms.length)) ∨
          ∃ f l, (try_start env th wait_flag positions cs ms r).err =
              some (Failure.ctrl_failed f l) ∧ f ≠ "StartAll" ∧ f ≠ "PreStartAll"))) := by
  unfold try_start
  obtain ⟨a1, a2, a3, a4⟩ := lock_motors_spec th ms r
  obtain ⟨b1, b2, b3, b4⟩ := lock_ctrls_spec cs (lock_motors th ms r)
  have hl : (lock_ctrls cs (lock_motors th ms r)).err = none := by rw [b2, a2, hr]
  have hle : (lock_ctrls cs (lock_motors th ms r)).evs = r.evs ++ lock_evs th ms cs := by
    rw [b1, a1]; simp [lock_evs]
  have hsim : ∀ i, ((lock_ctrls cs (lock_motors th ms r)).st.motor i).simu =
      (r.st.motor i).simu := by
    intro i; rw [b4]; exact lock_motors_simu th ms r i
  have hsame : same_states r.st (lock_ctrls cs (lock_motors th ms r)).st := by
    rw [b4]; exact a4
  simp only [Run.andThen, hl, Option.isSome_none, Bool.false_eq_true, if_false]
  obtain ⟨n, hn, c1, c2, c3, c4⟩ := PreStartAll_loop_spec env 0 cs _ hl
  rcases c2 with ⟨c2, hnl, hno⟩ | c2
  · have hs : (PreStartAll_loop env 0 cs (lock_ctrls cs (lock_motors th ms r))).err.isSome = false := by
      rw [c2]; rfl
    simp only [hs, Bool.false_eq_true, if_false]
    obtain ⟨A, d1, d2, d3, d4, d5⟩ :=
      start_motors_loop_spec env th wait_flag positions 0 ms _ c2
    refine ⟨?_, ?_, Or.inr ⟨A, ?_, ?_, ?_, d5⟩⟩
    · refine same_states_but_trans (same_states_but_of_same ?_ ?_) d3
      · rw [c4]; exact hsame
      · intro i; rw [c4]; exact hsim i
    · rw [d4, c3, b3, a3]
    · intro e he
      rcases d2 e he with h | h
      · exact Or.inl h
      · refine Or.inr (simu_event_mono th wait_flag _ _ _ _ e ?_ (fun _ h => h) h)
        intro i; rw [c4]; exact hsim i
    · intro j hj; simpa using hno j hj
    · rw [d1, c1, hle, hnl]; simp
  · have hs : (PreStartAll_loop env 0 cs (lock_ctrls cs (lock_motors th ms r))).err.isSome = true := by
      rw [c2]; rfl
    simp only [hs, if_true]
    refine ⟨?_, ?_, Or.inl ⟨n, c2, ?_, ?_⟩⟩
    · refine same_states_but_of_same ?_ ?_
      · rw [c4]; exact hsame
      · intro i; rw [c4]; exact hsim i
    · rw [c3, b3, a3]
    · rw [c1, hle]
    · rw [c4]; exact hsame

theorem catch_start_false_spec (th : PoolThread) (cs : List Int) (ms : List MotInMove)
    (r : Run P) (f : String) (l : Int) (hr : r.err = some (Failure.ctrl_failed f l)) :
    (catch_start th cs ms false r).err = some (Failure.ctrl_failed f l) ∧
    (catch_start th cs ms false r).evs = r.evs ++ unlock_evs th ms cs ∧
    same_states r.st (catch_start th cs ms false r).st := by
  unfold catch_start
  simp only [hr, Failure.except_func, Failure.loop]
  unfold manage_thread_exception
  refine ⟨rfl, ?_⟩
  obtain ⟨u1, u2, u3, u4⟩ := unlock_ctrls_spec cs ({ r with err := none } : Run P)
  simp only [Bool.false_eq_true, if_false]
  cases hg : (th.group_id != -1) with
  | false =>
    simp only [Bool.false_eq_true, if_false]
    refine ⟨by simp [u1, unlock_evs, hg], ?_⟩
    rw [u4]; exact same_states_refl _
  | true =>
    simp only [if_true]
    refine ⟨?_, ?_⟩
    · rw [(unlock_motors_spec ms _).1, u1]; simp [unlock_evs, hg]
    · rw [(unlock_motors_spec ms _).2.2.2, u4]; exact same_states_refl _

theorem catch_start_false_st (th : PoolThread) (cs : List Int) (ms : List MotInMove)
    (r : Run P) (f : String) (l : Int) (hr : r.err = some (Failure.ctrl_failed f l)) :
    (catch_start th cs ms false r).st = r.st := by
  unfold catch_start
  simp only [hr, Failure.except_func, Failure.loop]
  unfold manage_thread_exception
  obtain ⟨u1, u2, u3, u4⟩ := unlock_ctrls_spec cs ({ r with err := none } : Run P)
  simp only [Bool.false_eq_true, if_false]
  cases hg : (th.group_id != -1) with
  | false => simp only [Bool.false_eq_true, if_false]; rw [u4]
  | true => simp only [if_true]; rw [(unlock_motors_spec ms _).2.2.2, u4]

theorem catch_start_true_spec (th : PoolThread) (cs : List Int) (ms : List MotInMove)
    (r : Run P) (f : String) (l : Int) (hr : r.err = some (Failure.ctrl_failed f l)) :
    (catch_start th cs ms true r).err = some (Failure.ctrl_failed f l) ∧
    ∃ R, (catch_start th cs ms true r).evs =
        r.evs ++ cs.map (fun c => Ev.unlock_ctrl c) ++ R ++
          (if th.group_id != -1 then ms.map (fun m => Ev.unlock_mot m.mot_id) else []) ∧
      (∀ e ∈ R, e.tag ∈ reset_tags) ∧
      (∀ i, ((catch_start th cs ms true r).st.motor i).state =
          if i ∈ ms.map (fun m => m.mot_id) then DevState.ON else (r.st.motor i).state) ∧
      (catch_start th cs ms true r).st.group.state =
          (if th.group_id != -1 then DevState.ON else r.st.group.state) ∧
      (∀ m ∈ ms, Ev.state_change (Src.mot m.mot_id) DevState.ON ∈ R) ∧
      ((th.group_id != -1) = true → Ev.state_change Src.grp DevState.ON ∈ R) ∧
      (∀ src s, Ev.state_change src s ∈ R → s = DevState.ON) := by
  unfold catch_start
  simp only [hr, Failure.except_func, Failure.loop]
  unfold manage_thread_exception
  refine ⟨rfl, ?_⟩
  obtain ⟨u1, u2, u3, u4⟩ := unlock_ctrls_spec cs ({ r with err := none } : Run P)
  simp only [if_true]
  obtain ⟨R1, m1, m2, m3, m4, m5, m6, m7, m8⟩ :=
    reset_motors_ON_spec ms (unlock_ctrls cs ({ r with err := none } : Run P))
  obtain ⟨R2, g1, g2, g3, g4, g5, g6, g7, g8⟩ :=
    reset_group_ON_spec th (reset_motors_ON ms (unlock_ctrls cs ({ r with err := none } : Run P)))
  have hR : ∀ e ∈ R1 ++ R2, e.tag ∈ reset_tags := by
    intro e he
    rcases List.mem_append.1 he with he | he
    · exact m2 e he
    · exact g2 e he
  have hst : ∀ i, ((reset_group_ON th (reset_motors_ON ms
      (unlock_ctrls cs ({ r with err := none } : Run P)))).st.motor i).state =
        if i ∈ ms.map (fun m => m.mot_id) then DevState.ON else (r.st.motor i).state := by
    intro i; rw [g5, m5 i, u4]
  have hgs : (reset_group_ON th (reset_motors_ON ms
      (unlock_ctrls cs ({ r with err := none } : Run P)))).st.group.state =
        (if th.group_id != -1 then DevState.ON else r.st.group.state) := by
    rw [g6, m6, u4]
  have hON : ∀ src s, Ev.state_change src s ∈ R1 ++ R2 → s = DevState.ON := by
    intro src s hs
    rcases List.mem_append.1 hs with hs | hs
    · exact (m8 src s hs).2
    · exact (g8 src s hs).2
  refine ⟨R1 ++ R2, ?_, hR, ?_⟩
  · cases hg : (th.group_id != -1) with
    | false => simp [g1, m1, u1]
    | true =>
      simp only [if_true]
      rw [(unlock_motors_spec ms _).1, g1, m1, u1]; simp
  · have hrest : (∀ m ∈ ms, Ev.state_change (Src.mot m.mot_id) DevState.ON ∈ R1 ++ R2) ∧
        ((th.group_id != -1) = true → Ev.state_change Src.grp DevState.ON ∈ R1 ++ R2) ∧
        (∀ src s, Ev.state_change src s ∈ R1 ++ R2 → s = DevState.ON) :=
      ⟨fun m hm => List.mem_append_left _ (m7 m hm),
        fun h => List.mem_append_right _ (g7 h), hON⟩
    cases hg : (th.group_id != -1) with
    | false =>
      simp only [Bool.false_eq_true, if_false]
      rw [hg] at hgs
      exact ⟨hst, hgs, hrest.1, fun h => absurd h (by simp), hrest.2.2⟩
    | true =>
      simp only [if_true]
      rw [hg] at hgs
      rw [(unlock_motors_spec ms _).2.2.2]
      exact ⟨hst, hgs, hrest.1, fun _ => hrest.2.1 hg, hrest.2.2⟩

theorem finish_start_spec (th : PoolThread) (cs : List Int) (ms : List MotInMove) (r : Run P) :
    (finish_start th cs ms r).err = r.err ∧
    (finish_start th cs ms r).evs =
      r.evs ++ unlock_evs th ms cs ++ [Ev.signal] ++ r.internal_events ∧
    same_states r.st (finish_start th cs ms r).st := by
  unfold finish_start
  obtain ⟨u1, u2, u3, u4⟩ := unlock_ctrls_spec cs r
  obtain ⟨v1, v2, v3, v4⟩ := unlock_motors_spec ms (unlock_ctrls cs r)
  cases hg : (th.group_id != -1) with
  | false =>
    have hg2 : th.group_id = -1 := by simpa using hg
    simp only [Bool.false_eq_true, if_false, hg2, if_true]
    cases ms.head? with
    | none => simp [u1, u2, u3, u4, unlock_evs, hg, same_states_refl]
    | some m =>
      refine ⟨by simp [u2], by simp [u1, u3, unlock_evs, hg], ?_⟩
      simp only [emit_st]
      rw [u4]
      refine same_states_step _ _ (same_states_refl _) (by intro d; rfl)
  | true =>
    have hg2 : ¬ th.group_id = -1 := by simpa using hg
    simp only [if_true, hg2, if_false]
    refine ⟨by simp [v2, u2], by simp [v1, u1, v3, u3, unlock_evs, hg], ?_⟩
    simp only [emit_st]
    rw [v4, u4]
    exact ⟨fun _ => rfl, rfl⟩

theorem find_implied_ids (g : Int → Option MotorPool) (ids : List Int) (am : List MotInMove)
    (ac : List Int) (ms : List MotInMove) (cs : List Int)
    (h : find_implied g ids am ac = .ok (ms, cs)) :
    ms.map (fun m => m.mot_id) = am.map (fun m => m.mot_id) ++ ids := by
  induction ids generalizing am ac with
  | nil =>
    simp only [find_implied, Except.ok.injEq, Prod.mk.injEq] at h
    simp [h.1]
  | cons i rest ih =>
    simp only [find_implied] at h
    cases hg : g i with
    | none => simp [hg] at h
    | some mp =>
      simp only [hg] at h
      rw [ih _ _ h]
      simp

/-- The shape of every run of `send_to_ctrl` whose motors are all known to the pool. -/
theorem send_to_ctrl_shape (g : Int → Option MotorPool) (env : StartEnv P) (ids : List Int)
    (positions : List P) (th : PoolThread) (wait_flag : Bool) (bp : List P) (st : PoolSt P)
    (ms : List MotInMove) (cs : List Int) (hf : find_implied g ids [] [] = .ok (ms, cs)) :
    (∃ n, (send_to_ctrl g env ids positions th wait_flag bp st).err =
          some (Failure.ctrl_failed "PreStartAll" (-1)) ∧
        (send_to_ctrl g env ids positions th wait_flag bp st).evs =
          lock_evs th ms cs ++ (cs.take n).map (fun c => Ev.PreStartAll c) ++ unlock_evs th ms cs ∧
        same_states st (send_to_ctrl g env ids positions th wait_flag bp st).st) ∨
    (∃ A, (∀ e ∈ A, e.tag ∈ motor_tags ∨ simu_event th wait_flag st ids e) ∧
      (∀ j, j < cs.length → env.PreStartAll_throws j = false) ∧
      ((∃ f l, (send_to_ctrl g env ids positions th wait_flag bp st).err =
            some (Failure.ctrl_failed f l) ∧ f ≠ "StartAll" ∧ f ≠ "PreStartAll" ∧
          (send_to_ctrl g env ids positions th wait_flag bp st).evs =
            lock_evs th ms cs ++ cs.map (fun c => Ev.PreStartAll c) ++ A ++ unlock_evs th ms cs ∧
          same_states_but (proxy_written th wait_flag ids) st
            (send_to_ctrl g env ids positions th wait_flag bp st).st) ∨
       (∃ S R n, (send_to_ctrl g env ids positions th wait_flag bp st).err =
            some (Failure.ctrl_failed "StartAll" (-1)) ∧
          (∀ e ∈ S, e.tag = Tag.state_change) ∧ (∀ e ∈ R, e.tag ∈ reset_tags) ∧
          (send_to_ctrl g env ids positions th wait_flag bp st).evs =
            lock_evs th ms cs ++ cs.map (fun c => Ev.PreStartAll c) ++ A ++ S ++
              (cs.take n).map (fun c => Ev.StartAll c) ++ cs.map (fun c => Ev.unlock_ctrl c) ++ R ++
              (if th.group_id != -1 then ms.map (fun m => Ev.unlock_mot m.mot_id) else []) ∧
          (∀ i, ((send_to_ctrl g env ids positions th wait_flag bp st).st.motor i).state =
            if i ∈ ids then DevState.ON else (st.motor i).state) ∧
          (send_to_ctrl g env ids positions th wait_flag bp st).st.group.state =
            (if th.group_id != -1 then DevState.ON else st.group.state) ∧
          (∀ i ∈ ids, Ev.state_change (Src.mot i) DevState.ON ∈ R) ∧
          ((th.group_id != -1) = true → Ev.state_change Src.grp DevState.ON ∈ R) ∧
          (∀ src s, Ev.state_change src s ∈ R → s = DevState.ON)) ∨
       (∃ S Q,
          (send_to_ctrl g env ids positions th wait_flag bp st).err = none ∧
          (∀ e ∈ S, e.tag = Tag.state_change) ∧ (∀ e ∈ Q, e.tag = Tag.elem_state_change) ∧
          ctrl_calls A =
            start_calls ms (sent_positions env th wait_flag positions 0 ms.length) ∧
          (send_to_ctrl g env ids positions th wait_flag bp st).evs =
            lock_evs th ms cs ++ cs.map (fun c => Ev.PreStartAll c) ++ A ++ S ++
              cs.map (fun c => Ev.StartAll c) ++ unlock_evs th ms cs ++ [Ev.signal] ++ Q ∧
          (∀ i, ((send_to_ctrl g env ids positions th wait_flag bp st).st.motor i).state =
            if i ∈ ids then DevState.MOVING else (st.motor i).state) ∧
          (send_to_ctrl g env ids positions th wait_flag bp st).st.group.state =
            (if th.group_id != -1 then DevState.MOVING else st.group.state)))) := by
  have hids : ms.map (fun m => m.mot_id) = ids := by
    simpa using find_implied_ids g ids [] [] ms cs hf
  unfold send_to_ctrl
  simp only [hf]
  generalize hr0 : (⟨{ st with proxy_created := true }, bp, [], [], none⟩ : Run P) = r0
  have h0e : r0.err = none := by rw [← hr0]
  have h0v : r0.evs = [] := by rw [← hr0]
  have h0i : r0.internal_events = [] := by rw [← hr0]
  have h0s : same_states st r0.st := by rw [← hr0]; exact ⟨fun _ => rfl, rfl⟩
  have h0m : ∀ i, (r0.st.motor i).simu = (st.motor i).simu := by rw [← hr0]; intro i; rfl
  obtain ⟨t1, t2, t3⟩ := try_start_spec env th wait_flag positions cs ms r0 h0e
  rw [hids] at t1
  have t1 : same_states_but (proxy_written th wait_flag ids) st
      (try_start env th wait_flag positions cs ms r0).st :=
    same_states_but_trans (same_states_but_of_same h0s h0m) t1
  have hkeep : ∀ i, i ∉ ids →
      ((try_start env th wait_flag positions cs ms r0).st.motor i).state = (st.motor i).state := by
    intro i hi
    rcases t1.2.1 i with h | ⟨⟨_, _, h⟩, _⟩
    · exact h
    · exact absurd h hi
  rcases t3 with ⟨n, te, tv, ts⟩ | ⟨A, hA, hno, tv, t3⟩
  · -- PreStartAll throws
    have hs : (try_start env th wait_flag positions cs ms r0).err.isSome = true := by rw [te]; rfl
    simp only [hs, if_true]
    obtain ⟨c1, c2, c3⟩ := catch_start_false_spec th cs ms _ _ _ te
    left
    refine ⟨n, c1, ?_, same_states_trans (same_states_trans h0s ts) c3⟩
    rw [c2, tv, h0v]; simp
  · right
    have hA2 : ∀ e ∈ A, e.tag ∈ motor_tags ∨ simu_event th wait_flag st ids e := by
      intro e he
      rcases hA e he with h | h
      · exact Or.inl h
      · refine Or.inr (simu_event_mono th wait_flag _ _ _ _ e h0m ?_ h)
        rw [hids]; exact fun _ h => h
    refine ⟨A, hA2, hno, ?_⟩
    rcases t3 with ⟨te, hc⟩ | ⟨f, l, te, hf1, hf2⟩
    · have hs : (try_start env th wait_flag positions cs ms r0).err.isSome = false := by
        rw [te]; rfl
      simp only [hs, Bool.false_eq_true, if_false]
      obtain ⟨S1, Q1, m1, m2, m3, m4, m5, m6, m7⟩ :=
        set_motors_moving_spec wait_flag ms (try_start env th wait_flag positions cs ms r0)
      obtain ⟨S2, Q2, g1, g2, g3, g4, g5, g6, g7⟩ :=
        set_group_moving_spec th wait_flag
          (set_motors_moving wait_flag ms (try_start env th wait_flag positions cs ms r0))
      have he5 : (set_group_moving th wait_flag (set_motors_moving wait_flag ms
          (try_start env th wait_flag positions cs ms r0))).err = none := by rw [g5, m5, te]
      obtain ⟨n, hn, a1, a2, a3, a4⟩ := StartAll_loop_spec env 0 cs _ he5
      have hS : ∀ e ∈ S1 ++ S2, e.tag = Tag.state_change := by
        intro e he
        rcases List.mem_append.1 he with he | he
        · exact m2 e he
        · exact g2 e he
      have hQ : ∀ e ∈ Q1 ++ Q2, e.tag = Tag.elem_state_change := by
        intro e he
        rcases List.mem_append.1 he with he | he
        · exact m4 e he
        · exact g4 e he
      have hmot : ∀ i, ((StartAll_loop env 0 cs (set_group_moving th wait_flag
          (set_motors_moving wait_flag ms
            (try_start env th wait_flag positions cs ms r0)))).st.motor i).state =
            if i ∈ ids then DevState.MOVING else (st.motor i).state := by
        intro i
        rw [a4, g6, m6 i, hids]
        by_cases hi : i ∈ ids
        · simp [hi]
        · simp [hi, hkeep i hi]
      have hgrp : (StartAll_loop env 0 cs (set_group_moving th wait_flag
          (set_motors_moving wait_flag ms
            (try_start env th wait_flag positions cs ms r0)))).st.group.state =
            (if th.group_id != -1 then DevState.MOVING else st.group.state) := by
        rw [a4, g7, m7, t1.2.2]
      have hev : (StartAll_loop env 0 cs (set_group_moving th wait_flag
          (set_motors_moving wait_flag ms
            (try_start env th wait_flag positions cs ms r0)))).evs =
            lock_evs th ms cs ++ cs.map (fun c => Ev.PreStartAll c) ++ A ++ (S1 ++ S2) ++
              (cs.take n).map (fun c => Ev.StartAll c) := by
        rw [a1, g1, m1, tv, h0v]; simp
      rcases a2 with ⟨ae, an⟩ | ae
      · have hs2 : (StartAll_loop env 0 cs (set_group_moving th wait_flag
            (set_motors_moving wait_flag ms
              (try_start env th wait_flag positions cs ms r0)))).err.isSome = false := by
          rw [ae]; rfl
        simp only [hs2, Bool.false_eq_true, if_false]
        obtain ⟨f1, f2, f3⟩ := finish_start_spec th cs ms
          (StartAll_loop env 0 cs (set_group_moving th wait_flag
            (set_motors_moving wait_flag ms (try_start env th wait_flag positions cs ms r0))))
        right; right
        refine ⟨S1 ++ S2, Q1 ++ Q2, by rw [f1, ae], hS, hQ, hc, ?_, ?_, ?_⟩
        · rw [f2, hev, a3, g3, m3, t2, h0i, an]; simp
        · intro i; rw [f3.1 i]; exact hmot i
        · rw [f3.2]; exact hgrp
      · have hs2 : (StartAll_loop env 0 cs (set_group_moving th wait_flag
            (set_motors_moving wait_flag ms
              (try_start env th wait_flag positions cs ms r0)))).err.isSome = true := by
          rw [ae]; rfl
        simp only [hs2, if_true]
        obtain ⟨c1, R, c2, c3, c4, c5, c6, c7, c8⟩ := catch_start_true_spec th cs ms _ _ _ ae
        right; left
        refine ⟨S1 ++ S2, R, n, c1, hS, c3, ?_, ?_, ?_, ?_, c7, c8⟩
        · rw [c2, hev]
        · intro i
          rw [c4 i, hids, hmot i]
          by_cases hi : i ∈ ids <;> simp [hi]
        · rw [c5, hgrp]
          cases (th.group_id != -1) <;> simp
        · intro i hi
          rw [← hids] at hi
          obtain ⟨m, hm, rfl⟩ := List.mem_map.1 hi
          exact c6 m hm
    · have hs : (try_start env th wait_flag positions cs ms r0).err.isSome = true := by
        rw [te]; rfl
      simp only [hs, if_true]
      obtain ⟨c1, c2, c3⟩ := catch_start_false_spec th cs ms _ _ _ te
      left
      refine ⟨f, l, c1, hf1, hf2, ?_, ?_⟩
      · rw [c2, tv, h0v]; simp
      · rw [catch_start_false_st th cs ms _ _ _ te]; exact t1

end

end Pool_ns

namespace Pool_ns

section

variable {P : Type} [DecidableEq P] [Zero P]

theorem lock_evs_tags (th : PoolThread) (ms : List MotInMove) (cs : List Int) (e : Ev P)
    (he : e ∈ lock_evs th ms cs) : e.tag = Tag.lock_mot ∨ e.tag = Tag.lock_ctrl := by
  unfold lock_evs at he
  rcases List.mem_append.1 he with he | he
  · left
    split at he
    · obtain ⟨m, _, rfl⟩ := List.mem_map.1 he; rfl
    · simp at he
  · right
    obtain ⟨c, _, rfl⟩ := List.mem_map.1 he; rfl

theorem unlock_evs_tags (th : PoolThread) (ms : List MotInMove) (cs : List Int) (e : Ev P)
    (he : e ∈ unlock_evs th ms cs) : e.tag = Tag.unlock_ctrl ∨ e.tag = Tag.unlock_mot := by
  unfold unlock_evs at he
  rcases List.mem_append.1 he with he | he
  · left
    obtain ⟨c, _, rfl⟩ := List.mem_map.1 he; rfl
  · right
    split at he
    · obtain ⟨m, _, rfl⟩ := List.mem_map.1 he; rfl
    · simp at he

theorem ctrl_calls_lock_evs (th : PoolThread) (ms : List MotInMove) (cs : List Int) :
    ctrl_calls (lock_evs th ms cs : List (Ev P)) = [] :=
  ctrl_calls_eq_nil _ (fun e he => by
    rcases lock_evs_tags th ms cs e he with h | h <;> rw [h] <;> decide)

theorem ctrl_calls_unlock_evs (th : PoolThread) (ms : List MotInMove) (cs : List Int) :
    ctrl_calls (unlock_evs th ms cs : List (Ev P)) = [] :=
  ctrl_calls_eq_nil _ (fun e he => by
    rcases unlock_evs_tags th ms cs e he with h | h <;> rw [h] <;> decide)

theorem ctrl_calls_PreStartAll (cs : List Int) :
    ctrl_calls (cs.map (fun c => (Ev.PreStartAll c : Ev P))) = cs.map (fun c => Ev.PreStartAll c) :=
  ctrl_calls_eq_self _ (fun e he => by
    obtain ⟨c, _, rfl⟩ := List.mem_map.1 he; simp [Ev.tag])

theorem ctrl_calls_StartAll (cs : List Int) :
    ctrl_calls (cs.map (fun c => (Ev.StartAll c : Ev P))) = cs.map (fun c => Ev.StartAll c) :=
  ctrl_calls_eq_self _ (fun e he => by
    obtain ⟨c, _, rfl⟩ := List.mem_map.1 he; simp [Ev.tag])

/-- C1 (as amended): in every successful start of a move the controller calls
are `PreStartAll` on every implied controller, then for each element in turn
`PreStartOne` followed at once by `StartOne`, both with the target of that
element (`sent_position`: in a group session with `wait_flag` the dial
position the proxy write left in the motor, else the position given for it),
and only then `StartAll` on every implied controller. -/
theorem send_to_ctrl_call_order (g : Int → Option MotorPool) (env : StartEnv P) (ids : List Int)
    (positions : List P) (th : PoolThread) (wait_flag : Bool) (bp : List P) (st : PoolSt P)
    (hok : (send_to_ctrl g env ids positions th wait_flag bp st).err = none) :
    ∃ ms cs, find_implied g ids [] [] = .ok (ms, cs) ∧
      ms.map (fun m => m.mot_id) = ids ∧
      ctrl_calls (send_to_ctrl g env ids positions th wait_flag bp st).evs =
        cs.map (fun c => Ev.PreStartAll c) ++
          start_calls ms ((List.range ms.length).map
            (sent_position env th wait_flag positions)) ++
          cs.map (fun c => Ev.StartAll c) := by
  cases hf : find_implied g ids [] [] with
  | error i => simp [send_to_ctrl, hf] at hok
  | ok mc =>
    obtain ⟨ms, cs⟩ := mc
    have hids : ms.map (fun m => m.mot_id) = ids := by
      simpa using find_implied_ids g ids [] [] ms cs hf
    rcases send_to_ctrl_shape g env ids positions th wait_flag bp st ms cs hf with
      ⟨n, he, _⟩ | ⟨A, hA, hno, h⟩
    · rw [hok] at he; cases he
    · rcases h with ⟨f, l, he, _⟩ | ⟨S, R, n, he, _⟩ | ⟨S, Q, he, hS, hQ, hc, hev, _⟩
      · rw [hok] at he; cases he
      · rw [hok] at he; cases he
      · refine ⟨ms, cs, rfl, hids, ?_⟩
        have hS0 : ctrl_calls S = [] :=
          ctrl_calls_eq_nil S (fun e he => by rw [hS e he]; decide)
        have hQ0 : ctrl_calls Q = [] :=
          ctrl_calls_eq_nil Q (fun e he => by rw [hQ e he]; decide)
        have hsig : ctrl_calls ([Ev.signal] : List (Ev P)) = [] := by
          simp [ctrl_calls, Ev.tag]
        have hr : sent_positions env th wait_flag positions 0 ms.length =
            (List.range ms.length).map (sent_position env th wait_flag positions) := by
          simp [sent_positions, List.range_eq_range']
        rw [hev]
        simp only [ctrl_calls_append, ctrl_calls_lock_evs, ctrl_calls_unlock_evs,
          ctrl_calls_PreStartAll, ctrl_calls_StartAll, hS0, hQ0, hsig, hc, hr, List.nil_append,
          List.append_nil]

/-- C3: if `PreStartAll` raises on an implied controller, the call fails with
the error of the `PreStartAll` phase, no `PreStartOne`, `StartOne` or
`StartAll` is called, and the state of every motor and of the group is what it
was before the call. -/
theorem send_to_ctrl_PreStartAll_raises (g : Int → Option MotorPool) (env : StartEnv P)
    (ids : List Int) (positions : List P) (th : PoolThread) (wait_flag : Bool) (bp : List P)
    (st : PoolSt P) (ms : List MotInMove) (cs : List Int)
    (hf : find_implied g ids [] [] = .ok (ms, cs)) (k : Nat) (hk : k < cs.length)
    (ht : env.PreStartAll_throws k = true) :
    (send_to_ctrl g env ids positions th wait_flag bp st).err =
      some (Failure.ctrl_failed "PreStartAll" (-1)) ∧
    (∀ e ∈ (send_to_ctrl g env ids positions th wait_flag bp st).evs,
      e.tag ≠ Tag.PreStartOne ∧ e.tag ≠ Tag.StartOne ∧ e.tag ≠ Tag.StartAll) ∧
    same_states st (send_to_ctrl g env ids positions th wait_flag bp st).st := by
  rcases send_to_ctrl_shape g env ids positions th wait_flag bp st ms cs hf with
    ⟨n, he, hev, hs⟩ | ⟨A, hA, hno, h⟩
  · refine ⟨he, ?_, hs⟩
    intro e hmem
    rw [hev] at hmem
    rcases List.mem_append.1 hmem with hmem | hmem
    · rcases List.mem_append.1 hmem with hmem | hmem
      · rcases lock_evs_tags th ms cs e hmem with h | h <;> rw [h] <;> decide
      · obtain ⟨c, _, rfl⟩ := List.mem_map.1 hmem
        simp [Ev.tag]
    · rcases unlock_evs_tags th ms cs e hmem with h | h <;> rw [h] <;> decide
  · rw [hno k hk] at ht; cases ht
end

/-- C1, witness: a group of two motors of one controller is started; the
proxy writes leave the dial position 5 in both motors. -/
theorem send_to_ctrl_call_order_witness :
    (send_to_ctrl two_motor_pool env_all_ok [1, 2] [3, 4] ⟨7, 42⟩ true [0, 0]
      (st_at_rest DevState.ON)).err = none ∧
    ∃ ms cs, find_implied two_motor_pool [1, 2] [] [] = .ok (ms, cs) ∧
      ms.map (fun m => m.mot_id) = [1, 2] ∧
      ctrl_calls (send_to_ctrl two_motor_pool env_all_ok [1, 2] [3, 4] ⟨7, 42⟩ true [0, 0]
          (st_at_rest DevState.ON)).evs =
        cs.map (fun c => Ev.PreStartAll c) ++
          start_calls ms ((List.range ms.length).map
            (sent_position env_all_ok ⟨7, 42⟩ true [3, 4])) ++
          cs.map (fun c => Ev.StartAll c) :=
  ⟨by decide,
    send_to_ctrl_call_order two_motor_pool env_all_ok [1, 2] [3, 4] ⟨7, 42⟩ true [0, 0]
      (st_at_rest DevState.ON) (by decide)⟩

/-- C1, counterexample to the claim as stated: in the successful start of a
single motor `StartOne` is called before `StartAll`, so the calls are not in
the order `PreStartAll`, `PreStartOne`, `StartAll`, `StartOne`. -/
theorem send_to_ctrl_StartOne_before_StartAll :
    (send_to_ctrl one_motor_pool env_all_ok [1] [5] ⟨-1, 42⟩ true [0]
        (st_at_rest DevState.ON)).err = none ∧
    ctrl_calls (send_to_ctrl one_motor_pool env_all_ok [1] [5] ⟨-1, 42⟩ true [0]
        (st_at_rest DevState.ON)).evs =
      [Ev.PreStartAll 10, Ev.PreStartOne 10 1 5, Ev.StartOne 10 1 5, Ev.StartAll 10] ∧
    ¬ four_phase_order (send_to_ctrl one_motor_pool env_all_ok [1] [5] ⟨-1, 42⟩ true [0]
        (st_at_rest DevState.ON)).evs := by
  decide

/-- C3, witness: the only controller of a group of two motors raises in `PreStartAll`. -/
theorem send_to_ctrl_PreStartAll_raises_witness :
    (send_to_ctrl two_motor_pool env_PreStartAll_throws [1, 2] [3, 4] ⟨7, 42⟩ true [0, 0]
        (st_at_rest DevState.ON)).err = some (Failure.ctrl_failed "PreStartAll" (-1)) ∧
    (∀ e ∈ (send_to_ctrl two_motor_pool env_PreStartAll_throws [1, 2] [3, 4] ⟨7, 42⟩ true [0, 0]
        (st_at_rest DevState.ON)).evs,
      e.tag ≠ Tag.PreStartOne ∧ e.tag ≠ Tag.StartOne ∧ e.tag ≠ Tag.StartAll) ∧
    same_states (st_at_rest DevState.ON)
      (send_to_ctrl two_motor_pool env_PreStartAll_throws [1, 2] [3, 4] ⟨7, 42⟩ true [0, 0]
        (st_at_rest DevState.ON)).st :=
  send_to_ctrl_PreStartAll_raises two_motor_pool env_PreStartAll_throws [1, 2] [3, 4] ⟨7, 42⟩ true
    [0, 0] (st_at_rest DevState.ON)
    [⟨1, ⟨1, "m1", "motor/ctrl10/1", 10, 1, false⟩, 10⟩, ⟨2, ⟨2, "m2", "motor/ctrl10/2", 10, 2, false⟩, 10⟩]
    [10] rfl 0 (by decide) (by decide)

/-- A group start with a wait in which `PreStartOne` returns `false` for the
first motor, which is in simulation mode and in ALARM: the proxy write has run
the simulated motion, so the start fails with `except_func` "PreStartOne", the
two state events of the simulated write are the only ones fired, and the motor
is left in ON; the group and the other motor keep their state. -/
theorem send_to_ctrl_simulated_write_sets_ON :
    (send_to_ctrl two_motor_pool env_PreStartOne_false [1, 2] [5, 6] ⟨100, 7⟩ true [0, 0]
        (st_simulated DevState.ALARM)).err = some (Failure.ctrl_failed "PreStartOne" 0) ∧
    ((send_to_ctrl two_motor_pool env_PreStartOne_false [1, 2] [5, 6] ⟨100, 7⟩ true [0, 0]
        (st_simulated DevState.ALARM)).st.motor 1).state = DevState.ON ∧
    ((send_to_ctrl two_motor_pool env_PreStartOne_false [1, 2] [5, 6] ⟨100, 7⟩ true [0, 0]
        (st_simulated DevState.ALARM)).st.motor 2).state = DevState.ALARM ∧
    (send_to_ctrl two_motor_pool env_PreStartOne_false [1, 2] [5, 6] ⟨100, 7⟩ true [0, 0]
        (st_simulated DevState.ALARM)).st.group.state = DevState.ALARM ∧
    (send_to_ctrl two_motor_pool env_PreStartOne_false [1, 2] [5, 6] ⟨100, 7⟩ true [0, 0]
        (st_simulated DevState.ALARM)).evs.filter (fun e => e.tag == Tag.state_change) =
      [Ev.state_change (Src.mot 1) DevState.MOVING, Ev.state_change (Src.mot 1) DevState.ON] := by
  decide

end Pool_ns

namespace Pool_ns

theorem pairwise_of_split {α : Type} (p q : α → Prop) (A B : List α)
    (hA : ∀ a ∈ A, ¬ p a) (hB : ∀ b ∈ B, ¬ q b) :
    (A ++ B).Pairwise (fun a b => ¬ (p a ∧ q b)) := by
  rw [List.pairwise_append]
  refine ⟨?_, ?_, ?_⟩
  · induction A with
    | nil => exact List.Pairwise.nil
    | cons a A ih =>
      refine List.Pairwise.cons ?_ (ih (fun x hx => hA x (List.mem_cons_of_mem _ hx)))
      intro b _ h
      exact hA a (List.mem_cons_self _ _) h.1
  · induction B with
    | nil => exact List.Pairwise.nil
    | cons b B ih =>
      refine List.Pairwise.cons ?_ (ih (fun x hx => hB x (List.mem_cons_of_mem _ hx)))
      intro c hc h
      exact hB c (List.mem_cons_of_mem _ hc) h.2
  · intro a ha b hb h
    exact hA a ha h.1

end Pool_ns

namespace MotorGroup_ns

open Pool_ns

section

variable {P : Type} [Zero P] [Add P]

@[simp] theorem remit_evs (r : ReadRun P) (e : Ev P) : (r.emit e).evs = r.evs ++ [e] := rfl

@[simp] theorem remit_err (r : ReadRun P) (e : Ev P) : (r.emit e).err = r.err := rfl

theorem lock_ind_elts_spec (ms : List IndMov) (r : ReadRun P) :
    (lock_ind_elts ms r).evs = r.evs ++ ms.map (fun m => Ev.lock_mot m.id) ∧
    (lock_ind_elts ms r).err = r.err := by
  induction ms generalizing r with
  | nil => simp [lock_ind_elts]
  | cons m rest ih =>
    simp only [lock_ind_elts]
    obtain ⟨h1, h2⟩ := ih (r.emit (Ev.lock_mot m.id))
    exact ⟨by rw [h1]; simp, by rw [h2]; simp⟩

theorem unlock_ind_elts_spec (ms : List IndMov) (r : ReadRun P) :
    (unlock_ind_elts ms r).evs = r.evs ++ ms.map (fun m => Ev.unlock_mot m.id) ∧
    (unlock_ind_elts ms r).err = r.err ∧
    (unlock_ind_elts ms r).phys_mot_pos = r.phys_mot_pos ∧
    (unlock_ind_elts ms r).attr_Position_read = r.attr_Position_read := by
  induction ms generalizing r with
  | nil => simp [unlock_ind_elts]
  | cons m rest ih =>
    simp only [unlock_ind_elts]
    obtain ⟨h1, h2, h3, h4⟩ := ih (r.emit (Ev.unlock_mot m.id))
    exact ⟨by rw [h1]; simp, by rw [h2]; simp, by rw [h3]; rfl, by rw [h4]; rfl⟩

theorem lock_implied_ctrls_spec (cs : List Int) (r : ReadRun P) :
    (lock_implied_ctrls cs r).evs = r.evs ++ cs.map (fun c => Ev.lock_ctrl c) ∧
    (lock_implied_ctrls cs r).err = r.err := by
  induction cs generalizing r with
  | nil => simp [lock_implied_ctrls]
  | cons c rest ih =>
    simp only [lock_implied_ctrls]
    obtain ⟨h1, h2⟩ := ih (r.emit (Ev.lock_ctrl c))
    exact ⟨by rw [h1]; simp, by rw [h2]; simp⟩

theorem unlock_implied_ctrls_spec (cs : List Int) (r : ReadRun P) :
    (unlock_implied_ctrls cs r).evs = r.evs ++ cs.map (fun c => Ev.unlock_ctrl c) ∧
    (unlock_implied_ctrls cs r).err = r.err := by
  induction cs generalizing r with
  | nil => simp [unlock_implied_ctrls]
  | cons c rest ih =>
    simp only [unlock_implied_ctrls]
    obtain ⟨h1, h2⟩ := ih (r.emit (Ev.unlock_ctrl c))
    exact ⟨by rw [h1]; simp, by rw [h2]; simp⟩

theorem PreReadAll_loop_spec (env : ReadEnv P) (k : Nat) (cs : List Int) (r : ReadRun P) :
    ∃ new, (PreReadAll_loop env k cs r).evs = r.evs ++ new ∧ ∀ e ∈ new, e.tag ∈ read_tags := by
  induction cs generalizing r k with
  | nil => exact ⟨[], by simp [PreReadAll_loop]⟩
  | cons c rest ih =>
    simp only [PreReadAll_loop]
    split
    · exact ⟨[Ev.PreReadAll c], by simp, by simp [Ev.tag, read_tags]⟩
    · obtain ⟨n, h1, h2⟩ := ih (k + 1) (r.emit (Ev.PreReadAll c))
      refine ⟨Ev.PreReadAll c :: n, by rw [h1]; simp, ?_⟩
      intro e he
      rcases List.mem_cons.1 he with he | he
      · subst he; simp [Ev.tag, read_tags]
      · exact h2 e he

theorem ReadAll_loop_spec (env : ReadEnv P) (k : Nat) (cs : List Int) (r : ReadRun P) :
    ∃ new, (ReadAll_loop env k cs r).evs = r.evs ++ new ∧ ∀ e ∈ new, e.tag ∈ read_tags := by
  induction cs generalizing r k with
  | nil => exact ⟨[], by simp [ReadAll_loop]⟩
  | cons c rest ih =>
    simp only [ReadAll_loop]
    split
    · exact ⟨[Ev.ReadAll c], by simp, by simp [Ev.tag, read_tags]⟩
    · obtain ⟨n, h1, h2⟩ := ih (k + 1) (r.emit (Ev.ReadAll c))
      refine ⟨Ev.ReadAll c :: n, by rw [h1]; simp, ?_⟩
      intro e he
      rcases List.mem_cons.1 he with he | he
      · subst he; simp [Ev.tag, read_tags]
      · exact h2 e he

theorem PreReadOne_loop_spec (env : ReadEnv P) (k : Nat) (ms : List IndMov) (r : ReadRun P) :
    ∃ new, (PreReadOne_loop env k ms r).evs = r.evs ++ new ∧ ∀ e ∈ new, e.tag ∈ read_tags := by
  induction ms generalizing r k with
  | nil => exact ⟨[], by simp [PreReadOne_loop]⟩
  | cons m rest ih =>
    simp only [PreReadOne_loop]
    split
    · exact ⟨[Ev.PreReadOne m.ctrl_id m.idx_in_ctrl], by simp, by simp [Ev.tag, read_tags]⟩
    · obtain ⟨n, h1, h2⟩ := ih (k + 1) (r.emit (Ev.PreReadOne m.ctrl_id m.idx_in_ctrl))
      refine ⟨Ev.PreReadOne m.ctrl_id m.idx_in_ctrl :: n, by rw [h1]; simp, ?_⟩
      intro e he
      rcases List.mem_cons.1 he with he | he
      · subst he; simp [Ev.tag, read_tags]
      · exact h2 e he

theorem ReadOne_loop_spec (env : ReadEnv P) (k : Nat) (ms : List IndMov) (r : ReadRun P) :
    ∃ new, (ReadOne_loop env k ms r).evs = r.evs ++ new ∧ ∀ e ∈ new, e.tag ∈ read_tags := by
  induction ms generalizing r k with
  | nil => exact ⟨[], by simp [ReadOne_loop]⟩
  | cons m rest ih =>
    simp only [ReadOne_loop]
    have h0 : ∀ e ∈ [(Ev.ReadOne m.ctrl_id m.idx_in_ctrl : Ev P)], e.tag ∈ read_tags := by
      intro e he; simp at he; subst he; simp [Ev.tag, read_tags]
    split
    · exact ⟨[Ev.ReadOne m.ctrl_id m.idx_in_ctrl], by simp, h0⟩
    · exact ⟨[Ev.ReadOne m.ctrl_id m.idx_in_ctrl], by simp, h0⟩
    · split
      · exact ⟨[Ev.ReadOne m.ctrl_id m.idx_in_ctrl], by simp, h0⟩
      · rename_i p1 _
        obtain ⟨n, h1, h2⟩ := ih (k + 1)
          { r.emit (Ev.ReadOne m.ctrl_id m.idx_in_ctrl) with phys_mot_pos := p1 }
        refine ⟨Ev.ReadOne m.ctrl_id m.idx_in_ctrl :: n, by rw [h1]; simp, ?_⟩
        intro e he
        rcases List.mem_cons.1 he with he | he
        · subst he; simp [Ev.tag, read_tags]
        · exact h2 e he

theorem andThen_evs (r : ReadRun P) (f : ReadRun P → ReadRun P)
    (hf : ∀ x, ∃ new, (f x).evs = x.evs ++ new ∧ ∀ e ∈ new, e.tag ∈ read_tags) :
    ∃ new, (r.andThen f).evs = r.evs ++ new ∧ ∀ e ∈ new, e.tag ∈ read_tags := by
  unfold ReadRun.andThen
  split
  · exact ⟨[], by simp⟩
  · exact hf r

theorem try_read_spec (env : ReadEnv P) (g : MotorGroup) (r : ReadRun P) :
    ∃ mid, (∀ e ∈ mid, e.tag ∈ read_tags) ∧
      (try_read env g r).evs = r.evs ++ g.ind_elts.map (fun m => Ev.lock_mot m.id) ++
        g.implied_ctrls.map (fun c => Ev.lock_ctrl c) ++ mid := by
  unfold try_read
  obtain ⟨l1, _⟩ := lock_ind_elts_spec g.ind_elts r
  obtain ⟨l2, _⟩ := lock_implied_ctrls_spec g.implied_ctrls (lock_ind_elts g.ind_elts r)
  obtain ⟨n1, a1, a2⟩ := PreReadAll_loop_spec env 0 g.implied_ctrls
    (lock_implied_ctrls g.implied_ctrls (lock_ind_elts g.ind_elts r))
  obtain ⟨n2, b1, b2⟩ := andThen_evs (PreReadAll_loop env 0 g.implied_ctrls
    (lock_implied_ctrls g.implied_ctrls (lock_ind_elts g.ind_elts r)))
    (PreReadOne_loop env 0 g.ind_elts) (fun x => PreReadOne_loop_spec env 0 g.ind_elts x)
  obtain ⟨n3, c1, c2⟩ := andThen_evs ((PreReadAll_loop env 0 g.implied_ctrls
    (lock_implied_ctrls g.implied_ctrls (lock_ind_elts g.ind_elts r))).andThen
    (PreReadOne_loop env 0 g.ind_elts))
    (ReadAll_loop env 0 g.implied_ctrls) (fun x => ReadAll_loop_spec env 0 g.implied_ctrls x)
  obtain ⟨n4, d1, d2⟩ := andThen_evs (((PreReadAll_loop env 0 g.implied_ctrls
    (lock_implied_ctrls g.implied_ctrls (lock_ind_elts g.ind_elts r))).andThen
    (PreReadOne_loop env 0 g.ind_elts)).andThen (ReadAll_loop env 0 g.implied_ctrls))
    (ReadOne_loop env 0 g.ind_elts) (fun x => ReadOne_loop_spec env 0 g.ind_elts x)
  refine ⟨n1 ++ n2 ++ n3 ++ n4, ?_, ?_⟩
  · intro e he
    simp only [List.mem_append] at he
    rcases he with ((he | he) | he) | he
    · exact a2 e he
    · exact b2 e he
    · exact c2 e he
    · exact d2 e he
  · rw [d1, c1, b1, a1, l2, l1]; simp

theorem finish_read_spec (cenv : CalcEnv P) (g : MotorGroup) (r2 : ReadRun P) :
    ((finish_read cenv g r2).evs = r2.evs ∧ (finish_read cenv g r2).err ≠ none) ∨
    (finish_read cenv g r2).evs = r2.evs ++ g.implied_ctrls.map (fun c => Ev.unlock_ctrl c) ++
      g.ind_elts.map (fun m => Ev.unlock_mot m.id) := by
  obtain ⟨u1, u2⟩ := unlock_implied_ctrls_spec g.implied_ctrls r2
  obtain ⟨v1, v2, v3, v4⟩ := unlock_ind_elts_spec g.ind_elts
    (unlock_implied_ctrls g.implied_ctrls r2)
  have hu : (unlock_ind_elts g.ind_elts (unlock_implied_ctrls g.implied_ctrls r2)).evs =
      r2.evs ++ g.implied_ctrls.map (fun c => Ev.unlock_ctrl c) ++
        g.ind_elts.map (fun m => Ev.unlock_mot m.id) := by
    rw [v1, u1]
  unfold finish_read
  by_cases hd : is_DevFailed r2.err = true
  · right
    simp only [hd, if_true]
    exact hu
  · simp only [hd, Bool.false_eq_true, if_false]
    by_cases hs : r2.err.isSome = true
    · left
      rw [if_pos hs]
      refine ⟨rfl, ?_⟩
      intro hn; rw [hn] at hs; simp at hs
    · right
      simp only [hs, Bool.false_eq_true, if_false]
      cases from_phys_2_grp cenv g
        (unlock_ind_elts g.ind_elts (unlock_implied_ctrls g.implied_ctrls r2)).phys_mot_pos
        (unlock_ind_elts g.ind_elts (unlock_implied_ctrls g.implied_ctrls r2)).attr_Position_read with
      | error e => exact hu
      | ok a => exact hu

/-- The shape of a run of `read_Position`: nothing when a pseudo motor is not
built; else the motors are locked, then the controllers, then come the calls
of the read cycle, and, unless an undefined access was met, the controllers
are unlocked, then the motors. -/
theorem read_Position_shape (env : ReadEnv P) (cenv : CalcEnv P) (g : MotorGroup)
    (phys attr : List P) :
    ((read_Position env cenv g phys attr).evs = [] ∧
      (read_Position env cenv g phys attr).err ≠ none) ∨
    ∃ mid, (∀ e ∈ mid, e.tag ∈ read_tags) ∧
      (((read_Position env cenv g phys attr).evs =
          g.ind_elts.map (fun m => Ev.lock_mot m.id) ++
            g.implied_ctrls.map (fun c => Ev.lock_ctrl c) ++ mid ∧
          (read_Position env cenv g phys attr).err ≠ none) ∨
        (read_Position env cenv g phys attr).evs =
          g.ind_elts.map (fun m => Ev.lock_mot m.id) ++
            g.implied_ctrls.map (fun c => Ev.lock_ctrl c) ++ mid ++
            g.implied_ctrls.map (fun c => Ev.unlock_ctrl c) ++
            g.ind_elts.map (fun m => Ev.unlock_mot m.id)) := by
  unfold read_Position
  split
  · left; exact ⟨rfl, by simp⟩
  · right
    obtain ⟨mid, hmid, ht⟩ := try_read_spec env g (⟨phys, attr, [], none⟩ : ReadRun P)
    refine ⟨mid, hmid, ?_⟩
    rcases finish_read_spec cenv g (try_read env g (⟨phys, attr, [], none⟩ : ReadRun P)) with
      ⟨h1, h2⟩ | h1
    · left; exact ⟨by rw [h1, ht]; simp, h2⟩
    · right; rw [h1, ht]; simp

end

end MotorGroup_ns

namespace Pool_ns

section

variable {P : Type} [DecidableEq P] [Zero P]

theorem quiet_nil : quiet ([] : List (Ev P)) := by
  intro e he; simp at he

theorem quiet_append {a b : List (Ev P)} (ha : quiet a) (hb : quiet b) : quiet (a ++ b) := by
  intro e he
  rcases List.mem_append.1 he with he | he
  · exact ha e he
  · exact hb e he

theorem quiet_of_tags (l : List (Ev P)) (ts : List Tag) (h : ∀ e ∈ l, e.tag ∈ ts)
    (hts : ∀ t ∈ ts, t ∉ [Tag.lock_mot, Tag.unlock_mot, Tag.lock_ctrl, Tag.unlock_ctrl]) :
    quiet l :=
  fun e he => hts _ (h e he)

theorem quiet_of_tag (l : List (Ev P)) (t : Tag) (h : ∀ e ∈ l, e.tag = t)
    (ht : t ∉ [Tag.lock_mot, Tag.unlock_mot, Tag.lock_ctrl, Tag.unlock_ctrl]) : quiet l :=
  fun e he => by rw [h e he]; exact ht

theorem quiet_PreStartAll (cs : List Int) :
    quiet (cs.map (fun c => (Ev.PreStartAll c : Ev P))) :=
  quiet_of_tag _ Tag.PreStartAll
    (fun e he => by obtain ⟨c, _, rfl⟩ := List.mem_map.1 he; rfl) (by decide)

theorem quiet_StartAll (cs : List Int) :
    quiet (cs.map (fun c => (Ev.StartAll c : Ev P))) :=
  quiet_of_tag _ Tag.StartAll
    (fun e he => by obtain ⟨c, _, rfl⟩ := List.mem_map.1 he; rfl) (by decide)

/-- The locks of every run of `send_to_ctrl` whose motors are known to the
pool: first the locks of `lock_evs`, later the unlocks of the controllers,
later the unlocks of the motors of a group; no other lock event. -/
theorem send_to_ctrl_lock_shape (g : Int → Option MotorPool) (env : StartEnv P) (ids : List Int)
    (positions : List P) (th : PoolThread) (wait_flag : Bool) (bp : List P) (st : PoolSt P)
    (ms : List MotInMove) (cs : List Int) (hf : find_implied g ids [] [] = .ok (ms, cs)) :
    ∃ X Y Z, quiet X ∧ quiet Y ∧ quiet Z ∧
      (send_to_ctrl g env ids positions th wait_flag bp st).evs =
        lock_evs th ms cs ++ X ++ cs.map (fun c => Ev.unlock_ctrl c) ++ Y ++
          (if th.group_id != -1 then ms.map (fun m => Ev.unlock_mot m.mot_id) else []) ++ Z := by
  rcases send_to_ctrl_shape g env ids positions th wait_flag bp st ms cs hf with
    ⟨n, _, hev, _⟩ | ⟨A, hA, _, h⟩
  · refine ⟨(cs.take n).map (fun c => Ev.PreStartAll c), [], [], quiet_PreStartAll _, quiet_nil,
      quiet_nil, ?_⟩
    rw [hev]; simp [unlock_evs]
  · have hqA : quiet A := by
      intro e he
      rcases hA e he with h | h
      · have hm : ∀ t ∈ motor_tags,
            t ∉ [Tag.lock_mot, Tag.unlock_mot, Tag.lock_ctrl, Tag.unlock_ctrl] := by decide
        exact hm _ h
      · rcases simu_event_tag th wait_flag st ids e h with h | h | h <;> rw [h] <;> decide
    rcases h with ⟨f, l, _, _, _, hev, _⟩ | ⟨S, R, n, _, hS, hR, hev, _⟩ |
      ⟨S, Q, _, hS, hQ, _, hev, _⟩
    · refine ⟨cs.map (fun c => Ev.PreStartAll c) ++ A, [], [],
        quiet_append (quiet_PreStartAll _) hqA, quiet_nil, quiet_nil, ?_⟩
      rw [hev]; simp [unlock_evs]
    · refine ⟨cs.map (fun c => Ev.PreStartAll c) ++ A ++ S ++
          (cs.take n).map (fun c => Ev.StartAll c), R, [],
        quiet_append (quiet_append (quiet_append (quiet_PreStartAll _) hqA)
          (quiet_of_tag S _ hS (by decide))) (quiet_StartAll _),
        quiet_of_tags R reset_tags hR (by decide), quiet_nil, ?_⟩
      rw [hev]; simp
    · refine ⟨cs.map (fun c => Ev.PreStartAll c) ++ A ++ S ++ cs.map (fun c => Ev.StartAll c), [],
        [Ev.signal] ++ Q,
        quiet_append (quiet_append (quiet_append (quiet_PreStartAll _) hqA)
          (quiet_of_tag S _ hS (by decide))) (quiet_StartAll _),
        quiet_nil,
        quiet_append (quiet_of_tag _ Tag.signal (by intro e he; simp at he; subst he; rfl)
          (by decide)) (quiet_of_tag Q _ hQ (by decide)), ?_⟩
      rw [hev]; simp [unlock_evs]

theorem mem_quiet_tag {l : List (Ev P)} (h : quiet l) {e : Ev P} (he : e ∈ l) :
    e.tag ≠ Tag.lock_mot ∧ e.tag ≠ Tag.unlock_mot ∧ e.tag ≠ Tag.lock_ctrl ∧
      e.tag ≠ Tag.unlock_ctrl := by
  have := h e he
  simp only [List.mem_cons, List.mem_singleton, not_or, List.not_mem_nil, or_false] at this
  exact this

/-- The order of the locks in a list of events of the shape of a session. -/
theorem lock_order_of_shape (L1 L2 X U1 Y U2 Z : List (Ev P))
    (h1 : ∀ e ∈ L1, e.tag = Tag.lock_mot) (h2 : ∀ e ∈ L2, e.tag = Tag.lock_ctrl)
    (h3 : ∀ e ∈ U1, e.tag = Tag.unlock_ctrl) (h4 : ∀ e ∈ U2, e.tag = Tag.unlock_mot)
    (hX : quiet X) (hY : quiet Y) (hZ : quiet Z) :
    locks_elements_first (L1 ++ L2 ++ X ++ U1 ++ Y ++ U2 ++ Z) ∧
    unlocks_ctrls_first (L1 ++ L2 ++ X ++ U1 ++ Y ++ U2 ++ Z) := by
  constructor
  · have : L1 ++ L2 ++ X ++ U1 ++ Y ++ U2 ++ Z = L1 ++ (L2 ++ X ++ U1 ++ Y ++ U2 ++ Z) := by simp
    rw [this]
    unfold locks_elements_first
    apply pairwise_of_split (fun a : Ev P => a.tag = Tag.lock_ctrl)
      (fun b : Ev P => b.tag = Tag.lock_mot)
    · intro a ha; rw [h1 a ha]; decide
    · intro b hb
      simp only [List.mem_append] at hb
      rcases hb with ((((hb | hb) | hb) | hb) | hb) | hb
      · rw [h2 b hb]; decide
      · exact (mem_quiet_tag hX hb).1
      · rw [h3 b hb]; decide
      · exact (mem_quiet_tag hY hb).1
      · rw [h4 b hb]; decide
      · exact (mem_quiet_tag hZ hb).1
  · have : L1 ++ L2 ++ X ++ U1 ++ Y ++ U2 ++ Z = (L1 ++ L2 ++ X ++ U1 ++ Y) ++ (U2 ++ Z) := by simp
    rw [this]
    unfold unlocks_ctrls_first
    apply pairwise_of_split (fun a : Ev P => a.tag = Tag.unlock_mot)
      (fun b : Ev P => b.tag = Tag.unlock_ctrl)
    · intro a ha
      simp only [List.mem_append] at ha
      rcases ha with (((ha | ha) | ha) | ha) | ha
      · rw [h1 a ha]; decide
      · rw [h2 a ha]; decide
      · exact (mem_quiet_tag hX ha).2.1
      · rw [h3 a ha]; decide
      · exact (mem_quiet_tag hY ha).2.1
    · intro b hb
      simp only [List.mem_append] at hb
      rcases hb with hb | hb
      · rw [h4 b hb]; decide
      · exact (mem_quiet_tag hZ hb).2.2.2

end

section

variable {P : Type} [DecidableEq P] [Zero P] [Add P]

open MotorGroup_ns

theorem map_tag_lock_mot (ms : List MotInMove) :
    ∀ e ∈ ms.map (fun m => (Ev.lock_mot m.mot_id : Ev P)), e.tag = Tag.lock_mot :=
  fun e he => by obtain ⟨c, _, rfl⟩ := List.mem_map.1 he; rfl

theorem map_tag_unlock_mot (ms : List MotInMove) :
    ∀ e ∈ ms.map (fun m => (Ev.unlock_mot m.mot_id : Ev P)), e.tag = Tag.unlock_mot :=
  fun e he => by obtain ⟨c, _, rfl⟩ := List.mem_map.1 he; rfl

theorem map_tag_lock_ctrl (cs : List Int) :
    ∀ e ∈ cs.map (fun c => (Ev.lock_ctrl c : Ev P)), e.tag = Tag.lock_ctrl :=
  fun e he => by obtain ⟨c, _, rfl⟩ := List.mem_map.1 he; rfl

theorem map_tag_unlock_ctrl (cs : List Int) :
    ∀ e ∈ cs.map (fun c => (Ev.unlock_ctrl c : Ev P)), e.tag = Tag.unlock_ctrl :=
  fun e he => by obtain ⟨c, _, rfl⟩ := List.mem_map.1 he; rfl

theorem map_tag_lock_ind (ms : List IndMov) :
    ∀ e ∈ ms.map (fun m => (Ev.lock_mot m.id : Ev P)), e.tag = Tag.lock_mot :=
  fun e he => by obtain ⟨c, _, rfl⟩ := List.mem_map.1 he; rfl

theorem map_tag_unlock_ind (ms : List IndMov) :
    ∀ e ∈ ms.map (fun m => (Ev.unlock_mot m.id : Ev P)), e.tag = Tag.unlock_mot :=
  fun e he => by obtain ⟨c, _, rfl⟩ := List.mem_map.1 he; rfl

theorem if_tag (b : Bool) (l : List (Ev P)) (t : Tag) (h : ∀ e ∈ l, e.tag = t) :
    ∀ e ∈ (if b then l else []), e.tag = t := by
  cases b with
  | true => simpa using h
  | false => intro e he; simp at he

/-- The order of the locks in `send_to_ctrl`. -/
theorem send_to_ctrl_lock_order (g : Int → Option MotorPool) (env : StartEnv P) (ids : List Int)
    (positions : List P) (th : PoolThread) (wait_flag : Bool) (bp : List P) (st : PoolSt P) :
    locks_elements_first (send_to_ctrl g env ids positions th wait_flag bp st).evs ∧
    unlocks_ctrls_first (send_to_ctrl g env ids positions th wait_flag bp st).evs ∧
    (th.group_id = -1 → ∀ e ∈ (send_to_ctrl g env ids positions th wait_flag bp st).evs,
      e.tag ≠ Tag.lock_mot ∧ e.tag ≠ Tag.unlock_mot) ∧
    (∀ ms cs, find_implied g ids [] [] = .ok (ms, cs) → th.group_id ≠ -1 →
      ∀ m ∈ ms, Ev.lock_mot m.mot_id ∈ (send_to_ctrl g env ids positions th wait_flag bp st).evs ∧
        Ev.unlock_mot m.mot_id ∈ (send_to_ctrl g env ids positions th wait_flag bp st).evs) := by
  cases hf : find_implied g ids [] [] with
  | error i =>
    have h0 : (send_to_ctrl g env ids positions th wait_flag bp st).evs = [] := by
      simp [send_to_ctrl, hf]
    rw [h0]
    refine ⟨List.Pairwise.nil, List.Pairwise.nil, fun _ e he => by simp at he, ?_⟩
    intro ms cs h; cases h
  | ok mc =>
    obtain ⟨ms, cs⟩ := mc
    obtain ⟨X, Y, Z, hX, hY, hZ, hev⟩ :=
      send_to_ctrl_lock_shape g env ids positions th wait_flag bp st ms cs hf
    have hev2 : (send_to_ctrl g env ids positions th wait_flag bp st).evs =
        (if th.group_id != -1 then ms.map (fun m => (Ev.lock_mot m.mot_id : Ev P)) else []) ++
          cs.map (fun c => Ev.lock_ctrl c) ++ X ++ cs.map (fun c => Ev.unlock_ctrl c) ++ Y ++
          (if th.group_id != -1 then ms.map (fun m => Ev.unlock_mot m.mot_id) else []) ++ Z := by
      rw [hev]; simp [lock_evs]
    have ho := lock_order_of_shape
      (if th.group_id != -1 then ms.map (fun m => (Ev.lock_mot m.mot_id : Ev P)) else [])
      (cs.map (fun c => Ev.lock_ctrl c)) X (cs.map (fun c => Ev.unlock_ctrl c)) Y
      (if th.group_id != -1 then ms.map (fun m => Ev.unlock_mot m.mot_id) else []) Z
      (if_tag _ _ _ (map_tag_lock_mot ms)) (map_tag_lock_ctrl cs) (map_tag_unlock_ctrl cs)
      (if_tag _ _ _ (map_tag_unlock_mot ms)) hX hY hZ
    rw [hev2]
    refine ⟨ho.1, ho.2, ?_, ?_⟩
    · intro hg e he
      have hg2 : (th.group_id != -1) = false := by simp [hg]
      simp only [hg2, Bool.false_eq_true, if_false, List.nil_append, List.append_nil,
        List.mem_append] at he
      rcases he with (((he | he) | he) | he) | he
      · rw [map_tag_lock_ctrl cs e he]; decide
      · exact ⟨(mem_quiet_tag hX he).1, (mem_quiet_tag hX he).2.1⟩
      · rw [map_tag_unlock_ctrl cs e he]; decide
      · exact ⟨(mem_quiet_tag hY he).1, (mem_quiet_tag hY he).2.1⟩
      · exact ⟨(mem_quiet_tag hZ he).1, (mem_quiet_tag hZ he).2.1⟩
    · intro ms2 cs2 h hg m hm
      cases h
      have hg2 : (th.group_id != -1) = true := by simp [hg]
      simp only [hg2, if_true, List.mem_append, List.mem_map]
      exact ⟨Or.inl (Or.inl (Or.inl (Or.inl (Or.inl (Or.inl ⟨m, hm, rfl⟩))))),
        Or.inl (Or.inr ⟨m, hm, rfl⟩)⟩

/-- The order of the locks in `MotorGroup::read_Position`. -/
theorem read_Position_lock_order (env : ReadEnv P) (cenv : CalcEnv P) (g : MotorGroup)
    (phys attr : List P) :
    locks_elements_first (read_Position env cenv g phys attr).evs ∧
    unlocks_ctrls_first (read_Position env cenv g phys attr).evs ∧
    ((read_Position env cenv g phys attr).err = none →
      ∀ m ∈ g.ind_elts, Ev.lock_mot m.id ∈ (read_Position env cenv g phys attr).evs ∧
        Ev.unlock_mot m.id ∈ (read_Position env cenv g phys attr).evs) := by
  rcases read_Position_shape env cenv g phys attr with ⟨h0, he⟩ | ⟨mid, hmid, h⟩
  · rw [h0]
    exact ⟨List.Pairwise.nil, List.Pairwise.nil, fun h => absurd h he⟩
  · have hq : quiet mid := quiet_of_tags mid read_tags hmid (by decide)
    rcases h with ⟨hev, he⟩ | hev
    · have ho := lock_order_of_shape (g.ind_elts.map (fun m => (Ev.lock_mot m.id : Ev P)))
        (g.implied_ctrls.map (fun c => Ev.lock_ctrl c)) mid [] [] [] []
        (map_tag_lock_ind _) (map_tag_lock_ctrl _) (by simp) (by simp) hq quiet_nil quiet_nil
      simp only [List.append_nil] at ho
      rw [hev]
      exact ⟨ho.1, ho.2, fun h => absurd h he⟩
    · have ho := lock_order_of_shape (g.ind_elts.map (fun m => (Ev.lock_mot m.id : Ev P)))
        (g.implied_ctrls.map (fun c => Ev.lock_ctrl c)) mid
        (g.implied_ctrls.map (fun c => Ev.unlock_ctrl c)) []
        (g.ind_elts.map (fun m => Ev.unlock_mot m.id)) []
        (map_tag_lock_ind _) (map_tag_lock_ctrl _) (map_tag_unlock_ctrl _) (map_tag_unlock_ind _)
        hq quiet_nil quiet_nil
      simp only [List.append_nil] at ho
      rw [hev]
      refine ⟨ho.1, ho.2, fun _ m hm => ?_⟩
      simp only [List.mem_append, List.mem_map]
      exact ⟨Or.inl (Or.inl (Or.inl (Or.inl ⟨m, hm, rfl⟩))), Or.inr ⟨m, hm, rfl⟩⟩

theorem lock_events_append (a b : List (Ev P)) :
    lock_events (a ++ b) = lock_events a ++ lock_events b := by
  simp [lock_events]

theorem lock_events_quiet (a : List (Ev P)) (h : quiet a) : lock_events a = [] := by
  simp only [lock_events, List.filter_eq_nil_iff]
  intro e he
  simpa using h e he

theorem lock_events_self (a : List (Ev P))
    (h : ∀ e ∈ a, e.tag ∈ [Tag.lock_mot, Tag.unlock_mot, Tag.lock_ctrl, Tag.unlock_ctrl]) :
    lock_events a = a := by
  simp only [lock_events, List.filter_eq_self]
  intro e he
  simpa using h e he

theorem lock_events_lock_evs (th : PoolThread) (ms : List MotInMove) (cs : List Int) :
    lock_events (lock_evs th ms cs : List (Ev P)) = lock_evs th ms cs :=
  lock_events_self _ (fun e he => by
    rcases lock_evs_tags th ms cs e he with h | h <;> rw [h] <;> decide)

theorem lock_events_unlock_evs (th : PoolThread) (ms : List MotInMove) (cs : List Int) :
    lock_events (unlock_evs th ms cs : List (Ev P)) = unlock_evs th ms cs :=
  lock_events_self _ (fun e he => by
    rcases unlock_evs_tags th ms cs e he with h | h <;> rw [h] <;> decide)

/-- The locks of `send_to_ctrl`, in the order of the run: those of `lock_evs`
are taken, then those of `unlock_evs` are released, on every path. -/
theorem send_to_ctrl_lock_events (g : Int → Option MotorPool) (env : StartEnv P) (ids : List Int)
    (positions : List P) (th : PoolThread) (wait_flag : Bool) (bp : List P) (st : PoolSt P)
    (ms : List MotInMove) (cs : List Int) (hf : find_implied g ids [] [] = .ok (ms, cs)) :
    lock_events (send_to_ctrl g env ids positions th wait_flag bp st).evs =
      lock_evs th ms cs ++ unlock_evs th ms cs := by
  obtain ⟨X, Y, Z, hX, hY, hZ, hev⟩ :=
    send_to_ctrl_lock_shape g env ids positions th wait_flag bp st ms cs hf
  have hu : unlock_evs th ms cs = (cs.map (fun c => (Ev.unlock_ctrl c : Ev P))) ++
      (if th.group_id != -1 then ms.map (fun m => Ev.unlock_mot m.mot_id) else []) := rfl
  have h1 : lock_events (cs.map (fun c => (Ev.unlock_ctrl c : Ev P))) =
      cs.map (fun c => Ev.unlock_ctrl c) :=
    lock_events_self _ (fun e he => by rw [map_tag_unlock_ctrl cs e he]; decide)
  have h2 : lock_events (if th.group_id != -1 then
      ms.map (fun m => (Ev.unlock_mot m.mot_id : Ev P)) else []) =
      (if th.group_id != -1 then ms.map (fun m => Ev.unlock_mot m.mot_id) else []) :=
    lock_events_self _ (fun e he => by
      rw [if_tag _ _ _ (map_tag_unlock_mot ms) e he]; decide)
  rw [hev, hu]
  simp only [lock_events_append, lock_events_lock_evs, lock_events_quiet _ hX,
    lock_events_quiet _ hY, lock_events_quiet _ hZ, h1, h2, List.append_nil, List.nil_append,
    List.append_assoc]

/-- The locks of `MotorGroup::read_Position`, in the order of the run: none
when a pseudo motor is not built; else the motors are locked, then the
controllers, and, unless the run stops at an undefined access, the controllers
are unlocked, then the motors; so it is in every read that succeeds. -/
theorem read_Position_lock_events (env : ReadEnv P) (cenv : CalcEnv P) (g : MotorGroup)
    (phys attr : List P) :
    ((read_Position env cenv g phys attr).evs = [] ∨
      lock_events (read_Position env cenv g phys attr).evs =
        g.ind_elts.map (fun m => Ev.lock_mot m.id) ++
          g.implied_ctrls.map (fun c => Ev.lock_ctrl c) ∨
      lock_events (read_Position env cenv g phys attr).evs =
        g.ind_elts.map (fun m => Ev.lock_mot m.id) ++
          g.implied_ctrls.map (fun c => Ev.lock_ctrl c) ++
          g.implied_ctrls.map (fun c => Ev.unlock_ctrl c) ++
          g.ind_elts.map (fun m => Ev.unlock_mot m.id)) ∧
    ((read_Position env cenv g phys attr).err = none →
      lock_events (read_Position env cenv g phys attr).evs =
        g.ind_elts.map (fun m => Ev.lock_mot m.id) ++
          g.implied_ctrls.map (fun c => Ev.lock_ctrl c) ++
          g.implied_ctrls.map (fun c => Ev.unlock_ctrl c) ++
          g.ind_elts.map (fun m => Ev.unlock_mot m.id)) := by
  have hL1 : lock_events (g.ind_elts.map (fun m => (Ev.lock_mot m.id : Ev P))) =
      g.ind_elts.map (fun m => Ev.lock_mot m.id) :=
    lock_events_self _ (fun e he => by rw [map_tag_lock_ind _ e he]; decide)
  have hL2 : lock_events (g.implied_ctrls.map (fun c => (Ev.lock_ctrl c : Ev P))) =
      g.implied_ctrls.map (fun c => Ev.lock_ctrl c) :=
    lock_events_self _ (fun e he => by rw [map_tag_lock_ctrl _ e he]; decide)
  have hU1 : lock_events (g.implied_ctrls.map (fun c => (Ev.unlock_ctrl c : Ev P))) =
      g.implied_ctrls.map (fun c => Ev.unlock_ctrl c) :=
    lock_events_self _ (fun e he => by rw [map_tag_unlock_ctrl _ e he]; decide)
  have hU2 : lock_events (g.ind_elts.map (fun m => (Ev.unlock_mot m.id : Ev P))) =
      g.ind_elts.map (fun m => Ev.unlock_mot m.id) :=
    lock_events_self _ (fun e he => by rw [map_tag_unlock_ind _ e he]; decide)
  rcases read_Position_shape env cenv g phys attr with ⟨h0, he⟩ | ⟨mid, hmid, h⟩
  · exact ⟨Or.inl h0, fun h => absurd h he⟩
  · have hq : quiet mid := quiet_of_tags mid read_tags hmid (by decide)
    rcases h with ⟨hev, he⟩ | hev
    · refine ⟨Or.inr (Or.inl ?_), fun h => absurd h he⟩
      rw [hev]
      simp only [lock_events_append, hL1, hL2, lock_events_quiet _ hq,
        List.append_nil]
    · have hfull : lock_events (read_Position env cenv g phys attr).evs =
          g.ind_elts.map (fun m => Ev.lock_mot m.id) ++
            g.implied_ctrls.map (fun c => Ev.lock_ctrl c) ++
            g.implied_ctrls.map (fun c => Ev.unlock_ctrl c) ++
            g.ind_elts.map (fun m => Ev.unlock_mot m.id) := by
        rw [hev]
        simp only [lock_events_append, hL1, hL2, hU1, hU2,
          lock_events_quiet _ hq, List.append_nil]
      exact ⟨Or.inr (Or.inr hfull), fun _ => hfull⟩

/-- C4: in every session of `send_to_ctrl` whose motors are known to the pool
the events that take or release a lock are, in this order and on every path:
in a group session the lock of every motor of the move, the lock of every
implied controller, the unlock of every implied controller, and in a group
session the unlock of every motor; a single-motor session (group id -1) takes
and releases no element lock.  In `MotorGroup::read_Position` every motor of
the group is locked, then every implied controller, and in every read that
succeeds every implied controller is then unlocked and then every motor.  So
no lock of an element follows a lock of a controller and no unlock of a
controller follows an unlock of an element. -/
theorem session_lock_order (g : Int → Option MotorPool) (env : StartEnv P) (ids : List Int)
    (positions : List P) (th : PoolThread) (wait_flag : Bool) (bp : List P) (st : PoolSt P)
    (renv : ReadEnv P) (cenv : CalcEnv P) (grp : MotorGroup) (phys attr : List P) :
    ((∀ ms cs, find_implied g ids [] [] = .ok (ms, cs) →
        lock_events (send_to_ctrl g env ids positions th wait_flag bp st).evs =
          (if th.group_id != -1 then ms.map (fun m => Ev.lock_mot m.mot_id) else []) ++
            cs.map (fun c => Ev.lock_ctrl c) ++ cs.map (fun c => Ev.unlock_ctrl c) ++
            (if th.group_id != -1 then ms.map (fun m => Ev.unlock_mot m.mot_id) else [])) ∧
      locks_elements_first (send_to_ctrl g env ids positions th wait_flag bp st).evs ∧
      unlocks_ctrls_first (send_to_ctrl g env ids positions th wait_flag bp st).evs ∧
      (th.group_id = -1 → ∀ e ∈ (send_to_ctrl g env ids positions th wait_flag bp st).evs,
        e.tag ≠ Tag.lock_mot ∧ e.tag ≠ Tag.unlock_mot)) ∧
    (((read_Position renv cenv grp phys attr).evs = [] ∨
        lock_events (read_Position renv cenv grp phys attr).evs =
          grp.ind_elts.map (fun m => Ev.lock_mot m.id) ++
            grp.implied_ctrls.map (fun c => Ev.lock_ctrl c) ∨
        lock_events (read_Position renv cenv grp phys attr).evs =
          grp.ind_elts.map (fun m => Ev.lock_mot m.id) ++
            grp.implied_ctrls.map (fun c => Ev.lock_ctrl c) ++
            grp.implied_ctrls.map (fun c => Ev.unlock_ctrl c) ++
            grp.ind_elts.map (fun m => Ev.unlock_mot m.id)) ∧
      ((read_Position renv cenv grp phys attr).err = none →
        lock_events (read_Position renv cenv grp phys attr).evs =
          grp.ind_elts.map (fun m => Ev.lock_mot m.id) ++
            grp.implied_ctrls.map (fun c => Ev.lock_ctrl c) ++
            grp.implied_ctrls.map (fun c => Ev.unlock_ctrl c) ++
            grp.ind_elts.map (fun m => Ev.unlock_mot m.id)) ∧
      locks_elements_first (read_Position renv cenv grp phys attr).evs ∧
      unlocks_ctrls_first (read_Position renv cenv grp phys attr).evs) := by
  have hs := send_to_ctrl_lock_order g env ids positions th wait_flag bp st
  have hr := read_Position_lock_order renv cenv grp phys attr
  have hre := read_Position_lock_events renv cenv grp phys attr
  refine ⟨⟨?_, hs.1, hs.2.1, hs.2.2.1⟩, hre.1, hre.2, hr.1, hr.2.1⟩
  intro ms cs hf
  rw [send_to_ctrl_lock_events g env ids positions th wait_flag bp st ms cs hf]
  simp [lock_evs, unlock_evs]

end

end Pool_ns

namespace Pool_ns

open MotorGroup_ns

/-- C4, witness: the locks of a group session of two motors of one controller,
of a single-motor session, and of a read of a group of two motors that
succeeds. -/
theorem session_lock_order_witness :
    lock_events (send_to_ctrl two_motor_pool env_all_ok [1, 2] [5, 6] ⟨100, 7⟩ false [0, 0]
        (st_at_rest DevState.ON)).evs =
      [Ev.lock_mot 1, Ev.lock_mot 2, Ev.lock_ctrl 10, Ev.unlock_ctrl 10, Ev.unlock_mot 1,
        Ev.unlock_mot 2] ∧
    lock_events (send_to_ctrl one_motor_pool env_all_ok [1] [5] ⟨-1, 7⟩ false [0]
        (st_at_rest DevState.ON)).evs = [Ev.lock_ctrl 10, Ev.unlock_ctrl 10] ∧
    (read_Position read_all_ok identity_env two_motor_group [0, 0] [0, 0]).err = none ∧
    lock_events (read_Position read_all_ok identity_env two_motor_group [0, 0] [0, 0]).evs =
      [Ev.lock_mot 1, Ev.lock_mot 2, Ev.lock_ctrl 10, Ev.unlock_ctrl 10, Ev.unlock_mot 1,
        Ev.unlock_mot 2] :=
  ⟨(session_lock_order two_motor_pool env_all_ok [1, 2] [5, 6] ⟨100, 7⟩ false [0, 0]
      (st_at_rest DevState.ON) read_all_ok identity_env two_motor_group [0, 0] [0, 0]).1.1
      [⟨1, ⟨1, "m1", "motor/ctrl10/1", 10, 1, false⟩, 10⟩,
       ⟨2, ⟨2, "m2", "motor/ctrl10/2", 10, 2, false⟩, 10⟩] [10] rfl,
   (session_lock_order one_motor_pool env_all_ok [1] [5] ⟨-1, 7⟩ false [0]
      (st_at_rest DevState.ON) read_all_ok identity_env two_motor_group [0, 0] [0, 0]).1.1
      [⟨1, ⟨1, "m1", "motor/ctrl10/1", 10, 1, false⟩, 10⟩] [10] rfl,
   rfl,
   (session_lock_order two_motor_pool env_all_ok [1, 2] [5, 6] ⟨100, 7⟩ false [0, 0]
      (st_at_rest DevState.ON) read_all_ok identity_env two_motor_group [0, 0] [0, 0]).2.2.1 rfl⟩

end Pool_ns

section group_state

open Pool_ns Tango

theorem state_count_ne_zero_iff (arr : List DevState) (s : DevState) :
    (arr.count s != 0) = true ↔ s ∈ arr := by
  simp [List.count_eq_zero]

/-- C5: for every array of element states, `MotorGroup::update_state_from_ctrls`
and `MeasurementGroup::update_state_from_ctrls` set the group state to FAULT if
an entry is FAULT, else to UNKNOWN if an entry is UNKNOWN, else to ALARM if an
entry is ALARM, else to MOVING if an entry is MOVING, and else to ON when no
motion thread is registered for the group (`mov_th_id = 0`). -/
theorem update_state_from_ctrls_precedence (StatusNotSet : String) (state_array : List DevState)
    (ind_elts : List IndEltName) (g : GrpCtx) :
    (DevState.FAULT ∈ state_array →
      (MotorGroup_ns.update_state_from_ctrls StatusNotSet state_array ind_elts g).1 = DevState.FAULT ∧
      (MeasurementGroup_ns.update_state_from_ctrls StatusNotSet state_array ind_elts g).1 =
        DevState.FAULT) ∧
    (DevState.FAULT ∉ state_array → DevState.UNKNOWN ∈ state_array →
      (MotorGroup_ns.update_state_from_ctrls StatusNotSet state_array ind_elts g).1 =
        DevState.UNKNOWN ∧
      (MeasurementGroup_ns.update_state_from_ctrls StatusNotSet state_array ind_elts g).1 =
        DevState.UNKNOWN) ∧
    (DevState.FAULT ∉ state_array → DevState.UNKNOWN ∉ state_array →
      DevState.ALARM ∈ state_array →
      (MotorGroup_ns.update_state_from_ctrls StatusNotSet state_array ind_elts g).1 = DevState.ALARM ∧
      (MeasurementGroup_ns.update_state_from_ctrls StatusNotSet state_array ind_elts g).1 =
        DevState.ALARM) ∧
    (DevState.FAULT ∉ state_array → DevState.UNKNOWN ∉ state_array →
      DevState.ALARM ∉ state_array → DevState.MOVING ∈ state_array →
      (MotorGroup_ns.update_state_from_ctrls StatusNotSet state_array ind_elts g).1 =
        DevState.MOVING ∧
      (MeasurementGroup_ns.update_state_from_ctrls StatusNotSet state_array ind_elts g).1 =
        DevState.MOVING) ∧
    (DevState.FAULT ∉ state_array → DevState.UNKNOWN ∉ state_array →
      DevState.ALARM ∉ state_array → DevState.MOVING ∉ state_array → g.mov_th_id = 0 →
      (MotorGroup_ns.update_state_from_ctrls StatusNotSet state_array ind_elts g).1 = DevState.ON ∧
      (MeasurementGroup_ns.update_state_from_ctrls StatusNotSet state_array ind_elts g).1 =
        DevState.ON) := by
  refine ⟨?_, ?_, ?_, ?_, ?_⟩
  · intro h1
    have c1 := (state_count_ne_zero_iff state_array DevState.FAULT).2 h1
    simp only [MotorGroup_ns.update_state_from_ctrls, MeasurementGroup_ns.update_state_from_ctrls,
      c1, if_true, and_self]
  · intro h1 h2
    have c1 : (state_array.count DevState.FAULT != 0) = false := by
      rw [← Bool.not_eq_true, state_count_ne_zero_iff]; exact h1
    have c2 := (state_count_ne_zero_iff state_array DevState.UNKNOWN).2 h2
    simp only [MotorGroup_ns.update_state_from_ctrls, MeasurementGroup_ns.update_state_from_ctrls,
      c1, c2, if_true, Bool.false_eq_true, if_false, and_self]
  · intro h1 h2 h3
    have c1 : (state_array.count DevState.FAULT != 0) = false := by
      rw [← Bool.not_eq_true, state_count_ne_zero_iff]; exact h1
    have c2 : (state_array.count DevState.UNKNOWN != 0) = false := by
      rw [← Bool.not_eq_true, state_count_ne_zero_iff]; exact h2
    have c3 := (state_count_ne_zero_iff state_array DevState.ALARM).2 h3
    simp only [MotorGroup_ns.update_state_from_ctrls, MeasurementGroup_ns.update_state_from_ctrls,
      c1, c2, c3, if_true, Bool.false_eq_true, if_false, and_self]
  · intro h1 h2 h3 h4
    have c1 : (state_array.count DevState.FAULT != 0) = false := by
      rw [← Bool.not_eq_true, state_count_ne_zero_iff]; exact h1
    have c2 : (state_array.count DevState.UNKNOWN != 0) = false := by
      rw [← Bool.not_eq_true, state_count_ne_zero_iff]; exact h2
    have c3 : (state_array.count DevState.ALARM != 0) = false := by
      rw [← Bool.not_eq_true, state_count_ne_zero_iff]; exact h3
    have c4 := (state_count_ne_zero_iff state_array DevState.MOVING).2 h4
    simp only [MotorGroup_ns.update_state_from_ctrls, MeasurementGroup_ns.update_state_from_ctrls,
      c1, c2, c3, c4, if_true, Bool.false_eq_true, if_false, and_self]
  · intro h1 h2 h3 h4 h5
    have c1 : (state_array.count DevState.FAULT != 0) = false := by
      rw [← Bool.not_eq_true, state_count_ne_zero_iff]; exact h1
    have c2 : (state_array.count DevState.UNKNOWN != 0) = false := by
      rw [← Bool.not_eq_true, state_count_ne_zero_iff]; exact h2
    have c3 : (state_array.count DevState.ALARM != 0) = false := by
      rw [← Bool.not_eq_true, state_count_ne_zero_iff]; exact h3
    have c4 : (state_array.count DevState.MOVING != 0) = false := by
      rw [← Bool.not_eq_true, state_count_ne_zero_iff]; exact h4
    have c5 : (g.mov_th_id != 0) = false := by simp [h5]
    simp only [MotorGroup_ns.update_state_from_ctrls, MeasurementGroup_ns.update_state_from_ctrls,
      c1, c2, c3, c4, c5, Bool.false_eq_true, if_false, and_self]

/-- C5, witness: an array with an ALARM and a MOVING entry gives ALARM, an
array of ON entries gives ON when no motion thread is registered. -/
theorem update_state_from_ctrls_precedence_witness :
    ((MotorGroup_ns.update_state_from_ctrls "Not set"
        [DevState.ON, DevState.MOVING, DevState.ALARM] [] ⟨DevState.MOVING, 3, 0, false⟩).1 =
        DevState.ALARM ∧
      (MeasurementGroup_ns.update_state_from_ctrls "Not set"
        [DevState.ON, DevState.MOVING, DevState.ALARM] [] ⟨DevState.MOVING, 3, 0, false⟩).1 =
        DevState.ALARM) ∧
    ((MotorGroup_ns.update_state_from_ctrls "Not set"
        [DevState.ON, DevState.ON] [] ⟨DevState.MOVING, 3, 0, false⟩).1 = DevState.ON ∧
      (MeasurementGroup_ns.update_state_from_ctrls "Not set"
        [DevState.ON, DevState.ON] [] ⟨DevState.MOVING, 3, 0, false⟩).1 = DevState.ON) :=
  ⟨(update_state_from_ctrls_precedence "Not set" [DevState.ON, DevState.MOVING, DevState.ALARM] []
      ⟨DevState.MOVING, 3, 0, false⟩).2.2.1 (by decide) (by decide) (by decide),
   (update_state_from_ctrls_precedence "Not set" [DevState.ON, DevState.ON] []
      ⟨DevState.MOVING, 3, 0, false⟩).2.2.2.2 (by decide) (by decide) (by decide) (by decide) rfl⟩

end group_state

namespace MotorGroup_ns

open Pool_ns

/-- C7: the group built by `add_element "g1"`, `add_element "g2"` has no pseudo
motor, its user elements are two groups of motors and its dimension is 3; for
the user vector `[10, 20, 30]` `from_grp_2_phys` gives the third motor the entry
20 of slot 1 and not its own entry 30. -/
theorem from_grp_2_phys_nested_group_slot :
    ((apply_ops nested_pool nested_ops (MotorGroup.empty 100)).map
        (fun g => (g.user_group_elt, g.phys_group_elt, g.pos_spectrum_dim_x, g.nb_psm_in_grp,
          g.grp_in_grp.map (fun x => (x.name, x.start_idx, x.mot_nb, x.idx_in_usr))))) =
      .ok (["g1", "g2"], ["m1", "m2", "m3"], 3, 0, [("g1", 0, 2, 0), ("g2", 2, 1, 1)]) ∧
    ((apply_ops nested_pool nested_ops (MotorGroup.empty 100)).bind
        (fun g => from_grp_2_phys identity_env g [10, 20, 30] [0, 0, 0])) = .ok [10, 20, 20] :=
  ⟨rfl, rfl⟩

/-- C10: after `add_element "pmy"`, `add_element "m"`, `add_element "pmx"`,
`remove_element "pmy"` the user elements are `m` and `pmx`, the physical
elements `a`, `b`, `m`; the motor `m` has `idx_in_usr = 0`, its slot, and the
physical entry `a`, which is no user element, carries the slot 0 as well. -/
theorem update_elements_slot_shared :
    ((apply_ops pseudo_pool pseudo_ops (MotorGroup.empty 100)).map
        (fun g => (g.user_group_elt, g.phys_group_elt,
          g.ind_elts.map (fun m => (m.name, m.idx_in_grp, m.idx_in_usr))))) =
      .ok (["m", "pmx"], ["a", "b", "m"], [("a", 0, 0), ("b", 1, -1), ("m", 2, 0)]) :=
  rfl

/-- C8: for the group of the motor `m` and the pseudo motor `pmx` reached by
the four calls, with identity transforms, the user vector `[5, 7]` is turned
into the physical vector `[5, 2, 5]` by `from_grp_2_phys`, and `from_phys_2_grp`
turns that vector into `[5, 5]`, not into `[5, 7]`. -/
theorem round_trip_after_remove :
    ((apply_ops pseudo_pool pseudo_ops (MotorGroup.empty 100)).bind
        (fun g => from_grp_2_phys identity_env g [5, 7] [0, 0, 0])) = .ok [5, 2, 5] ∧
    ((apply_ops pseudo_pool pseudo_ops (MotorGroup.empty 100)).bind
        (fun g => (from_grp_2_phys identity_env g [5, 7] [0, 0, 0]).bind
          (fun phys => from_phys_2_grp identity_env g phys [0, 0]))) = .ok [5, 5] :=
  ⟨rfl, rfl⟩

/-- C9: in the group built by `add_element "pmy"` the controller 50 is not
complete, its first role has no pseudo motor (`psm_in_grp_idx = [-1, 0]`), and
`from_grp_2_phys` reads `psm_in_grp[-1]` to find the motor group to read: no
pseudo vector is passed to `CalcAllPhysical`. -/
theorem from_grp_2_phys_first_role_absent :
    ((apply_ops pseudo_pool [GroupOp.add "pmy"] (MotorGroup.empty 100)).map
        (fun g => g.psm_ctrls_in_grp.map (fun c => (c.pool_psm_ctrl, c.psm_in_grp_idx, c.is_complete)))) =
      .ok [(50, [-1, 0], false)] ∧
    ((apply_ops pseudo_pool [GroupOp.add "pmy"] (MotorGroup.empty 100)).bind
        (fun g => from_grp_2_phys identity_env g [7] [0, 0])) =
      .error (Fault.out_of_bounds "psm_in_grp[psm_in_grp_idx[0]]") :=
  ⟨rfl, rfl⟩

end MotorGroup_ns

namespace Pool_ns

section

variable {P : Type} [DecidableEq P] [Zero P]

theorem ends_motion_of_start_tag (e : Ev P) (h : e.tag ∈ start_tags) : e.ends_motion = false := by
  cases e <;> first | rfl | (exfalso; simp [Ev.tag, start_tags] at h)

theorem tag_ne_of_not_ends (e : Ev P) (h : e.ends_motion = false) : e.tag ≠ Tag.MotionEnded := by
  cases e <;> first | (intro h2; cases h2; done) | (exfalso; simp [Ev.ends_motion] at h)

theorem grows_refl (p : Ev P → Prop) (r : Run P) : Run.grows p r r :=
  ⟨⟨[], by simp, by simp⟩, ⟨[], by simp, by simp⟩⟩

theorem grows_trans {p : Ev P → Prop} {r1 r2 r3 : Run P} (h1 : Run.grows p r1 r2)
    (h2 : Run.grows p r2 r3) : Run.grows p r1 r3 := by
  obtain ⟨⟨X1, e1, p1⟩, ⟨I1, i1, q1⟩⟩ := h1
  obtain ⟨⟨X2, e2, p2⟩, ⟨I2, i2, q2⟩⟩ := h2
  refine ⟨⟨X1 ++ X2, by rw [e2, e1, List.append_assoc], ?_⟩,
    ⟨I1 ++ I2, by rw [i2, i1, List.append_assoc], ?_⟩⟩
  · intro e he
    rcases List.mem_append.1 he with h | h
    · exact p1 e h
    · exact p2 e h
  · intro e he
    rcases List.mem_append.1 he with h | h
    · exact q1 e h
    · exact q2 e h

theorem grows_mono {p q : Ev P → Prop} {r1 r2 : Run P} (h : Run.grows p r1 r2)
    (hpq : ∀ e, p e → q e) : Run.grows q r1 r2 := by
  obtain ⟨⟨X1, e1, p1⟩, ⟨I1, i1, q1⟩⟩ := h
  exact ⟨⟨X1, e1, fun e he => hpq e (p1 e he)⟩, ⟨I1, i1, fun e he => hpq e (q1 e he)⟩⟩

theorem grows_emit (p : Ev P → Prop) (r : Run P) (e : Ev P) (he : p e) :
    Run.grows p r (r.emit e) :=
  ⟨⟨[e], rfl, by intro x hx; simp at hx; subst hx; exact he⟩, ⟨[], by simp, by simp⟩⟩

theorem grows_fire_or_delay (p : Ev P → Prop) (d : Bool) (r : Run P) (e : Ev P) (he : p e) :
    Run.grows p r (fire_or_delay d e r) := by
  unfold fire_or_delay
  cases d
  · exact grows_emit p r e he
  · exact ⟨⟨[], by simp, by simp⟩, ⟨[e], rfl, by intro x hx; simp at hx; subst hx; exact he⟩⟩

theorem all_of_grows {p : Ev P → Prop} {r1 r2 : Run P} (h : Run.grows p r1 r2)
    (h1 : Run.all p r1) : Run.all p r2 := by
  obtain ⟨⟨X1, e1, p1⟩, ⟨I1, i1, q1⟩⟩ := h
  refine ⟨fun e he => ?_, fun e he => ?_⟩
  · rw [e1] at he
    rcases List.mem_append.1 he with h | h
    · exact h1.1 e h
    · exact p1 e h
  · rw [i1] at he
    rcases List.mem_append.1 he with h | h
    · exact h1.2 e h
    · exact q1 e h

theorem mem_of_grows {p : Ev P → Prop} {r1 r2 : Run P} (h : Run.grows p r1 r2) {e : Ev P}
    (he : e ∈ r1.evs) : e ∈ r2.evs := by
  obtain ⟨⟨X1, e1, _⟩, _⟩ := h
  rw [e1]; exact List.mem_append_left _ he

theorem read_ev_lock (b : Bool) (i : Int) : read_ev b (Ev.lock_mot i : Ev P) :=
  ⟨by simp [Ev.tag, read_pos_tags], fun _ => rfl⟩

theorem read_ev_unlock (b : Bool) (i : Int) : read_ev b (Ev.unlock_mot i : Ev P) :=
  ⟨by simp [Ev.tag, read_pos_tags], fun _ => rfl⟩

theorem read_ev_read (b : Bool) (s : Src) : read_ev b (Ev.read_Position s : Ev P) :=
  ⟨by simp [Ev.tag, read_pos_tags], fun _ => rfl⟩

theorem read_ev_pos (b : Bool) (s : Src) (f : Bool) : read_ev b (Ev.position_change s b f : Ev P) :=
  ⟨by simp [Ev.tag, read_pos_tags], fun h => by subst h; rfl⟩

theorem read_ev_elem (b : Bool) (s : Src) (f : Bool) :
    read_ev b (Ev.elem_position_change s b f : Ev P) :=
  ⟨by simp [Ev.tag, read_pos_tags], fun h => by subst h; rfl⟩

theorem lock_mots_spec (b : Bool) (ms : List MotInMove) (r : Run P) :
    Run.grows (read_ev b) r (lock_mots ms r) ∧ (lock_mots ms r).err = r.err ∧
      (lock_mots ms r).st = r.st := by
  induction ms generalizing r with
  | nil => exact ⟨grows_refl _ _, rfl, rfl⟩
  | cons m rest ih =>
    simp only [lock_mots]
    obtain ⟨h1, h2, h3⟩ := ih (r.emit (Ev.lock_mot m.mot_id))
    exact ⟨grows_trans (grows_emit _ r _ (read_ev_lock b _)) h1, by rw [h2]; rfl, by rw [h3]; rfl⟩

theorem unlock_motors_grows (b : Bool) (ms : List MotInMove) (r : Run P) :
    Run.grows (read_ev b) r (unlock_motors ms r) := by
  obtain ⟨h1, _, h3, _⟩ := unlock_motors_spec ms r
  refine ⟨⟨_, h1, ?_⟩, ⟨[], by rw [h3]; simp, by simp⟩⟩
  intro e he
  obtain ⟨m, _, rfl⟩ := List.mem_map.1 he
  exact read_ev_unlock b _

theorem fire_or_delay_frame (d : Bool) (e : Ev P) (r : Run P) :
    (fire_or_delay d e r).err = r.err ∧ (fire_or_delay d e r).st = r.st := by
  unfold fire_or_delay; cases d <;> exact ⟨rfl, rfl⟩

theorem read_motor_pos_spec (hl d b s rx : Bool) (m : MotInMove) (r : Run P) :
    Run.grows (read_ev b) r (read_motor_pos hl d b s rx m r) ∧
      (read_motor_pos hl d b s rx m r).err = r.err ∧
      (read_motor_pos hl d b s rx m r).st = r.st := by
  unfold read_motor_pos
  cases s
  · exact ⟨grows_refl _ _, rfl, rfl⟩
  · cases hl
    · exact ⟨grows_emit _ r _ (read_ev_pos b _ _), rfl, rfl⟩
    · simp only [if_true]
      refine ⟨grows_trans (grows_emit _ r _ (read_ev_pos b _ _))
        (grows_fire_or_delay _ d _ _ (read_ev_elem b _ _)), ?_, ?_⟩
      · rw [(fire_or_delay_frame d _ _).1]; rfl
      · rw [(fire_or_delay_frame d _ _).2]; rfl

theorem read_motor_pos_mem (hl d b rx : Bool) (m : MotInMove) (r : Run P) :
    Ev.position_change (Src.mot m.mot_id) b rx ∈ (read_motor_pos hl d b true rx m r).evs := by
  unfold read_motor_pos
  cases hl
  · simp
  · simp only [if_true]
    exact mem_of_grows (grows_fire_or_delay (fun _ => True) d _ _ trivial) (by simp)

theorem read_motors_pos_spec (hl d b s rx : Bool) (ms : List MotInMove) (r : Run P) :
    Run.grows (read_ev b) r (read_motors_pos hl d b s rx ms r) ∧
      (read_motors_pos hl d b s rx ms r).err = r.err ∧
      (read_motors_pos hl d b s rx ms r).st = r.st := by
  induction ms generalizing r with
  | nil => exact ⟨grows_refl _ _, rfl, rfl⟩
  | cons m rest ih =>
    simp only [read_motors_pos]
    obtain ⟨h1, h2, h3⟩ := ih (read_motor_pos hl d b s rx m r)
    obtain ⟨k1, k2, k3⟩ := read_motor_pos_spec hl d b s rx m r
    exact ⟨grows_trans k1 h1, h2.trans k2, h3.trans k3⟩

theorem read_motors_pos_mem (hl d b rx : Bool) (ms : List MotInMove) (r : Run P) :
    ∀ m ∈ ms, Ev.position_change (Src.mot m.mot_id) b rx ∈
      (read_motors_pos hl d b true rx ms r).evs := by
  induction ms generalizing r with
  | nil => intro m hm; cases hm
  | cons m0 rest ih =>
    intro m hm
    simp only [read_motors_pos]
    rcases List.mem_cons.1 hm with h | h
    · subst h
      exact mem_of_grows (read_motors_pos_spec hl d b true rx rest _).1
        (read_motor_pos_mem hl d b rx m r)
    · exact ih _ m h

/-- The events of a read of the positions by the motion thread. -/
theorem read_pos_while_moving_spec (th : PoolThread) (m0 : MotInMove) (rest : List MotInMove)
    (d b s rx : Bool) (r : Run P) :
    Run.grows (read_ev b) r (read_pos_while_moving th m0 rest d b s rx r) ∧
      (read_pos_while_moving th m0 rest d b s rx r).err = r.err ∧
      (read_pos_while_moving th m0 rest d b s rx r).st = r.st := by
  unfold read_pos_while_moving
  by_cases hg : (th.group_id != -1) = true
  · simp only [hg, if_true]
    obtain ⟨a1, a2, a3⟩ := lock_mots_spec b (m0 :: rest) r
    generalize lock_mots (m0 :: rest) r = r1 at a1 a2 a3 ⊢
    have b1 : Run.grows (read_ev b) r1 (r1.emit (Ev.read_Position Src.grp)) :=
      grows_emit _ _ _ (read_ev_read b _)
    generalize hr2 : r1.emit (Ev.read_Position Src.grp) = r2 at b1 ⊢
    have b2 : r2.err = r1.err := by rw [← hr2]; rfl
    have b3 : r2.st = r1.st := by rw [← hr2]; rfl
    have c : Run.grows (read_ev b) r2
          (if s = true then r2.emit (Ev.position_change Src.grp b rx) else r2) ∧
        (if s = true then r2.emit (Ev.position_change Src.grp b rx) else r2).err = r2.err ∧
        (if s = true then r2.emit (Ev.position_change Src.grp b rx) else r2).st = r2.st := by
      cases s
      · exact ⟨grows_refl _ _, rfl, rfl⟩
      · exact ⟨grows_emit _ _ _ (read_ev_pos b _ _), rfl, rfl⟩
    obtain ⟨c1, c2, c3⟩ := c
    generalize (if s = true then r2.emit (Ev.position_change Src.grp b rx) else r2) = r3
      at c1 c2 c3 ⊢
    have e : Run.grows (read_ev b) r3
          (if (s && r.st.group.has_listeners) = true then
            fire_or_delay d (Ev.elem_position_change Src.grp b rx) r3 else r3) ∧
        (if (s && r.st.group.has_listeners) = true then
            fire_or_delay d (Ev.elem_position_change Src.grp b rx) r3 else r3).err = r3.err ∧
        (if (s && r.st.group.has_listeners) = true then
            fire_or_delay d (Ev.elem_position_change Src.grp b rx) r3 else r3).st = r3.st := by
      by_cases hc : (s && r.st.group.has_listeners) = true
      · rw [if_pos hc]
        exact ⟨grows_fire_or_delay _ d _ _ (read_ev_elem b _ _), (fire_or_delay_frame d _ _).1,
          (fire_or_delay_frame d _ _).2⟩
      · rw [if_neg hc]
        exact ⟨grows_refl _ _, rfl, rfl⟩
    obtain ⟨e1, e2, e3⟩ := e
    generalize (if (s && r.st.group.has_listeners) = true then
            fire_or_delay d (Ev.elem_position_change Src.grp b rx) r3 else r3) = r4
      at e1 e2 e3 ⊢
    obtain ⟨f1, f2, f3⟩ := read_motors_pos_spec r.st.group.has_listeners d b s rx (m0 :: rest) r4
    generalize read_motors_pos r.st.group.has_listeners d b s rx (m0 :: rest) r4 = r5
      at f1 f2 f3 ⊢
    obtain ⟨g1, g2, _, g4⟩ := unlock_motors_spec (m0 :: rest) r5
    refine ⟨grows_trans a1 (grows_trans b1 (grows_trans c1 (grows_trans e1
      (grows_trans f1 (unlock_motors_grows b _ _))))), ?_, ?_⟩
    · rw [g2, f2, e2, c2, b2, a2]
    · rw [g4, f3, e3, c3, b3, a3]
  · have hg2 : (th.group_id != -1) = false := by simpa using hg
    simp only [hg2, Bool.false_eq_true, if_false]
    have b1 : Run.grows (read_ev b) r (r.emit (Ev.read_Position (Src.mot m0.mot_id))) :=
      grows_emit _ _ _ (read_ev_read b _)
    generalize hr2 : r.emit (Ev.read_Position (Src.mot m0.mot_id)) = r2 at b1 ⊢
    have b2 : r2.err = r.err := by rw [← hr2]; rfl
    have b3 : r2.st = r.st := by rw [← hr2]; rfl
    have c : Run.grows (read_ev b) r2
          (if s = true then r2.emit (Ev.position_change (Src.mot m0.mot_id) b rx) else r2) ∧
        (if s = true then r2.emit (Ev.position_change (Src.mot m0.mot_id) b rx) else r2).err =
          r2.err ∧
        (if s = true then r2.emit (Ev.position_change (Src.mot m0.mot_id) b rx) else r2).st =
          r2.st := by
      cases s
      · exact ⟨grows_refl _ _, rfl, rfl⟩
      · exact ⟨grows_emit _ _ _ (read_ev_pos b _ _), rfl, rfl⟩
    obtain ⟨c1, c2, c3⟩ := c
    generalize (if s = true then r2.emit (Ev.position_change (Src.mot m0.mot_id) b rx) else r2)
      = r3 at c1 c2 c3 ⊢
    by_cases hc : (s && m0.mot.has_listeners) = true
    · rw [if_pos hc]
      refine ⟨grows_trans b1 (grows_trans c1 (grows_fire_or_delay _ d _ _ (read_ev_elem b _ _))),
        ?_, ?_⟩
      · rw [(fire_or_delay_frame d _ _).1, c2, b2]
      · rw [(fire_or_delay_frame d _ _).2, c3, b3]
    · rw [if_neg hc]
      exact ⟨grows_trans b1 c1, by rw [c2, b2], by rw [c3, b3]⟩

theorem read_pos_final_mem (th : PoolThread) (m0 : MotInMove) (rest : List MotInMove)
    (d b rx : Bool) (r : Run P) :
    Ev.position_change (moved_elt th m0) b rx ∈
        (read_pos_while_moving th m0 rest d b true rx r).evs ∧
      ((th.group_id != -1) = true → ∀ m ∈ m0 :: rest, Ev.position_change (Src.mot m.mot_id) b rx ∈
        (read_pos_while_moving th m0 rest d b true rx r).evs) := by
  unfold read_pos_while_moving moved_elt
  cases hg : (th.group_id != -1) with
  | true =>
    simp only [if_true, Bool.true_and]
    generalize hr3 : ((lock_mots (m0 :: rest) r).emit (Ev.read_Position Src.grp)).emit
      (Ev.position_change Src.grp b rx) = r3
    have h3 : Ev.position_change Src.grp b rx ∈ r3.evs := by rw [← hr3]; simp
    have e1 : Run.grows (fun _ => True) r3
        (if r.st.group.has_listeners = true then
          fire_or_delay d (Ev.elem_position_change Src.grp b rx) r3 else r3) := by
      by_cases hc : r.st.group.has_listeners = true
      · rw [if_pos hc]; exact grows_fire_or_delay _ d _ _ trivial
      · rw [if_neg hc]; exact grows_refl _ _
    generalize (if r.st.group.has_listeners = true then
          fire_or_delay d (Ev.elem_position_change Src.grp b rx) r3 else r3) = r4 at e1 ⊢
    have f1 := (read_motors_pos_spec r.st.group.has_listeners d b true rx (m0 :: rest) r4).1
    have u1 := unlock_motors_grows b (m0 :: rest)
      (read_motors_pos r.st.group.has_listeners d b true rx (m0 :: rest) r4)
    refine ⟨mem_of_grows u1 (mem_of_grows f1 (mem_of_grows e1 h3)), fun _ m hm => ?_⟩
    exact mem_of_grows u1 (read_motors_pos_mem r.st.group.has_listeners d b rx (m0 :: rest) r4 m hm)
  | false =>
    simp only [Bool.false_eq_true, if_false, if_true, Bool.true_and]
    refine ⟨?_, fun h => by cases h⟩
    by_cases hc : m0.mot.has_listeners = true
    · rw [if_pos hc]
      exact mem_of_grows (grows_fire_or_delay (fun _ => True) d _ _ trivial) (by simp)
    · rw [if_neg hc]; simp

theorem grows_of_spec (p : Ev P → Prop) (r1 r2 : Run P) (X : List (Ev P))
    (h1 : r2.evs = r1.evs ++ X) (hX : ∀ e ∈ X, p e)
    (hi : r2.internal_events = r1.internal_events) : Run.grows p r1 r2 :=
  ⟨⟨X, h1, hX⟩, ⟨[], by rw [hi]; simp, by simp⟩⟩

theorem manage_thread_exception_grows (th : PoolThread) (cs : List Int) (ms : List MotInMove)
    (f : String) (sc : Bool) (l : Int) (r : Run P) :
    Run.grows (fun e => e.tag ∈ start_tags) r (manage_thread_exception th cs ms f sc l r) := by
  unfold manage_thread_exception
  dsimp only
  obtain ⟨u1, _, u3, _⟩ := unlock_ctrls_spec cs r
  have g1 : Run.grows (fun e => e.tag ∈ start_tags) r (unlock_ctrls cs r) :=
    grows_of_spec _ _ _ _ u1 (by
      intro e he; obtain ⟨c, _, rfl⟩ := List.mem_map.1 he; simp [Ev.tag, start_tags]) u3
  generalize unlock_ctrls cs r = r1 at g1 ⊢
  have g2 : Run.grows (fun e => e.tag ∈ start_tags) r1
      (if sc = true then reset_group_ON th (reset_motors_ON ms r1) else r1) := by
    cases sc
    · exact grows_refl _ _
    · simp only [if_true]
      obtain ⟨R1, a1, a2, a3, _⟩ := reset_motors_ON_spec ms r1
      obtain ⟨R2, b1, b2, b3, _⟩ := reset_group_ON_spec th (reset_motors_ON ms r1)
      have hsub : ∀ e : Ev P, e.tag ∈ reset_tags → e.tag ∈ start_tags := by
        intro e he
        simp only [reset_tags, List.mem_cons, List.mem_singleton, List.not_mem_nil,
          or_false] at he
        rcases he with h | h <;> rw [h] <;> decide
      exact grows_trans (grows_of_spec _ _ _ _ a1 (fun e he => hsub e (a2 e he)) a3)
        (grows_of_spec _ _ _ _ b1 (fun e he => hsub e (b2 e he)) b3)
  generalize (if sc = true then reset_group_ON th (reset_motors_ON ms r1) else r1) = r2 at g2 ⊢
  have g3 : Run.grows (fun e => e.tag ∈ start_tags) r2
      (if (th.group_id != -1) = true then unlock_motors ms r2 else r2) := by
    cases (th.group_id != -1)
    · exact grows_refl _ _
    · simp only [if_true]
      obtain ⟨c1, _, c3, _⟩ := unlock_motors_spec ms r2
      exact grows_of_spec _ _ _ _ c1 (by
        intro e he; obtain ⟨c, _, rfl⟩ := List.mem_map.1 he; simp [Ev.tag, start_tags]) c3
  generalize (if (th.group_id != -1) = true then unlock_motors ms r2 else r2) = r3 at g3 ⊢
  exact grows_trans g1 (grows_trans g2 (grows_trans g3 (grows_of_spec _ _ _ [] (by simp) (by simp) rfl)))

/-- Every event of `send_to_ctrl` is an event of a start of a move. -/
theorem send_to_ctrl_tags (g : Int → Option MotorPool) (env : StartEnv P) (ids : List Int)
    (positions : List P) (th : PoolThread) (bp : List P) (st : PoolSt P) :
    ∀ e ∈ (send_to_ctrl g env ids positions th false bp st).evs, e.tag ∈ start_tags := by
  generalize hwf : false = wait_flag
  cases hf : find_implied g ids [] [] with
  | error i =>
    intro e he
    simp [send_to_ctrl, hf] at he
  | ok mc =>
    obtain ⟨ms, cs⟩ := mc
    have hL : ∀ e ∈ (lock_evs th ms cs : List (Ev P)), e.tag ∈ start_tags := by
      intro e he
      rcases lock_evs_tags th ms cs e he with h | h <;> rw [h] <;> decide
    have hU : ∀ e ∈ (unlock_evs th ms cs : List (Ev P)), e.tag ∈ start_tags := by
      intro e he
      rcases unlock_evs_tags th ms cs e he with h | h <;> rw [h] <;> decide
    have hPA : ∀ l : List Int, ∀ e ∈ l.map (fun c => (Ev.PreStartAll c : Ev P)),
        e.tag ∈ start_tags := by
      intro l e he; obtain ⟨c, _, rfl⟩ := List.mem_map.1 he; simp [Ev.tag, start_tags]
    have hSA : ∀ l : List Int, ∀ e ∈ l.map (fun c => (Ev.StartAll c : Ev P)),
        e.tag ∈ start_tags := by
      intro l e he; obtain ⟨c, _, rfl⟩ := List.mem_map.1 he; simp [Ev.tag, start_tags]
    have hUC : ∀ e ∈ cs.map (fun c => (Ev.unlock_ctrl c : Ev P)), e.tag ∈ start_tags := by
      intro e he; obtain ⟨c, _, rfl⟩ := List.mem_map.1 he; simp [Ev.tag, start_tags]
    have hUM : ∀ e ∈ (if (th.group_id != -1) = true then
        ms.map (fun m => (Ev.unlock_mot m.mot_id : Ev P)) else []), e.tag ∈ start_tags := by
      intro e he
      split at he
      · obtain ⟨c, _, rfl⟩ := List.mem_map.1 he; simp [Ev.tag, start_tags]
      · cases he
    have hmt : ∀ A : List (Ev P),
        (∀ e ∈ A, e.tag ∈ motor_tags ∨ simu_event th wait_flag st ids e) →
        ∀ e ∈ A, e.tag ∈ start_tags := by
      intro A hA e he
      rcases hA e he with this | ⟨_, ⟨hw, _⟩, _⟩
      · simp only [motor_tags, List.mem_cons, List.mem_singleton, List.not_mem_nil,
          or_false] at this
        rcases this with h | h | h <;> rw [h] <;> decide
      · rw [← hwf] at hw; cases hw
    have hrt : ∀ A : List (Ev P), (∀ e ∈ A, e.tag ∈ reset_tags) → ∀ e ∈ A, e.tag ∈ start_tags := by
      intro A hA e he
      have := hA e he
      simp only [reset_tags, List.mem_cons, List.mem_singleton, List.not_mem_nil,
        or_false] at this
      rcases this with h | h <;> rw [h] <;> decide
    rcases send_to_ctrl_shape g env ids positions th wait_flag bp st ms cs hf with
      ⟨n, _, hev, _⟩ | ⟨A, hA, _, h⟩
    · rw [hev]
      intro e he
      simp only [List.mem_append] at he
      rcases he with (he | he) | he
      · exact hL e he
      · exact hPA _ e he
      · exact hU e he
    · rcases h with ⟨f, l, _, _, _, hev, _⟩ | ⟨S, R, n, _, hS, hR, hev, _⟩ |
        ⟨S, Q, _, hS, hQ, _, hev, _⟩
      · rw [hev]
        intro e he
        simp only [List.mem_append] at he
        rcases he with ((he | he) | he) | he
        · exact hL e he
        · exact hPA _ e he
        · exact hmt A hA e he
        · exact hU e he
      · rw [hev]
        intro e he
        simp only [List.mem_append] at he
        rcases he with ((((((he | he) | he) | he) | he) | he) | he) | he
        · exact hL e he
        · exact hPA _ e he
        · exact hmt A hA e he
        · rw [hS e he]; decide
        · exact hSA _ e he
        · exact hUC e he
        · exact hrt R hR e he
        · exact hUM e he
      · rw [hev]
        intro e he
        simp only [List.mem_append] at he
        rcases he with ((((((he | he) | he) | he) | he) | he) | he) | he
        · exact hL e he
        · exact hPA _ e he
        · exact hmt A hA e he
        · rw [hS e he]; decide
        · exact hSA _ e he
        · exact hU e he
        · simp at he; subst he; simp [Ev.tag, start_tags]
        · rw [hQ e he]; decide

theorem backlash_move_grows (g : Int → Option MotorPool) (env : StartEnv P) (th : PoolThread)
    (cs : List Int) (ms : List MotInMove) (back_id : List Int) (ba : List P) (r : Run P) :
    Run.grows (fun e => e.tag ∈ start_tags) r (backlash_move g env th cs ms back_id ba r) := by
  unfold backlash_move
  have h1 := send_to_ctrl_tags g env back_id ba th (List.replicate back_id.length 0) r.st
  generalize send_to_ctrl g env back_id ba th false (List.replicate back_id.length 0) r.st = n
    at h1 ⊢
  have g1 : Run.grows (fun e => e.tag ∈ start_tags) r
      ({ r with st := n.st, evs := r.evs ++ n.evs } : Run P) :=
    grows_of_spec _ _ _ n.evs rfl h1 rfl
  simp only []
  split
  · exact grows_trans g1 (manage_thread_exception_grows th cs ms _ _ _ _)
  · exact g1

theorem start_ev_not_ends {r1 r2 : Run P} (h : Run.grows (fun e => e.tag ∈ start_tags) r1 r2) :
    Run.grows (fun e => e.ends_motion = false) r1 r2 :=
  grows_mono h (fun e he => ends_motion_of_start_tag e he)

theorem read_ev_not_ends {r1 r2 : Run P} (h : Run.grows (read_ev false) r1 r2) :
    Run.grows (fun e => e.ends_motion = false) r1 r2 :=
  grows_mono h (fun _ he => he.2 rfl)

theorem early_motor_spec (tick : Tick P) (loop : Nat) (m : MotInMove) (a : Early P) :
    Run.grows (fun e => e.tag ∈ start_tags) a.run (early_motor tick loop m a).run ∧
      (early_motor tick loop m a).run.err = a.run.err := by
  unfold early_motor
  dsimp only
  split
  · split
    · split
      · exact ⟨grows_of_spec _ _ _ [] (by simp) (by simp) rfl, rfl⟩
      · by_cases hl : m.mot.has_listeners = true
        · rw [if_pos hl]
          exact ⟨grows_of_spec _ _ _
            [Ev.state_change (Src.mot m.mot_id) (tick.sta_array loop),
             Ev.elem_state_change (Src.mot m.mot_id) DevState.MOVING (tick.sta_array loop)]
            (by simp) (by intro e he; simp at he; rcases he with h | h <;> subst h <;>
              simp [Ev.tag, start_tags]) rfl, rfl⟩
        · rw [if_neg hl]
          exact ⟨grows_of_spec _ _ _
            [Ev.state_change (Src.mot m.mot_id) (tick.sta_array loop)]
            (by simp) (by intro e he; simp at he; subst he; simp [Ev.tag, start_tags]) rfl, rfl⟩
    · exact ⟨grows_refl _ _, rfl⟩
  · exact ⟨grows_refl _ _, rfl⟩

theorem early_motors_spec (tick : Tick P) (loop : Nat) (ms : List MotInMove) (a : Early P) :
    Run.grows (fun e => e.tag ∈ start_tags) a.run (early_motors tick loop ms a).run ∧
      (early_motors tick loop ms a).run.err = a.run.err := by
  induction ms generalizing loop a with
  | nil => exact ⟨grows_refl _ _, rfl⟩
  | cons m rest ih =>
    simp only [early_motors]
    obtain ⟨h1, h2⟩ := ih (loop + 1) (early_motor tick loop m a)
    obtain ⟨k1, k2⟩ := early_motor_spec tick loop m a
    exact ⟨grows_trans k1 h1, h2.trans k2⟩

theorem pending_motor_spec (tick : Tick P) (loop : Nat) (m : MotInMove) (l : Loop P) :
    Run.grows (fun e => e.tag ∈ start_tags) l.run (pending_motor tick loop m l).run ∧
      (pending_motor tick loop m l).run.err = l.run.err ∧
      (pending_motor tick loop m l).end_mot_ext_evts = l.end_mot_ext_evts ∧
      ((∀ e ∈ l.end_mot_int_evts, e.tag = Tag.elem_state_change) →
        ∀ e ∈ (pending_motor tick loop m l).end_mot_int_evts, e.tag = Tag.elem_state_change) := by
  unfold pending_motor
  dsimp only
  split
  · refine ⟨grows_of_spec _ _ _ [Ev.state_change (Src.mot m.mot_id) (tick.sta_array loop)]
      (by simp) (by intro e he; simp at he; subst he; simp [Ev.tag, start_tags]) rfl, rfl, rfl, ?_⟩
    intro h e he
    split at he
    · rcases List.mem_append.1 he with h1 | h1
      · exact h e h1
      · simp at h1; subst h1; rfl
    · exact h e he
  · exact ⟨grows_refl _ _, rfl, rfl, fun h => h⟩

theorem pending_motors_spec (tick : Tick P) (loop : Nat) (ms : List MotInMove) (l : Loop P) :
    Run.grows (fun e => e.tag ∈ start_tags) l.run (pending_motors tick loop ms l).run ∧
      (pending_motors tick loop ms l).run.err = l.run.err ∧
      (pending_motors tick loop ms l).end_mot_ext_evts = l.end_mot_ext_evts ∧
      ((∀ e ∈ l.end_mot_int_evts, e.tag = Tag.elem_state_change) →
        ∀ e ∈ (pending_motors tick loop ms l).end_mot_int_evts, e.tag = Tag.elem_state_change) := by
  induction ms generalizing loop l with
  | nil => exact ⟨grows_refl _ _, rfl, rfl, fun h => h⟩
  | cons m rest ih =>
    simp only [pending_motors]
    obtain ⟨h1, h2, h3, h4⟩ := ih (loop + 1) (pending_motor tick loop m l)
    obtain ⟨k1, k2, k3, k4⟩ := pending_motor_spec tick loop m l
    exact ⟨grows_trans k1 h1, h2.trans k2, h3.trans k3, fun h => h4 (k4 h)⟩

theorem end_round_spec (nb : Int) (th : PoolThread) (m0 : MotInMove) (rest : List MotInMove)
    (tick : Tick P) (l : Loop P) (h : l.inv) : (end_round nb th m0 rest tick l).inv := by
  unfold end_round
  dsimp only
  have key : ∀ l1 : Loop P, l1.inv →
      Loop.inv ({ l1 with run := { l1.run with evs := l1.run.evs ++ l1.run.internal_events,
                                               internal_events := [] } } : Loop P) := by
    intro l1 h1
    refine ⟨⟨fun e he => ?_, fun e he => by cases he⟩, h1.2⟩
    rcases List.mem_append.1 he with h2 | h2
    · exact h1.1.1 e h2
    · exact h1.1.2 e h2
  apply key
  split
  · exact ⟨all_of_grows (read_ev_not_ends
      (read_pos_while_moving_spec th m0 rest true false true tick.read_throws l.run).1) h.1, h.2⟩
  · exact h

theorem group_motion_end_spec (th : PoolThread) (m0 : MotInMove) (rest : List MotInMove)
    (tick : Tick P) (ab : Bool) (l : Loop P) (hg : (th.group_id != -1) = true) (h : l.inv)
    (herr : l.run.err = none) :
    (group_motion_end th m0 rest tick ab l).inv ∧
      Loop.left_ok th m0 (group_motion_end th m0 rest tick ab l) := by
  unfold group_motion_end
  dsimp only
  obtain ⟨a1, a2, _⟩ := read_pos_while_moving_spec th m0 rest false false false tick.read_throws
    l.run
  generalize read_pos_while_moving th m0 rest false false false tick.read_throws l.run = r2
    at a1 a2 ⊢
  have hl2 : Loop.inv ({ l with run := r2 } : Loop P) :=
    ⟨all_of_grows (read_ev_not_ends a1) h.1, h.2⟩
  have e2 : ({ l with run := r2 } : Loop P).run.err = none := by rw [← herr]; exact a2
  generalize ({ l with run := r2 } : Loop P) = l2 at hl2 e2 ⊢
  have c : Loop.inv (if ab = true then pending_motors tick 0 (m0 :: rest) l2 else l2) ∧
      (if ab = true then pending_motors tick 0 (m0 :: rest) l2 else l2).run.err = none := by
    cases ab
    · exact ⟨hl2, e2⟩
    · simp only [if_true]
      obtain ⟨p1, p2, _, p4⟩ := pending_motors_spec tick 0 (m0 :: rest) l2
      exact ⟨⟨all_of_grows (start_ev_not_ends p1) hl2.1, p4 hl2.2⟩, p2.trans e2⟩
  obtain ⟨c1, c2⟩ := c
  generalize (if ab = true then pending_motors tick 0 (m0 :: rest) l2 else l2) = l3 at c1 c2 ⊢
  have hm : moved_elt th m0 = Src.grp := by unfold moved_elt; rw [if_pos hg]
  split
  · refine ⟨⟨c1.1, fun e he => ?_⟩, c2, Or.inl ?_⟩
    · rcases List.mem_append.1 he with h1 | h1
      · exact c1.2 e h1
      · simp at h1; subst h1; rfl
    · rw [hm]; exact List.mem_append_right _ (List.mem_singleton.2 rfl)
  · refine ⟨⟨c1.1, c1.2⟩, c2, Or.inl ?_⟩
    rw [hm]; exact List.mem_append_right _ (List.mem_singleton.2 rfl)

theorem motor_motion_end_spec (th : PoolThread) (m0 : MotInMove) (rest : List MotInMove)
    (tick : Tick P) (l : Loop P) (hg : (th.group_id != -1) = false) (h : l.inv)
    (herr : l.run.err = none) :
    (motor_motion_end th m0 rest tick l).inv ∧
      Loop.left_ok th m0 (motor_motion_end th m0 rest tick l) := by
  unfold motor_motion_end
  dsimp only
  obtain ⟨a1, a2, _⟩ := read_pos_while_moving_spec th m0 rest false false false tick.read_throws
    l.run
  generalize read_pos_while_moving th m0 rest false false false tick.read_throws l.run = r2
    at a1 a2 ⊢
  have hm : moved_elt th m0 = Src.mot m0.mot_id := by
    unfold moved_elt; rw [hg]; rfl
  have hr2 : Run.all (fun e => e.ends_motion = false) r2 := all_of_grows (read_ev_not_ends a1) h.1
  split
  · refine ⟨⟨hr2, fun e he => ?_⟩, a2.trans herr, Or.inl ?_⟩
    · rcases List.mem_append.1 he with h1 | h1
      · exact h.2 e h1
      · simp at h1; subst h1; rfl
    · rw [hm]; exact List.mem_append_right _ (List.mem_singleton.2 rfl)
  · refine ⟨⟨hr2, h.2⟩, a2.trans herr, Or.inl ?_⟩
    rw [hm]; exact List.mem_append_right _ (List.mem_singleton.2 rfl)

theorem err_none_of_isSome {r : Run P} (h : ¬ r.err.isSome = true) : r.err = none := by
  cases he : r.err with
  | none => rfl
  | some f => rw [he] at h; exact absurd rfl h

theorem group_round_spec (g : Int → Option MotorPool) (nb : Int) (th : PoolThread)
    (cs : List Int) (m0 : MotInMove) (rest : List MotInMove) (tick : Tick P) (l : Loop P)
    (hg : (th.group_id != -1) = true) (h : l.inv) (herr : l.run.err = none) :
    (group_round g nb th cs m0 rest tick l).1.inv ∧
      ((group_round g nb th cs m0 rest tick l).2 = true →
        Loop.left_ok th m0 (group_round g nb th cs m0 rest tick l).1) := by
  unfold group_round
  dsimp only
  have ha : Run.grows (fun e => e.tag ∈ start_tags) l.run
        (if tick.abort_cmd_executed = false then
          early_motors tick 0 (m0 :: rest) ⟨l.run, tick.abort_cmd_executed, [], []⟩
         else ⟨l.run, tick.abort_cmd_executed, [], []⟩).run ∧
      (if tick.abort_cmd_executed = false then
          early_motors tick 0 (m0 :: rest) ⟨l.run, tick.abort_cmd_executed, [], []⟩
         else ⟨l.run, tick.abort_cmd_executed, [], []⟩).run.err = l.run.err := by
    split
    · exact early_motors_spec tick 0 (m0 :: rest) ⟨l.run, tick.abort_cmd_executed, [], []⟩
    · exact ⟨grows_refl _ _, rfl⟩
  obtain ⟨a1, a2⟩ := ha
  generalize (if tick.abort_cmd_executed = false then
          early_motors tick 0 (m0 :: rest) ⟨l.run, tick.abort_cmd_executed, [], []⟩
         else ⟨l.run, tick.abort_cmd_executed, [], []⟩) = a at a1 a2 ⊢
  have hall : Run.all (fun e => e.ends_motion = false) a.run :=
    all_of_grows (start_ev_not_ends a1) h.1
  have hne : th.group_id ≠ -1 := by simpa using hg
  split
  · have hab : Run.all (fun e => e.ends_motion = false) (a.run.emit Ev.command_Abort) :=
      all_of_grows (grows_emit _ _ _ rfl) hall
    split
    · exact ⟨⟨hab, h.2⟩, fun hc => by cases hc⟩
    · exact ⟨⟨hab, h.2⟩, fun _ => ⟨a2.trans herr, Or.inr ⟨hne, by simp⟩⟩⟩
  · have hb : Run.grows (fun e => e.tag ∈ start_tags) a.run
          (if tick.abort_cmd_executed = false ∧ a.back_id ≠ [] then
            backlash_move g tick.start_env th cs (m0 :: rest) a.back_id a.ba a.run
           else a.run) := by
      split
      · exact backlash_move_grows _ _ _ _ _ _ _ _
      · exact grows_refl _ _
    generalize (if tick.abort_cmd_executed = false ∧ a.back_id ≠ [] then
            backlash_move g tick.start_env th cs (m0 :: rest) a.back_id a.ba a.run
           else a.run) = r1 at hb ⊢
    have h1 : Loop.inv ({ l with run := r1 } : Loop P) :=
      ⟨all_of_grows (start_ev_not_ends hb) hall, h.2⟩
    split
    · exact ⟨h1, fun hc => by cases hc⟩
    · rename_i hs
      have e1 : ({ l with run := r1 } : Loop P).run.err = none := err_none_of_isSome hs
      split
      · obtain ⟨k1, k2⟩ := group_motion_end_spec th m0 rest tick a.abort_cmd_executed
          ({ l with run := r1 } : Loop P) hg h1 e1
        exact ⟨k1, fun _ => k2⟩
      · exact ⟨end_round_spec nb th m0 rest tick _ h1, fun hc => by cases hc⟩

theorem motor_round_spec (g : Int → Option MotorPool) (nb : Int) (th : PoolThread)
    (cs : List Int) (m0 : MotInMove) (rest : List MotInMove) (tick : Tick P) (l : Loop P)
    (hg : (th.group_id != -1) = false) (h : l.inv) (herr : l.run.err = none) :
    (motor_round g nb th cs m0 rest tick l).1.inv ∧
      ((motor_round g nb th cs m0 rest tick l).2 = true →
        Loop.left_ok th m0 (motor_round g nb th cs m0 rest tick l).1) := by
  unfold motor_round
  dsimp only
  split
  · split
    · have hb := backlash_move_grows g tick.start_env th cs (m0 :: rest) [m0.mot_id]
        [l.run.back_pos.getD 0 0] ({ l.run with back_pos := l.run.back_pos.set 0 0 } : Run P)
      generalize backlash_move g tick.start_env th cs (m0 :: rest) [m0.mot_id]
        [l.run.back_pos.getD 0 0] ({ l.run with back_pos := l.run.back_pos.set 0 0 } : Run P) = r1
        at hb ⊢
      have h0 : Run.all (fun e => e.ends_motion = false)
          ({ l.run with back_pos := l.run.back_pos.set 0 0 } : Run P) := ⟨h.1.1, h.1.2⟩
      have h1 : Loop.inv ({ l with run := r1 } : Loop P) :=
        ⟨all_of_grows (start_ev_not_ends hb) h0, h.2⟩
      split
      · exact ⟨h1, fun hc => by cases hc⟩
      · exact ⟨end_round_spec nb th m0 rest tick _ h1, fun hc => by cases hc⟩
    · obtain ⟨k1, k2⟩ := motor_motion_end_spec th m0 rest tick l hg h herr
      exact ⟨k1, fun _ => k2⟩
  · exact ⟨end_round_spec nb th m0 rest tick _ h, fun hc => by cases hc⟩

theorem loop_rounds_spec (g : Int → Option MotorPool) (nb : Int) (th : PoolThread)
    (cs : List Int) (m0 : MotInMove) (rest : List MotInMove) (ticks : List (Tick P)) (l : Loop P)
    (h : l.inv) (herr : l.run.err = none) :
    (loop_rounds g nb th cs m0 rest ticks l).1.inv ∧
      ((loop_rounds g nb th cs m0 rest ticks l).2 = true →
        Loop.left_ok th m0 (loop_rounds g nb th cs m0 rest ticks l).1) := by
  induction ticks generalizing l with
  | nil => exact ⟨h, fun hc => by cases hc⟩
  | cons tick ticks ih =>
    unfold loop_rounds
    dsimp only
    split
    · exact ih _ ⟨h.1, h.2⟩ herr
    · have hres : (if (th.group_id != -1) = true then
            group_round g nb th cs m0 rest tick
              { l with d_state := d_state_after tick.state l.d_state }
          else motor_round g nb th cs m0 rest tick
              { l with d_state := d_state_after tick.state l.d_state }).1.inv ∧
          ((if (th.group_id != -1) = true then
            group_round g nb th cs m0 rest tick
              { l with d_state := d_state_after tick.state l.d_state }
          else motor_round g nb th cs m0 rest tick
              { l with d_state := d_state_after tick.state l.d_state }).2 = true →
          Loop.left_ok th m0 (if (th.group_id != -1) = true then
            group_round g nb th cs m0 rest tick
              { l with d_state := d_state_after tick.state l.d_state }
          else motor_round g nb th cs m0 rest tick
              { l with d_state := d_state_after tick.state l.d_state }).1) := by
        cases hg : (th.group_id != -1) with
        | true =>
          simp only [if_true]
          exact group_round_spec g nb th cs m0 rest tick _ hg ⟨h.1, h.2⟩ herr
        | false =>
          simp only [Bool.false_eq_true, if_false]
          exact motor_round_spec g nb th cs m0 rest tick _ hg ⟨h.1, h.2⟩ herr
      generalize (if (th.group_id != -1) = true then
            group_round g nb th cs m0 rest tick
              { l with d_state := d_state_after tick.state l.d_state }
          else motor_round g nb th cs m0 rest tick
              { l with d_state := d_state_after tick.state l.d_state }) = res at hres ⊢
      split
      · exact hres
      · split
        · exact hres
        · rename_i hs
          exact ih res.1 hres.1 (err_none_of_isSome hs)

theorem clear_mov_th_id_group (ms : List MotInMove) (st : PoolSt P) :
    (clear_mov_th_id ms st).group = st.group := by
  induction ms generalizing st with
  | nil => rfl
  | cons m rest ih => simp only [clear_mov_th_id]; rw [ih]; rfl

theorem set_motor_group (st : PoolSt P) (i : Int) (f : MotorDev P → MotorDev P) :
    (st.set_motor i f).group = st.group := rfl

theorem lock_motors_loop_listeners (th : PoolThread) (ms : List MotInMove) (r : Run P) :
    (lock_motors_loop th ms r).st.group = r.st.group := by
  induction ms generalizing r with
  | nil => rfl
  | cons m rest ih => simp only [lock_motors_loop]; rw [ih]; rfl

theorem lock_motors_listeners (th : PoolThread) (ms : List MotInMove) (r : Run P) :
    (lock_motors th ms r).st.group.has_listeners = r.st.group.has_listeners := by
  unfold lock_motors
  split
  · dsimp only; rw [lock_motors_loop_listeners]
  · cases ms.head? <;> rfl

theorem PreStartAll_loop_listeners (env : StartEnv P) (k : Nat) (cs : List Int) (r : Run P) :
    (PreStartAll_loop env k cs r).st = r.st := by
  induction cs generalizing k r with
  | nil => rfl
  | cons c rest ih =>
    simp only [PreStartAll_loop]
    split
    · rfl
    · rw [ih]; rfl

theorem StartAll_loop_listeners (env : StartEnv P) (k : Nat) (cs : List Int) (r : Run P) :
    (StartAll_loop env k cs r).st = r.st := by
  induction cs generalizing k r with
  | nil => rfl
  | cons c rest ih =>
    simp only [StartAll_loop]
    split
    · rfl
    · rw [ih]; rfl

theorem send_position_listeners (env : StartEnv P) (th : PoolThread) (wait_flag : Bool)
    (positions : List P) (loop : Nat) (m : MotInMove) (r : Run P) :
    (send_position env th wait_flag positions loop m r).1.st.group = r.st.group := by
  cases hg : (th.group_id != -1) <;> cases wait_flag <;> cases hw : env.write_Position loop <;>
    cases hs : (r.st.motor m.mot_id).simu <;>
    simp only [send_position, hg, hw, Bool.false_eq_true, if_false, if_true] <;>
    (try split) <;>
    simp [write_Position_end, simulated_write, PoolSt.set_motor, Run.emit, hs]

theorem start_motor_listeners (env : StartEnv P) (th : PoolThread) (wait_flag : Bool)
    (positions : List P) (loop : Nat) (m : MotInMove) (r : Run P) :
    (start_motor env th wait_flag positions loop m r).st.group = r.st.group := by
  unfold start_motor
  dsimp only
  have h := send_position_listeners env th wait_flag positions loop m r
  generalize send_position env th wait_flag positions loop m r = rp at h ⊢
  split
  · exact h
  · split
    · exact h
    · exact h
    · split <;> exact h

theorem start_motors_loop_listeners (env : StartEnv P) (th : PoolThread) (wait_flag : Bool)
    (positions : List P) (loop : Nat) (ms : List MotInMove) (r : Run P) :
    (start_motors_loop env th wait_flag positions loop ms r).st.group = r.st.group := by
  induction ms generalizing loop r with
  | nil => rfl
  | cons m rest ih =>
    simp only [start_motors_loop]
    split
    · exact start_motor_listeners env th wait_flag positions loop m r
    · rw [ih]; exact start_motor_listeners env th wait_flag positions loop m r

theorem set_motor_moving_listeners (wait_flag : Bool) (m : MotInMove) (r : Run P) :
    (set_motor_moving wait_flag m r).st.group = r.st.group := by
  unfold set_motor_moving
  dsimp only
  split
  · split <;> rfl
  · rfl

theorem set_motors_moving_listeners (wait_flag : Bool) (ms : List MotInMove) (r : Run P) :
    (set_motors_moving wait_flag ms r).st.group = r.st.group := by
  induction ms generalizing r with
  | nil => rfl
  | cons m rest ih =>
    simp only [set_motors_moving]
    rw [ih]; exact set_motor_moving_listeners wait_flag m r

theorem set_group_moving_listeners (th : PoolThread) (wait_flag : Bool) (r : Run P) :
    (set_group_moving th wait_flag r).st.group.has_listeners = r.st.group.has_listeners := by
  unfold set_group_moving
  dsimp only
  split
  · split
    · split <;> rfl
    · rfl
  · rfl

theorem reset_group_ON_listeners (th : PoolThread) (r : Run P) :
    (reset_group_ON th r).st.group.has_listeners = r.st.group.has_listeners := by
  unfold reset_group_ON
  dsimp only
  split
  · split <;> rfl
  · rfl

theorem manage_thread_exception_listeners (th : PoolThread) (cs : List Int)
    (ms : List MotInMove) (f : String) (sc : Bool) (l : Int) (r : Run P) :
    (manage_thread_exception th cs ms f sc l r).st.group.has_listeners =
      r.st.group.has_listeners := by
  unfold manage_thread_exception
  dsimp only
  have h1 : (unlock_ctrls cs r).st = r.st := (unlock_ctrls_spec cs r).2.2.2
  generalize unlock_ctrls cs r = r1 at h1 ⊢
  have h2 : (if sc = true then reset_group_ON th (reset_motors_ON ms r1) else r1).st.group.has_listeners
      = r1.st.group.has_listeners := by
    split
    · rw [reset_group_ON_listeners]
      obtain ⟨_, _, _, _, _, _, h, _⟩ := reset_motors_ON_spec ms r1
      rw [h]
    · rfl
  generalize (if sc = true then reset_group_ON th (reset_motors_ON ms r1) else r1) = r2 at h2 ⊢
  split
  · rw [(unlock_motors_spec ms r2).2.2.2, h2, h1]
  · rw [h2, h1]

theorem catch_start_listeners (th : PoolThread) (cs : List Int) (ms : List MotInMove)
    (sc : Bool) (r : Run P) :
    (catch_start th cs ms sc r).st.group.has_listeners = r.st.group.has_listeners := by
  unfold catch_start
  split
  · rfl
  · rw [manage_thread_exception_listeners]

theorem finish_start_listeners (th : PoolThread) (cs : List Int) (ms : List MotInMove)
    (r : Run P) :
    (finish_start th cs ms r).st.group.has_listeners = r.st.group.has_listeners := by
  unfold finish_start
  dsimp only
  have h1 : (unlock_ctrls cs r).st = r.st := (unlock_ctrls_spec cs r).2.2.2
  generalize unlock_ctrls cs r = r1 at h1 ⊢
  have h2 : (if (th.group_id != -1) = true then unlock_motors ms r1 else r1).st = r1.st := by
    split
    · exact (unlock_motors_spec ms r1).2.2.2
    · rfl
  generalize (if (th.group_id != -1) = true then unlock_motors ms r1 else r1) = r2 at h2 ⊢
  split
  · cases ms.head? with
    | none => dsimp only [Run.emit]; rw [h2, h1]
    | some m => dsimp only [Run.emit]; rw [set_motor_group, h2, h1]
  · dsimp only [Run.emit]; rw [h2, h1]

theorem andThen_listeners (r : Run P) (f : Run P → Run P)
    (hf : ∀ x, (f x).st.group.has_listeners = x.st.group.has_listeners) :
    (r.andThen f).st.group.has_listeners = r.st.group.has_listeners := by
  unfold Run.andThen
  split
  · rfl
  · exact hf r

theorem try_start_listeners (env : StartEnv P) (th : PoolThread) (wait_flag : Bool)
    (positions : List P) (cs : List Int) (ms : List MotInMove) (r : Run P) :
    (try_start env th wait_flag positions cs ms r).st.group.has_listeners =
      r.st.group.has_listeners := by
  unfold try_start
  rw [andThen_listeners _ _ (fun x => by rw [start_motors_loop_listeners]),
    andThen_listeners _ _ (fun x => by rw [PreStartAll_loop_listeners]),
    (lock_ctrls_spec cs _).2.2.2, lock_motors_listeners]

/-- `send_to_ctrl` leaves the listeners of the group as they are. -/
theorem send_to_ctrl_listeners (g : Int → Option MotorPool) (env : StartEnv P) (ids : List Int)
    (positions : List P) (th : PoolThread) (wait_flag : Bool) (bp : List P) (st : PoolSt P) :
    (send_to_ctrl g env ids positions th wait_flag bp st).st.group.has_listeners =
      st.group.has_listeners := by
  unfold send_to_ctrl
  split
  · rfl
  · dsimp only
    split
    · rw [catch_start_listeners, try_start_listeners]
    · split
      · rw [catch_start_listeners, StartAll_loop_listeners, set_group_moving_listeners,
          set_motors_moving_listeners, try_start_listeners]
      · rw [finish_start_listeners, StartAll_loop_listeners, set_group_moving_listeners,
          set_motors_moving_listeners, try_start_listeners]

theorem backlash_move_listeners (g : Int → Option MotorPool) (env : StartEnv P)
    (th : PoolThread) (cs : List Int) (ms : List MotInMove) (back_id : List Int) (ba : List P)
    (r : Run P) :
    (backlash_move g env th cs ms back_id ba r).st.group.has_listeners =
      r.st.group.has_listeners := by
  unfold backlash_move
  dsimp only
  split
  · rw [manage_thread_exception_listeners]
    exact send_to_ctrl_listeners g env back_id ba th false _ r.st
  · exact send_to_ctrl_listeners g env back_id ba th false _ r.st

theorem early_motor_listeners (tick : Tick P) (loop : Nat) (m : MotInMove) (a : Early P) :
    (early_motor tick loop m a).run.st.group.has_listeners = a.run.st.group.has_listeners := by
  unfold early_motor
  dsimp only
  split
  · split
    · split
      · rfl
      · split <;> rfl
    · rfl
  · rfl

theorem early_motors_listeners (tick : Tick P) (loop : Nat) (ms : List MotInMove)
    (a : Early P) :
    (early_motors tick loop ms a).run.st.group.has_listeners = a.run.st.group.has_listeners := by
  induction ms generalizing loop a with
  | nil => rfl
  | cons m rest ih =>
    simp only [early_motors]
    rw [ih]; exact early_motor_listeners tick loop m a

theorem pending_motor_listeners (tick : Tick P) (loop : Nat) (m : MotInMove) (l : Loop P) :
    (pending_motor tick loop m l).run.st.group.has_listeners = l.run.st.group.has_listeners := by
  unfold pending_motor
  dsimp only
  split <;> rfl

theorem pending_motors_listeners (tick : Tick P) (loop : Nat) (ms : List MotInMove)
    (l : Loop P) :
    (pending_motors tick loop ms l).run.st.group.has_listeners =
      l.run.st.group.has_listeners := by
  induction ms generalizing loop l with
  | nil => rfl
  | cons m rest ih =>
    simp only [pending_motors]
    rw [ih]; exact pending_motor_listeners tick loop m l

theorem end_round_listeners (nb : Int) (th : PoolThread) (m0 : MotInMove)
    (rest : List MotInMove) (tick : Tick P) (l : Loop P) :
    (end_round nb th m0 rest tick l).run.st.group.has_listeners =
      l.run.st.group.has_listeners := by
  unfold end_round
  dsimp only
  split
  · dsimp only
    rw [(read_pos_while_moving_spec th m0 rest true false true tick.read_throws l.run).2.2]
  · rfl

theorem group_motion_end_listeners (th : PoolThread) (m0 : MotInMove) (rest : List MotInMove)
    (tick : Tick P) (ab : Bool) (l : Loop P) :
    (group_motion_end th m0 rest tick ab l).run.st.group.has_listeners =
      l.run.st.group.has_listeners := by
  unfold group_motion_end
  dsimp only
  have h1 := (read_pos_while_moving_spec th m0 rest false false false tick.read_throws l.run).2.2
  generalize read_pos_while_moving th m0 rest false false false tick.read_throws l.run = r2
    at h1 ⊢
  have h2 : (if ab = true then pending_motors tick 0 (m0 :: rest) ({ l with run := r2 } : Loop P)
      else ({ l with run := r2 } : Loop P)).run.st.group.has_listeners =
        l.run.st.group.has_listeners := by
    split
    · rw [pending_motors_listeners]; dsimp only; rw [h1]
    · dsimp only; rw [h1]
  generalize (if ab = true then pending_motors tick 0 (m0 :: rest) ({ l with run := r2 } : Loop P)
      else ({ l with run := r2 } : Loop P)) = l3 at h2 ⊢
  split <;> exact h2

theorem group_round_listeners (g : Int → Option MotorPool) (nb : Int) (th : PoolThread)
    (cs : List Int) (m0 : MotInMove) (rest : List MotInMove) (tick : Tick P) (l : Loop P) :
    (group_round g nb th cs m0 rest tick l).1.run.st.group.has_listeners =
      l.run.st.group.has_listeners := by
  unfold group_round
  dsimp only
  have ha : (if tick.abort_cmd_executed = false then
          early_motors tick 0 (m0 :: rest) ⟨l.run, tick.abort_cmd_executed, [], []⟩
         else ⟨l.run, tick.abort_cmd_executed, [], []⟩).run.st.group.has_listeners =
        l.run.st.group.has_listeners := by
    split
    · rw [early_motors_listeners]
    · rfl
  generalize (if tick.abort_cmd_executed = false then
          early_motors tick 0 (m0 :: rest) ⟨l.run, tick.abort_cmd_executed, [], []⟩
         else ⟨l.run, tick.abort_cmd_executed, [], []⟩) = a at ha ⊢
  split
  · split <;> exact ha
  · have hb : (if tick.abort_cmd_executed = false ∧ a.back_id ≠ [] then
            backlash_move g tick.start_env th cs (m0 :: rest) a.back_id a.ba a.run
           else a.run).st.group.has_listeners = l.run.st.group.has_listeners := by
      split
      · rw [backlash_move_listeners, ha]
      · exact ha
    generalize (if tick.abort_cmd_executed = false ∧ a.back_id ≠ [] then
            backlash_move g tick.start_env th cs (m0 :: rest) a.back_id a.ba a.run
           else a.run) = r1 at hb ⊢
    split
    · exact hb
    · split
      · rw [group_motion_end_listeners]; exact hb
      · rw [end_round_listeners]; exact hb

theorem motor_round_listeners (g : Int → Option MotorPool) (nb : Int) (th : PoolThread)
    (cs : List Int) (m0 : MotInMove) (rest : List MotInMove) (tick : Tick P) (l : Loop P) :
    (motor_round g nb th cs m0 rest tick l).1.run.st.group.has_listeners =
      l.run.st.group.has_listeners := by
  unfold motor_round
  dsimp only
  split
  · split
    · split
      · dsimp only; rw [backlash_move_listeners]
      · rw [end_round_listeners]; dsimp only; rw [backlash_move_listeners]
    · unfold motor_motion_end
      dsimp only
      split
      · dsimp only
        rw [(read_pos_while_moving_spec th m0 rest false false false tick.read_throws l.run).2.2]
      · dsimp only
        rw [(read_pos_while_moving_spec th m0 rest false false false tick.read_throws l.run).2.2]
  · rw [end_round_listeners]

theorem loop_rounds_listeners (g : Int → Option MotorPool) (nb : Int) (th : PoolThread)
    (cs : List Int) (m0 : MotInMove) (rest : List MotInMove) (ticks : List (Tick P))
    (l : Loop P) :
    (loop_rounds g nb th cs m0 rest ticks l).1.run.st.group.has_listeners =
      l.run.st.group.has_listeners := by
  induction ticks generalizing l with
  | nil => rfl
  | cons tick ticks ih =>
    unfold loop_rounds
    dsimp only
    split
    · rw [ih]
    · have hres : (if (th.group_id != -1) = true then
            group_round g nb th cs m0 rest tick
              { l with d_state := d_state_after tick.state l.d_state }
          else motor_round g nb th cs m0 rest tick
              { l with d_state := d_state_after tick.state l.d_state }).1.run.st.group.has_listeners
          = l.run.st.group.has_listeners := by
        split
        · rw [group_round_listeners]
        · rw [motor_round_listeners]
      generalize (if (th.group_id != -1) = true then
            group_round g nb th cs m0 rest tick
              { l with d_state := d_state_after tick.state l.d_state }
          else motor_round g nb th cs m0 rest tick
              { l with d_state := d_state_after tick.state l.d_state }) = res at hres ⊢
      split
      · exact hres
      · split
        · exact hres
        · rw [ih]; exact hres

theorem count_MotionEnded_append (a b : List (Ev P)) :
    count_MotionEnded (a ++ b) = count_MotionEnded a + count_MotionEnded b := by
  unfold count_MotionEnded; exact List.countP_append _ _ _

theorem count_MotionEnded_eq_zero (a : List (Ev P)) (h : ∀ e ∈ a, e.tag ≠ Tag.MotionEnded) :
    count_MotionEnded a = 0 := by
  unfold count_MotionEnded
  rw [List.countP_eq_zero]
  intro e he
  simpa using h e he

theorem finish_move_spec (env : MoveEnv P) (th : PoolThread) (m0 : MotInMove)
    (rest : List MotInMove) (l : Loop P) (h : l.inv) :
    ∃ F, (finish_move env th m0 rest l).evs = l.run.evs ++ F ++
        (l.end_mot_ext_evts.map (fun s => Ev.state_change s (env.last_state s)) ++
          l.end_mot_int_evts) ++
        (if moved_has_listeners th m0 l.run.st = true then [Ev.MotionEnded (moved_elt th m0)]
         else []) ∧
      (∀ e ∈ F, e.tag ∈ read_pos_tags) ∧
      Ev.position_change (moved_elt th m0) true env.last_read_throws ∈ F ∧
      ((th.group_id != -1) = true → ∀ m ∈ m0 :: rest,
        Ev.position_change (Src.mot m.mot_id) true env.last_read_throws ∈ F) ∧
      (finish_move env th m0 rest l).err = l.run.err := by
  unfold finish_move
  dsimp only
  obtain ⟨⟨⟨X, hX, pX⟩, ⟨I, hI, pI⟩⟩, e2, e3⟩ := read_pos_while_moving_spec th m0 rest true true
    true env.last_read_throws ({ l.run with internal_events := [] } : Run P)
  obtain ⟨m1, m2⟩ := read_pos_final_mem th m0 rest true true env.last_read_throws
    ({ l.run with internal_events := [] } : Run P)
  generalize read_pos_while_moving th m0 rest true true true env.last_read_throws
    ({ l.run with internal_events := [] } : Run P) = r1 at hX hI e2 e3 m1 m2 ⊢
  have hX2 : r1.evs = l.run.evs ++ X := hX
  have hI2 : r1.internal_events = I := by rw [hI]; rfl
  have hst : r1.st = l.run.st := e3
  have hmem : ∀ s : Src, Ev.position_change s true env.last_read_throws ∈ r1.evs →
      Ev.position_change s true env.last_read_throws ∈ X ++ I := by
    intro s hs
    rw [hX2] at hs
    rcases List.mem_append.1 hs with h1 | h1
    · have := h.1.1 _ h1
      simp [Ev.ends_motion] at this
    · exact List.mem_append_left _ h1
  refine ⟨X ++ I, ?_, ?_, hmem _ m1, fun hg m hm => hmem _ (m2 hg m hm), ?_⟩
  · rw [hst]
    by_cases hc : moved_has_listeners th m0 l.run.st = true
    · simp only [hc, if_true, emit_evs, hX2, hI2, List.append_assoc]
    · simp only [hc, if_false, hX2, hI2, List.append_assoc, List.append_nil]
      simp
  · intro e he
    rcases List.mem_append.1 he with h1 | h1
    · exact (pX e h1).1
    · exact (pI e h1).1
  · rw [hst]
    split
    · exact e2
    · exact e2

/-- C6 (as amended): a session that leaves the loop of `moving_loop` returns
without exception, and its events are, in this order: the events of the loop,
none of which is a forced position notification or `MotionEnded`; the forced
read of the positions with the final position notification of the group (of the
single motor) and, in a group session, of every motor; the delayed state
notifications, among them the state event of the group (of the single motor)
unless a group session has left the loop by an `Abort`; and `MotionEnded`, which
is fired once when the group (the single motor) has internal listeners and not
at all when it has none. -/
theorem moving_loop_end_order (g : Int → Option MotorPool) (nb : Int) (env : MoveEnv P)
    (cs : List Int) (m0 : MotInMove) (rest : List MotInMove) (th : PoolThread) (bp : List P)
    (d : DevState) (st : PoolSt P)
    (hleft : (moving_loop g nb env cs m0 rest th bp d st).2 = true) :
    (moving_loop g nb env cs m0 rest th bp d st).1.err = none ∧
    count_MotionEnded (moving_loop g nb env cs m0 rest th bp d st).1.evs =
      (if moved_has_listeners th m0 st = true then 1 else 0) ∧
    ∃ pre F S,
      (moving_loop g nb env cs m0 rest th bp d st).1.evs = pre ++ F ++ S ++
        (if moved_has_listeners th m0 st = true then [Ev.MotionEnded (moved_elt th m0)] else []) ∧
      (∀ e ∈ pre, e.ends_motion = false) ∧
      (∀ e ∈ F, e.tag ∈ read_pos_tags) ∧
      Ev.position_change (moved_elt th m0) true env.last_read_throws ∈ F ∧
      (th.group_id ≠ -1 → ∀ m ∈ m0 :: rest,
        Ev.position_change (Src.mot m.mot_id) true env.last_read_throws ∈ F) ∧
      (∀ e ∈ S, e.tag ∈ reset_tags) ∧
      (th.group_id = -1 ∨ Ev.command_Abort ∉ pre →
        Ev.state_change (moved_elt th m0) (env.last_state (moved_elt th m0)) ∈ S) := by
  unfold moving_loop at hleft ⊢
  dsimp only at hleft ⊢
  have h0 : Loop.inv (⟨⟨st, bp, [], [], none⟩, true, 0, d, [], []⟩ : Loop P) :=
    ⟨⟨fun e he => absurd he (List.not_mem_nil e), fun e he => absurd he (List.not_mem_nil e)⟩,
      fun e he => absurd he (List.not_mem_nil e)⟩
  obtain ⟨hinv, hlo⟩ := loop_rounds_spec g nb th cs m0 rest env.ticks
    (⟨⟨st, bp, [], [], none⟩, true, 0, d, [], []⟩ : Loop P) h0 rfl
  have hhl : moved_has_listeners th m0
      (loop_rounds g nb th cs m0 rest env.ticks
        (⟨⟨st, bp, [], [], none⟩, true, 0, d, [], []⟩ : Loop P)).1.run.st =
      moved_has_listeners th m0 st := by
    unfold moved_has_listeners
    rw [loop_rounds_listeners]
  generalize loop_rounds g nb th cs m0 rest env.ticks
    (⟨⟨st, bp, [], [], none⟩, true, 0, d, [], []⟩ : Loop P) = res at hleft hinv hlo hhl ⊢
  have hres : res.2 = true := by
    cases hr : res.2 with
    | true => rfl
    | false => rw [hr] at hleft; simp at hleft
  simp only [hres, if_true]
  obtain ⟨herr, hext⟩ := hlo hres
  obtain ⟨F, hev, hF, hm1, hm2, he⟩ := finish_move_spec env th m0 rest res.1 hinv
  rw [hhl] at hev
  have hS : ∀ e ∈ res.1.end_mot_ext_evts.map (fun s => (Ev.state_change s (env.last_state s) : Ev P))
      ++ res.1.end_mot_int_evts, e.tag ∈ reset_tags := by
    intro e h1
    rcases List.mem_append.1 h1 with h2 | h2
    · obtain ⟨s, _, rfl⟩ := List.mem_map.1 h2
      simp [Ev.tag, reset_tags]
    · rw [hinv.2 e h2]; simp [reset_tags]
  have hmemS : moved_elt th m0 ∈ res.1.end_mot_ext_evts →
      Ev.state_change (moved_elt th m0) (env.last_state (moved_elt th m0)) ∈
        res.1.end_mot_ext_evts.map (fun s => (Ev.state_change s (env.last_state s) : Ev P))
          ++ res.1.end_mot_int_evts :=
    fun hmem => List.mem_append_left _ (List.mem_map.2 ⟨_, hmem, rfl⟩)
  generalize res.1.end_mot_ext_evts.map (fun s => (Ev.state_change s (env.last_state s) : Ev P))
      ++ res.1.end_mot_int_evts = S at hev hS hmemS
  refine ⟨he.trans herr, ?_, res.1.run.evs, F, S, hev, hinv.1.1, hF, hm1, ?_, hS, ?_⟩
  · rw [hev, count_MotionEnded_append, count_MotionEnded_append, count_MotionEnded_append,
      count_MotionEnded_eq_zero _ (fun e h1 => tag_ne_of_not_ends e (hinv.1.1 e h1)),
      count_MotionEnded_eq_zero F (fun e h1 => by
        have := hF e h1
        intro h2; rw [h2] at this; simp [read_pos_tags] at this),
      count_MotionEnded_eq_zero S (fun e h1 => by
        have := hS e h1
        intro h2; rw [h2] at this; simp [reset_tags] at this)]
    split
    · simp [count_MotionEnded, Ev.tag]
    · simp [count_MotionEnded]
  · intro hg
    exact hm2 (by simpa using hg)
  · intro hc
    have hmem : moved_elt th m0 ∈ res.1.end_mot_ext_evts := by
      rcases hext with h1 | ⟨h1, h2⟩
      · exact h1
      · rcases hc with h3 | h3
        · exact absurd h3 h1
        · exact absurd h2 h3
    exact hmemS hmem

end

end Pool_ns

namespace Pool_ns

/-- C6, counterexample: a single-motor session without internal listeners
leaves the loop, fires the forced position event and then the state event, and
fires no `MotionEnded`. -/
theorem moving_loop_without_listeners :
    (moving_loop one_motor_pool 1 env_motion_ends [10] (motor_1_in_move false) [] ⟨-1, 7⟩ [0]
        DevState.UNKNOWN (st_in_motion false)).2 = true ∧
    (moving_loop one_motor_pool 1 env_motion_ends [10] (motor_1_in_move false) [] ⟨-1, 7⟩ [0]
        DevState.UNKNOWN (st_in_motion false)).1.evs =
      [Ev.read_Position (Src.mot 1), Ev.position_change (Src.mot 1) false false,
       Ev.read_Position (Src.mot 1),
       Ev.read_Position (Src.mot 1), Ev.position_change (Src.mot 1) true false,
       Ev.state_change (Src.mot 1) DevState.ON] ∧
    count_MotionEnded (moving_loop one_motor_pool 1 env_motion_ends [10] (motor_1_in_move false) []
        ⟨-1, 7⟩ [0] DevState.UNKNOWN (st_in_motion false)).1.evs = 0 := by
  decide

/-- C6, witness: a group session of two motors whose group has internal
listeners leaves the loop and fires `MotionEnded` once. -/
theorem moving_loop_end_order_witness :
    (moving_loop two_motor_pool 1 env_motion_ends [10] (motor_1_in_move false) [motor_2_in_move]
        ⟨100, 7⟩ [0, 0] DevState.UNKNOWN (st_in_motion true)).2 = true ∧
    (moving_loop two_motor_pool 1 env_motion_ends [10] (motor_1_in_move false) [motor_2_in_move]
        ⟨100, 7⟩ [0, 0] DevState.UNKNOWN (st_in_motion true)).1.err = none ∧
    count_MotionEnded (moving_loop two_motor_pool 1 env_motion_ends [10] (motor_1_in_move false)
        [motor_2_in_move] ⟨100, 7⟩ [0, 0] DevState.UNKNOWN (st_in_motion true)).1.evs = 1 :=
  ⟨by decide,
   (moving_loop_end_order two_motor_pool 1 env_motion_ends [10] (motor_1_in_move false)
      [motor_2_in_move] ⟨100, 7⟩ [0, 0] DevState.UNKNOWN (st_in_motion true) (by decide)).1,
   (moving_loop_end_order two_motor_pool 1 env_motion_ends [10] (motor_1_in_move false)
      [motor_2_in_move] ⟨100, 7⟩ [0, 0] DevState.UNKNOWN (st_in_motion true) (by decide)).2.1⟩

end Pool_ns

section status_text

open Pool_ns Tango

theorem append_lines_go (acc : String) (ls : List String) (loop : Nat) (h : loop ≠ 0) :
    append_lines loop acc ls = String.intercalate.go acc "\n" ls := by
  induction ls generalizing acc loop with
  | nil => simp [append_lines, String.intercalate.go]
  | cons l rest ih =>
    simp only [append_lines, String.intercalate.go]
    rw [ih _ (loop + 1) (by omega)]
    simp [h]

theorem append_lines_zero (ls : List String) :
    append_lines 0 "" ls = String.intercalate "\n" ls := by
  cases ls with
  | nil => simp [append_lines, String.intercalate]
  | cons l rest =>
    simp only [append_lines, String.intercalate]
    rw [append_lines_go _ _ 1 (by omega)]
    simp

theorem tier_status_skip (arr : List DevState) (elts : List IndEltName) (s : DevState)
    (suffix : String) (a : DevState) (rest : List DevState) (k : Nat)
    (hd : arr.drop k = a :: rest) (ha : a ≠ s) (nb loop : Nat) (acc : String) :
    tier_status arr elts s suffix nb loop k acc =
      tier_status arr elts s suffix nb loop (k + 1) acc := by
  cases nb with
  | zero => simp [tier_status]
  | succ n =>
    have hd1 : arr.drop (k + 1) = rest := by
      rw [← List.drop_drop, hd]; rfl
    simp only [tier_status]
    rw [hd, hd1, List.indexOf_cons_ne _ ha]
    have : k + (List.indexOf s rest).succ = k + 1 + List.indexOf s rest := by omega
    rw [this]

theorem tier_status_lines (arr : List DevState) (elts : List IndEltName) (s : DevState)
    (suffix : String) (hlen : arr.length ≤ elts.length) (post : List DevState) :
    ∀ (pre : List DevState) (loop : Nat) (acc : String), arr = pre ++ post →
      tier_status arr elts s suffix (post.count s) loop pre.length acc =
        append_lines loop acc (tier_lines post (elts.drop pre.length) s suffix) := by
  induction post with
  | nil =>
    intro pre loop acc h
    simp [tier_status, tier_lines, append_lines]
  | cons a rest ih =>
    intro pre loop acc h
    have hd : arr.drop pre.length = a :: rest := by
      rw [h]; simp
    have hk : pre.length < elts.length := by
      have : arr.length = pre.length + (rest.length + 1) := by rw [h]; simp
      omega
    have he : elts.drop pre.length = elts.get ⟨pre.length, hk⟩ :: elts.drop (pre.length + 1) :=
      List.drop_eq_getElem_cons hk
    have h2 : arr = (pre ++ [a]) ++ rest := by rw [h]; simp
    have ih2 := ih (pre ++ [a]) 
    simp only [List.length_append, List.length_singleton] at ih2
    by_cases ha : a = s
    · subst ha
      rw [List.count_cons_self]
      simp only [tier_status]
      have hg : elts.getD pre.length default = elts.get ⟨pre.length, hk⟩ := by
        simp [List.getD, List.getElem?_eq_getElem hk]
      rw [hd, List.indexOf_cons_self]
      simp only [Nat.add_zero]
      rw [hg, ih2 _ _ h2, he]
      simp only [tier_lines, List.zip_cons_cons, List.filter_cons, decide_True, if_true,
        List.map_cons, append_lines, status_line]
      simp only [String.append_assoc]
    · rw [List.count_cons_of_ne (Ne.symm ha), tier_status_skip arr elts s suffix a rest pre.length hd ha,
        ih2 _ _ h2]
      rw [he]
      simp only [tier_lines, List.zip_cons_cons, List.filter_cons, decide_eq_true_eq, ha, if_false]

theorem tier_status_eq (arr : List DevState) (elts : List IndEltName) (s : DevState)
    (suffix : String) (hlen : arr.length ≤ elts.length) :
    tier_status arr elts s suffix (arr.count s) 0 0 "" =
      String.intercalate "\n" (tier_lines arr elts s suffix) := by
  have h := tier_status_lines arr elts s suffix hlen arr [] 0 "" (by simp)
  simp only [List.length_nil, List.drop_zero] at h
  rw [h, append_lines_zero]

end status_text
section group_state_context

open Pool_ns Tango

/-- The state set by `MotorGroup::update_state_from_ctrls`, by cases. -/
theorem MotorGroup_state_cases (StatusNotSet : String) (arr : List DevState)
    (elts : List IndEltName) (g : GrpCtx) :
    (MotorGroup_ns.update_state_from_ctrls StatusNotSet arr elts g).1 =
      if DevState.FAULT ∈ arr then DevState.FAULT
      else if DevState.UNKNOWN ∈ arr then DevState.UNKNOWN
      else if DevState.ALARM ∈ arr then DevState.ALARM
      else if DevState.MOVING ∈ arr then DevState.MOVING
      else if g.mov_th_id ≠ 0 ∧ g.old_state = DevState.MOVING ∧ g.th_id ≠ g.mov_th_id ∧
          g.abort_cmd_executed = false then DevState.MOVING
      else DevState.ON := by
  unfold MotorGroup_ns.update_state_from_ctrls
  simp only [state_count_ne_zero_iff]
  split_ifs <;> simp_all

/-- The state set by `MeasurementGroup::update_state_from_ctrls`, by cases. -/
theorem MeasurementGroup_state_cases (StatusNotSet : String) (arr : List DevState)
    (elts : List IndEltName) (g : GrpCtx) :
    (MeasurementGroup_ns.update_state_from_ctrls StatusNotSet arr elts g).1 =
      if DevState.FAULT ∈ arr then DevState.FAULT
      else if DevState.UNKNOWN ∈ arr then DevState.UNKNOWN
      else if DevState.ALARM ∈ arr then DevState.ALARM
      else if DevState.MOVING ∈ arr then DevState.MOVING
      else if g.mov_th_id ≠ 0 ∧ g.old_state = DevState.MOVING ∧ g.th_id ≠ g.mov_th_id ∧
          g.abort_cmd_executed = false then DevState.MOVING
      else DevState.ON := by
  unfold MeasurementGroup_ns.update_state_from_ctrls
  simp only [state_count_ne_zero_iff]
  split_ifs <;> simp_all

/-- C11, counterexample: two calls of `MotorGroup::update_state_from_ctrls`
see the same state array, two elements ON, while the motion thread 7 is
registered and no abort was requested.  Called by thread 3 on a group that was
MOVING, the group is set to MOVING; called on a group that was ON, it is set
to ON. -/
theorem update_state_from_ctrls_reads_old_state :
    (MotorGroup_ns.update_state_from_ctrls "Not set" [DevState.ON, DevState.ON] two_names
        ⟨DevState.MOVING, 3, 7, false⟩).1 = DevState.MOVING ∧
    (MotorGroup_ns.update_state_from_ctrls "Not set" [DevState.ON, DevState.ON] two_names
        ⟨DevState.ON, 3, 7, false⟩).1 = DevState.ON ∧
    (MotorGroup_ns.update_state_from_ctrls "Not set" [DevState.ON, DevState.ON] two_names
        ⟨DevState.MOVING, 7, 7, false⟩).1 = DevState.ON ∧
    (MotorGroup_ns.update_state_from_ctrls "Not set" [DevState.ON, DevState.ON] two_names
        ⟨DevState.MOVING, 3, 7, true⟩).1 = DevState.ON := by
  decide

/-- C11 (as amended): the group state set by
`MotorGroup::update_state_from_ctrls` and by
`MeasurementGroup::update_state_from_ctrls` is the same for two calls that see
the same state array when an entry of the array is FAULT, UNKNOWN, ALARM or
MOVING, or when no motion thread is registered in either call.  When no entry
is FAULT, UNKNOWN, ALARM or MOVING, the state is MOVING if a motion thread is
registered, the group was MOVING, the caller is not the motion thread and no
abort was requested, and ON otherwise. -/
theorem update_state_from_ctrls_context (StatusNotSet : String) (arr : List DevState)
    (elts : List IndEltName) (g h : GrpCtx) :
    ((DevState.FAULT ∈ arr ∨ DevState.UNKNOWN ∈ arr ∨ DevState.ALARM ∈ arr ∨
        DevState.MOVING ∈ arr ∨ (g.mov_th_id = 0 ∧ h.mov_th_id = 0)) →
      (MotorGroup_ns.update_state_from_ctrls StatusNotSet arr elts g).1 =
        (MotorGroup_ns.update_state_from_ctrls StatusNotSet arr elts h).1 ∧
      (MeasurementGroup_ns.update_state_from_ctrls StatusNotSet arr elts g).1 =
        (MeasurementGroup_ns.update_state_from_ctrls StatusNotSet arr elts h).1) ∧
    ((DevState.FAULT ∉ arr ∧ DevState.UNKNOWN ∉ arr ∧ DevState.ALARM ∉ arr ∧
        DevState.MOVING ∉ arr) →
      (MotorGroup_ns.update_state_from_ctrls StatusNotSet arr elts g).1 =
        (if g.mov_th_id ≠ 0 ∧ g.old_state = DevState.MOVING ∧ g.th_id ≠ g.mov_th_id ∧
          g.abort_cmd_executed = false then DevState.MOVING else DevState.ON) ∧
      (MeasurementGroup_ns.update_state_from_ctrls StatusNotSet arr elts g).1 =
        (if g.mov_th_id ≠ 0 ∧ g.old_state = DevState.MOVING ∧ g.th_id ≠ g.mov_th_id ∧
          g.abort_cmd_executed = false then DevState.MOVING else DevState.ON)) := by
  refine ⟨?_, ?_⟩
  · intro hc
    rw [MotorGroup_state_cases, MotorGroup_state_cases, MeasurementGroup_state_cases,
      MeasurementGroup_state_cases]
    by_cases h1 : DevState.FAULT ∈ arr
    · simp only [h1, if_true, and_self]
    by_cases h2 : DevState.UNKNOWN ∈ arr
    · simp only [h1, h2, if_true, if_false, and_self]
    by_cases h3 : DevState.ALARM ∈ arr
    · simp only [h1, h2, h3, if_true, if_false, and_self]
    by_cases h4 : DevState.MOVING ∈ arr
    · simp only [h1, h2, h3, h4, if_true, if_false, and_self]
    · rcases hc with hc | hc | hc | hc | ⟨hg, hh⟩
      · exact absurd hc h1
      · exact absurd hc h2
      · exact absurd hc h3
      · exact absurd hc h4
      · simp [h1, h2, h3, h4, hg, hh]
  · rintro ⟨h1, h2, h3, h4⟩
    rw [MotorGroup_state_cases, MeasurementGroup_state_cases]
    simp only [h1, h2, h3, h4, if_false, and_self]

/-- C11, witness: with a MOVING entry in the array the state is MOVING for a
caller that is the motion thread after an abort as for another thread before
it. -/
theorem update_state_from_ctrls_context_witness :
    (MotorGroup_ns.update_state_from_ctrls "Not set" [DevState.ON, DevState.MOVING] two_names
        ⟨DevState.MOVING, 3, 7, false⟩).1 =
      (MotorGroup_ns.update_state_from_ctrls "Not set" [DevState.ON, DevState.MOVING] two_names
        ⟨DevState.ON, 7, 7, true⟩).1 ∧
    (MeasurementGroup_ns.update_state_from_ctrls "Not set" [DevState.ON, DevState.MOVING] two_names
        ⟨DevState.MOVING, 3, 7, false⟩).1 =
      (MeasurementGroup_ns.update_state_from_ctrls "Not set" [DevState.ON, DevState.MOVING]
        two_names ⟨DevState.ON, 7, 7, true⟩).1 :=
  (update_state_from_ctrls_context "Not set" [DevState.ON, DevState.MOVING] two_names
    ⟨DevState.MOVING, 3, 7, false⟩ ⟨DevState.ON, 7, 7, true⟩).1 (by decide)

/-- C12, counterexample: in a session whose abort was requested, a first call
of `MotorGroup::update_state_from_ctrls` reads two elements ON and sets the
group to ON; the next call, on the group now ON, reads the first element
MOVING and sets the group back to MOVING. -/
theorem update_state_from_ctrls_back_to_MOVING :
    (MotorGroup_ns.update_state_from_ctrls "Not set" [DevState.ON, DevState.ON] two_names
        ⟨DevState.MOVING, 3, 7, true⟩).1 = DevState.ON ∧
    (MotorGroup_ns.update_state_from_ctrls "Not set" [DevState.MOVING, DevState.ON] two_names
        ⟨DevState.ON, 3, 7, true⟩).1 = DevState.MOVING := by
  decide

/-- C12 (as amended): once an abort has been requested in a session
(`abort_cmd_executed` is true), `MotorGroup::update_state_from_ctrls` sets the
group state to MOVING exactly when an element state read is MOVING and none is
FAULT, UNKNOWN or ALARM: elements that all read ON no longer give MOVING. -/
theorem update_state_from_ctrls_after_abort (StatusNotSet : String) (arr : List DevState)
    (elts : List IndEltName) (g : GrpCtx) (hab : g.abort_cmd_executed = true) :
    (MotorGroup_ns.update_state_from_ctrls StatusNotSet arr elts g).1 = DevState.MOVING ↔
      (DevState.FAULT ∉ arr ∧ DevState.UNKNOWN ∉ arr ∧ DevState.ALARM ∉ arr ∧
        DevState.MOVING ∈ arr) := by
  rw [MotorGroup_state_cases]
  by_cases h1 : DevState.FAULT ∈ arr
  · simp [h1]
  by_cases h2 : DevState.UNKNOWN ∈ arr
  · simp [h1, h2]
  by_cases h3 : DevState.ALARM ∈ arr
  · simp [h1, h2, h3]
  by_cases h4 : DevState.MOVING ∈ arr
  · simp [h1, h2, h3, h4]
  · simp [h1, h2, h3, h4, hab]

/-- C12, witness: after an abort, a group that was MOVING and whose elements
all read ON is not set to MOVING by a thread that is not the motion thread. -/
theorem update_state_from_ctrls_after_abort_witness :
    (⟨DevState.MOVING, 3, 7, true⟩ : GrpCtx).abort_cmd_executed = true ∧
    ((MotorGroup_ns.update_state_from_ctrls "Not set" [DevState.ON, DevState.ON] two_names
        ⟨DevState.MOVING, 3, 7, true⟩).1 = DevState.MOVING ↔
      (DevState.FAULT ∉ [DevState.ON, DevState.ON] ∧ DevState.UNKNOWN ∉ [DevState.ON, DevState.ON] ∧
        DevState.ALARM ∉ [DevState.ON, DevState.ON] ∧
        DevState.MOVING ∈ [DevState.ON, DevState.ON])) :=
  ⟨rfl, update_state_from_ctrls_after_abort "Not set" [DevState.ON, DevState.ON] two_names
    ⟨DevState.MOVING, 3, 7, true⟩ rfl⟩

/-- C19, counterexample: the first element is in FAULT and the second in
ALARM; the status text built by `MotorGroup::update_state_from_ctrls` and by
`MeasurementGroup::update_state_from_ctrls` is the line of the first element
alone: the tier ALARM is present in the array and has no line. -/
theorem update_state_from_ctrls_status_one_tier :
    (MotorGroup_ns.update_state_from_ctrls "Not set" [DevState.FAULT, DevState.ALARM] two_names
        ⟨DevState.ON, 3, 0, false⟩).2 = "Motor m1 is in FAULT" ∧
    (MeasurementGroup_ns.update_state_from_ctrls "Not set" [DevState.FAULT, DevState.ALARM]
        two_names ⟨DevState.ON, 3, 0, false⟩).2 = "Motor m1 is in FAULT" := by
  decide

/-- C19 (as amended): for every array of element states with an element for
each entry, the status text built by `MotorGroup::update_state_from_ctrls` and
by `MeasurementGroup::update_state_from_ctrls` is made of the lines of the most
severe tier present in the array (FAULT, else UNKNOWN, else ALARM, else
MOVING) and of no other line: one line for every element in that tier, with
its family and alias, in the order of the elements, the lines separated by a
line feed. -/
theorem update_state_from_ctrls_status_top_tier (StatusNotSet : String) (arr : List DevState)
    (elts : List IndEltName) (g : GrpCtx) (hlen : arr.length ≤ elts.length) :
    (DevState.FAULT ∈ arr →
      (MotorGroup_ns.update_state_from_ctrls StatusNotSet arr elts g).2 =
        String.intercalate "\n" (tier_lines arr elts DevState.FAULT " is in FAULT") ∧
      (MeasurementGroup_ns.update_state_from_ctrls StatusNotSet arr elts g).2 =
        String.intercalate "\n" (tier_lines arr elts DevState.FAULT " is in FAULT")) ∧
    (DevState.FAULT ∉ arr → DevState.UNKNOWN ∈ arr →
      (MotorGroup_ns.update_state_from_ctrls StatusNotSet arr elts g).2 =
        String.intercalate "\n" (tier_lines arr elts DevState.UNKNOWN " is in UNKNOWN state") ∧
      (MeasurementGroup_ns.update_state_from_ctrls StatusNotSet arr elts g).2 =
        String.intercalate "\n" (tier_lines arr elts DevState.UNKNOWN " is in UNKNOWN state")) ∧
    (DevState.FAULT ∉ arr → DevState.UNKNOWN ∉ arr → DevState.ALARM ∈ arr →
      (MotorGroup_ns.update_state_from_ctrls StatusNotSet arr elts g).2 =
        String.intercalate "\n" (tier_lines arr elts DevState.ALARM " is in ALARM") ∧
      (MeasurementGroup_ns.update_state_from_ctrls StatusNotSet arr elts g).2 =
        String.intercalate "\n" (tier_lines arr elts DevState.ALARM " is in ALARM")) ∧
    (DevState.FAULT ∉ arr → DevState.UNKNOWN ∉ arr → DevState.ALARM ∉ arr →
      DevState.MOVING ∈ arr →
      (MotorGroup_ns.update_state_from_ctrls StatusNotSet arr elts g).2 =
        String.intercalate "\n" (tier_lines arr elts DevState.MOVING " is MOVING") ∧
      (MeasurementGroup_ns.update_state_from_ctrls StatusNotSet arr elts g).2 =
        String.intercalate "\n" (tier_lines arr elts DevState.MOVING " is MOVING")) := by
  refine ⟨?_, ?_, ?_, ?_⟩
  · intro h1
    have c1 := (state_count_ne_zero_iff arr DevState.FAULT).2 h1
    simp only [MotorGroup_ns.update_state_from_ctrls, MeasurementGroup_ns.update_state_from_ctrls,
      c1, if_true, and_self]
    exact tier_status_eq arr elts _ _ hlen
  · intro h1 h2
    have c1 : (arr.count DevState.FAULT != 0) = false := by
      rw [← Bool.not_eq_true, state_count_ne_zero_iff]; exact h1
    have c2 := (state_count_ne_zero_iff arr DevState.UNKNOWN).2 h2
    simp only [MotorGroup_ns.update_state_from_ctrls, MeasurementGroup_ns.update_state_from_ctrls,
      c1, c2, if_true, Bool.false_eq_true, if_false, and_self]
    exact tier_status_eq arr elts _ _ hlen
  · intro h1 h2 h3
    have c1 : (arr.count DevState.FAULT != 0) = false := by
      rw [← Bool.not_eq_true, state_count_ne_zero_iff]; exact h1
    have c2 : (arr.count DevState.UNKNOWN != 0) = false := by
      rw [← Bool.not_eq_true, state_count_ne_zero_iff]; exact h2
    have c3 := (state_count_ne_zero_iff arr DevState.ALARM).2 h3
    simp only [MotorGroup_ns.update_state_from_ctrls, MeasurementGroup_ns.update_state_from_ctrls,
      c1, c2, c3, if_true, Bool.false_eq_true, if_false, and_self]
    exact tier_status_eq arr elts _ _ hlen
  · intro h1 h2 h3 h4
    have c1 : (arr.count DevState.FAULT != 0) = false := by
      rw [← Bool.not_eq_true, state_count_ne_zero_iff]; exact h1
    have c2 : (arr.count DevState.UNKNOWN != 0) = false := by
      rw [← Bool.not_eq_true, state_count_ne_zero_iff]; exact h2
    have c3 : (arr.count DevState.ALARM != 0) = false := by
      rw [← Bool.not_eq_true, state_count_ne_zero_iff]; exact h3
    have c4 := (state_count_ne_zero_iff arr DevState.MOVING).2 h4
    simp only [MotorGroup_ns.update_state_from_ctrls, MeasurementGroup_ns.update_state_from_ctrls,
      c1, c2, c3, c4, if_true, Bool.false_eq_true, if_false, and_self]
    exact tier_status_eq arr elts _ _ hlen

/-- C19, witness: of three elements in ALARM, MOVING and ALARM, the first and
the third have a line, the second has none. -/
theorem update_state_from_ctrls_status_top_tier_witness :
    [DevState.ALARM, DevState.MOVING, DevState.ALARM].length ≤
      three_names.length ∧
    (MotorGroup_ns.update_state_from_ctrls "Not set"
        [DevState.ALARM, DevState.MOVING, DevState.ALARM] three_names
        ⟨DevState.ON, 3, 0, false⟩).2 =
      String.intercalate "\n" (tier_lines [DevState.ALARM, DevState.MOVING, DevState.ALARM]
        three_names DevState.ALARM " is in ALARM") ∧
    String.intercalate "\n" (tier_lines [DevState.ALARM, DevState.MOVING, DevState.ALARM]
        three_names DevState.ALARM " is in ALARM") =
      "Motor m1 is in ALARM\nMotor m3 is in ALARM" :=
  ⟨by decide,
    ((update_state_from_ctrls_status_top_tier "Not set"
      [DevState.ALARM, DevState.MOVING, DevState.ALARM] three_names
      ⟨DevState.ON, 3, 0, false⟩ (by decide)).2.2.1 (by decide) (by decide) (by decide)).1,
    rfl⟩

end group_state_context

section abort

open Pool_ns

theorem abort_loop_spec (f : Int → Bool) (ms : List MotorGroup_ns.IndMov) (r : AbortRun) :
    (MotorGroup_ns.abort_loop f ms r).sent = r.sent ++ ms.map (fun m => m.id) ∧
    (MotorGroup_ns.abort_loop f ms r).v_except =
      r.v_except ++ (ms.map (fun m => m.id)).filter f ∧
    (MotorGroup_ns.abort_loop f ms r).abort_cmd_executed = r.abort_cmd_executed := by
  induction ms generalizing r with
  | nil => simp [MotorGroup_ns.abort_loop]
  | cons m rest ih =>
    simp only [MotorGroup_ns.abort_loop]
    obtain ⟨h1, h2, h3⟩ := ih (abort_elt f m.id r)
    rw [h1, h2, h3]
    refine ⟨by simp [abort_elt], ?_, rfl⟩
    cases hf : f m.id <;> simp [abort_elt, hf]

theorem abort_all_channels_spec (f : Int → Bool) (ids : List Int) (r : AbortRun) :
    (MeasurementGroup_ns.abort_all_channels f ids r).sent = r.sent ++ ids ∧
    (MeasurementGroup_ns.abort_all_channels f ids r).v_except = r.v_except ++ ids.filter f ∧
    (MeasurementGroup_ns.abort_all_channels f ids r).abort_cmd_executed =
      r.abort_cmd_executed := by
  induction ids generalizing r with
  | nil => simp [MeasurementGroup_ns.abort_all_channels]
  | cons m rest ih =>
    simp only [MeasurementGroup_ns.abort_all_channels]
    obtain ⟨h1, h2, h3⟩ := ih (abort_elt f m r)
    rw [h1, h2, h3]
    refine ⟨by simp [abort_elt], ?_, rfl⟩
    cases hf : f m <;> simp [abort_elt, hf]

/-- `MotorGroup::base_abort` sends Abort to every motor of the group, in
order, whatever calls fail, and throws exactly when one call failed. -/
theorem MotorGroup_base_abort_spec (f : Int → Bool) (g : MotorGroup_ns.MotorGroup) (b : Bool) :
    (MotorGroup_ns.base_abort f g b).sent = g.ind_elts.map (fun m => m.id) ∧
    (MotorGroup_ns.base_abort f g b).v_except = (g.ind_elts.map (fun m => m.id)).filter f ∧
    (MotorGroup_ns.base_abort f g b).abort_cmd_executed = true ∧
    ((MotorGroup_ns.base_abort f g b).err ≠ none ↔
      ((g.ind_elts.map (fun m => m.id)).filter f).length = 1) := by
  obtain ⟨h1, h2, h3⟩ := abort_loop_spec f g.ind_elts ⟨true, [], [], false, none⟩
  simp only [List.nil_append] at h1 h2
  refine ⟨h1, h2, h3, ?_⟩
  simp only [MotorGroup_ns.base_abort]
  rw [h2]
  unfold report_exception
  generalize ((g.ind_elts.map (fun m => m.id)).filter f).length = n
  rcases Nat.lt_trichotomy n 1 with h | h | h
  · have : n = 0 := by omega
    subst this; simp
  · subst h; simp
  · have h0 : (n != 0) = true := by simp; omega
    have h1 : (n == 1) = false := by simp; omega
    simp [h0, h1]; omega

/-- C13: the Abort of both motors of a group of two fails.
`MotorGroup::base_abort` has sent Abort to both motors and stored both
failures, and returns without an exception; when the Abort of the motor 1 alone
fails, it throws `Motor_ExcepAbort`.  `MeasurementGroup::base_abort` does the
same for two channels, with `CTExpChannel_ExceptStop`. -/
theorem base_abort_two_failures_not_raised :
    MotorGroup_ns.base_abort (fun _ => true) MotorGroup_ns.two_motor_group true =
      ⟨true, [1, 2], [1, 2], false, none⟩ ∧
    MotorGroup_ns.base_abort (fun id => id == 1) MotorGroup_ns.two_motor_group true =
      ⟨true, [1, 2], [1], false, some (Fault.DevFailed "Motor_ExcepAbort")⟩ ∧
    MeasurementGroup_ns.base_abort (fun _ => true) MeasurementGroup_ns.two_channel_group true =
      ⟨true, [1, 2], [1, 2], true, none⟩ ∧
    MeasurementGroup_ns.base_abort (fun id => id == 1) MeasurementGroup_ns.two_channel_group true =
      ⟨true, [1, 2], [1], true, some (Fault.DevFailed "CTExpChannel_ExceptStop")⟩ := by
  decide

end abort

namespace MotorGroup_ns

open Pool_ns

theorem build_grp_props (pool : Pool) (g g1 : MotorGroup) (h : build_grp pool g = .ok g1) :
    g1.props = g.props := by
  unfold build_grp at h
  split at h
  · cases h
  · cases h; rfl

theorem build_grp_struct_props (pool : Pool) (g g1 : MotorGroup)
    (h : build_grp_struct pool g = .ok g1) : g1.props = g.props := by
  unfold build_grp_struct at h
  split at h
  · cases h
  · split at h
    · cases h
    · cases h; rfl

theorem update_elements_props (pool : Pool) (g g1 : MotorGroup)
    (h : update_elements pool g = .ok g1) : g1.props = g.props := by
  unfold update_elements at h
  dsimp only at h
  split at h
  · cases h
  · rename_i g2 h2
    rw [build_grp_struct_props pool g2 g1 h, build_grp_props pool _ g2 h2]
    rfl

/-- When `add_element` returns, the properties of the group it returns are the
ones `add_element_props` computes. -/
theorem add_element_props_ok (pool : Pool) (g g1 : MotorGroup) (argin : String)
    (h : add_element pool g argin = .ok g1) : g1.props = add_element_props pool g argin := by
  unfold add_element at h
  unfold add_element_props
  split
  · rename_i hc; rw [if_pos hc] at h; cases h
  · rename_i hc
    rw [if_neg hc] at h
    split at h
    · cases h
    · split at h
      · cases h
      · rename_i grp hg
        simp only [hg]
        split
        · rename_i hd; rw [if_pos hd] at h; cases h
        · rename_i hd; rw [if_neg hd] at h
          rw [update_elements_props pool _ g1 h]; rfl
    · split at h
      · cases h
      · rename_i pm hp
        simp only [hp]
        split
        · rename_i hd; rw [if_pos hd] at h
          rw [update_elements_props pool _ g1 h]; rfl
        · rename_i hd; rw [if_neg hd] at h
          split
          · rename_i he; rw [if_pos he] at h; cases h
          · rename_i he; rw [if_neg he] at h
            rw [update_elements_props pool _ g1 h]; rfl
    · split at h
      · cases h
      · rename_i m hm
        simp only [hm]
        rw [update_elements_props pool _ g1 h]; rfl

/-- C20: `MotorGroup::add_element` throws `MotorGroup_BadArgument` when the
element to add is a motor group one of whose motors is a motor of the group
already, or a pseudo motor whose controller has no pseudo motor in the group
and one of whose motors is a motor of the group already; `user_group_elt`,
`phys_group_elt`, `motor_list`, `motor_group_list`, `pseudo_motor_list` and
`pos_spectrum_dim_x` are then as they were before the call. -/
theorem add_element_duplicate_motor (pool : Pool) (g : MotorGroup) (argin : String)
    (h : (∃ grp, elt_type pool argin = some GrpEltType.GROUP ∧
            pool.get_motor_group_from_name argin = some grp ∧
            ∃ id ∈ grp.mot_ids, has_ind_mov_id g id = true) ∨
         (∃ pm, elt_type pool argin = some GrpEltType.PSEUDO_MOTOR ∧
            pool.get_pseudo_motor_from_name argin = some pm ∧
            (∀ c ∈ g.psm_ctrls_in_grp, c.pool_psm_ctrl ≠ pm.ctrl) ∧
            ∃ n ∈ pm.mot_elts, has_ind_mov_name g n = true)) :
    add_element pool g argin = .error (Fault.DevFailed "MotorGroup_BadArgument") ∧
    add_element_props pool g argin = g.props := by
  unfold add_element add_element_props
  by_cases hc : in_hierarchy g argin = true
  · rw [if_pos hc, if_pos hc]; exact ⟨rfl, rfl⟩
  · rw [if_neg hc, if_neg hc]
    rcases h with ⟨grp, ht, hg, id, hid, hin⟩ | ⟨pm, ht, hp, hno, n, hn, hin⟩
    · have hany : grp.mot_ids.any (fun id => has_ind_mov_id g id) = true :=
        List.any_eq_true.2 ⟨id, hid, hin⟩
      simp only [ht, hg]
      rw [if_pos hany, if_pos hany]
      exact ⟨rfl, rfl⟩
    · have hnone : g.psm_ctrls_in_grp.any (fun c => c.pool_psm_ctrl == pm.ctrl) = false := by
        rw [← Bool.not_eq_true, List.any_eq_true]
        rintro ⟨c, hc1, hc2⟩
        exact hno c hc1 (by simpa using hc2)
      have hany : pm.mot_elts.any (fun n => has_ind_mov_name g n) = true :=
        List.any_eq_true.2 ⟨n, hn, hin⟩
      simp only [ht, hp, hnone, Bool.false_eq_true, if_false]
      rw [if_pos hany, if_pos hany]
      exact ⟨rfl, rfl⟩

/-- C20, witness: the group `g1` of the motors `m1` and `m2` is not added to a
group of the motors `m1` and `m2`. -/
theorem add_element_duplicate_motor_witness :
    (∃ grp, elt_type nested_pool "g1" = some GrpEltType.GROUP ∧
        nested_pool.get_motor_group_from_name "g1" = some grp ∧
        ∃ id ∈ grp.mot_ids, has_ind_mov_id two_motor_group id = true) ∧
    add_element nested_pool two_motor_group "g1" =
      .error (Fault.DevFailed "MotorGroup_BadArgument") ∧
    add_element_props nested_pool two_motor_group "g1" = two_motor_group.props :=
  ⟨⟨⟨101, "g1", [1, 2], ["m1", "m2"], 2⟩, rfl, rfl, 1, by decide, rfl⟩,
   add_element_duplicate_motor nested_pool two_motor_group "g1"
     (Or.inl ⟨⟨101, "g1", [1, 2], ["m1", "m2"], 2⟩, rfl, rfl, 1, by decide, rfl⟩)⟩

/-- The pseudo motor `pmx` of the motors `a` and `b` is not added to a group
of the motor `a`, and the group `g1` passes the first check of `add_element`:
the exception of the witness is the one of the check on the motors. -/
theorem add_element_duplicate_runs :
    add_element pseudo_pool motor_a_group "pmx" =
      .error (Fault.DevFailed "MotorGroup_BadArgument") ∧
    in_hierarchy motor_a_group "pmx" = false ∧
    in_hierarchy two_motor_group "g1" = false ∧
    (add_element pseudo_pool motor_a_group "m").toOption.map MotorGroup.props =
      some ⟨["a", "m"], ["a", "m"], ["a", "m"], [], [], 2⟩ := by
  refine ⟨rfl, rfl, rfl, rfl⟩

end MotorGroup_ns

namespace Pool_ns

section

variable {P : Type} [DecidableEq P] [Zero P]

/-- The first call of the `PreStartAll` phase is made on the first controller. -/
theorem PreStartAll_loop_head (env : StartEnv P) (k : Nat) (c : Int) (cs : List Int) (r : Run P)
    (hr : r.err = none) :
    ∃ X, (PreStartAll_loop env k (c :: cs) r).evs = r.evs ++ Ev.PreStartAll c :: X := by
  simp only [PreStartAll_loop]
  by_cases ht : env.PreStartAll_throws k = true
  · exact ⟨[], by simp [ht]⟩
  · simp only [ht, Bool.false_eq_true, if_false]
    obtain ⟨n, _, h1, _⟩ := PreStartAll_loop_spec env (k + 1) cs (r.emit (Ev.PreStartAll c))
      (by simp [hr])
    rw [h1]
    exact ⟨(cs.take n).map (fun c => Ev.PreStartAll c), by simp [Run.emit]⟩

/-- The `try` block of `send_to_ctrl` takes the locks and then calls
`PreStartAll` on the first controller, whatever follows. -/
theorem try_start_head (env : StartEnv P) (th : PoolThread) (wait_flag : Bool)
    (positions : List P) (c : Int) (cs : List Int) (ms : List MotInMove) (r : Run P)
    (hr : r.err = none) :
    ∃ X, (try_start env th wait_flag positions (c :: cs) ms r).evs =
      r.evs ++ lock_evs th ms (c :: cs) ++ Ev.PreStartAll c :: X := by
  unfold try_start
  obtain ⟨a1, a2, a3, a4⟩ := lock_motors_spec th ms r
  obtain ⟨b1, b2, b3, b4⟩ := lock_ctrls_spec (c :: cs) (lock_motors th ms r)
  have hl : (lock_ctrls (c :: cs) (lock_motors th ms r)).err = none := by rw [b2, a2, hr]
  have hle : (lock_ctrls (c :: cs) (lock_motors th ms r)).evs =
      r.evs ++ lock_evs th ms (c :: cs) := by
    rw [b1, a1]; simp [lock_evs]
  simp only [Run.andThen, hl, Option.isSome_none, Bool.false_eq_true, if_false]
  obtain ⟨X, hX⟩ := PreStartAll_loop_head env 0 c cs _ hl
  by_cases hs : (PreStartAll_loop env 0 (c :: cs)
      (lock_ctrls (c :: cs) (lock_motors th ms r))).err.isSome = true
  · rw [if_pos hs]
    exact ⟨X, by rw [hX, hle]⟩
  · rw [if_neg hs]
    have hn : (PreStartAll_loop env 0 (c :: cs)
        (lock_ctrls (c :: cs) (lock_motors th ms r))).err = none := by
      cases h : (PreStartAll_loop env 0 (c :: cs)
          (lock_ctrls (c :: cs) (lock_motors th ms r))).err with
      | none => rfl
      | some f => rw [h] at hs; simp at hs
    obtain ⟨A, d1, _⟩ := start_motors_loop_spec env th wait_flag positions 0 ms _ hn
    exact ⟨X ++ A, by rw [d1, hX, hle]; simp⟩

/-- The events of `send_to_ctrl` continue those of its `try` block. -/
theorem send_to_ctrl_evs_ext (g : Int → Option MotorPool) (env : StartEnv P) (ids : List Int)
    (positions : List P) (th : PoolThread) (wait_flag : Bool) (bp : List P) (st : PoolSt P)
    (ms : List MotInMove) (cs : List Int) (hf : find_implied g ids [] [] = .ok (ms, cs)) :
    ∃ Y, (send_to_ctrl g env ids positions th wait_flag bp st).evs =
      (try_start env th wait_flag positions cs ms
        ⟨{ st with proxy_created := true }, bp, [], [], none⟩).evs ++ Y := by
  unfold send_to_ctrl
  simp only [hf]
  generalize hr0 : (⟨{ st with proxy_created := true }, bp, [], [], none⟩ : Run P) = r0
  have h0e : r0.err = none := by rw [← hr0]
  obtain ⟨_, _, t3⟩ := try_start_spec env th wait_flag positions cs ms r0 h0e
  have herr : (try_start env th wait_flag positions cs ms r0).err = none ∨
      ∃ f l, (try_start env th wait_flag positions cs ms r0).err =
        some (Failure.ctrl_failed f l) := by
    rcases t3 with ⟨n, te, _⟩ | ⟨A, _, _, _, t3⟩
    · exact Or.inr ⟨_, _, te⟩
    · rcases t3 with ⟨te, _⟩ | ⟨f, l, te, _⟩
      · exact Or.inl te
      · exact Or.inr ⟨f, l, te⟩
  rcases herr with te | ⟨f, l, te⟩
  · have hs : (try_start env th wait_flag positions cs ms r0).err.isSome = false := by
      rw [te]; rfl
    simp only [hs, Bool.false_eq_true, if_false]
    obtain ⟨S1, Q1, m1, _, _, _, m5, _, _⟩ :=
      set_motors_moving_spec wait_flag ms (try_start env th wait_flag positions cs ms r0)
    obtain ⟨S2, Q2, g1, _, _, _, g5, _, _⟩ :=
      set_group_moving_spec th wait_flag
        (set_motors_moving wait_flag ms (try_start env th wait_flag positions cs ms r0))
    have he5 : (set_group_moving th wait_flag (set_motors_moving wait_flag ms
        (try_start env th wait_flag positions cs ms r0))).err = none := by rw [g5, m5, te]
    obtain ⟨n, _, a1, a2, _, _⟩ := StartAll_loop_spec env 0 cs _ he5
    rcases a2 with ⟨a2, _⟩ | a2
    · have hs2 : (StartAll_loop env 0 cs (set_group_moving th wait_flag
          (set_motors_moving wait_flag ms
            (try_start env th wait_flag positions cs ms r0)))).err.isSome = false := by
        rw [a2]; rfl
      simp only [hs2, Bool.false_eq_true, if_false]
      obtain ⟨_, f2, _⟩ := finish_start_spec th cs ms (StartAll_loop env 0 cs
        (set_group_moving th wait_flag (set_motors_moving wait_flag ms
          (try_start env th wait_flag positions cs ms r0))))
      rw [f2, a1, g1, m1]
      simp only [List.append_assoc]
      exact ⟨_, rfl⟩
    · have hs2 : (StartAll_loop env 0 cs (set_group_moving th wait_flag
          (set_motors_moving wait_flag ms
            (try_start env th wait_flag positions cs ms r0)))).err.isSome = true := by
        rw [a2]; rfl
      simp only [hs2, if_true]
      obtain ⟨_, R, c2, _⟩ := catch_start_true_spec th cs ms _ _ _ a2
      rw [c2, a1, g1, m1]
      simp only [List.append_assoc]
      exact ⟨_, rfl⟩
  · have hs : (try_start env th wait_flag positions cs ms r0).err.isSome = true := by
      rw [te]; rfl
    simp only [hs, if_true]
    obtain ⟨_, c2, _⟩ := catch_start_false_spec th cs ms _ _ _ te
    exact ⟨_, c2⟩

/-- Every run of `send_to_ctrl` with a controller takes the locks and then
calls `PreStartAll` on the first controller. -/
theorem send_to_ctrl_head (g : Int → Option MotorPool) (env : StartEnv P) (ids : List Int)
    (positions : List P) (th : PoolThread) (wait_flag : Bool) (bp : List P) (st : PoolSt P)
    (ms : List MotInMove) (c : Int) (cs : List Int)
    (hf : find_implied g ids [] [] = .ok (ms, c :: cs)) :
    ∃ X, (send_to_ctrl g env ids positions th wait_flag bp st).evs =
      lock_evs th ms (c :: cs) ++ Ev.PreStartAll c :: X := by
  obtain ⟨Y, hY⟩ := send_to_ctrl_evs_ext g env ids positions th wait_flag bp st ms (c :: cs) hf
  obtain ⟨X, hX⟩ := try_start_head env th wait_flag positions c cs ms
    (⟨{ st with proxy_created := true }, bp, [], [], none⟩ : Run P) rfl
  exact ⟨X ++ Y, by rw [hY, hX]; simp⟩

/-- The events of `PoolThread::run` continue those of `send_to_ctrl`. -/
theorem PoolThread_run_evs (g : Int → Option MotorPool) (env : StartEnv P) (ids : List Int)
    (positions : List P) (th : PoolThread) (st : PoolSt P) :
    ∃ Z, (PoolThread.run g env ids positions th st).1.evs =
      (send_to_ctrl g env ids positions th true (List.replicate ids.length 0) st).evs ++ Z := by
  unfold PoolThread.run
  dsimp only
  split
  · exact ⟨[], by simp⟩
  · split
    · exact ⟨[], by simp⟩
    · exact ⟨[Ev.signal], rfl⟩

theorem find_implied_known (g : Int → Option MotorPool) (ids : List Int) (am : List MotInMove)
    (ac : List Int) (ms : List MotInMove) (cs : List Int)
    (h : find_implied g ids am ac = .ok (ms, cs)) : ∀ i ∈ ids, ∃ mp, g i = some mp := by
  induction ids generalizing am ac with
  | nil => intro i hi; cases hi
  | cons j rest ih =>
    simp only [find_implied] at h
    cases hg : g j with
    | none => simp [hg] at h
    | some mp =>
      simp only [hg] at h
      intro i hi
      rcases List.mem_cons.1 hi with hi | hi
      · exact ⟨mp, by rw [hi, hg]⟩
      · exact ih _ _ h i hi

theorem reset_mov_th_id_known (g : Int → Option MotorPool) (ids : List Int) (st : PoolSt P)
    (h : ∀ i ∈ ids, ∃ mp, g i = some mp) :
    ∃ st1, reset_mov_th_id g ids st = some st1 := by
  induction ids generalizing st with
  | nil => exact ⟨st, rfl⟩
  | cons j rest ih =>
    obtain ⟨mp, hmp⟩ := h j (List.mem_cons_self _ _)
    simp only [reset_mov_th_id, hmp]
    exact ih _ (fun i hi => h i (List.mem_cons_of_mem _ hi))

/-- When every motor is known to the pool, `PoolThread::run` of a group
signals the writer, and the exception it leaves for the writer (`th_except`
with `th_failed` set in the group) is the one of `send_to_ctrl`, if any. -/
theorem PoolThread_run_group (g : Int → Option MotorPool) (env : StartEnv P) (ids : List Int)
    (positions : List P) (th : PoolThread) (st : PoolSt P) (ms : List MotInMove) (cs : List Int)
    (hf : find_implied g ids [] [] = .ok (ms, cs)) (hg : th.group_id ≠ -1)
    (hst : st.group.th_failed = false) :
    (if (PoolThread.run g env ids positions th st).1.st.group.th_failed then
        (PoolThread.run g env ids positions th st).2 else none) =
      (send_to_ctrl g env ids positions th true (List.replicate ids.length 0) st).err ∧
    Ev.signal ∈ (PoolThread.run g env ids positions th st).1.evs := by
  unfold PoolThread.run
  dsimp only
  cases herr : (send_to_ctrl g env ids positions th true (List.replicate ids.length 0) st).err with
  | none =>
    dsimp only
    constructor
    · split <;> rfl
    · rcases send_to_ctrl_shape g env ids positions th true (List.replicate ids.length 0) st ms cs
        hf with ⟨n, he, _⟩ | ⟨A, _, _, h⟩
      · rw [herr] at he; cases he
      · rcases h with ⟨f, l, he, _⟩ | ⟨S, R, n, he, _⟩ | ⟨S, Q, _, _, _, _, hev, _⟩
        · rw [herr] at he; cases he
        · rw [herr] at he; cases he
        · rw [hev]; simp
  | some e =>
    dsimp only
    obtain ⟨st1, h1⟩ := reset_mov_th_id_known g ids
      (send_to_ctrl g env ids positions th true (List.replicate ids.length 0) st).st
      (find_implied_known g ids [] [] ms cs hf)
    rw [h1]
    have hg2 : (th.group_id != -1) = true := by simpa using hg
    simp [hg2, Run.emit]

end

end Pool_ns

namespace MotorGroup_ns

open Pool_ns Tango

section

variable {P : Type} [DecidableEq P] [Zero P]

/-- C16 (as amended): `MotorGroup::write_Position` rejects every position
vector whose length is not `pos_spectrum_dim_x`, the number of user positions
of the group: it throws `Motor_CantMoveGroup` and comes back, no lock is taken,
no controller is called, no motion thread is started, and the devices and
`phys_mot_pos` are as before the call. -/
theorem write_Position_length_check (get_motor_from_id : Int → Option MotorPool)
    (cenv : CalcEnv P) (senv : StartEnv P) (g : MotorGroup) (new_th_id : Int)
    (received_data phys_mot_pos : List P) (st : PoolSt P)
    (h : (received_data.length : Int) ≠ g.pos_spectrum_dim_x) :
    (write_Position get_motor_from_id cenv senv g new_th_id received_data phys_mot_pos st).err =
      some (Fault.DevFailed "Motor_CantMoveGroup") ∧
    (write_Position get_motor_from_id cenv senv g new_th_id received_data phys_mot_pos st).evs =
      [] ∧
    (write_Position get_motor_from_id cenv senv g new_th_id received_data phys_mot_pos
      st).thread_started = false ∧
    (write_Position get_motor_from_id cenv senv g new_th_id received_data phys_mot_pos st).st =
      st ∧
    (write_Position get_motor_from_id cenv senv g new_th_id received_data phys_mot_pos
      st).phys_mot_pos = some phys_mot_pos ∧
    (write_Position get_motor_from_id cenv senv g new_th_id received_data phys_mot_pos
      st).returns = true := by
  unfold write_Position
  rw [if_pos h]
  exact ⟨rfl, rfl, rfl, rfl, rfl, rfl⟩

/-- C17 (as amended): `MotorGroup::write_Position` does not test the values
that `CalcAllPhysical` and `CalcAllPseudo` return.  When the vector has the
length of the group, the pseudo motors are built, `from_grp_2_phys` returns
and the motors of the group are known to the pool, then, whatever the values
are, no statement of the function throws before the thread is started, the
motion thread is started with the positions computed, the thread takes the
locks and calls `PreStartAll` on the first implied controller before anything
else, the thread signals the writer, and the exception the write throws at its
end is the one of the start of the move by `send_to_ctrl`, if there is one:
the write fails if and only if that start fails. -/
theorem write_Position_unchecked_values (get_motor_from_id : Int → Option MotorPool)
    (cenv : CalcEnv P) (senv : StartEnv P) (g : MotorGroup) (new_th_id : Int)
    (received_data phys_mot_pos : List P) (st : PoolSt P) (phys pv : List P)
    (ms : List MotInMove) (c : Int) (cs : List Int)
    (hlen : (received_data.length : Int) = g.pos_spectrum_dim_x)
    (hpsm : check_psm_built g.psm_in_grp g.nb_psm_in_grp.toNat 0 = .ok ())
    (hphys : from_grp_2_phys cenv g received_data phys_mot_pos = .ok phys)
    (hpv : fill_pos_vector phys g.ind_elts = some pv)
    (hf : find_implied get_motor_from_id (g.ind_elts.map (fun m => m.id)) [] [] =
      .ok (ms, c :: cs))
    (hid : g.motor_group_id ≠ -1) :
    (write_Position get_motor_from_id cenv senv g new_th_id received_data phys_mot_pos st).err =
      none ∧
    (write_Position get_motor_from_id cenv senv g new_th_id received_data phys_mot_pos
      st).thread_started = true ∧
    (write_Position get_motor_from_id cenv senv g new_th_id received_data phys_mot_pos
      st).pos_vector = pv ∧
    (∃ X, (write_Position get_motor_from_id cenv senv g new_th_id received_data phys_mot_pos
        st).evs =
      lock_evs ⟨g.motor_group_id, new_th_id⟩ ms (c :: cs) ++ Ev.PreStartAll c :: X) ∧
    (write_Position get_motor_from_id cenv senv g new_th_id received_data phys_mot_pos
      st).returns = true ∧
    (write_Position get_motor_from_id cenv senv g new_th_id received_data phys_mot_pos
      st).th_except =
      (send_to_ctrl get_motor_from_id senv (g.ind_elts.map (fun m => m.id)) pv
        ⟨g.motor_group_id, new_th_id⟩ true
        (List.replicate (g.ind_elts.map (fun m => m.id)).length 0)
        { st with group := { st.group with th_failed := false } }).err := by
  unfold write_Position
  rw [if_neg (by simpa using hlen)]
  simp only [hpsm, hphys, hpv]
  obtain ⟨Z, hZ⟩ := PoolThread_run_evs get_motor_from_id senv (g.ind_elts.map (fun m => m.id)) pv
    ⟨g.motor_group_id, new_th_id⟩ ({ st with group := { st.group with th_failed := false } })
  obtain ⟨X, hX⟩ := send_to_ctrl_head get_motor_from_id senv (g.ind_elts.map (fun m => m.id)) pv
    ⟨g.motor_group_id, new_th_id⟩ true (List.replicate (g.ind_elts.map (fun m => m.id)).length 0)
    ({ st with group := { st.group with th_failed := false } }) ms c cs hf
  obtain ⟨k1, k2⟩ := PoolThread_run_group get_motor_from_id senv (g.ind_elts.map (fun m => m.id))
    pv ⟨g.motor_group_id, new_th_id⟩ ({ st with group := { st.group with th_failed := false } })
    ms (c :: cs) hf hid rfl
  refine ⟨trivial, trivial, trivial, ⟨X ++ Z, by rw [hZ, hX]; simp⟩, ?_, k1⟩
  exact decide_eq_true k2

end

/-- The groups of the runs below are the ones `add_element` builds. -/
theorem pseudo_groups_built :
    apply_ops pseudo_pool [GroupOp.add "pmx"] (MotorGroup.empty 100) = .ok pmx_group ∧
    apply_ops pseudo_pool [GroupOp.add "pmx", GroupOp.add "pmy"] (MotorGroup.empty 100) =
      .ok pmx_pmy_group :=
  ⟨rfl, rfl⟩

/-- C16, counterexample: the group of the pseudo motor `pmx` has one user
position and the two motors `a` and `b` in its physical closure.
`MotorGroup::write_Position` rejects a vector of two positions, the size of
the closure, and accepts a vector of one position: the thread is started and
the controller 10 is called. -/
theorem write_Position_closure_size :
    pmx_group.phys_group_elt.length = 2 ∧ pmx_group.ind_elts.length = 2 ∧
    (write_Position pseudo_pool_motor identity_env env_all_ok pmx_group 7 [5, 6] [0, 0]
      (st_at_rest DevState.ON)).err = some (Fault.DevFailed "Motor_CantMoveGroup") ∧
    (write_Position pseudo_pool_motor identity_env env_all_ok pmx_group 7 [5] [0, 0]
      (st_at_rest DevState.ON)).err = none ∧
    (write_Position pseudo_pool_motor identity_env env_all_ok pmx_group 7 [5] [0, 0]
      (st_at_rest DevState.ON)).th_except = none ∧
    (write_Position pseudo_pool_motor identity_env env_all_ok pmx_group 7 [5] [0, 0]
      (st_at_rest DevState.ON)).thread_started = true ∧
    (write_Position pseudo_pool_motor identity_env env_all_ok pmx_group 7 [5] [0, 0]
      (st_at_rest DevState.ON)).pos_vector = [5, 2] ∧
    (write_Position pseudo_pool_motor identity_env env_all_ok pmx_group 7 [5] [0, 0]
      (st_at_rest DevState.ON)).evs =
      [Ev.lock_mot 1, Ev.lock_mot 2, Ev.lock_ctrl 10, Ev.PreStartAll 10,
       Ev.write_attribute 1 5, Ev.PreStartOne 10 1 5, Ev.StartOne 10 1 5,
       Ev.write_attribute 2 2, Ev.PreStartOne 10 2 5, Ev.StartOne 10 2 5,
       Ev.state_change (Src.mot 1) DevState.MOVING, Ev.state_change (Src.mot 2) DevState.MOVING,
       Ev.state_change Src.grp DevState.MOVING, Ev.StartAll 10,
       Ev.unlock_ctrl 10, Ev.unlock_mot 1, Ev.unlock_mot 2, Ev.signal] := by
  refine ⟨rfl, rfl, rfl, rfl, rfl, rfl, rfl, rfl⟩

/-- C16, witness: a vector of one position is rejected by a group of two
motors. -/
theorem write_Position_length_check_witness :
    (([5] : List Int).length : Int) ≠ two_motor_group.pos_spectrum_dim_x ∧
    (write_Position two_motor_pool identity_env env_all_ok two_motor_group 7 [5] [0, 0]
      (st_at_rest DevState.ON)).err = some (Fault.DevFailed "Motor_CantMoveGroup") ∧
    (write_Position two_motor_pool identity_env env_all_ok two_motor_group 7 [5] [0, 0]
      (st_at_rest DevState.ON)).evs = [] :=
  ⟨by decide,
    (write_Position_length_check two_motor_pool identity_env env_all_ok two_motor_group 7 [5]
      [0, 0] (st_at_rest DevState.ON) (by decide)).1,
    (write_Position_length_check two_motor_pool identity_env env_all_ok two_motor_group 7 [5]
      [0, 0] (st_at_rest DevState.ON) (by decide)).2.1⟩

/-- C17, counterexample: `CalcAllPhysical` returns NaN for both motors of the
group of `pmx` and `pmy`.  When the motors take the value,
`MotorGroup::write_Position` comes back without an exception, and
`PreStartAll`, `PreStartOne`, `StartOne` and `StartAll` were called, the calls
for a motor with NaN.  When the proxy write of the first motor throws, the
write fails with the exception of the thread, after `PreStartAll` was called on
the controller 10. -/
theorem write_Position_NaN_reaches_controller :
    nan_env.CalcAllPhysical 50 [DevDouble.val 5, DevDouble.val 6] =
      [DevDouble.nan, DevDouble.nan] ∧
    (write_Position pseudo_pool_motor nan_env start_accepts_nan pmx_pmy_group 7
      [DevDouble.val 5, DevDouble.val 6] [0, 0] (st_rest DevState.ON)).err = none ∧
    (write_Position pseudo_pool_motor nan_env start_accepts_nan pmx_pmy_group 7
      [DevDouble.val 5, DevDouble.val 6] [0, 0] (st_rest DevState.ON)).th_except = none ∧
    ctrl_calls (write_Position pseudo_pool_motor nan_env start_accepts_nan pmx_pmy_group 7
      [DevDouble.val 5, DevDouble.val 6] [0, 0] (st_rest DevState.ON)).evs =
      [Ev.PreStartAll 10, Ev.PreStartOne 10 1 DevDouble.nan, Ev.StartOne 10 1 DevDouble.nan,
       Ev.PreStartOne 10 2 DevDouble.nan, Ev.StartOne 10 2 DevDouble.nan, Ev.StartAll 10] ∧
    (write_Position pseudo_pool_motor nan_env start_refuses_nan pmx_pmy_group 7
      [DevDouble.val 5, DevDouble.val 6] [0, 0] (st_rest DevState.ON)).th_except =
      some (Failure.ctrl_failed "NoFunc" 0) ∧
    (write_Position pseudo_pool_motor nan_env start_refuses_nan pmx_pmy_group 7
      [DevDouble.val 5, DevDouble.val 6] [0, 0] (st_rest DevState.ON)).evs =
      [Ev.lock_mot 1, Ev.lock_mot 2, Ev.lock_ctrl 10, Ev.PreStartAll 10,
       Ev.write_attribute 1 DevDouble.nan, Ev.unlock_ctrl 10, Ev.unlock_mot 1, Ev.unlock_mot 2,
       Ev.signal] := by
  refine ⟨rfl, rfl, rfl, rfl, rfl, rfl⟩

/-- C17, witness: the run of the counterexample in which the motors take the
value NaN. -/
theorem write_Position_unchecked_values_witness :
    (([DevDouble.val 5, DevDouble.val 6] : List DevDouble).length : Int) =
      pmx_pmy_group.pos_spectrum_dim_x ∧
    from_grp_2_phys nan_env pmx_pmy_group [DevDouble.val 5, DevDouble.val 6] [0, 0] =
      .ok [DevDouble.nan, DevDouble.nan] ∧
    (write_Position pseudo_pool_motor nan_env start_accepts_nan pmx_pmy_group 7
      [DevDouble.val 5, DevDouble.val 6] [0, 0] (st_rest DevState.ON)).thread_started = true ∧
    (write_Position pseudo_pool_motor nan_env start_accepts_nan pmx_pmy_group 7
      [DevDouble.val 5, DevDouble.val 6] [0, 0] (st_rest DevState.ON)).pos_vector =
      [DevDouble.nan, DevDouble.nan] ∧
    (write_Position pseudo_pool_motor nan_env start_accepts_nan pmx_pmy_group 7
      [DevDouble.val 5, DevDouble.val 6] [0, 0] (st_rest DevState.ON)).returns = true :=
  ⟨rfl, rfl,
    (write_Position_unchecked_values pseudo_pool_motor nan_env start_accepts_nan pmx_pmy_group 7
      [DevDouble.val 5, DevDouble.val 6] [0, 0] (st_rest DevState.ON)
      [DevDouble.nan, DevDouble.nan] [DevDouble.nan, DevDouble.nan]
      [⟨1, ⟨1, "a", "motor/c/1", 10, 1, false⟩, 10⟩, ⟨2, ⟨2, "b", "motor/c/2", 10, 2, false⟩, 10⟩]
      10 [] rfl rfl rfl rfl rfl (by decide)).2.1,
    (write_Position_unchecked_values pseudo_pool_motor nan_env start_accepts_nan pmx_pmy_group 7
      [DevDouble.val 5, DevDouble.val 6] [0, 0] (st_rest DevState.ON)
      [DevDouble.nan, DevDouble.nan] [DevDouble.nan, DevDouble.nan]
      [⟨1, ⟨1, "a", "motor/c/1", 10, 1, false⟩, 10⟩, ⟨2, ⟨2, "b", "motor/c/2", 10, 2, false⟩, 10⟩]
      10 [] rfl rfl rfl rfl rfl (by decide)).2.2.1,
    (write_Position_unchecked_values pseudo_pool_motor nan_env start_accepts_nan pmx_pmy_group 7
      [DevDouble.val 5, DevDouble.val 6] [0, 0] (st_rest DevState.ON)
      [DevDouble.nan, DevDouble.nan] [DevDouble.nan, DevDouble.nan]
      [⟨1, ⟨1, "a", "motor/c/1", 10, 1, false⟩, 10⟩, ⟨2, ⟨2, "b", "motor/c/2", 10, 2, false⟩, 10⟩]
      10 [] rfl rfl rfl rfl rfl (by decide)).2.2.2.2.1⟩

end MotorGroup_ns

namespace MotorGroup_ns

open Pool_ns Tango

/-- C18, counterexample: the controller 10 of the two motors of a group has no
controller object.  While the pool executes its command `Init`
(`pool_init_cmd` is set) the state query of the group returns UNKNOWN, though
`always_executed_hook` has set FAULT; when the flag is not set it returns
FAULT. -/
theorem state_query_during_pool_init :
    two_motor_group.implied_ctrls = [10] ∧
    (null_ctrl_env true).ctrl_null 10 = true ∧
    (null_ctrl_env true).ctrl_fica_built 10 = false ∧
    always_executed_hook (null_ctrl_env true) two_motor_group DevState.ON =
      .ok DevState.FAULT ∧
    state_query "Not set" (null_ctrl_env true) two_motor_group two_names
      ⟨DevState.ON, 3, 0, false⟩ = .ok DevState.UNKNOWN ∧
    state_query "Not set" (null_ctrl_env false) two_motor_group two_names
      ⟨DevState.ON, 3, 0, false⟩ = .ok DevState.FAULT := by
  refine ⟨rfl, rfl, rfl, rfl, rfl, rfl⟩

/-- C18 (as amended): when the three functions of the base class that a state
query of a motor group calls return (`PoolGroupBaseDev::always_executed_hook`,
`PoolGroupBaseDev::dev_state`, `read_state_from_ctrls`) and `ind_elts` holds
the `ind_elt_nb` motors of the group, the query (`always_executed_hook`
followed by `dev_state`) raises no error: it returns a state.  The state is
UNKNOWN while the pool executes its command `Init`.  Otherwise it is the
aggregate, by `update_state_from_ctrls`, of the states that `State_all_ind`
reads, in place of the state `always_executed_hook` has set; it is FAULT when
the controller object of one of the motors of the group is null, or when that
motor has to be in fault, whatever the states of the other elements, the state
of the group before the query, the calling thread and the abort flag are. -/
theorem state_query_null_ctrl (StatusNotSet : String) (env : StateEnv) (g : MotorGroup)
    (names : List IndEltName) (ctx : GrpCtx)
    (hb : env.base_hook_throws = false) (hd : env.base_dev_state_throws = false)
    (hr : env.read_state_throws = false) (hn : g.ind_elt_nb.toNat ≤ g.ind_elts.length) :
    (∃ s, state_query StatusNotSet env g names ctx = .ok s) ∧
    (env.pool_init_cmd = true →
      state_query StatusNotSet env g names ctx = .ok DevState.UNKNOWN) ∧
    (env.pool_init_cmd = false →
      ∃ s0, always_executed_hook env g ctx.old_state = .ok s0 ∧
        state_query StatusNotSet env g names ctx =
          .ok (update_state_from_ctrls StatusNotSet
            ((g.ind_elts.take g.ind_elt_nb.toNat).map (state_of_ind env)) names
            { ctx with old_state := s0 }).1) ∧
    (env.pool_init_cmd = false →
      (∃ m ∈ g.ind_elts.take g.ind_elt_nb.toNat,
        env.ctrl_null m.ctrl_id = true ∨ env.should_be_in_fault m.id = true) →
      state_query StatusNotSet env g names ctx = .ok DevState.FAULT) := by
  have hhook : ∃ s0, always_executed_hook env g ctx.old_state = .ok s0 := by
    unfold always_executed_hook
    rw [hb]
    simp only [Bool.false_eq_true, if_false]
    split
    · exact ⟨_, rfl⟩
    · exact ⟨_, rfl⟩
  obtain ⟨s0, hs0⟩ := hhook
  have hread : read_state_from_ctrls env g [] =
      .ok ((g.ind_elts.take g.ind_elt_nb.toNat).map (state_of_ind env)) := by
    simp [read_state_from_ctrls, State_all_ind, hr, hn]
  have hinit : env.pool_init_cmd = true →
      state_query StatusNotSet env g names ctx = .ok DevState.UNKNOWN := by
    intro h
    simp [state_query, hs0, dev_state, hd, h]
  have hagg : env.pool_init_cmd = false →
      state_query StatusNotSet env g names ctx =
        .ok (update_state_from_ctrls StatusNotSet
          ((g.ind_elts.take g.ind_elt_nb.toNat).map (state_of_ind env)) names
          { ctx with old_state := s0 }).1 := by
    intro h
    simp [state_query, hs0, dev_state, hd, h, hread]
  refine ⟨?_, hinit, fun h => ⟨s0, hs0, hagg h⟩, ?_⟩
  · cases h : env.pool_init_cmd with
    | true => exact ⟨_, hinit h⟩
    | false => exact ⟨_, hagg h⟩
  · rintro h ⟨m, hm, hnull⟩
    have hs : state_of_ind env m = DevState.FAULT := by
      unfold state_of_ind
      rcases hnull with hnull | hnull
      · by_cases hf : env.should_be_in_fault m.id = true
        · rw [if_pos hf]
        · rw [if_neg hf]; simp [hnull]
      · rw [if_pos hnull]
    have hmem : DevState.FAULT ∈ (g.ind_elts.take g.ind_elt_nb.toNat).map (state_of_ind env) :=
      List.mem_map.2 ⟨m, hm, hs⟩
    rw [hagg h, MotorGroup_state_cases, if_pos hmem]

/-- C18, witness: the run of the counterexample in which `pool_init_cmd` is
not set. -/
theorem state_query_null_ctrl_witness :
    (null_ctrl_env false).pool_init_cmd = false ∧
    (∃ m ∈ two_motor_group.ind_elts.take two_motor_group.ind_elt_nb.toNat,
      (null_ctrl_env false).ctrl_null m.ctrl_id = true ∨
        (null_ctrl_env false).should_be_in_fault m.id = true) ∧
    state_query "Not set" (null_ctrl_env false) two_motor_group two_names
      ⟨DevState.MOVING, 3, 7, false⟩ = .ok DevState.FAULT :=
  ⟨rfl, ⟨⟨1, "m1", 10, 0, 1, 0⟩, by decide, Or.inl rfl⟩,
    (state_query_null_ctrl "Not set" (null_ctrl_env false) two_motor_group two_names
      ⟨DevState.MOVING, 3, 7, false⟩ rfl rfl rfl (by decide)).2.2.2 rfl
      ⟨⟨1, "m1", 10, 0, 1, 0⟩, by decide, Or.inl rfl⟩⟩

end MotorGroup_ns

namespace Pool_ns

open MotorGroup_ns

section

variable {P : Type} [DecidableEq P] [Zero P]

theorem end_round_ext (nb : Int) (th : PoolThread) (m0 : MotInMove) (rest : List MotInMove)
    (tick : Tick P) (l : Loop P) :
    (end_round nb th m0 rest tick l).end_mot_ext_evts = l.end_mot_ext_evts := by
  unfold end_round
  dsimp only
  split <;> rfl

theorem group_motion_end_ext (th : PoolThread) (m0 : MotInMove) (rest : List MotInMove)
    (tick : Tick P) (ab : Bool) (l : Loop P) :
    (group_motion_end th m0 rest tick ab l).end_mot_ext_evts =
      l.end_mot_ext_evts ++ [Src.grp] := by
  unfold group_motion_end
  dsimp only
  generalize read_pos_while_moving th m0 rest false false false tick.read_throws l.run = r2
  cases ab
  · simp only [Bool.false_eq_true, if_false]
    split <;> rfl
  · simp only [if_true]
    have h : (pending_motors tick 0 (m0 :: rest) ({ l with run := r2 } : Loop P)).end_mot_ext_evts
        = l.end_mot_ext_evts :=
      (pending_motors_spec tick 0 (m0 :: rest) ({ l with run := r2 } : Loop P)).2.2.1
    generalize pending_motors tick 0 (m0 :: rest) ({ l with run := r2 } : Loop P) = l3 at h ⊢
    split
    · simp only [h]
    · simp only [h]

theorem group_round_ext (g : Int → Option MotorPool) (nb : Int) (th : PoolThread)
    (cs : List Int) (m0 : MotInMove) (rest : List MotInMove) (tick : Tick P) (l : Loop P)
    (h : l.ext_grp) : (group_round g nb th cs m0 rest tick l).1.ext_grp := by
  unfold group_round
  dsimp only
  generalize (if tick.abort_cmd_executed = false then
          early_motors tick 0 (m0 :: rest) ⟨l.run, tick.abort_cmd_executed, [], []⟩
         else ⟨l.run, tick.abort_cmd_executed, [], []⟩) = a
  split
  · split
    · exact h
    · exact h
  · generalize (if tick.abort_cmd_executed = false ∧ a.back_id ≠ [] then
            backlash_move g tick.start_env th cs (m0 :: rest) a.back_id a.ba a.run
           else a.run) = r1
    split
    · exact h
    · split
      · intro s hs
        rw [group_motion_end_ext] at hs
        rcases List.mem_append.1 hs with h1 | h1
        · exact h s h1
        · simpa using h1
      · intro s hs
        rw [end_round_ext] at hs
        exact h s hs

theorem loop_rounds_ext (g : Int → Option MotorPool) (nb : Int) (th : PoolThread)
    (cs : List Int) (m0 : MotInMove) (rest : List MotInMove) (ticks : List (Tick P)) (l : Loop P)
    (hg : (th.group_id != -1) = true) (h : l.ext_grp) :
    (loop_rounds g nb th cs m0 rest ticks l).1.ext_grp := by
  induction ticks generalizing l with
  | nil => exact h
  | cons tick ticks ih =>
    unfold loop_rounds
    dsimp only
    split
    · exact ih _ h
    · have hr := group_round_ext g nb th cs m0 rest tick
        { l with d_state := d_state_after tick.state l.d_state } h
      generalize group_round g nb th cs m0 rest tick
        { l with d_state := d_state_after tick.state l.d_state } = res at hr ⊢
      split
      · exact hr
      · split
        · exact hr
        · exact ih res.1 hr

/-- The events of `r2` continue those of `r1`. -/
theorem evs_from_trans {a b c : List (Ev P)} (h1 : ∃ X, b = a ++ X) (h2 : ∃ Y, c = b ++ Y) :
    ∃ Z, c = a ++ Z := by
  obtain ⟨X, rfl⟩ := h1
  obtain ⟨Y, rfl⟩ := h2
  exact ⟨X ++ Y, by simp⟩

theorem evs_from_grows {p : Ev P → Prop} {r1 r2 : Run P} (h : Run.grows p r1 r2) :
    ∃ X, r2.evs = r1.evs ++ X := by
  obtain ⟨⟨X, hX, _⟩, _⟩ := h
  exact ⟨X, hX⟩

theorem getD_set_ne {α : Type} (l : List α) (i k : Nat) (x d : α) (h : i ≠ k) :
    (l.set i x).getD k d = l.getD k d := by
  simp [List.getD_eq_getElem?_getD, List.getElem?_set_ne h]

theorem early_motor_frame (tick : Tick P) (loop : Nat) (m : MotInMove) (a : Early P) (k : Nat)
    (hk : loop ≠ k) :
    (early_motor tick loop m a).run.st.group.event_fired_array.getD k false =
      a.run.st.group.event_fired_array.getD k false ∧
    (early_motor tick loop m a).run.back_pos.getD k 0 = a.run.back_pos.getD k 0 := by
  unfold early_motor
  dsimp only
  split
  · split
    · split
      · exact ⟨rfl, getD_set_ne _ _ _ _ _ hk⟩
      · split
        · exact ⟨getD_set_ne _ _ _ _ _ hk, rfl⟩
        · exact ⟨getD_set_ne _ _ _ _ _ hk, rfl⟩
    · exact ⟨rfl, rfl⟩
  · exact ⟨rfl, rfl⟩

/-- A motor read stopped, whose state event is not fired yet, that is not
aborted and has no backlash move to do, has its state event fired by
`early_motor`. -/
theorem early_motor_fires (tick : Tick P) (loop : Nat) (m : MotInMove) (a : Early P)
    (hs : tick.sta_array loop ≠ DevState.MOVING)
    (hf : a.run.st.group.event_fired_array.getD loop false = false)
    (hab : tick.mot_abort loop = false) (hb : a.run.back_pos.getD loop 0 = 0) :
    ∃ Y, (early_motor tick loop m a).run.evs =
      a.run.evs ++ Ev.state_change (Src.mot m.mot_id) (tick.sta_array loop) :: Y := by
  unfold early_motor
  dsimp only
  rw [if_pos ⟨hs, by rw [hf]; decide⟩, if_pos hab, if_neg (by rw [hb]; simp)]
  by_cases hl : m.mot.has_listeners = true
  · rw [if_pos hl]
    exact ⟨[Ev.elem_state_change (Src.mot m.mot_id) DevState.MOVING (tick.sta_array loop)],
      by simp [Run.emit]⟩
  · rw [if_neg hl]
    exact ⟨[], by simp [Run.emit]⟩

theorem early_motors_fires (tick : Tick P) (loop : Nat) (ms : List MotInMove) (a : Early P)
    (j : Nat) (m : MotInMove) (hm : ms.get? j = some m)
    (hs : tick.sta_array (loop + j) ≠ DevState.MOVING)
    (hf : a.run.st.group.event_fired_array.getD (loop + j) false = false)
    (hab : tick.mot_abort (loop + j) = false) (hb : a.run.back_pos.getD (loop + j) 0 = 0) :
    ∃ X Y, (early_motors tick loop ms a).run.evs =
      a.run.evs ++ X ++ Ev.state_change (Src.mot m.mot_id) (tick.sta_array (loop + j)) :: Y := by
  induction ms generalizing loop a j with
  | nil => simp at hm
  | cons m' rest ih =>
    simp only [early_motors]
    cases j with
    | zero =>
      simp only [List.get?_cons_zero, Option.some.injEq] at hm
      subst hm
      obtain ⟨Y, hY⟩ := early_motor_fires tick loop m' a hs hf hab hb
      obtain ⟨Z, hZ⟩ := evs_from_grows (early_motors_spec tick (loop + 1) rest
        (early_motor tick loop m' a)).1
      exact ⟨[], Y ++ Z, by rw [hZ, hY]; simp⟩
    | succ j =>
      simp only [List.get?_cons_succ] at hm
      have hidx : loop + 1 + j = loop + (j + 1) := by omega
      obtain ⟨f1, f2⟩ := early_motor_frame tick loop m' a (loop + (j + 1)) (by omega)
      obtain ⟨X, Y, h⟩ := ih (loop + 1) (early_motor tick loop m' a) j hm
        (by rw [hidx]; exact hs) (by rw [hidx, f1]; exact hf) (by rw [hidx]; exact hab)
        (by rw [hidx, f2]; exact hb)
      obtain ⟨W, hW⟩ := evs_from_grows (early_motor_spec tick loop m' a).1
      refine ⟨W ++ X, Y, ?_⟩
      rw [h, hW, hidx]; simp

theorem end_round_evs (nb : Int) (th : PoolThread) (m0 : MotInMove) (rest : List MotInMove)
    (tick : Tick P) (l : Loop P) :
    ∃ X, (end_round nb th m0 rest tick l).run.evs = l.run.evs ++ X := by
  unfold end_round
  dsimp only
  split
  · obtain ⟨X, hX⟩ := evs_from_grows
      (read_pos_while_moving_spec th m0 rest true false true tick.read_throws l.run).1
    exact ⟨X ++ (read_pos_while_moving th m0 rest true false true tick.read_throws
      l.run).internal_events, by simp [hX]⟩
  · exact ⟨l.run.internal_events, rfl⟩

theorem group_motion_end_evs (th : PoolThread) (m0 : MotInMove) (rest : List MotInMove)
    (tick : Tick P) (ab : Bool) (l : Loop P) :
    ∃ X, (group_motion_end th m0 rest tick ab l).run.evs = l.run.evs ++ X := by
  unfold group_motion_end
  dsimp only
  have a1 := evs_from_grows
    (read_pos_while_moving_spec th m0 rest false false false tick.read_throws l.run).1
  generalize read_pos_while_moving th m0 rest false false false tick.read_throws l.run = r2
    at a1 ⊢
  have c : ∃ X, (if ab = true then pending_motors tick 0 (m0 :: rest)
      ({ l with run := r2 } : Loop P) else ({ l with run := r2 } : Loop P)).run.evs =
      l.run.evs ++ X := by
    cases ab
    · exact a1
    · simp only [if_true]
      exact evs_from_trans a1 (evs_from_grows
        (pending_motors_spec tick 0 (m0 :: rest) ({ l with run := r2 } : Loop P)).1)
  generalize (if ab = true then pending_motors tick 0 (m0 :: rest)
      ({ l with run := r2 } : Loop P) else ({ l with run := r2 } : Loop P)) = l3 at c ⊢
  split <;> exact c

/-- The events of a round of a group session continue those of the loop over
the motors at its top. -/
theorem group_round_evs (g : Int → Option MotorPool) (nb : Int) (th : PoolThread)
    (cs : List Int) (m0 : MotInMove) (rest : List MotInMove) (tick : Tick P) (l : Loop P) :
    ∃ X, (group_round g nb th cs m0 rest tick l).1.run.evs =
      (if tick.abort_cmd_executed = false then
          early_motors tick 0 (m0 :: rest) ⟨l.run, tick.abort_cmd_executed, [], []⟩
         else ⟨l.run, tick.abort_cmd_executed, [], []⟩).run.evs ++ X := by
  unfold group_round
  dsimp only
  generalize (if tick.abort_cmd_executed = false then
          early_motors tick 0 (m0 :: rest) ⟨l.run, tick.abort_cmd_executed, [], []⟩
         else ⟨l.run, tick.abort_cmd_executed, [], []⟩) = a
  split
  · split
    · exact ⟨[Ev.command_Abort], rfl⟩
    · exact ⟨[Ev.command_Abort], rfl⟩
  · have hb : ∃ X, (if tick.abort_cmd_executed = false ∧ a.back_id ≠ [] then
            backlash_move g tick.start_env th cs (m0 :: rest) a.back_id a.ba a.run
           else a.run).evs = a.run.evs ++ X := by
      split
      · exact evs_from_grows (backlash_move_grows _ _ _ _ _ _ _ _)
      · exact ⟨[], by simp⟩
    generalize (if tick.abort_cmd_executed = false ∧ a.back_id ≠ [] then
            backlash_move g tick.start_env th cs (m0 :: rest) a.back_id a.ba a.run
           else a.run) = r1 at hb ⊢
    split
    · exact hb
    · split
      · exact evs_from_trans hb (group_motion_end_evs th m0 rest tick a.abort_cmd_executed
          ({ l with run := r1 } : Loop P))
      · exact evs_from_trans hb (end_round_evs nb th m0 rest tick ({ l with run := r1 } : Loop P))

theorem group_round_evs_from (g : Int → Option MotorPool) (nb : Int) (th : PoolThread)
    (cs : List Int) (m0 : MotInMove) (rest : List MotInMove) (tick : Tick P) (l : Loop P) :
    ∃ X, (group_round g nb th cs m0 rest tick l).1.run.evs = l.run.evs ++ X := by
  refine evs_from_trans ?_ (group_round_evs g nb th cs m0 rest tick l)
  split
  · exact evs_from_grows (early_motors_spec tick 0 (m0 :: rest) _).1
  · exact ⟨[], by simp⟩

theorem loop_rounds_evs (g : Int → Option MotorPool) (nb : Int) (th : PoolThread)
    (cs : List Int) (m0 : MotInMove) (rest : List MotInMove) (ticks : List (Tick P)) (l : Loop P)
    (hg : (th.group_id != -1) = true) :
    ∃ X, (loop_rounds g nb th cs m0 rest ticks l).1.run.evs = l.run.evs ++ X := by
  induction ticks generalizing l with
  | nil => exact ⟨[], by simp [loop_rounds]⟩
  | cons tick ticks ih =>
    unfold loop_rounds
    dsimp only
    split
    · exact ih _
    · have hr := group_round_evs_from g nb th cs m0 rest tick
        { l with d_state := d_state_after tick.state l.d_state }
      generalize group_round g nb th cs m0 rest tick
        { l with d_state := d_state_after tick.state l.d_state } = res at hr ⊢
      split
      · exact hr
      · split
        · exact hr
        · exact evs_from_trans hr (ih res.1)

theorem loop_rounds_cons (g : Int → Option MotorPool) (nb : Int) (th : PoolThread)
    (cs : List Int) (m0 : MotInMove) (rest : List MotInMove) (tick : Tick P)
    (ticks : List (Tick P)) (l : Loop P) :
    loop_rounds g nb th cs m0 rest (tick :: ticks) l =
      if tick.state = StateRead.API_DeviceNotExported then
        loop_rounds g nb th cs m0 rest ticks { l with by_proxy := false }
      else if (one_round g nb th cs m0 rest tick l).2 then one_round g nb th cs m0 rest tick l
      else if (one_round g nb th cs m0 rest tick l).1.run.err.isSome then
        one_round g nb th cs m0 rest tick l
      else loop_rounds g nb th cs m0 rest ticks (one_round g nb th cs m0 rest tick l).1 := by
  rw [loop_rounds]
  rfl

theorem loop_rounds_append (g : Int → Option MotorPool) (nb : Int) (th : PoolThread)
    (cs : List Int) (m0 : MotInMove) (rest : List MotInMove) (A B : List (Tick P))
    (l l' : Loop P) (h : loop_rounds g nb th cs m0 rest A l = (l', false))
    (he : l'.run.err = none) :
    loop_rounds g nb th cs m0 rest (A ++ B) l = loop_rounds g nb th cs m0 rest B l' := by
  induction A generalizing l with
  | nil =>
    simp only [loop_rounds, Prod.mk.injEq, and_true] at h
    subst h; rfl
  | cons tick A ih =>
    rw [List.cons_append, loop_rounds_cons]
    rw [loop_rounds_cons] at h
    by_cases hapi : tick.state = StateRead.API_DeviceNotExported
    · rw [if_pos hapi] at h ⊢
      exact ih _ h
    · rw [if_neg hapi] at h ⊢
      generalize one_round g nb th cs m0 rest tick l = res at h ⊢
      by_cases h2 : res.2 = true
      · rw [if_pos h2] at h
        rw [h] at h2; cases h2
      · rw [if_neg h2] at h ⊢
        by_cases h3 : res.1.run.err.isSome = true
        · rw [if_pos h3] at h
          rw [h] at h3
          simp only at h3
          rw [he] at h3; cases h3
        · rw [if_neg h3] at h ⊢
          exact ih _ h

/-- The positive half of C14: in a round that a group session enters without
abort of the group, a motor read stopped, whose state event is not fired yet,
that is not aborted and has no backlash move to do, has its state event fired
in this round, and the events of the loop continue from there. -/
theorem loop_rounds_fires (g : Int → Option MotorPool) (nb : Int) (th : PoolThread)
    (cs : List Int) (m0 : MotInMove) (rest : List MotInMove) (A B : List (Tick P))
    (tick : Tick P) (l0 l : Loop P) (k : Nat) (m : MotInMove)
    (hg : (th.group_id != -1) = true)
    (hA : loop_rounds g nb th cs m0 rest A l0 = (l, false)) (he : l.run.err = none)
    (hapi : tick.state ≠ StateRead.API_DeviceNotExported)
    (hab0 : tick.abort_cmd_executed = false)
    (hm : (m0 :: rest).get? k = some m)
    (hs : tick.sta_array k ≠ DevState.MOVING)
    (hf : l.run.st.group.event_fired_array.getD k false = false)
    (hab : tick.mot_abort k = false) (hb : l.run.back_pos.getD k 0 = 0) :
    ∃ X Y, (loop_rounds g nb th cs m0 rest (A ++ tick :: B) l0).1.run.evs =
      l.run.evs ++ X ++ Ev.state_change (Src.mot m.mot_id) (tick.sta_array k) :: Y := by
  rw [loop_rounds_append g nb th cs m0 rest A (tick :: B) l0 l hA he]
  have hr := group_round_evs g nb th cs m0 rest tick
    { l with d_state := d_state_after tick.state l.d_state }
  rw [if_pos hab0] at hr
  obtain ⟨X, Y, hXY⟩ := early_motors_fires tick 0 (m0 :: rest)
    ⟨l.run, tick.abort_cmd_executed, [], []⟩ k m hm (by simpa using hs) (by simpa using hf)
    (by simpa using hab) (by simpa using hb)
  simp only [Nat.zero_add] at hXY
  have hone : one_round g nb th cs m0 rest tick l = group_round g nb th cs m0 rest tick
      { l with d_state := d_state_after tick.state l.d_state } := by
    unfold one_round; rw [if_pos hg]
  have hfin : ∃ Z, (loop_rounds g nb th cs m0 rest (tick :: B) l).1.run.evs =
      (group_round g nb th cs m0 rest tick
        { l with d_state := d_state_after tick.state l.d_state }).1.run.evs ++ Z := by
    rw [loop_rounds_cons, if_neg hapi, hone]
    generalize group_round g nb th cs m0 rest tick
        { l with d_state := d_state_after tick.state l.d_state } = res
    split
    · exact ⟨[], by simp⟩
    · split
      · exact ⟨[], by simp⟩
      · exact loop_rounds_evs g nb th cs m0 rest B res.1 hg
  obtain ⟨Z, hZ⟩ := hfin
  obtain ⟨W, hW⟩ := hr
  refine ⟨X, Y ++ W ++ Z, ?_⟩
  rw [hZ, hW]
  change (early_motors tick 0 (m0 :: rest) ⟨l.run, tick.abort_cmd_executed, [], []⟩).run.evs ++ W
    ++ Z = _
  rw [hXY]; simp

/-- C14 (as amended): in a group session that leaves the loop of
`moving_loop` the events are those of the loop (`pre`), none of which is a
forced position notification, followed by events (`post`) none of which is the
state-change notification of a motor and among which are the forced position
notification of every motor and of the group.  The state-change notification
of a motor is fired in the loop: in a round that the session enters without
abort of the group, a motor of the group that is read stopped, whose
notification is not fired yet, that is not aborted and has no backlash move to
do, has its state-change notification fired in that round, among the events of
the loop. -/
theorem moving_loop_motor_state_first (g : Int → Option MotorPool) (nb : Int) (env : MoveEnv P)
    (cs : List Int) (m0 : MotInMove) (rest : List MotInMove) (th : PoolThread) (bp : List P)
    (d : DevState) (st : PoolSt P) (hg : th.group_id ≠ -1)
    (hleft : (moving_loop g nb env cs m0 rest th bp d st).2 = true) :
    ∃ pre post,
      (moving_loop g nb env cs m0 rest th bp d st).1.evs = pre ++ post ∧
      (∀ e ∈ pre, e.ends_motion = false) ∧
      (∀ e ∈ post, ∀ i s, e ≠ Ev.state_change (Src.mot i) s) ∧
      (∀ m ∈ m0 :: rest,
        Ev.position_change (Src.mot m.mot_id) true env.last_read_throws ∈ post) ∧
      Ev.position_change Src.grp true env.last_read_throws ∈ post ∧
      (∀ (A B : List (Tick P)) (tick : Tick P) (l : Loop P) (k : Nat) (m : MotInMove),
        env.ticks = A ++ tick :: B →
        loop_rounds g nb th cs m0 rest A ⟨⟨st, bp, [], [], none⟩, true, 0, d, [], []⟩ =
          (l, false) →
        l.run.err = none →
        tick.state ≠ StateRead.API_DeviceNotExported →
        tick.abort_cmd_executed = false →
        (m0 :: rest).get? k = some m →
        tick.sta_array k ≠ DevState.MOVING →
        l.run.st.group.event_fired_array.getD k false = false →
        tick.mot_abort k = false →
        l.run.back_pos.getD k 0 = 0 →
        ∃ X Y, pre =
          l.run.evs ++ X ++ Ev.state_change (Src.mot m.mot_id) (tick.sta_array k) :: Y) := by
  have hgb : (th.group_id != -1) = true := by simpa using hg
  have hfire : ∀ (A B : List (Tick P)) (tick : Tick P) (l : Loop P) (k : Nat) (m : MotInMove),
      env.ticks = A ++ tick :: B →
      loop_rounds g nb th cs m0 rest A ⟨⟨st, bp, [], [], none⟩, true, 0, d, [], []⟩ =
        (l, false) →
      l.run.err = none →
      tick.state ≠ StateRead.API_DeviceNotExported →
      tick.abort_cmd_executed = false →
      (m0 :: rest).get? k = some m →
      tick.sta_array k ≠ DevState.MOVING →
      l.run.st.group.event_fired_array.getD k false = false →
      tick.mot_abort k = false →
      l.run.back_pos.getD k 0 = 0 →
      ∃ X Y, (loop_rounds g nb th cs m0 rest env.ticks
          (⟨⟨st, bp, [], [], none⟩, true, 0, d, [], []⟩ : Loop P)).1.run.evs =
        l.run.evs ++ X ++ Ev.state_change (Src.mot m.mot_id) (tick.sta_array k) :: Y := by
    intro A B tick l k m ht hA he hapi hab0 hm hs hf hab hb
    rw [ht]
    exact loop_rounds_fires g nb th cs m0 rest A B tick _ l k m hgb hA he hapi hab0 hm hs hf hab hb
  unfold moving_loop at hleft ⊢
  dsimp only at hleft ⊢
  have h0 : Loop.inv (⟨⟨st, bp, [], [], none⟩, true, 0, d, [], []⟩ : Loop P) :=
    ⟨⟨fun e he => absurd he (List.not_mem_nil e), fun e he => absurd he (List.not_mem_nil e)⟩,
      fun e he => absurd he (List.not_mem_nil e)⟩
  have hx0 : Loop.ext_grp (⟨⟨st, bp, [], [], none⟩, true, 0, d, [], []⟩ : Loop P) :=
    fun s hs => absurd hs (List.not_mem_nil s)
  obtain ⟨hinv, _⟩ := loop_rounds_spec g nb th cs m0 rest env.ticks
    (⟨⟨st, bp, [], [], none⟩, true, 0, d, [], []⟩ : Loop P) h0 rfl
  have hext := loop_rounds_ext g nb th cs m0 rest env.ticks
    (⟨⟨st, bp, [], [], none⟩, true, 0, d, [], []⟩ : Loop P) hgb hx0
  generalize loop_rounds g nb th cs m0 rest env.ticks
    (⟨⟨st, bp, [], [], none⟩, true, 0, d, [], []⟩ : Loop P) = res at hleft hinv hext hfire ⊢
  have hres : res.2 = true := by
    cases hr : res.2 with
    | true => rfl
    | false => rw [hr] at hleft; simp at hleft
  simp only [hres, if_true]
  obtain ⟨F, hev, hF, hm1, hm2, _⟩ := finish_move_spec env th m0 rest res.1 hinv
  have hme : moved_elt th m0 = Src.grp := by unfold moved_elt; rw [if_pos hgb]
  rw [hme] at hm1
  refine ⟨res.1.run.evs, F ++
      (res.1.end_mot_ext_evts.map (fun s => Ev.state_change s (env.last_state s)) ++
        res.1.end_mot_int_evts) ++
      (if moved_has_listeners th m0 res.1.run.st = true then [Ev.MotionEnded (moved_elt th m0)]
       else []), ?_, hinv.1.1, ?_, ?_, ?_, hfire⟩
  · rw [hev]; simp only [List.append_assoc]
  · intro e he i s hes
    subst hes
    simp only [List.mem_append, List.mem_map] at he
    rcases he with (h1 | h1 | h1) | h1
    · have := hF _ h1
      simp [Ev.tag, read_pos_tags] at this
    · obtain ⟨s2, hs2, heq⟩ := h1
      have := hext s2 hs2
      subst this
      cases heq
    · have := hinv.2 _ h1
      simp [Ev.tag] at this
    · split at h1
      · simp at h1
      · cases h1
  · intro m hm
    exact List.mem_append_left _ (List.mem_append_left _ (hm2 hgb m hm))
  · exact List.mem_append_left _ (List.mem_append_left _ hm1)

theorem lock_mots_carries (rx : Bool) (ms : List MotInMove) (r : Run P) :
    Run.grows (carries rx) r (lock_mots ms r) := by
  induction ms generalizing r with
  | nil => exact grows_refl _ _
  | cons m rest ih =>
    simp only [lock_mots]
    exact grows_trans (grows_emit _ r _ (fun s b f h => by cases h)) (ih _)

theorem unlock_motors_carries (rx : Bool) (ms : List MotInMove) (r : Run P) :
    Run.grows (carries rx) r (unlock_motors ms r) := by
  obtain ⟨h1, _, h3, _⟩ := unlock_motors_spec ms r
  refine ⟨⟨_, h1, ?_⟩, ⟨[], by rw [h3]; simp, by simp⟩⟩
  intro e he
  obtain ⟨m, _, rfl⟩ := List.mem_map.1 he
  exact fun s b f h => by cases h

theorem read_motor_pos_carries (hl d b s rx : Bool) (m : MotInMove) (r : Run P) :
    Run.grows (carries rx) r (read_motor_pos hl d b s rx m r) := by
  unfold read_motor_pos
  cases s
  · exact grows_refl _ _
  · have hp : carries rx (Ev.position_change (Src.mot m.mot_id) b rx : Ev P) :=
      fun s b f h => by cases h; rfl
    cases hl
    · exact grows_emit _ r _ hp
    · simp only [if_true]
      exact grows_trans (grows_emit _ r _ hp)
        (grows_fire_or_delay _ d _ _ (fun s b f h => by cases h))

theorem read_motors_pos_carries (hl d b s rx : Bool) (ms : List MotInMove) (r : Run P) :
    Run.grows (carries rx) r (read_motors_pos hl d b s rx ms r) := by
  induction ms generalizing r with
  | nil => exact grows_refl _ _
  | cons m rest ih =>
    simp only [read_motors_pos]
    exact grows_trans (read_motor_pos_carries hl d b s rx m r) (ih _)

/-- In a read of the positions by the motion thread of a group, every position
event sent to the clients, of the group or of a motor, carries the error of the
read of the group when there is one, and none carries an error otherwise. -/
theorem read_pos_while_moving_carries (th : PoolThread) (m0 : MotInMove)
    (rest : List MotInMove) (d b s rx : Bool) (r : Run P) :
    Run.grows (carries rx) r (read_pos_while_moving th m0 rest d b s rx r) := by
  unfold read_pos_while_moving
  have hp : ∀ src : Src, carries rx (Ev.position_change src b rx : Ev P) :=
    fun src s b f h => by cases h; rfl
  have hq : ∀ src : Src, carries rx (Ev.elem_position_change src b rx : Ev P) :=
    fun src s b f h => by cases h
  have hr : ∀ src : Src, carries rx (Ev.read_Position src : Ev P) :=
    fun src s b f h => by cases h
  by_cases hg : (th.group_id != -1) = true
  · simp only [hg, if_true]
    have a1 := lock_mots_carries rx (m0 :: rest) r
    generalize lock_mots (m0 :: rest) r = r1 at a1 ⊢
    have b1 : Run.grows (carries rx) r1 (r1.emit (Ev.read_Position Src.grp)) :=
      grows_emit _ _ _ (hr _)
    generalize r1.emit (Ev.read_Position Src.grp) = r2 at b1 ⊢
    have c1 : Run.grows (carries rx) r2
        (if s = true then r2.emit (Ev.position_change Src.grp b rx) else r2) := by
      cases s
      · exact grows_refl _ _
      · exact grows_emit _ _ _ (hp _)
    generalize (if s = true then r2.emit (Ev.position_change Src.grp b rx) else r2) = r3
      at c1 ⊢
    have e1 : Run.grows (carries rx) r3
        (if (s && r.st.group.has_listeners) = true then
          fire_or_delay d (Ev.elem_position_change Src.grp b rx) r3 else r3) := by
      by_cases hc : (s && r.st.group.has_listeners) = true
      · rw [if_pos hc]; exact grows_fire_or_delay _ d _ _ (hq _)
      · rw [if_neg hc]; exact grows_refl _ _
    generalize (if (s && r.st.group.has_listeners) = true then
          fire_or_delay d (Ev.elem_position_change Src.grp b rx) r3 else r3) = r4 at e1 ⊢
    exact grows_trans a1 (grows_trans b1 (grows_trans c1 (grows_trans e1
      (grows_trans (read_motors_pos_carries _ d b s rx (m0 :: rest) r4)
        (unlock_motors_carries rx _ _)))))
  · have hg2 : (th.group_id != -1) = false := by simpa using hg
    simp only [hg2, Bool.false_eq_true, if_false]
    have b1 : Run.grows (carries rx) r (r.emit (Ev.read_Position (Src.mot m0.mot_id))) :=
      grows_emit _ _ _ (hr _)
    generalize r.emit (Ev.read_Position (Src.mot m0.mot_id)) = r2 at b1 ⊢
    have c1 : Run.grows (carries rx) r2
        (if s = true then r2.emit (Ev.position_change (Src.mot m0.mot_id) b rx) else r2) := by
      cases s
      · exact grows_refl _ _
      · exact grows_emit _ _ _ (hp _)
    generalize (if s = true then r2.emit (Ev.position_change (Src.mot m0.mot_id) b rx) else r2)
      = r3 at c1 ⊢
    by_cases hc : (s && m0.mot.has_listeners) = true
    · rw [if_pos hc]
      exact grows_trans b1 (grows_trans c1 (grows_fire_or_delay _ d _ _ (hq _)))
    · rw [if_neg hc]
      exact grows_trans b1 c1

end

end Pool_ns
namespace MotorGroup_ns

open Pool_ns

section

variable {P : Type} [Zero P] [Add P]

theorem lock_ind_elts_phys (ms : List IndMov) (r : ReadRun P) :
    (lock_ind_elts ms r).phys_mot_pos = r.phys_mot_pos := by
  induction ms generalizing r with
  | nil => rfl
  | cons m rest ih => simp only [lock_ind_elts]; rw [ih]; rfl

theorem lock_implied_ctrls_phys (cs : List Int) (r : ReadRun P) :
    (lock_implied_ctrls cs r).phys_mot_pos = r.phys_mot_pos := by
  induction cs generalizing r with
  | nil => rfl
  | cons c rest ih => simp only [lock_implied_ctrls]; rw [ih]; rfl

theorem PreReadAll_loop_frame (env : ReadEnv P) (k : Nat) (cs : List Int) (r : ReadRun P)
    (hr : r.err = none) :
    ((PreReadAll_loop env k cs r).err = none ∨
      is_DevFailed (PreReadAll_loop env k cs r).err = true) ∧
    (PreReadAll_loop env k cs r).phys_mot_pos = r.phys_mot_pos := by
  induction cs generalizing r k with
  | nil => exact ⟨Or.inl hr, rfl⟩
  | cons c rest ih =>
    simp only [PreReadAll_loop]
    split
    · exact ⟨Or.inr rfl, rfl⟩
    · exact ih (k + 1) (r.emit (Ev.PreReadAll c)) hr

theorem PreReadOne_loop_frame (env : ReadEnv P) (k : Nat) (ms : List IndMov) (r : ReadRun P)
    (hr : r.err = none) :
    ((PreReadOne_loop env k ms r).err = none ∨
      is_DevFailed (PreReadOne_loop env k ms r).err = true) ∧
    (PreReadOne_loop env k ms r).phys_mot_pos = r.phys_mot_pos := by
  induction ms generalizing r k with
  | nil => exact ⟨Or.inl hr, rfl⟩
  | cons m rest ih =>
    simp only [PreReadOne_loop]
    split
    · exact ⟨Or.inr rfl, rfl⟩
    · exact ih (k + 1) (r.emit (Ev.PreReadOne m.ctrl_id m.idx_in_ctrl)) hr

theorem ReadAll_loop_frame (env : ReadEnv P) (k : Nat) (cs : List Int) (r : ReadRun P)
    (hr : r.err = none) :
    ((ReadAll_loop env k cs r).err = none ∨
      is_DevFailed (ReadAll_loop env k cs r).err = true) ∧
    (ReadAll_loop env k cs r).phys_mot_pos = r.phys_mot_pos := by
  induction cs generalizing r k with
  | nil => exact ⟨Or.inl hr, rfl⟩
  | cons c rest ih =>
    simp only [ReadAll_loop]
    split
    · exact ⟨Or.inr rfl, rfl⟩
    · exact ih (k + 1) (r.emit (Ev.ReadAll c)) hr

theorem andThen_frame (r : ReadRun P) (f : ReadRun P → ReadRun P) (n : Nat)
    (hr : (r.err = none ∨ is_DevFailed r.err = true) ∧ r.phys_mot_pos.length = n)
    (hf : ∀ x : ReadRun P, x.err = none →
      ((f x).err = none ∨ is_DevFailed (f x).err = true) ∧
        (f x).phys_mot_pos = x.phys_mot_pos) :
    ((r.andThen f).err = none ∨ is_DevFailed (r.andThen f).err = true) ∧
      (r.andThen f).phys_mot_pos.length = n := by
  unfold ReadRun.andThen
  rcases hr with ⟨h1 | h1, h2⟩
  · simp only [h1, Option.isSome_none, Bool.false_eq_true, if_false]
    obtain ⟨a, b⟩ := hf r h1
    exact ⟨a, by rw [b]; exact h2⟩
  · have hs : r.err.isSome = true := by
      cases he : r.err with
      | none => rw [he] at h1; cases h1
      | some e => rfl
    simp only [hs, if_true]
    exact ⟨Or.inr h1, h2⟩

/-- When `ReadOne` throws for a motor of the list, the loop of the calls of
`ReadOne` ends with a `DevFailed`, provided the motors have a place in
`phys_mot_pos`. -/
theorem ReadOne_loop_throws (env : ReadEnv P) (ms : List IndMov) :
    ∀ (loop k : Nat) (r : ReadRun P), k < ms.length →
      env.ReadOne (loop + k) = ReadOneRes.throws →
      (∀ m ∈ ms, 0 ≤ m.idx_in_grp ∧ m.idx_in_grp.toNat < r.phys_mot_pos.length) →
      is_DevFailed (ReadOne_loop env loop ms r).err = true := by
  induction ms with
  | nil => intro loop k r hk; simp at hk
  | cons m rest ih =>
    intro loop k r hk ht hidx
    simp only [ReadOne_loop]
    cases hro : env.ReadOne loop with
    | throws => rfl
    | nan => rfl
    | value v =>
      simp only
      have hm := hidx m (List.mem_cons_self _ _)
      have hset : vec_set (r.emit (Ev.ReadOne m.ctrl_id m.idx_in_ctrl)).phys_mot_pos m.idx_in_grp
          (v + env.get_offset m.id) =
          some ((r.emit (Ev.ReadOne m.ctrl_id m.idx_in_ctrl)).phys_mot_pos.set
            m.idx_in_grp.toNat (v + env.get_offset m.id)) := by
        unfold vec_set
        rw [if_pos]
        exact ⟨hm.1, hm.2⟩
      rw [hset]
      simp only
      cases k with
      | zero => rw [Nat.add_zero, hro] at ht; cases ht
      | succ k =>
        apply ih (loop + 1) k
        · simpa using hk
        · rw [← ht]; congr 1; omega
        · intro m2 hm2
          have := hidx m2 (List.mem_cons_of_mem _ hm2)
          simpa [ReadRun.emit] using this

/-- The read of a group throws a `DevFailed` when `ReadOne` throws for one of
its motors. -/
theorem read_Position_throws (env : ReadEnv P) (cenv : CalcEnv P) (g : MotorGroup)
    (phys attr : List P) (k : Nat) (hk : k < g.ind_elts.length)
    (ht : env.ReadOne k = ReadOneRes.throws)
    (hidx : ∀ m ∈ g.ind_elts, 0 ≤ m.idx_in_grp ∧ m.idx_in_grp.toNat < phys.length) :
    is_DevFailed (read_Position env cenv g phys attr).err = true := by
  unfold read_Position
  split
  · rfl
  · have h0 : (lock_implied_ctrls g.implied_ctrls (lock_ind_elts g.ind_elts
        (⟨phys, attr, [], none⟩ : ReadRun P))).err = none := by
      rw [(lock_implied_ctrls_spec _ _).2, (lock_ind_elts_spec _ _).2]
    have p0 : (lock_implied_ctrls g.implied_ctrls (lock_ind_elts g.ind_elts
        (⟨phys, attr, [], none⟩ : ReadRun P))).phys_mot_pos = phys := by
      rw [lock_implied_ctrls_phys, lock_ind_elts_phys]
    obtain ⟨a1, a2⟩ := PreReadAll_loop_frame env 0 g.implied_ctrls _ h0
    rw [p0] at a2
    have b := andThen_frame _ (PreReadOne_loop env 0 g.ind_elts) phys.length
      ⟨a1, by rw [a2]⟩ (fun x hx => PreReadOne_loop_frame env 0 g.ind_elts x hx)
    have c := andThen_frame _ (ReadAll_loop env 0 g.implied_ctrls) phys.length b
      (fun x hx => ReadAll_loop_frame env 0 g.implied_ctrls x hx)
    have key : ∀ r3 : ReadRun P,
        ((r3.err = none ∨ is_DevFailed r3.err = true) ∧ r3.phys_mot_pos.length = phys.length) →
        is_DevFailed (r3.andThen (ReadOne_loop env 0 g.ind_elts)).err = true := by
      rintro r3 ⟨h1 | h1, h2⟩
      · simp only [ReadRun.andThen, h1, Option.isSome_none, Bool.false_eq_true, if_false]
        apply ReadOne_loop_throws env g.ind_elts 0 k r3 hk (by rw [Nat.zero_add]; exact ht)
        intro m hm
        rw [h2]; exact hidx m hm
      · have hs : r3.err.isSome = true := by
          cases he : r3.err with
          | none => rw [he] at h1; cases h1
          | some e => rfl
        simp only [ReadRun.andThen, hs, if_true]
        exact h1
    have hd : is_DevFailed (try_read env g (⟨phys, attr, [], none⟩ : ReadRun P)).err = true :=
      key _ c
    unfold finish_read
    rw [if_pos hd]
    rfl

end

end MotorGroup_ns
namespace Pool_ns

open MotorGroup_ns

section

variable {P : Type} [DecidableEq P] [Zero P] [Add P]

theorem lock_mots_evs (ms : List MotInMove) (r : Run P) :
    (lock_mots ms r).evs = r.evs ++ ms.map (fun m => Ev.lock_mot m.mot_id) ∧
    (lock_mots ms r).internal_events = r.internal_events := by
  induction ms generalizing r with
  | nil => simp [lock_mots]
  | cons m rest ih =>
    simp only [lock_mots]
    obtain ⟨h1, h2⟩ := ih (r.emit (Ev.lock_mot m.mot_id))
    exact ⟨by rw [h1]; simp, by rw [h2]; rfl⟩

theorem read_motors_pos_evs (hl d b rx : Bool) (ms : List MotInMove) (r : Run P) :
    (read_motors_pos hl d b true rx ms r).evs =
      r.evs ++ (ms.map (motor_pos_evs hl d b rx)).flatten ∧
    (read_motors_pos hl d b true rx ms r).internal_events =
      r.internal_events ++
        (if hl && d then ms.map (fun m => Ev.elem_position_change (Src.mot m.mot_id) b false)
         else []) := by
  induction ms generalizing r with
  | nil => cases hl <;> cases d <;> simp [read_motors_pos]
  | cons m rest ih =>
    simp only [read_motors_pos]
    obtain ⟨h1, h2⟩ := ih (read_motor_pos hl d b true rx m r)
    rw [h1, h2]
    cases hl <;> cases d <;>
      simp [read_motor_pos, fire_or_delay, motor_pos_evs, Run.emit]

/-- The events of a read of the positions of a group with events, by the
motion thread. -/
theorem read_pos_while_moving_group_evs (th : PoolThread) (m0 : MotInMove)
    (rest : List MotInMove) (d b rx : Bool) (r : Run P) (hg : (th.group_id != -1) = true) :
    (read_pos_while_moving th m0 rest d b true rx r).evs =
      r.evs ++ (m0 :: rest).map (fun m => Ev.lock_mot m.mot_id) ++
        [Ev.read_Position Src.grp, Ev.position_change Src.grp b rx] ++
        (if r.st.group.has_listeners && !d then [Ev.elem_position_change Src.grp b rx] else []) ++
        ((m0 :: rest).map (motor_pos_evs r.st.group.has_listeners d b rx)).flatten ++
        (m0 :: rest).map (fun m => Ev.unlock_mot m.mot_id) ∧
    (read_pos_while_moving th m0 rest d b true rx r).internal_events =
      r.internal_events ++
        (if r.st.group.has_listeners && d then
          Ev.elem_position_change Src.grp b rx ::
            (m0 :: rest).map (fun m => Ev.elem_position_change (Src.mot m.mot_id) b false)
         else []) := by
  unfold read_pos_while_moving
  simp only [hg, if_true, Bool.true_and]
  obtain ⟨l1, l2⟩ := lock_mots_evs (m0 :: rest) r
  generalize lock_mots (m0 :: rest) r = r1 at l1 l2 ⊢
  generalize hr4 : (if r.st.group.has_listeners = true then
      fire_or_delay d (Ev.elem_position_change Src.grp b rx)
        ((r1.emit (Ev.read_Position Src.grp)).emit (Ev.position_change Src.grp b rx))
      else (r1.emit (Ev.read_Position Src.grp)).emit (Ev.position_change Src.grp b rx)) = r4
  have e4 : r4.evs = r1.evs ++ [Ev.read_Position Src.grp, Ev.position_change Src.grp b rx] ++
      (if r.st.group.has_listeners && !d then [Ev.elem_position_change Src.grp b rx] else []) ∧
      r4.internal_events = r1.internal_events ++
        (if r.st.group.has_listeners && d then [Ev.elem_position_change Src.grp b rx]
         else []) := by
    rw [← hr4]
    cases r.st.group.has_listeners <;> cases d <;> simp [fire_or_delay, Run.emit]
  obtain ⟨m1, m2⟩ := read_motors_pos_evs r.st.group.has_listeners d b rx (m0 :: rest) r4
  obtain ⟨u1, _, u3, _⟩ := unlock_motors_spec (m0 :: rest)
    (read_motors_pos r.st.group.has_listeners d b true rx (m0 :: rest) r4)
  rw [u1, u3, m1, m2, e4.1, e4.2, l1, l2]
  constructor
  · simp only [List.append_assoc]
  · cases r.st.group.has_listeners <;> cases d <;> simp

/-- C15 (as amended): in a read of the positions by the motion thread of a
group (`Pool::read_pos_while_moving`), the positions are read once, by the read
of the group.  If `ReadOne` throws for one motor of the group, that read
throws and the call of `read_pos_while_moving` returns without an exception,
so the loop goes on.  The events of the call are the locks of the motors, the
read, the position notification of the group to the clients, which carries the
error, then for every motor, the failing one and the others, its position
notification to the clients, which carries the error too, and the unlocks.
When the group has internal listeners, the internal event of the group
carries the error and the internal event of each motor carries its entry of
`attr_Position_read` and no error; they are fired in place when the caller
gave no vector for them and queued in it, the one of the group first,
otherwise. -/
theorem group_read_failure_reaches_all (renv : ReadEnv P) (cenv : CalcEnv P) (grp : MotorGroup)
    (phys attr : List P) (th : PoolThread) (m0 : MotInMove) (rest : List MotInMove)
    (d b : Bool) (r : Run P) (k : Nat)
    (hg : th.group_id ≠ -1) (hk : k < grp.ind_elts.length)
    (ht : renv.ReadOne k = ReadOneRes.throws)
    (hidx : ∀ m ∈ grp.ind_elts, 0 ≤ m.idx_in_grp ∧ m.idx_in_grp.toNat < phys.length) :
    group_read_except renv cenv grp phys attr = true ∧
    (group_read_cycle renv cenv grp phys attr th m0 rest d b true r).err = r.err ∧
    (group_read_cycle renv cenv grp phys attr th m0 rest d b true r).evs =
      r.evs ++ (m0 :: rest).map (fun m => Ev.lock_mot m.mot_id) ++
        [Ev.read_Position Src.grp, Ev.position_change Src.grp b true] ++
        (if r.st.group.has_listeners && !d then [Ev.elem_position_change Src.grp b true]
         else []) ++
        ((m0 :: rest).map (motor_pos_evs r.st.group.has_listeners d b true)).flatten ++
        (m0 :: rest).map (fun m => Ev.unlock_mot m.mot_id) ∧
    (group_read_cycle renv cenv grp phys attr th m0 rest d b true r).internal_events =
      r.internal_events ++
        (if r.st.group.has_listeners && d then
          Ev.elem_position_change Src.grp b true ::
            (m0 :: rest).map (fun m => Ev.elem_position_change (Src.mot m.mot_id) b false)
         else []) ∧
    Ev.position_change Src.grp b true ∈
      (group_read_cycle renv cenv grp phys attr th m0 rest d b true r).evs ∧
    (∀ m ∈ m0 :: rest, Ev.position_change (Src.mot m.mot_id) b true ∈
      (group_read_cycle renv cenv grp phys attr th m0 rest d b true r).evs) ∧
    ∃ X, (group_read_cycle renv cenv grp phys attr th m0 rest d b true r).evs = r.evs ++ X ∧
      ∀ e ∈ X, ∀ s l, e ≠ Ev.position_change s l false := by
  have hgb : (th.group_id != -1) = true := by simpa using hg
  have hx : group_read_except renv cenv grp phys attr = true :=
    read_Position_throws renv cenv grp phys attr k hk ht hidx
  unfold group_read_cycle
  rw [hx]
  obtain ⟨m1, m2⟩ := read_pos_final_mem th m0 rest d b true r
  have hm : moved_elt th m0 = Src.grp := by unfold moved_elt; rw [if_pos hgb]
  rw [hm] at m1
  obtain ⟨⟨X, hX, pX⟩, _⟩ := read_pos_while_moving_carries th m0 rest d b true true r
  obtain ⟨s1, s2⟩ := read_pos_while_moving_group_evs th m0 rest d b true r hgb
  refine ⟨rfl, (read_pos_while_moving_spec th m0 rest d b true true r).2.1, s1, s2, m1, m2 hgb,
    X, hX, ?_⟩
  intro e he s l heq
  have := pX e he s l false heq
  cases this

end

/-- C14, counterexample: a group session of two motors that stop in the second
round of the loop.  The state-change notifications of the motors 1 and 2 are
fired in the loop; the forced position notifications of the group and of the
two motors come after them, and only the state-change notification of the
group comes last. -/
theorem moving_loop_motor_state_before_position :
    (moving_loop two_motor_pool 1 env_motion_ends [10] (motor_1_in_move false) [motor_2_in_move]
        ⟨100, 7⟩ [0, 0] DevState.UNKNOWN (st_in_motion false)).2 = true ∧
    (moving_loop two_motor_pool 1 env_motion_ends [10] (motor_1_in_move false) [motor_2_in_move]
        ⟨100, 7⟩ [0, 0] DevState.UNKNOWN (st_in_motion false)).1.evs =
      [Ev.lock_mot 1, Ev.lock_mot 2, Ev.read_Position Src.grp,
       Ev.position_change Src.grp false false, Ev.position_change (Src.mot 1) false false,
       Ev.position_change (Src.mot 2) false false, Ev.unlock_mot 1, Ev.unlock_mot 2,
       Ev.state_change (Src.mot 1) DevState.ON, Ev.state_change (Src.mot 2) DevState.ON,
       Ev.lock_mot 1, Ev.lock_mot 2, Ev.read_Position Src.grp, Ev.unlock_mot 1, Ev.unlock_mot 2,
       Ev.lock_mot 1, Ev.lock_mot 2, Ev.read_Position Src.grp,
       Ev.position_change Src.grp true false, Ev.position_change (Src.mot 1) true false,
       Ev.position_change (Src.mot 2) true false, Ev.unlock_mot 1, Ev.unlock_mot 2,
       Ev.state_change Src.grp DevState.ON] := by
  decide

/-- C14, witness: the group session of the counterexample; the motor 1 is read
stopped in the second round and its state-change notification is fired there,
after the events of the first round. -/
theorem moving_loop_motor_state_first_witness :
    (⟨100, 7⟩ : PoolThread).group_id ≠ -1 ∧
    (moving_loop two_motor_pool 1 env_motion_ends [10] (motor_1_in_move false) [motor_2_in_move]
        ⟨100, 7⟩ [0, 0] DevState.UNKNOWN (st_in_motion false)).2 = true ∧
    ∃ pre post,
      (moving_loop two_motor_pool 1 env_motion_ends [10] (motor_1_in_move false)
        [motor_2_in_move] ⟨100, 7⟩ [0, 0] DevState.UNKNOWN (st_in_motion false)).1.evs =
        pre ++ post ∧
      (∀ e ∈ post, ∀ i s, e ≠ Ev.state_change (Src.mot i) s) ∧
      (∀ m ∈ [motor_1_in_move false, motor_2_in_move],
        Ev.position_change (Src.mot m.mot_id) true env_motion_ends.last_read_throws ∈ post) ∧
      ∃ X Y, pre =
        (loop_rounds two_motor_pool 1 ⟨100, 7⟩ [10] (motor_1_in_move false) [motor_2_in_move]
          [tick_in_state DevState.MOVING]
          ⟨⟨st_in_motion false, [0, 0], [], [], none⟩, true, 0, DevState.UNKNOWN, [],
            []⟩).1.run.evs ++ X ++ Ev.state_change (Src.mot 1) DevState.ON :: Y := by
  refine ⟨by decide, by decide, ?_⟩
  obtain ⟨pre, post, h1, _, h3, h4, _, h6⟩ :=
    moving_loop_motor_state_first two_motor_pool 1 env_motion_ends [10] (motor_1_in_move false)
      [motor_2_in_move] ⟨100, 7⟩ [0, 0] DevState.UNKNOWN (st_in_motion false) (by decide)
      (by decide)
  exact ⟨pre, post, h1, h3, h4,
    h6 [tick_in_state DevState.MOVING] [] (tick_in_state DevState.ON) _ 0 (motor_1_in_move false)
      rfl (Prod.ext rfl (by decide)) (by decide) (by decide) rfl rfl (by decide) (by decide) rfl
      (by decide)⟩

/-- C15, counterexample: in a read of the positions of a group of two motors,
`ReadOne` throws for the first motor and returns 5 for the second.  The
position notification of the second motor carries the error, as the ones of
the group and of the first motor do. -/
theorem group_read_error_on_other_motor :
    read_fails_first.ReadOne 1 = ReadOneRes.value 5 ∧
    group_read_except read_fails_first identity_env two_motor_group [0, 0] [0, 0] = true ∧
    (group_read_cycle read_fails_first identity_env two_motor_group [0, 0] [0, 0] ⟨100, 7⟩
        (motor_1_in_move false) [motor_2_in_move] true false true
        ⟨st_in_motion false, [0, 0], [], [], none⟩).evs =
      [Ev.lock_mot 1, Ev.lock_mot 2, Ev.read_Position Src.grp,
       Ev.position_change Src.grp false true, Ev.position_change (Src.mot 1) false true,
       Ev.position_change (Src.mot 2) false true, Ev.unlock_mot 1, Ev.unlock_mot 2] := by
  refine ⟨rfl, rfl, rfl⟩

/-- C15, witness: the read of the counterexample in a group with internal
listeners, the internal events fired in place.  The internal event of the
group carries the error; the ones of the motors 1 and 2 carry none. -/
theorem group_read_failure_reaches_all_witness :
    (⟨100, 7⟩ : PoolThread).group_id ≠ -1 ∧ 0 < two_motor_group.ind_elts.length ∧
    read_fails_first.ReadOne 0 = ReadOneRes.throws ∧
    (∀ m ∈ two_motor_group.ind_elts,
      0 ≤ m.idx_in_grp ∧ m.idx_in_grp.toNat < ([0, 0] : List Int).length) ∧
    (group_read_cycle read_fails_first identity_env two_motor_group [0, 0] [0, 0] ⟨100, 7⟩
        (motor_1_in_move false) [motor_2_in_move] false false true
        ⟨st_in_motion true, [0, 0], [], [], none⟩).err = none ∧
    (group_read_cycle read_fails_first identity_env two_motor_group [0, 0] [0, 0] ⟨100, 7⟩
        (motor_1_in_move false) [motor_2_in_move] false false true
        ⟨st_in_motion true, [0, 0], [], [], none⟩).evs =
      [Ev.lock_mot 1, Ev.lock_mot 2, Ev.read_Position Src.grp,
       Ev.position_change Src.grp false true, Ev.elem_position_change Src.grp false true,
       Ev.position_change (Src.mot 1) false true,
       Ev.elem_position_change (Src.mot 1) false false,
       Ev.position_change (Src.mot 2) false true,
       Ev.elem_position_change (Src.mot 2) false false,
       Ev.unlock_mot 1, Ev.unlock_mot 2] :=
  ⟨by decide, by decide, rfl, by decide,
    (group_read_failure_reaches_all read_fails_first identity_env two_motor_group [0, 0] [0, 0]
      ⟨100, 7⟩ (motor_1_in_move false) [motor_2_in_move] false false
      ⟨st_in_motion true, [0, 0], [], [], none⟩ 0 (by decide) (by decide) rfl
      (by decide)).2.1,
    (group_read_failure_reaches_all read_fails_first identity_env two_motor_group [0, 0] [0, 0]
      ⟨100, 7⟩ (motor_1_in_move false) [motor_2_in_move] false false
      ⟨st_in_motion true, [0, 0], [], [], none⟩ 0 (by decide) (by decide) rfl
      (by decide)).2.2.1⟩

end Pool_ns

namespace Pool_ns

/-- C25: the motors 1, 2 and 3 belong to the controllers 10, 20 and 20.  The
first loop of `send_to_ctrl` builds the implied controllers 10, 20, 20: the
controller 20 is there twice, and in a session in which every call returns it
is locked twice and gets `PreStartAll` and `StartAll` twice. -/
theorem send_to_ctrl_duplicate_implied_ctrl :
    (find_implied two_ctrl_pool [1, 2, 3] [] []).map (fun r => r.2) = .ok [10, 20, 20] ∧
    (send_to_ctrl two_ctrl_pool env_all_ok [1, 2, 3] [5, 5, 5] ⟨100, 7⟩ true [0, 0, 0]
        (st_at_rest DevState.ON)).err = none ∧
    (send_to_ctrl two_ctrl_pool env_all_ok [1, 2, 3] [5, 5, 5] ⟨100, 7⟩ true [0, 0, 0]
        (st_at_rest DevState.ON)).evs.count (Ev.lock_ctrl 20) = 2 ∧
    (send_to_ctrl two_ctrl_pool env_all_ok [1, 2, 3] [5, 5, 5] ⟨100, 7⟩ true [0, 0, 0]
        (st_at_rest DevState.ON)).evs.count (Ev.PreStartAll 20) = 2 ∧
    (send_to_ctrl two_ctrl_pool env_all_ok [1, 2, 3] [5, 5, 5] ⟨100, 7⟩ true [0, 0, 0]
        (st_at_rest DevState.ON)).evs.count (Ev.StartAll 20) = 2 := by
  refine ⟨rfl, rfl, ?_, ?_, ?_⟩ <;> decide

/-- C26: a group session of three motors without abort.  The motor 1 stops in
the first round and its state event is fired; the motor 2 stops in the second
round and its backlash move is started by a nested `send_to_ctrl`, which
clears the flags of the events fired; in the third round the state event of the
motor 1 is fired a second time. -/
theorem moving_loop_state_event_fired_twice :
    (moving_loop three_motor_pool 5 env_backlash_in_group [10] (motor_1_in_move false)
        [motor_2_in_move, motor_3_in_move] ⟨100, 7⟩ [0, 7, 0] DevState.UNKNOWN
        st_three_in_motion).2 = true ∧
    (moving_loop three_motor_pool 5 env_backlash_in_group [10] (motor_1_in_move false)
        [motor_2_in_move, motor_3_in_move] ⟨100, 7⟩ [0, 7, 0] DevState.UNKNOWN
        st_three_in_motion).1.evs.take 13 =
      [Ev.state_change (Src.mot 1) DevState.ON,
       Ev.lock_mot 2, Ev.lock_ctrl 10, Ev.PreStartAll 10, Ev.PreStartOne 10 2 7,
       Ev.StartOne 10 2 7, Ev.StartAll 10, Ev.unlock_ctrl 10, Ev.unlock_mot 2, Ev.signal,
       Ev.state_change (Src.mot 1) DevState.ON, Ev.state_change (Src.mot 2) DevState.ON,
       Ev.state_change (Src.mot 3) DevState.ON] ∧
    (moving_loop three_motor_pool 5 env_backlash_in_group [10] (motor_1_in_move false)
        [motor_2_in_move, motor_3_in_move] ⟨100, 7⟩ [0, 7, 0] DevState.UNKNOWN
        st_three_in_motion).1.evs.count (Ev.state_change (Src.mot 1) DevState.ON) = 2 ∧
    Ev.command_Abort ∉ (moving_loop three_motor_pool 5 env_backlash_in_group [10]
        (motor_1_in_move false) [motor_2_in_move, motor_3_in_move] ⟨100, 7⟩ [0, 7, 0]
        DevState.UNKNOWN st_three_in_motion).1.evs := by
  refine ⟨?_, ?_, ?_, ?_⟩ <;> decide

/-- C27: a group session whose group has internal listeners and is read in
ALARM in the second round.  The loop is left after the command Abort; the
forced position events and `MotionEnded` are fired, and no state event of the
group is fired, before `MotionEnded` or after it. -/
theorem moving_loop_alarm_no_group_state_event :
    (moving_loop two_motor_pool 1 env_motion_alarm [10] (motor_1_in_move false) [motor_2_in_move]
        ⟨100, 7⟩ [0, 0] DevState.UNKNOWN (st_in_motion true)).2 = true ∧
    (moving_loop two_motor_pool 1 env_motion_alarm [10] (motor_1_in_move false) [motor_2_in_move]
        ⟨100, 7⟩ [0, 0] DevState.UNKNOWN (st_in_motion true)).1.evs.drop 11 =
      [Ev.state_change (Src.mot 1) DevState.ALARM, Ev.state_change (Src.mot 2) DevState.ALARM,
       Ev.command_Abort,
       Ev.lock_mot 1, Ev.lock_mot 2, Ev.read_Position Src.grp,
       Ev.position_change Src.grp true false, Ev.position_change (Src.mot 1) true false,
       Ev.position_change (Src.mot 2) true false, Ev.unlock_mot 1, Ev.unlock_mot 2,
       Ev.elem_position_change Src.grp true false,
       Ev.elem_position_change (Src.mot 1) true false,
       Ev.elem_position_change (Src.mot 2) true false,
       Ev.MotionEnded Src.grp] ∧
    (moving_loop two_motor_pool 1 env_motion_alarm [10] (motor_1_in_move false) [motor_2_in_move]
        ⟨100, 7⟩ [0, 0] DevState.UNKNOWN (st_in_motion true)).1.evs.filter
      (fun e => decide (e.tag = Tag.state_change)) =
      [Ev.state_change (Src.mot 1) DevState.ALARM,
       Ev.state_change (Src.mot 2) DevState.ALARM] := by
  refine ⟨?_, ?_, ?_⟩ <;> decide

end Pool_ns

namespace MotorGroup_ns

open Pool_ns

/-- C29: in the group left by `add_element "pmx"`, `add_element "pmy"`,
`remove_element "pmx"` the only pseudo motor has the second role of the
controller 50: `psm_in_grp_idx` is `[-1, 0]`, so `psm_in_grp_idx[0]`, with
which `from_grp_2_phys` and `from_phys_2_grp` index `psm_in_grp`, is -1, no
entry of `psm_in_grp`, and `from_grp_2_phys` reads outside the vector. -/
theorem psm_in_grp_first_index_minus_one :
    ((apply_ops pseudo_pool [GroupOp.add "pmx", GroupOp.add "pmy", GroupOp.remove "pmx"]
        (MotorGroup.empty 100)).map
      (fun g => (g.pseudo_motor_list, g.psm_in_grp.length,
        g.psm_ctrls_in_grp.map (fun c => c.psm_in_grp_idx.head?),
        g.psm_ctrls_in_grp.map (fun c => (c.psm_in_grp_idx.head?.bind
          (fun i => vec_get g.psm_in_grp i)).isSome)))) =
      .ok (["pmy"], 1, [some (-1)], [false]) ∧
    ((apply_ops pseudo_pool [GroupOp.add "pmx", GroupOp.add "pmy", GroupOp.remove "pmx"]
        (MotorGroup.empty 100)).bind
      (fun g => from_grp_2_phys identity_env g [7] [0, 0])) =
      .error (Fault.out_of_bounds "psm_in_grp[psm_in_grp_idx[0]]") :=
  ⟨rfl, rfl⟩

end MotorGroup_ns

namespace Pool_ns

theorem PoolThread_run_single {P : Type} [DecidableEq P] [Zero P]
    (g : Int → Option MotorPool) (senv : StartEnv P) (id new_th_id : Int) (pos : P)
    (st : PoolSt P) (mp : MotorPool)
    (hg : g id = some mp)
    (h1 : senv.PreStartAll_throws 0 = false) (h2 : senv.PreStartOne 0 = PreStartOneRes.ret_true)
    (h3 : senv.StartOne_throws 0 = false) (h4 : senv.StartAll_throws 0 = false) :
    (PoolThread.run g senv [id] [pos] ⟨-1, new_th_id⟩ st).2 = none ∧
    (PoolThread.run g senv [id] [pos] ⟨-1, new_th_id⟩ st).1.evs =
      [Ev.lock_ctrl mp.ctrl_id, Ev.PreStartAll mp.ctrl_id,
       Ev.PreStartOne mp.ctrl_id mp.obj_idx pos, Ev.StartOne mp.ctrl_id mp.obj_idx pos,
       Ev.state_change (Src.mot id) DevState.MOVING, Ev.StartAll mp.ctrl_id,
       Ev.unlock_ctrl mp.ctrl_id, Ev.signal] ++
      (if mp.has_listeners then
        [Ev.elem_state_change (Src.mot id) (st.motor id).state DevState.MOVING] else []) ∧
    (PoolThread.run g senv [id] [pos] ⟨-1, new_th_id⟩ st).1.back_pos =
      [(st.motor id).back_pos] ∧
    ((PoolThread.run g senv [id] [pos] ⟨-1, new_th_id⟩ st).1.st.motor id).back_pos =
      (st.motor id).back_pos ∧
    ((PoolThread.run g senv [id] [pos] ⟨-1, new_th_id⟩ st).1.st.motor id).dial_pos =
      (st.motor id).dial_pos ∧
    ((PoolThread.run g senv [id] [pos] ⟨-1, new_th_id⟩ st).1.st.motor id).th_failed = false := by
  have hne : ((-1 : Int) != -1) = false := by decide
  by_cases hb : (st.motor id).back_pos = 0 <;> cases hl : mp.has_listeners <;>
  simp [PoolSt.set_motor, PoolThread.run, send_to_ctrl, find_implied, hg, add_implied_ctrl,
    try_start, lock_motors, lock_ctrls, PreStartAll_loop, start_motors_loop, start_motor,
    send_position, set_motors_moving, set_motor_moving, set_group_moving, StartAll_loop,
    finish_start, unlock_ctrls, Run.andThen, Run.emit, h1, h2, h3, h4, hb, hl]

end Pool_ns
namespace Motor_ns
open Pool_ns

theorem commanded_start {P : Type} (c i : Int) (pos : P) (s : Src) (old : DevState) (b : Bool) :
    commanded ([Ev.lock_ctrl c, Ev.PreStartAll c, Ev.PreStartOne c i pos, Ev.StartOne c i pos,
       Ev.state_change s DevState.MOVING, Ev.StartAll c, Ev.unlock_ctrl c, Ev.signal] ++
      (if b then [Ev.elem_state_change s old DevState.MOVING] else [])) = [pos] := by
  cases b <;> rfl

theorem write_Position_thread {P : Type} [DecidableEq P] [Zero P] [Add P] [Sub P] [LT P]
    [DecidableRel (fun a b : P => a < b)]
    (g : Int → Option MotorPool) (senv : StartEnv P) (round_step : P → P → P)
    (psm_refuses : P → Bool) (fica : MotCtrlFiCa) (th_id new_th_id : Int) (w_val : P)
    (m : Motor P) (st : PoolSt P) (mp : MotorPool)
    (hg : g m.motor_id = some mp)
    (hsimu : (st.motor m.motor_id).simu = false) (hgrp : (st.motor m.motor_id).grp_mov = false)
    (hmov : (st.motor m.motor_id).mov_th_id = 0)
    (h1 : senv.PreStartAll_throws 0 = false) (h2 : senv.PreStartOne 0 = PreStartOneRes.ret_true)
    (h3 : senv.StartOne_throws 0 = false) (h4 : senv.StartAll_throws 0 = false)
    (t : P × P × Bool)
    (ht : dial_target round_step fica { m with attr_Position_write := w_val }
          (st.motor m.motor_id).dial_pos = t) :
    (write_Position g senv round_step psm_refuses fica th_id new_th_id w_val m st).pos_vector =
      [t.1] ∧
    commanded (write_Position g senv round_step psm_refuses fica th_id new_th_id w_val m st).evs =
      [t.1] ∧
    (write_Position g senv round_step psm_refuses fica th_id new_th_id w_val m st).back_pos =
      [t.2.1] ∧
    ((write_Position g senv round_step psm_refuses fica th_id new_th_id w_val m st).st.motor
      m.motor_id).back_pos = t.2.1 ∧
    (write_Position g senv round_step psm_refuses fica th_id new_th_id w_val m st).err = none ∧
    (write_Position g senv round_step psm_refuses fica th_id new_th_id w_val m st).th_except =
      none ∧
    (write_Position g senv round_step psm_refuses fica th_id new_th_id w_val m st).returns =
      true := by
  unfold write_Position
  dsimp only
  rw [ht]
  have hc : ¬ ((st.motor m.motor_id).mov_th_id ≠ 0 ∧ th_id ≠ (st.motor m.motor_id).mov_th_id ∧
      psm_refuses w_val = true) := fun h => h.1 hmov
  rw [if_neg hc, if_pos hsimu]
  generalize hst3 : ((st.set_motor m.motor_id
      (fun d => { d with dial_pos := t.1, back_pos := t.2.1 })).set_motor m.motor_id
      (fun d => { d with th_failed := false })) = st3
  have hgm : (st3.motor m.motor_id).grp_mov = false := by
    rw [← hst3]; simp [PoolSt.set_motor, hgrp]
  have hbp : (st3.motor m.motor_id).back_pos = t.2.1 := by
    rw [← hst3]; simp [PoolSt.set_motor]
  rw [if_pos hgm]
  obtain ⟨e1, e2, e3, e4, _, e6⟩ :=
    PoolThread_run_single g senv m.motor_id new_th_id t.1 st3 mp hg h1 h2 h3 h4
  generalize PoolThread.run g senv [m.motor_id] [t.1] ⟨-1, new_th_id⟩ st3 = r at e1 e2 e3 e4 e6 ⊢
  have hf : ¬ ((r.1.st.motor m.motor_id).th_failed = true) := by rw [e6]; decide
  rw [if_neg hf]
  dsimp only
  refine ⟨rfl, ?_, ?_, ?_, rfl, rfl, ?_⟩
  · rw [e2]; exact commanded_start _ _ _ _ _ _
  · rw [e3, hbp]
  · rw [e4, hbp]
  · rw [e2]; simp
end Motor_ns
namespace Motor_ns
open Pool_ns

/-- C23 (amended): a motor at the dial position 100 with the offset 0 and one
unit per step, that is in no move and not in simulation, whose controller has
no backlash feature and asks for no rounding, is written 80, and every call of
the controller returns.  With the backlash 2 `write_Position` commands 78, the
position asked less `backlash_depl`, and records 78 + 2 = 80 as the target of
the backlash move; with the backlash -2 it commands 80 itself and records 0,
no backlash move. -/
theorem write_Position_backlash_target
    (g : Int → Option MotorPool) (senv : StartEnv Int) (round_step : Int → Int → Int)
    (psm_refuses : Int → Bool) (fica : MotCtrlFiCa) (th_id new_th_id : Int)
    (m : Motor Int) (st : PoolSt Int) (mp : MotorPool)
    (hg : g m.motor_id = some mp)
    (hsimu : (st.motor m.motor_id).simu = false) (hgrp : (st.motor m.motor_id).grp_mov = false)
    (hmov : (st.motor m.motor_id).mov_th_id = 0)
    (h1 : senv.PreStartAll_throws 0 = false) (h2 : senv.PreStartOne 0 = PreStartOneRes.ret_true)
    (h3 : senv.StartOne_throws 0 = false) (h4 : senv.StartAll_throws 0 = false)
    (hbl : fica.ctrl_has_backlash = false) (hrd : fica.ctrl_want_rounding = false)
    (hdial : (st.motor m.motor_id).dial_pos = 100) (hoff : m.attr_Offset_write = 0)
    (hstep : m.depl_per_step = 1)
    (hdepl : m.backlash_depl = m.attr_Backlash_write * m.depl_per_step) :
    (m.attr_Backlash_write = 2 →
      commanded (write_Position g senv round_step psm_refuses fica th_id new_th_id 80 m
        st).evs = [78] ∧
      (write_Position g senv round_step psm_refuses fica th_id new_th_id 80 m st).back_pos =
        [80] ∧
      ((write_Position g senv round_step psm_refuses fica th_id new_th_id 80 m st).st.motor
        m.motor_id).back_pos = 80) ∧
    (m.attr_Backlash_write = -2 →
      commanded (write_Position g senv round_step psm_refuses fica th_id new_th_id 80 m
        st).evs = [80] ∧
      (write_Position g senv round_step psm_refuses fica th_id new_th_id 80 m st).back_pos =
        [0] ∧
      ((write_Position g senv round_step psm_refuses fica th_id new_th_id 80 m st).st.motor
        m.motor_id).back_pos = 0) := by
  constructor
  · intro hB
    have ht : dial_target round_step fica { m with attr_Position_write := 80 }
        (st.motor m.motor_id).dial_pos = (78, 80, true) := by
      rw [hstep, hB] at hdepl
      simp [dial_target, hbl, hrd, hoff, hdepl, hB, hdial]
    have h := write_Position_thread g senv round_step psm_refuses fica th_id new_th_id 80 m st
      mp hg hsimu hgrp hmov h1 h2 h3 h4 _ ht
    exact ⟨h.2.1, h.2.2.1, h.2.2.2.1⟩
  · intro hB
    have ht : dial_target round_step fica { m with attr_Position_write := 80 }
        (st.motor m.motor_id).dial_pos = (80, 0, false) := by
      simp [dial_target, hbl, hrd, hoff, hB, hdial]
    have h := write_Position_thread g senv round_step psm_refuses fica th_id new_th_id 80 m st
      mp hg hsimu hgrp hmov h1 h2 h3 h4 _ ht
    exact ⟨h.2.1, h.2.2.1, h.2.2.2.1⟩

/-- C23, witness: the motor at the dial position 100 with the backlash 2 is
written 80: 78 is commanded and 80 is recorded for the backlash move. -/
theorem write_Position_backlash_target_witness :
    (backlash_motor 2).attr_Backlash_write = 2 ∧
    commanded (write_from_100 2 80).evs = [78] ∧
    (write_from_100 2 80).back_pos = [80] :=
  ⟨rfl,
    ((write_Position_backlash_target one_motor_pool env_all_ok whole_steps (fun _ => false)
      plain_fica 3 7 (backlash_motor 2) (st_at_dial 100) ⟨1, "m1", "motor/ctrl10/1", 10, 1, false⟩
      rfl rfl rfl rfl rfl rfl rfl rfl rfl rfl rfl rfl rfl rfl).1 rfl).1,
    ((write_Position_backlash_target one_motor_pool env_all_ok whole_steps (fun _ => false)
      plain_fica 3 7 (backlash_motor 2) (st_at_dial 100) ⟨1, "m1", "motor/ctrl10/1", 10, 1, false⟩
      rfl rfl rfl rfl rfl rfl rfl rfl rfl rfl rfl rfl rfl rfl).1 rfl).2.1⟩

/-- C23, counterexample: the motor at the dial position 100, offset 0, one
unit per step, no rounding, is written 80.  With the backlash -2 the only
target commanded in the whole session is 80 and no backlash move is recorded;
with the backlash 2 the targets commanded are 78 and then 80.  The target 82
is commanded in neither. -/
theorem write_Position_never_commands_82 :
    (write_from_100 (-2) 80).pos_vector = [80] ∧
    (write_from_100 (-2) 80).back_pos = [0] ∧
    (motion_from_100 (-2) 80).2 = true ∧
    commanded ((write_from_100 (-2) 80).evs ++ (motion_from_100 (-2) 80).1.evs) = [80] ∧
    (write_from_100 2 80).pos_vector = [78] ∧
    (write_from_100 2 80).back_pos = [80] ∧
    (motion_from_100 2 80).2 = true ∧
    commanded ((write_from_100 2 80).evs ++ (motion_from_100 2 80).1.evs) = [78, 80] := by
  refine ⟨?_, ?_, ?_, ?_, ?_, ?_, ?_, ?_⟩ <;> decide

/-- C28: the motor at the dial position 100 with the backlash 2 is written the
position 0.  `write_Position` changes the position commanded to -2 and the
target recorded, 0, is the value that stands for no backlash move: the vector
`back_pos` of the thread keeps 0, the thread leaves the loop when the first
move has stopped, and -2 is the only target commanded.  Written the position
1, the same motor is commanded -1 and then 1. -/
theorem write_Position_follow_up_lost_at_zero :
    dial_target whole_steps plain_fica { backlash_motor 2 with attr_Position_write := 0 } 100 =
      (-2, 0, true) ∧
    (write_from_100 2 0).pos_vector = [-2] ∧
    ((write_from_100 2 0).st.motor 1).back_pos = 0 ∧
    (write_from_100 2 0).back_pos = [0] ∧
    (motion_from_100 2 0).2 = true ∧
    commanded ((write_from_100 2 0).evs ++ (motion_from_100 2 0).1.evs) = [-2] ∧
    dial_target whole_steps plain_fica { backlash_motor 2 with attr_Position_write := 1 } 100 =
      (-1, 1, true) ∧
    (write_from_100 2 1).back_pos = [1] ∧
    (motion_from_100 2 1).2 = true ∧
    commanded ((write_from_100 2 1).evs ++ (motion_from_100 2 1).1.evs) = [-1, 1] := by
  refine ⟨?_, ?_, ?_, ?_, ?_, ?_, ?_, ?_, ?_, ?_⟩ <;> decide

end Motor_ns

namespace MotorGroup_ns
open Pool_ns

theorem first_appearances_mem (cs : List Int) (c : Int) :
    c ∈ first_appearances cs ↔ c ∈ cs := by
  induction cs with
  | nil => simp [first_appearances]
  | cons a rest ih =>
    simp only [first_appearances, List.mem_cons, List.mem_filter, ih, bne_iff_ne, ne_eq]
    constructor
    · rintro (h | ⟨h, _⟩)
      · exact Or.inl h
      · exact Or.inr h
    · intro h
      by_cases hca : c = a
      · exact Or.inl hca
      · rcases h with h | h
        · exact Or.inl h
        · exact Or.inr ⟨h, hca⟩

theorem add_ctrl_eq (c : Int) (acc : List Int) :
    add_ctrl c acc = if c ∈ acc then acc else acc ++ [c] := by
  unfold add_ctrl
  cases acc with
  | nil => simp
  | cons a rest =>
    by_cases h : c ∈ a :: rest
    · have : (a :: rest).any (fun d => d == c) = true := by
        rw [List.any_eq_true]; exact ⟨c, h, by simp⟩
      simp [this, h]
    · have : (a :: rest).any (fun d => d == c) = false := by
        rw [Bool.eq_false_iff]; intro hh
        rw [List.any_eq_true] at hh
        obtain ⟨x, hx, hxc⟩ := hh
        have : x = c := by simpa using hxc
        exact h (this ▸ hx)
      rw [if_neg h]
      simp [this]

theorem add_ctrl_foldl (cs : List Int) (acc : List Int) :
    cs.foldl (fun a c => add_ctrl c a) acc =
      acc ++ (first_appearances cs).filter (fun d => decide (d ∉ acc)) := by
  induction cs generalizing acc with
  | nil => simp [first_appearances]
  | cons c rest ih =>
    rw [List.foldl_cons, ih, add_ctrl_eq]
    by_cases h : c ∈ acc
    · rw [if_pos h]
      simp only [first_appearances, List.filter_cons, h, not_true_eq_false, decide_False,
        Bool.false_eq_true, if_false, List.filter_filter]
      congr 1
      apply List.filter_congr
      intro x _
      by_cases hx : x ∈ acc
      · simp [hx]
      · have : x ≠ c := fun e => hx (e ▸ h)
        simp [hx, this]
    · rw [if_neg h]
      simp only [first_appearances, List.filter_cons, h, not_false_eq_true, decide_True,
        if_true, List.filter_filter, List.append_assoc, List.singleton_append]
      congr 2
      apply List.filter_congr
      intro x _
      by_cases hx : x ∈ acc
      · simp [hx]
      · by_cases hxc : x = c
        · simp [hxc]
        · simp [hx, hxc]

theorem build_grp_loop_spec (pool : Pool) (u : List String) (names : List String) (i : Int)
    (cs : List Int) (es : List IndMov) (r : List Int × List IndMov)
    (h : build_grp_loop pool u names i cs es = .ok r) :
    ∃ mots : List MotorPool,
      List.Forall₂ (fun name m => pool.get_motor_from_name name = some m) names mots ∧
      r.1 = (mots.map (fun m => m.ctrl_id)).foldl (fun a c => add_ctrl c a) cs ∧
      r.2 = es ++ ind_elts_of u i mots := by
  induction names generalizing i cs es with
  | nil =>
    simp only [build_grp_loop, Except.ok.injEq] at h
    subst h
    exact ⟨[], List.Forall₂.nil, rfl, by simp [ind_elts_of]⟩
  | cons name rest ih =>
    unfold build_grp_loop at h
    cases hm : pool.get_motor_from_name name with
    | none => rw [hm] at h; cases h
    | some mot_ref =>
      rw [hm] at h
      obtain ⟨mots, hf, h1, h2⟩ := ih _ _ _ h
      refine ⟨mot_ref :: mots, List.Forall₂.cons hm hf, ?_, ?_⟩
      · rw [h1]; rfl
      · rw [h2]; simp [ind_elts_of]

end MotorGroup_ns

namespace Pool_ns

section

variable {P : Type} [DecidableEq P] [Zero P]

theorem batch_ctrl_none_of_tag (e : Ev P)
    (h : e.tag ∉ [Tag.PreStartAll, Tag.PreStartOne, Tag.StartOne, Tag.StartAll, Tag.PreReadAll,
      Tag.PreReadOne, Tag.ReadAll, Tag.ReadOne]) : e.batch_ctrl = none := by
  cases e <;> first | rfl | (exfalso; apply h; simp [Ev.tag])

theorem count_eq_zero_of_tag (l : List (Ev P)) (x : Ev P) (h : ∀ e ∈ l, e.tag ≠ x.tag) :
    l.count x = 0 := by
  rw [List.count_eq_zero]
  intro hx
  exact h x hx rfl

end

end Pool_ns
namespace Pool_ns

section

variable {P : Type} [DecidableEq P] [Zero P]

end

end Pool_ns
namespace Pool_ns

section

variable {P : Type} [DecidableEq P] [Zero P]

theorem no_call_of_tags (l : List (Ev P)) (ts : List Tag) (h : ∀ e ∈ l, e.tag ∈ ts)
    (ht : ∀ t ∈ ts, t ∉ [Tag.PreStartAll, Tag.PreStartOne, Tag.StartOne, Tag.StartAll,
      Tag.PreReadAll, Tag.PreReadOne, Tag.ReadAll, Tag.ReadOne]) :
    ∀ e ∈ l, e.batch_ctrl = none :=
  fun e he => batch_ctrl_none_of_tag e (ht _ (h e he))

end

end Pool_ns
namespace Pool_ns

section

variable {P : Type} [DecidableEq P] [Zero P]

end

end Pool_ns
namespace Pool_ns

section

variable {P : Type} [DecidableEq P] [Zero P]

theorem count_unlock_of_tag (l : List (Ev P)) (t : Tag) (h : ∀ e ∈ l, e.tag = t)
    (ht : t ≠ Tag.unlock_ctrl) (c : Int) : l.count (Ev.unlock_ctrl c) = 0 := by
  apply count_eq_zero_of_tag
  intro e he hh
  rw [h e he] at hh
  exact ht hh

end

end Pool_ns
namespace MotorGroup_ns

open Pool_ns

section

variable {P : Type} [DecidableEq P] [Zero P] [Add P]

end

end MotorGroup_ns
namespace MotorGroup_ns

open Pool_ns

section

variable {P : Type} [DecidableEq P] [Zero P] [Add P]

theorem calls_under_lock_prefix {a b : List (Ev P)} (h : calls_under_lock (a ++ b)) :
    calls_under_lock a := by
  intro pre post e c heq hcall
  exact h pre (post ++ b) e c (by rw [heq]; simp) hcall

end

end MotorGroup_ns
namespace MotorGroup_ns

open Pool_ns

section

variable {P : Type} [DecidableEq P]

end


section

variable {P : Type} [DecidableEq P] [Zero P] [Add P]

end

section

variable {P : Type} [DecidableEq P] [Zero P] [Add P]

end

section

variable {P : Type} [DecidableEq P] [Zero P] [Add P]

end

end MotorGroup_ns
namespace MotorGroup_ns

open Pool_ns

end MotorGroup_ns

namespace MotorGroup_ns

open Pool_ns

end MotorGroup_ns

namespace Pool_ns

theorem Char_toLower_idem (c : Char) : c.toLower.toLower = c.toLower := by
  by_cases h : c.toNat ≥ 65 ∧ c.toNat ≤ 90
  · have hc : c = Char.ofNat c.toNat := (Char.ofNat_toNat c).symm
    generalize c.toNat = n at h hc
    subst hc
    obtain ⟨h1, h2⟩ := h
    interval_cases n <;> rfl
  · unfold Char.toLower
    simp only [h, if_false]

theorem tolower_idem (s : String) : tolower (tolower s) = tolower s := by
  unfold tolower
  simp only [List.map_map]
  congr 1
  apply List.map_congr_left
  intro c _
  exact Char_toLower_idem c

end Pool_ns
namespace MotorGroup_ns

open Pool_ns

theorem build_grp_struct_elt_congr (pool : Pool) (g g' : MotorGroup) (k : Nat) (elt : String)
    (a : StructAcc) (h1 : g.motor_list = g'.motor_list)
    (h2 : g.motor_group_list = g'.motor_group_list)
    (h3 : g.phys_group_elt = g'.phys_group_elt) :
    build_grp_struct_elt pool g k elt a = build_grp_struct_elt pool g' k elt a := by
  unfold build_grp_struct_elt
  rw [h1, h2, h3]

theorem build_grp_struct_loop_congr (pool : Pool) (g g' : MotorGroup) (k : Nat)
    (elts : List String) (a : StructAcc) (h1 : g.motor_list = g'.motor_list)
    (h2 : g.motor_group_list = g'.motor_group_list)
    (h3 : g.phys_group_elt = g'.phys_group_elt) :
    build_grp_struct_loop pool g k elts a = build_grp_struct_loop pool g' k elts a := by
  induction elts generalizing k a with
  | nil => rfl
  | cons e rest ih =>
    simp only [build_grp_struct_loop]
    rw [build_grp_struct_elt_congr pool g g' k e a h1 h2 h3]
    cases build_grp_struct_elt pool g' k e a with
    | error x => rfl
    | ok a1 => exact ih _ _

/-- `update_elements` reads the identifier and the six properties of the
group only. -/
theorem update_elements_ext (pool : Pool) (g g' : MotorGroup)
    (hid : g.motor_group_id = g'.motor_group_id) (hp : g.props = g'.props) :
    update_elements pool g = update_elements pool g' := by
  obtain ⟨id, ml, mgl, pml, u, p, dim, n1, n2, ie, ic, ut, gg, pg, pc, np, ng⟩ := g
  obtain ⟨id', ml', mgl', pml', u', p', dim', n1', n2', ie', ic', ut', gg', pg', pc', np', ng'⟩ := g'
  simp only [MotorGroup.props, Props.mk.injEq] at hp
  obtain ⟨rfl, rfl, rfl, rfl, rfl, rfl⟩ := hp
  simp only at hid
  subst hid
  unfold update_elements
  dsimp only
  unfold build_grp
  dsimp only
  cases build_grp_loop pool u p 0 [] [] with
  | error e => rfl
  | ok r =>
    dsimp only
    unfold build_grp_struct
    dsimp only
    rw [build_grp_struct_loop_congr pool
      ⟨id, ml, mgl, pml, u, p, dim, p.length, u.length, r.2, r.1, [], [], [], [], np, ng⟩
      ⟨id, ml, mgl, pml, u, p, dim, p.length, u.length, r.2, r.1, [], [], [], [], np', ng'⟩
      0 u ⟨0, 0, r.2, [], [], []⟩ rfl rfl rfl]

theorem build_grp_id (pool : Pool) (g g1 : MotorGroup) (h : build_grp pool g = .ok g1) :
    g1.motor_group_id = g.motor_group_id := by
  unfold build_grp at h
  split at h
  · cases h
  · cases h; rfl

theorem build_grp_struct_id (pool : Pool) (g g1 : MotorGroup)
    (h : build_grp_struct pool g = .ok g1) : g1.motor_group_id = g.motor_group_id := by
  unfold build_grp_struct at h
  split at h
  · cases h
  · split at h
    · cases h
    · cases h; rfl

theorem update_elements_id (pool : Pool) (g g1 : MotorGroup)
    (h : update_elements pool g = .ok g1) : g1.motor_group_id = g.motor_group_id := by
  unfold update_elements at h
  dsimp only at h
  split at h
  · cases h
  · rename_i g2 h2
    rw [build_grp_struct_id pool g2 g1 h, build_grp_id pool _ g2 h2]

end MotorGroup_ns
namespace MotorGroup_ns

open Pool_ns

theorem erase_cons_self (x y : String) (r : List String) (h : tolower x = tolower y) :
    erase_from_lst (x :: r) y = r := by
  unfold erase_from_lst find_in_lst
  rw [List.findIdx_cons]
  have : (tolower x == tolower y) = true := by simpa using h
  rw [this]
  rfl

theorem erase_append_of_no_match (l r : List String) (y : String)
    (h : ∀ u ∈ l, tolower u ≠ tolower y) :
    erase_from_lst (l ++ r) y = l ++ erase_from_lst r y := by
  induction l with
  | nil => rfl
  | cons a l ih =>
    have ha : (tolower a == tolower y) = false := by
      simpa using h a (List.mem_cons_self _ _)
    have ih := ih (fun u hu => h u (List.mem_cons_of_mem _ hu))
    unfold erase_from_lst find_in_lst at ih ⊢
    rw [List.cons_append, List.findIdx_cons, ha]
    simp only [cond_false, List.eraseIdx_cons_succ, List.cons_append, List.cons.injEq, true_and]
    exact ih

theorem erase_last (l : List String) (x y : String) (h : ∀ u ∈ l, tolower u ≠ tolower y)
    (hx : tolower x = tolower y) : erase_from_lst (l ++ [x]) y = l := by
  rw [erase_append_of_no_match l [x] y h, erase_cons_self x y [] hx]
  simp

theorem foldl_erase_appended (f : String → String) (hf : ∀ n, tolower (f n) = tolower n)
    (names l : List String) (h : ∀ u ∈ l, ∀ n ∈ names, tolower u ≠ tolower n) :
    names.foldl erase_from_lst (l ++ names.map f) = l := by
  induction names with
  | nil => simp
  | cons n ns ih =>
    rw [List.foldl_cons, List.map_cons,
      erase_append_of_no_match l _ n (fun u hu => h u hu n (List.mem_cons_self _ _)),
      erase_cons_self (f n) n _ (hf n)]
    exact ih (fun u hu m hm => h u hu m (List.mem_cons_of_mem _ hm))

theorem no_match_of_find (l : List String) (y : String) (h : find_in_lst l y = l.length) :
    ∀ u ∈ l, tolower u ≠ tolower y := by
  intro u hu hy
  unfold find_in_lst at h
  have hex : ∃ x ∈ l, (fun x => tolower x == tolower y) x = true := ⟨u, hu, by simpa using hy⟩
  have := List.findIdx_lt_length_of_exists hex
  omega

end MotorGroup_ns
namespace MotorGroup_ns

open Pool_ns

theorem set_keeps_keys (l : List IndMov) (n : Nat) (m : IndMov) (v : Int)
    (h : l.get? n = some m) :
    (l.set n { m with idx_in_usr := v }).map (fun e => (e.id, e.name)) =
      l.map (fun e => (e.id, e.name)) := by
  induction l generalizing n with
  | nil => rfl
  | cons a l ih =>
    cases n with
    | zero =>
      simp only [List.get?_cons_zero, Option.some.injEq] at h
      subst h
      rfl
    | succ n =>
      simp only [List.get?_cons_succ] at h
      simp only [List.set_cons_succ, List.map_cons, ih n h]

theorem set_idx_in_usr_keys (l l1 : List IndMov) (i v : Int)
    (h : set_idx_in_usr l i v = some l1) :
    l1.map (fun e => (e.id, e.name)) = l.map (fun e => (e.id, e.name)) := by
  unfold set_idx_in_usr at h
  cases hm : vec_get l i with
  | none => rw [hm] at h; cases h
  | some m =>
    rw [hm] at h
    dsimp only at h
    unfold vec_set at h
    split at h
    · simp only [Option.some.injEq] at h
      rw [← h]
      unfold vec_get at hm
      split at hm
      · exact set_keeps_keys l _ m v hm
      · cases hm
    · cases h

theorem fix_idx_in_usr_keys (start_idx : Int) (n : Nat) (i : Int) (l : List IndMov) (k : Int)
    (r : List IndMov × Int) (h : fix_idx_in_usr start_idx n i l k = some r) :
    r.1.map (fun e => (e.id, e.name)) = l.map (fun e => (e.id, e.name)) := by
  induction n generalizing i l k with
  | zero =>
    simp only [fix_idx_in_usr, Option.some.injEq] at h
    rw [← h]
  | succ n ih =>
    simp only [fix_idx_in_usr] at h
    cases hs : set_idx_in_usr l (i + start_idx) k with
    | none => rw [hs] at h; cases h
    | some l1 =>
      rw [hs] at h
      rw [ih _ _ _ h, set_idx_in_usr_keys l l1 _ _ hs]

theorem build_grp_struct_elt_keys (pool : Pool) (g : MotorGroup) (loop : Nat) (elt : String)
    (a a1 : StructAcc) (h : build_grp_struct_elt pool g loop elt a = .ok a1) :
    a1.ind_elts.map (fun e => (e.id, e.name)) = a.ind_elts.map (fun e => (e.id, e.name)) := by
  unfold build_grp_struct_elt at h
  split at h
  · split at h
    · cases h
    · rename_i l1 hs
      cases h
      exact set_idx_in_usr_keys _ _ _ _ hs
  · split at h
    · split at h
      · cases h
      · dsimp only at h
        split at h
        · cases h
        · rename_i l1 k hs
          cases h
          exact fix_idx_in_usr_keys _ _ _ _ _ (l1, k) hs
    · split at h
      · cases h
      · split at h
        · cases h
        · dsimp only at h
          split at h
          · cases h
          · cases h; rfl

theorem build_grp_struct_loop_keys (pool : Pool) (g : MotorGroup) (loop : Nat)
    (elts : List String) (a a1 : StructAcc)
    (h : build_grp_struct_loop pool g loop elts a = .ok a1) :
    a1.ind_elts.map (fun e => (e.id, e.name)) = a.ind_elts.map (fun e => (e.id, e.name)) := by
  induction elts generalizing loop a with
  | nil =>
    simp only [build_grp_struct_loop, Except.ok.injEq] at h
    rw [h]
  | cons e rest ih =>
    simp only [build_grp_struct_loop] at h
    cases he : build_grp_struct_elt pool g loop e a with
    | error x => rw [he] at h; cases h
    | ok a2 =>
      rw [he] at h
      rw [ih _ _ h, build_grp_struct_elt_keys pool g loop e a a2 he]

theorem ind_elts_of_keys (u : List String) (i : Int) (mots : List MotorPool) :
    (ind_elts_of u i mots).map (fun e => (e.id, e.name)) = mots.map (fun m => (m.id, m.name)) := by
  induction mots generalizing i with
  | nil => rfl
  | cons m rest ih => simp [ind_elts_of, ih]

/-- The motors of the physical closure are the motors of `ind_elts` after
`update_elements`. -/
theorem update_elements_ind_elts (pool : Pool) (g g1 : MotorGroup)
    (h : update_elements pool g = .ok g1) :
    ∃ mots : List MotorPool,
      List.Forall₂ (fun name m => pool.get_motor_from_name name = some m)
        g.phys_group_elt mots ∧
      g1.ind_elts.map (fun e => (e.id, e.name)) = mots.map (fun m => (m.id, m.name)) := by
  unfold update_elements at h
  dsimp only at h
  split at h
  · cases h
  · rename_i g2 h2
    unfold build_grp at h2
    dsimp only at h2
    split at h2
    · cases h2
    · rename_i cs es hl
      obtain ⟨mots, hf, _, he⟩ := build_grp_loop_spec pool _ _ _ _ _ (cs, es) hl
      refine ⟨mots, hf, ?_⟩
      unfold build_grp_struct at h
      split at h
      · cases h
      · rename_i a ha
        split at h
        · cases h
        · cases h
          cases h2
          dsimp only at ha ⊢
          rw [build_grp_struct_loop_keys pool _ _ _ _ a ha]
          dsimp only
          dsimp only at he
          rw [he]
          simp [ind_elts_of_keys]

end MotorGroup_ns
namespace MotorGroup_ns

open Pool_ns

theorem build_grp_struct_elt_psm (pool : Pool) (g : MotorGroup) (loop : Nat) (elt : String)
    (a a1 : StructAcc) (h : build_grp_struct_elt pool g loop elt a = .ok a1) :
    a1.psm_in_grp.map (fun p => (p.pool_psm, p.psm_alias)) =
      a.psm_in_grp.map (fun p => (p.pool_psm, p.psm_alias)) ++
        (psm_members pool g.motor_list g.motor_group_list [elt]).map (fun m => (m, m.name)) := by
  unfold build_grp_struct_elt at h
  unfold psm_members
  simp only [List.filterMap_cons, List.filterMap_nil]
  split at h
  · rename_i hm
    rw [if_pos hm]
    split at h
    · cases h
    · cases h; simp
  · rename_i hm
    rw [if_neg hm]
    split at h
    · rename_i hg
      rw [if_pos hg]
      split at h
      · cases h
      · dsimp only at h
        split at h
        · cases h
        · cases h; simp
    · rename_i hg
      rw [if_neg hg]
      split at h
      · cases h
      · rename_i psm hp
        rw [hp]
        split at h
        · cases h
        · dsimp only at h
          split at h
          · cases h
          · cases h; simp

theorem psm_members_cons (pool : Pool) (ml mgl : List String) (e : String)
    (rest : List String) :
    psm_members pool ml mgl (e :: rest) =
      psm_members pool ml mgl [e] ++ psm_members pool ml mgl rest := by
  unfold psm_members
  rw [← List.filterMap_append]
  rfl

theorem psm_members_append (pool : Pool) (ml mgl : List String) (a b : List String) :
    psm_members pool ml mgl (a ++ b) = psm_members pool ml mgl a ++ psm_members pool ml mgl b := by
  unfold psm_members
  rw [List.filterMap_append]

theorem build_grp_struct_loop_psm (pool : Pool) (g : MotorGroup) (loop : Nat)
    (elts : List String) (a a1 : StructAcc)
    (h : build_grp_struct_loop pool g loop elts a = .ok a1) :
    a1.psm_in_grp.map (fun p => (p.pool_psm, p.psm_alias)) =
      a.psm_in_grp.map (fun p => (p.pool_psm, p.psm_alias)) ++
        (psm_members pool g.motor_list g.motor_group_list elts).map (fun m => (m, m.name)) := by
  induction elts generalizing loop a with
  | nil =>
    simp only [build_grp_struct_loop, Except.ok.injEq] at h
    rw [h]; simp [psm_members]
  | cons e rest ih =>
    simp only [build_grp_struct_loop] at h
    cases he : build_grp_struct_elt pool g loop e a with
    | error x => rw [he] at h; cases h
    | ok a2 =>
      rw [he] at h
      rw [ih _ _ h, build_grp_struct_elt_psm pool g loop e a a2 he, psm_members_cons pool _ _ e rest]
      simp

theorem find_psm_ctrl_eq_length (ctrls : List PsmCtrlInGrp) (c : Int) :
    find_psm_ctrl ctrls c = ctrls.length ↔ c ∉ ctrls.map (fun x => x.pool_psm_ctrl) := by
  unfold find_psm_ctrl
  constructor
  · intro h hc
    obtain ⟨x, hx, hxc⟩ := List.mem_map.1 hc
    have hex : ∃ y ∈ ctrls, (fun y => y.pool_psm_ctrl == c) y = true := ⟨x, hx, by simpa using hxc⟩
    have := List.findIdx_lt_length_of_exists hex
    omega
  · intro h
    rw [List.findIdx_eq_length]
    intro x hx
    have : x.pool_psm_ctrl ≠ c := fun e => h (List.mem_map.2 ⟨x, hx, e⟩)
    simpa using this

theorem set_keeps_ctrl (l : List PsmCtrlInGrp) (n : Nat) (c : PsmCtrlInGrp) (idxs : List Int)
    (h : l.get? n = some c) :
    (l.set n { c with psm_in_grp_idx := idxs }).map (fun x => x.pool_psm_ctrl) =
      l.map (fun x => x.pool_psm_ctrl) := by
  induction l generalizing n with
  | nil => rfl
  | cons a l ih =>
    cases n with
    | zero =>
      simp only [List.get?_cons_zero, Option.some.injEq] at h
      subst h
      rfl
    | succ n =>
      simp only [List.get?_cons_succ] at h
      simp only [List.set_cons_succ, List.map_cons, ih n h]

theorem group_psm_by_ctrl_spec (psm_idx : Nat) (psm : PsmInGrp) (ctrls : List PsmCtrlInGrp)
    (r : PsmInGrp × List PsmCtrlInGrp) (h : group_psm_by_ctrl psm_idx psm ctrls = .ok r) :
    (r.1.pool_psm, r.1.psm_alias) = (psm.pool_psm, psm.psm_alias) ∧
    r.2.map (fun x => x.pool_psm_ctrl) =
      add_ctrl psm.pool_psm.ctrl (ctrls.map (fun x => x.pool_psm_ctrl)) := by
  unfold group_psm_by_ctrl at h
  dsimp only at h
  split at h
  · cases h
  · rename_i c hc
    split at h
    · cases h
    · rename_i idxs _
      cases h
      refine ⟨rfl, ?_⟩
      dsimp only
      rw [set_keeps_ctrl _ _ c idxs hc, add_ctrl_eq]
      by_cases hm : psm.pool_psm.ctrl ∈ ctrls.map (fun x => x.pool_psm_ctrl)
      · have : ¬ find_psm_ctrl ctrls psm.pool_psm.ctrl = ctrls.length := by
          rw [find_psm_ctrl_eq_length]; exact fun h => h hm
        rw [if_neg this, if_pos hm]
      · have : find_psm_ctrl ctrls psm.pool_psm.ctrl = ctrls.length := by
          rw [find_psm_ctrl_eq_length]; exact hm
        rw [if_pos this, if_neg hm]
        simp

theorem group_psm_loop_spec (psm_idx : Nat) (psms done : List PsmInGrp)
    (ctrls : List PsmCtrlInGrp) (r : List PsmInGrp × List PsmCtrlInGrp)
    (h : group_psm_loop psm_idx psms done ctrls = .ok r) :
    r.1.map (fun p => (p.pool_psm, p.psm_alias)) =
      done.map (fun p => (p.pool_psm, p.psm_alias)) ++
        psms.map (fun p => (p.pool_psm, p.psm_alias)) ∧
    r.2.map (fun x => x.pool_psm_ctrl) =
      (psms.map (fun p => p.pool_psm.ctrl)).foldl (fun a c => add_ctrl c a)
        (ctrls.map (fun x => x.pool_psm_ctrl)) := by
  induction psms generalizing psm_idx done ctrls with
  | nil =>
    simp only [group_psm_loop, Except.ok.injEq] at h
    rw [← h]; simp
  | cons p rest ih =>
    simp only [group_psm_loop] at h
    cases hb : group_psm_by_ctrl psm_idx p ctrls with
    | error e => rw [hb] at h; cases h
    | ok q =>
      obtain ⟨q1, q2⟩ := q
      rw [hb] at h
      dsimp only at h
      obtain ⟨h1, h2⟩ := ih _ _ _ h
      obtain ⟨b1, b2⟩ := group_psm_by_ctrl_spec psm_idx p ctrls (q1, q2) hb
      dsimp only at b1 b2
      refine ⟨?_, ?_⟩
      · rw [h1]
        simp only [List.map_append, List.map_cons, List.map_nil, List.append_assoc,
          List.singleton_append]
        rw [b1]
      · rw [h2, b2]; rfl

theorem mark_complete_ctrl (c : PsmCtrlInGrp) :
    (mark_complete c).pool_psm_ctrl = c.pool_psm_ctrl := by
  unfold mark_complete
  split <;> rfl

/-- The pseudo motors and the pseudo motor controllers of a group after
`update_elements`. -/
theorem update_elements_psm (pool : Pool) (g g1 : MotorGroup)
    (h : update_elements pool g = .ok g1) :
    g1.psm_in_grp.map (fun p => (p.pool_psm, p.psm_alias)) =
      (psm_members pool g.motor_list g.motor_group_list g.user_group_elt).map
        (fun m => (m, m.name)) ∧
    ∀ c, c ∈ g1.psm_ctrls_in_grp.map (fun x => x.pool_psm_ctrl) ↔
      ∃ m ∈ psm_members pool g.motor_list g.motor_group_list g.user_group_elt, m.ctrl = c := by
  unfold update_elements at h
  dsimp only at h
  split at h
  · cases h
  · rename_i g2 h2
    unfold build_grp at h2
    dsimp only at h2
    split at h2
    · cases h2
    · cases h2
      unfold build_grp_struct at h
      dsimp only at h
      split at h
      · cases h
      · rename_i a ha
        split at h
        · cases h
        · rename_i done ctrls hg
          cases h
          dsimp only
          have hl := build_grp_struct_loop_psm pool _ _ _ _ a ha
          dsimp only at hl
          simp only [List.map_nil, List.nil_append] at hl
          obtain ⟨k1, k2⟩ := group_psm_loop_spec 0 a.psm_in_grp [] [] (done, ctrls) hg
          dsimp only at k1 k2
          simp only [List.map_nil, List.nil_append] at k1 k2
          refine ⟨by rw [k1, hl], ?_⟩
          intro c
          have hmap : (ctrls.map mark_complete).map (fun x => x.pool_psm_ctrl) =
              ctrls.map (fun x => x.pool_psm_ctrl) := by
            rw [List.map_map]
            apply List.map_congr_left
            intro x _
            exact mark_complete_ctrl x
          rw [hmap, k2, add_ctrl_foldl]
          simp only [List.nil_append, List.not_mem_nil, not_false_eq_true, decide_True,
            List.filter_true, first_appearances_mem, List.mem_map]
          have hk : a.psm_in_grp.map (fun p => p.pool_psm) =
              psm_members pool g.motor_list g.motor_group_list g.user_group_elt := by
            have := congrArg (List.map Prod.fst) hl
            rw [List.map_map, List.map_map] at this
            have e1 : (Prod.fst ∘ fun p : PsmInGrp => (p.pool_psm, p.psm_alias)) =
                fun p => p.pool_psm := rfl
            have e2 : (Prod.fst ∘ fun m : PseudoMotorPool => (m, m.name)) = fun m => m := rfl
            rw [e1, e2] at this
            simpa using this
          rw [← hk]
          simp only [List.mem_map, exists_exists_and_eq_and]

end MotorGroup_ns
namespace MotorGroup_ns

open Pool_ns

theorem get_motor_from_name_tolower (pool : Pool) (n : String) (m : MotorPool)
    (h : pool.get_motor_from_name n = some m) : tolower m.name = tolower n := by
  unfold Pool.get_motor_from_name at h
  have := List.find?_some h
  simpa using this

theorem get_motor_group_from_name_tolower (pool : Pool) (n : String) (m : MotorGroupPool)
    (h : pool.get_motor_group_from_name n = some m) : tolower m.name = tolower n := by
  unfold Pool.get_motor_group_from_name at h
  have := List.find?_some h
  simpa using this

theorem get_pseudo_motor_from_name_tolower (pool : Pool) (n : String) (m : PseudoMotorPool)
    (h : pool.get_pseudo_motor_from_name n = some m) : tolower m.name = tolower n := by
  unfold Pool.get_pseudo_motor_from_name at h
  have := List.find?_some h
  simpa using this

theorem get_motor_from_name_congr (pool : Pool) (a b : String) (h : tolower a = tolower b) :
    pool.get_motor_from_name a = pool.get_motor_from_name b := by
  unfold Pool.get_motor_from_name
  rw [h]

theorem get_pseudo_motor_from_name_congr (pool : Pool) (a b : String)
    (h : tolower a = tolower b) :
    pool.get_pseudo_motor_from_name a = pool.get_pseudo_motor_from_name b := by
  unfold Pool.get_pseudo_motor_from_name
  rw [h]

theorem mem_of_std_find (l : List String) (x : String) (h : std_find l x ≠ l.length) :
    x ∈ l := by
  unfold std_find at h
  by_contra hx
  apply h
  rw [List.findIdx_eq_length]
  intro y hy
  have : y ≠ x := fun e => hx (e ▸ hy)
  simpa using this

theorem nomatch_lists (g : MotorGroup) (y : String) (hl : lists_in_user g)
    (hu : ∀ u ∈ g.user_group_elt, tolower u ≠ tolower y) :
    ∀ x ∈ g.motor_list ++ g.motor_group_list ++ g.pseudo_motor_list, tolower x ≠ tolower y := by
  intro x hx hxy
  obtain ⟨u, hu1, hu2⟩ := hl x hx
  exact hu u hu1 (hu2.trans hxy)

theorem forall2_mem {α β : Type} (R : α → β → Prop) (l1 : List α) (l2 : List β)
    (h : List.Forall₂ R l1 l2) : ∀ a ∈ l1, ∃ b ∈ l2, R a b := by
  induction h with
  | nil => intro a ha; cases ha
  | cons hab _ ih =>
    intro a ha
    rcases List.mem_cons.1 ha with h | h
    · subst h; exact ⟨_, List.mem_cons_self _ _, hab⟩
    · obtain ⟨b, hb, hr⟩ := ih a h
      exact ⟨b, List.mem_cons_of_mem _ hb, hr⟩

/-- In a group whose structures are up to date, every name of the closure is
a motor of the pool that `ind_elts` holds. -/
theorem phys_has_ind (pool : Pool) (g : MotorGroup) (hfix : update_elements pool g = .ok g) :
    ∀ u ∈ g.phys_group_elt, ∃ m, pool.get_motor_from_name u = some m ∧
      has_ind_mov_id g m.id = true ∧
      ∀ n, tolower u = tolower n → has_ind_mov_name g n = true := by
  obtain ⟨mots, hf, hk⟩ := update_elements_ind_elts pool g g hfix
  intro u hu
  obtain ⟨m, hm, hlook⟩ := forall2_mem _ _ _ hf u hu
  have hmem : (m.id, m.name) ∈ g.ind_elts.map (fun e => (e.id, e.name)) := by
    rw [hk]; exact List.mem_map.2 ⟨m, hm, rfl⟩
  obtain ⟨e, he, hek⟩ := List.mem_map.1 hmem
  simp only [Prod.mk.injEq] at hek
  refine ⟨m, hlook, ?_, ?_⟩
  · unfold has_ind_mov_id
    rw [List.any_eq_true]
    exact ⟨e, he, by simpa using hek.1⟩
  · intro n hn
    unfold has_ind_mov_name
    rw [List.any_eq_true]
    refine ⟨e, he, ?_⟩
    have := get_motor_from_name_tolower pool u m hlook
    simp only [beq_iff_eq]
    rw [hek.2, this, hn]

theorem is_user_member_after (g1 : MotorGroup) (l : List String) (x argin : String)
    (hu : g1.user_group_elt = l ++ [x]) (hx : tolower x = tolower argin) :
    is_user_member g1 argin = true := by
  unfold is_user_member find_in_lst
  rw [hu]
  have hex : ∃ y ∈ l ++ [x], (fun y => tolower y == tolower argin) y = true :=
    ⟨x, by simp, by simpa using hx⟩
  have := List.findIdx_lt_length_of_exists hex
  exact decide_eq_true (by omega)

theorem psm_members_mem (pool : Pool) (ml mgl elts : List String) (m : PseudoMotorPool)
    (h : m ∈ psm_members pool ml mgl elts) :
    ∃ u ∈ elts, pool.get_pseudo_motor_from_name u = some m := by
  unfold psm_members at h
  rw [List.mem_filterMap] at h
  obtain ⟨u, hu, hm⟩ := h
  refine ⟨u, hu, ?_⟩
  split at hm
  · cases hm
  · split at hm
    · cases hm
    · exact hm

/-- After `add_element` of the pseudo motor `pm`, another pseudo motor of the
group has the controller of `pm` exactly when the controller was in the group
before the call. -/
theorem other_psm_after_add (pool : Pool) (g G1 g1 : MotorGroup) (argin : String)
    (pm : PseudoMotorPool) (hfix : update_elements pool g = .ok g) (hl : lists_in_user g)
    (hno : ∀ u ∈ g.user_group_elt, tolower u ≠ tolower argin)
    (hp : pool.get_pseudo_motor_from_name argin = some pm)
    (hadd : update_elements pool G1 = .ok g1)
    (h1 : G1.motor_list = g.motor_list) (h2 : G1.motor_group_list = g.motor_group_list)
    (h3 : G1.user_group_elt = g.user_group_elt ++ [pm.name]) :
    other_psm_of_ctrl g1 pm =
      g.psm_ctrls_in_grp.any (fun c => c.pool_psm_ctrl == pm.ctrl) := by
  have hpn : tolower pm.name = tolower argin := get_pseudo_motor_from_name_tolower pool _ _ hp
  have hno2 : ∀ u ∈ g.user_group_elt, tolower u ≠ tolower pm.name := by
    intro u hu; rw [hpn]; exact hno u hu
  have hlists := nomatch_lists g pm.name hl hno2
  obtain ⟨k1, _⟩ := update_elements_psm pool G1 g1 hadd
  obtain ⟨_, k2⟩ := update_elements_psm pool g g hfix
  rw [h1, h2, h3, psm_members_append] at k1
  have hlast : psm_members pool g.motor_list g.motor_group_list [pm.name] = [pm] := by
    unfold psm_members
    simp only [List.filterMap_cons, List.filterMap_nil]
    have a1 : ¬ std_find g.motor_list pm.name ≠ g.motor_list.length := by
      intro h
      exact hlists pm.name (by simp [mem_of_std_find _ _ h]) rfl
    have a2 : ¬ std_find g.motor_group_list pm.name ≠ g.motor_group_list.length := by
      intro h
      exact hlists pm.name (by simp [mem_of_std_find _ _ h]) rfl
    rw [if_neg a1, if_neg a2, get_pseudo_motor_from_name_congr pool pm.name argin hpn, hp]
  rw [hlast] at k1
  have hiff : other_psm_of_ctrl g1 pm = true ↔
      ∃ m ∈ psm_members pool g.motor_list g.motor_group_list g.user_group_elt,
        m.ctrl = pm.ctrl := by
    unfold other_psm_of_ctrl
    rw [List.any_eq_true]
    constructor
    · rintro ⟨p, hp1, hp2⟩
      simp only [Bool.and_eq_true, Bool.not_eq_true', beq_eq_false_iff_ne, ne_eq,
        beq_iff_eq] at hp2
      have hk : (p.pool_psm, p.psm_alias) ∈
          g1.psm_in_grp.map (fun p => (p.pool_psm, p.psm_alias)) :=
        List.mem_map.2 ⟨p, hp1, rfl⟩
      rw [k1] at hk
      simp only [List.map_append, List.map_cons, List.map_nil, List.mem_append, List.mem_map,
        List.mem_singleton, Prod.mk.injEq] at hk
      rcases hk with ⟨m, hm, hm1, hm2⟩ | ⟨_, h⟩
      · exact ⟨m, hm, by rw [hm1]; exact hp2.2⟩
      · exact (hp2.1 h).elim
    · rintro ⟨m, hm, hmc⟩
      have hk : (m, m.name) ∈ g1.psm_in_grp.map (fun p => (p.pool_psm, p.psm_alias)) := by
        rw [k1]
        simp only [List.map_append, List.mem_append, List.mem_map]
        exact Or.inl ⟨m, hm, rfl⟩
      obtain ⟨p, hp1, hp2⟩ := List.mem_map.1 hk
      simp only [Prod.mk.injEq] at hp2
      refine ⟨p, hp1, ?_⟩
      obtain ⟨u, hu, hlook⟩ := psm_members_mem pool _ _ _ m hm
      have hne : m.name ≠ pm.name := by
        intro e
        have := get_pseudo_motor_from_name_tolower pool u m hlook
        exact hno2 u hu (by rw [← this, e])
      simp only [Bool.and_eq_true, Bool.not_eq_true', beq_eq_false_iff_ne, ne_eq, beq_iff_eq]
      exact ⟨by rw [hp2.2]; exact hne, by rw [hp2.1]; exact hmc⟩
  have hiff2 : g.psm_ctrls_in_grp.any (fun c => c.pool_psm_ctrl == pm.ctrl) = true ↔
      ∃ m ∈ psm_members pool g.motor_list g.motor_group_list g.user_group_elt,
        m.ctrl = pm.ctrl := by
    rw [← k2 pm.ctrl, List.any_eq_true, List.mem_map]
    constructor
    · rintro ⟨c, hc1, hc2⟩; exact ⟨c, hc1, by simpa using hc2⟩
    · rintro ⟨c, hc1, hc2⟩; exact ⟨c, hc1, by simpa using hc2⟩
  rw [Bool.eq_iff_iff, hiff, hiff2]

end MotorGroup_ns
namespace MotorGroup_ns

open Pool_ns

theorem restore_by_props (pool : Pool) (g R : MotorGroup)
    (hfix : update_elements pool g = .ok g) (hid : R.motor_group_id = g.motor_group_id)
    (h1 : R.user_group_elt = g.user_group_elt) (h2 : R.phys_group_elt = g.phys_group_elt)
    (h3 : R.motor_list = g.motor_list) (h4 : R.motor_group_list = g.motor_group_list)
    (h5 : R.pseudo_motor_list = g.pseudo_motor_list)
    (h6 : R.pos_spectrum_dim_x = g.pos_spectrum_dim_x) :
    update_elements pool R = .ok g := by
  rw [update_elements_ext pool R g hid
    (by simp only [MotorGroup.props, h1, h2, h3, h4, h5, h6])]
  exact hfix

/-- C30: the structures of the group `g` are those `update_elements` builds
from its properties, its lists name user elements only, and a motor group of
the pool lists the identifiers of the motors of its closure.  When
`add_element` of `argin` returns the group `g1`, which has one user element
more, `remove_element` of `argin` on `g1` returns `g`: `user_group_elt`,
`phys_group_elt`, `motor_list`, `motor_group_list`, `pseudo_motor_list` and
`pos_spectrum_dim_x`, and the structures built from them, are as they were
before the add. -/
theorem add_then_remove_restores (pool : Pool) (g g1 : MotorGroup) (argin : String)
    (hfix : update_elements pool g = .ok g) (hl : lists_in_user g)
    (hpool : group_ids_known pool argin) (hadd : add_element pool g argin = .ok g1) :
    g1.user_group_elt.length = g.user_group_elt.length + 1 ∧
    remove_element pool g1 argin = .ok g ∧
    (remove_element pool g1 argin).map MotorGroup.props = .ok g.props := by
  have main : g1.user_group_elt.length = g.user_group_elt.length + 1 ∧
      remove_element pool g1 argin = .ok g := by
    unfold add_element at hadd
    by_cases hin : in_hierarchy g argin = true
    · rw [if_pos hin] at hadd; cases hadd
    · rw [if_neg hin] at hadd
      have hin2 : find_in_lst g.user_group_elt argin = g.user_group_elt.length ∧
          find_in_lst g.phys_group_elt argin = g.phys_group_elt.length := by
        unfold in_hierarchy at hin
        simpa using hin
      have hnu := no_match_of_find _ _ hin2.1
      have hnp := no_match_of_find _ _ hin2.2
      have hlists := nomatch_lists g argin hl hnu
      cases ht : elt_type pool argin with
      | none => rw [ht] at hadd; cases hadd
      | some T =>
        rw [ht] at hadd
        cases T with
        | MOTOR =>
          dsimp only at hadd
          cases hm : pool.get_motor_from_name argin with
          | none => rw [hm] at hadd; cases hadd
          | some m =>
            rw [hm] at hadd
            dsimp only at hadd
            have hn := get_motor_from_name_tolower pool argin m hm
            have hp1 := update_elements_props pool _ g1 hadd
            have hid := update_elements_id pool _ g1 hadd
            have e1 : g1.user_group_elt = g.user_group_elt ++ [m.name] :=
              congrArg Props.user_group_elt hp1
            have e2 : g1.phys_group_elt = g.phys_group_elt ++ [m.name] :=
              congrArg Props.phys_group_elt hp1
            have e3 : g1.motor_list = g.motor_list ++ [m.name] :=
              congrArg Props.motor_list hp1
            have e4 : g1.motor_group_list = g.motor_group_list :=
              congrArg Props.motor_group_list hp1
            have e5 : g1.pseudo_motor_list = g.pseudo_motor_list :=
              congrArg Props.pseudo_motor_list hp1
            have e6 : g1.pos_spectrum_dim_x = g.pos_spectrum_dim_x + 1 :=
              congrArg Props.pos_spectrum_dim_x hp1
            refine ⟨by rw [e1]; simp, ?_⟩
            unfold remove_element
            rw [is_user_member_after g1 _ m.name argin e1 hn]
            simp only [Bool.not_true, Bool.false_eq_true, if_false, ht, hm]
            refine restore_by_props pool g _ hfix ?_ ?_ ?_ ?_ ?_ ?_ ?_
            · exact hid
            · dsimp only
              rw [e1]
              exact erase_last _ _ _ (fun u hu => by rw [hn]; exact hnu u hu) rfl
            · dsimp only
              rw [e2]
              exact erase_last _ _ _ (fun u hu => by rw [hn]; exact hnp u hu) rfl
            · dsimp only
              rw [e3]
              exact erase_last _ _ _
                (fun u hu => by rw [hn]; exact hlists u (by simp [hu])) rfl
            · exact e4
            · exact e5
            · dsimp only
              rw [e6]; omega
        | GROUP =>
          dsimp only at hadd
          cases hg : pool.get_motor_group_from_name argin with
          | none => rw [hg] at hadd; cases hadd
          | some grp =>
            rw [hg] at hadd
            dsimp only at hadd
            by_cases hany : grp.mot_ids.any (fun id => has_ind_mov_id g id) = true
            · rw [if_pos hany] at hadd; cases hadd
            · rw [if_neg hany] at hadd
              have hn := get_motor_group_from_name_tolower pool argin grp hg
              have hp1 := update_elements_props pool _ g1 hadd
              have hid := update_elements_id pool _ g1 hadd
              have e1 : g1.user_group_elt = g.user_group_elt ++ [grp.name] :=
                congrArg Props.user_group_elt hp1
              have e2 : g1.phys_group_elt = g.phys_group_elt ++ grp.phys_group_elt :=
                congrArg Props.phys_group_elt hp1
              have e3 : g1.motor_list = g.motor_list :=
                congrArg Props.motor_list hp1
              have e4 : g1.motor_group_list = g.motor_group_list ++ [grp.name] :=
                congrArg Props.motor_group_list hp1
              have e5 : g1.pseudo_motor_list = g.pseudo_motor_list :=
                congrArg Props.pseudo_motor_list hp1
              have e6 : g1.pos_spectrum_dim_x = g.pos_spectrum_dim_x + grp.pos_spectrum_dim_x :=
                congrArg Props.pos_spectrum_dim_x hp1
              have hphys : ∀ u ∈ g.phys_group_elt, ∀ n ∈ grp.phys_group_elt,
                  tolower u ≠ tolower n := by
                intro u hu n hn2 hun
                obtain ⟨m, hm1, hm2⟩ := hpool grp hg n hn2
                obtain ⟨m', hm3, hm4, _⟩ := phys_has_ind pool g hfix u hu
                rw [get_motor_from_name_congr pool u n hun, hm1] at hm3
                simp only [Option.some.injEq] at hm3
                subst hm3
                apply hany
                rw [List.any_eq_true]
                exact ⟨m.id, hm2, hm4⟩
              refine ⟨by rw [e1]; simp, ?_⟩
              unfold remove_element
              rw [is_user_member_after g1 _ grp.name argin e1 hn]
              simp only [Bool.not_true, Bool.false_eq_true, if_false, ht, hg]
              refine restore_by_props pool g _ hfix ?_ ?_ ?_ ?_ ?_ ?_ ?_
              · exact hid
              · dsimp only
                rw [e1]
                exact erase_last _ _ _ (fun u hu => by rw [hn]; exact hnu u hu) rfl
              · dsimp only
                rw [e2]
                have := foldl_erase_appended id (fun _ => rfl) grp.phys_group_elt
                  g.phys_group_elt hphys
                simpa using this
              · exact e3
              · dsimp only
                rw [e4]
                exact erase_last _ _ _
                  (fun u hu => by rw [hn]; exact hlists u (by simp [hu])) rfl
              · exact e5
              · dsimp only
                rw [e6]; omega
        | PSEUDO_MOTOR =>
          dsimp only at hadd
          cases hp : pool.get_pseudo_motor_from_name argin with
          | none => rw [hp] at hadd; cases hadd
          | some pm =>
            rw [hp] at hadd
            dsimp only at hadd
            have hn := get_pseudo_motor_from_name_tolower pool argin pm hp
            by_cases hc : g.psm_ctrls_in_grp.any (fun c => c.pool_psm_ctrl == pm.ctrl) = true
            · rw [if_pos hc] at hadd
              have hother := other_psm_after_add pool g _ g1 argin pm hfix hl hnu hp hadd
                rfl rfl rfl
              have hp1 := update_elements_props pool _ g1 hadd
              have hid := update_elements_id pool _ g1 hadd
              have e1 : g1.user_group_elt = g.user_group_elt ++ [pm.name] :=
                congrArg Props.user_group_elt hp1
              have e2 : g1.phys_group_elt = g.phys_group_elt :=
                congrArg Props.phys_group_elt hp1
              have e3 : g1.motor_list = g.motor_list :=
                congrArg Props.motor_list hp1
              have e4 : g1.motor_group_list = g.motor_group_list :=
                congrArg Props.motor_group_list hp1
              have e5 : g1.pseudo_motor_list = g.pseudo_motor_list ++ [pm.name] :=
                congrArg Props.pseudo_motor_list hp1
              have e6 : g1.pos_spectrum_dim_x = g.pos_spectrum_dim_x + 1 :=
                congrArg Props.pos_spectrum_dim_x hp1
              refine ⟨by rw [e1]; simp, ?_⟩
              unfold remove_element
              rw [is_user_member_after g1 _ pm.name argin e1 hn]
              simp only [Bool.not_true, Bool.false_eq_true, if_false, ht, hp]
              refine restore_by_props pool g _ hfix ?_ ?_ ?_ ?_ ?_ ?_ ?_
              · exact hid
              · dsimp only
                rw [e1]
                exact erase_last _ _ _ (fun u hu => by rw [hn]; exact hnu u hu) rfl
              · dsimp only
                rw [hother, hc, if_pos rfl]
                exact e2
              · exact e3
              · exact e4
              · dsimp only
                rw [e5]
                exact erase_last _ _ _
                  (fun u hu => by rw [hn]; exact hlists u (by simp [hu])) rfl
              · dsimp only
                rw [e6]; omega
            · rw [if_neg hc] at hadd
              by_cases hany : pm.mot_elts.any (fun n => has_ind_mov_name g n) = true
              · rw [if_pos hany] at hadd; cases hadd
              · rw [if_neg hany] at hadd
                have hother := other_psm_after_add pool g _ g1 argin pm hfix hl hnu hp hadd
                  rfl rfl rfl
                have hp1 := update_elements_props pool _ g1 hadd
                have hid := update_elements_id pool _ g1 hadd
                have e1 : g1.user_group_elt = g.user_group_elt ++ [pm.name] :=
                  congrArg Props.user_group_elt hp1
                have e2 : g1.phys_group_elt = g.phys_group_elt ++ pm.mot_elts.map tolower :=
                  congrArg Props.phys_group_elt hp1
                have e3 : g1.motor_list = g.motor_list :=
                  congrArg Props.motor_list hp1
                have e4 : g1.motor_group_list = g.motor_group_list :=
                  congrArg Props.motor_group_list hp1
                have e5 : g1.pseudo_motor_list = g.pseudo_motor_list ++ [pm.name] :=
                  congrArg Props.pseudo_motor_list hp1
                have e6 : g1.pos_spectrum_dim_x = g.pos_spectrum_dim_x + 1 :=
                  congrArg Props.pos_spectrum_dim_x hp1
                have hphys : ∀ u ∈ g.phys_group_elt, ∀ n ∈ pm.mot_elts,
                    tolower u ≠ tolower n := by
                  intro u hu n hn2 hun
                  obtain ⟨m', _, _, hm5⟩ := phys_has_ind pool g hfix u hu
                  apply hany
                  rw [List.any_eq_true]
                  exact ⟨n, hn2, hm5 n hun⟩
                have hcf : g.psm_ctrls_in_grp.any (fun c => c.pool_psm_ctrl == pm.ctrl) =
                    false := by
                  cases h : g.psm_ctrls_in_grp.any (fun c => c.pool_psm_ctrl == pm.ctrl) with
                  | false => rfl
                  | true => exact (hc h).elim
                refine ⟨by rw [e1]; simp, ?_⟩
                unfold remove_element
                rw [is_user_member_after g1 _ pm.name argin e1 hn]
                simp only [Bool.not_true, Bool.false_eq_true, if_false, ht, hp]
                refine restore_by_props pool g _ hfix ?_ ?_ ?_ ?_ ?_ ?_ ?_
                · exact hid
                · dsimp only
                  rw [e1]
                  exact erase_last _ _ _ (fun u hu => by rw [hn]; exact hnu u hu) rfl
                · dsimp only
                  rw [hother, hcf]
                  simp only [Bool.false_eq_true, if_false]
                  rw [e2]
                  exact foldl_erase_appended tolower tolower_idem pm.mot_elts g.phys_group_elt
                    hphys
                · exact e3
                · exact e4
                · dsimp only
                  rw [e5]
                  exact erase_last _ _ _
                    (fun u hu => by rw [hn]; exact hlists u (by simp [hu])) rfl
                · dsimp only
                  rw [e6]; omega
  exact ⟨main.1, main.2, by rw [main.2]; rfl⟩

/-- C30, witness: the pseudo motor `pmx` is added to the group of the motor
`m`, which brings the motors `a` and `b` into the closure, and removed: the
group is the one before the add. -/
theorem add_then_remove_restores_witness :
    update_elements pseudo_pool motor_m_group = .ok motor_m_group ∧
    add_element pseudo_pool motor_m_group "pmx" = .ok motor_m_pmx_group ∧
    motor_m_pmx_group.phys_group_elt = ["m", "a", "b"] ∧
    motor_m_pmx_group.user_group_elt.length = motor_m_group.user_group_elt.length + 1 ∧
    remove_element pseudo_pool motor_m_pmx_group "pmx" = .ok motor_m_group ∧
    (remove_element pseudo_pool motor_m_pmx_group "pmx").map MotorGroup.props =
      .ok motor_m_group.props :=
  ⟨rfl, rfl, rfl,
    add_then_remove_restores pseudo_pool motor_m_group motor_m_pmx_group "pmx" rfl
      (by
        intro x hx
        have : x = "m" := by simpa [motor_m_group] using hx
        subst this
        exact ⟨"m", by simp [motor_m_group], rfl⟩)
      (by
        intro grp h
        have h0 : pseudo_pool.get_motor_group_from_name "pmx" = none := rfl
        rw [h0] at h
        cases h)
      rfl⟩

/-- The add of a motor group and the add of a motor under another spelling of
its name are undone by `remove_element` in the same way. -/
theorem add_then_remove_runs :
    (add_element nested_pool two_motor_group "g2").bind
        (fun g1 => remove_element nested_pool g1 "g2") = .ok two_motor_group ∧
    (add_element nested_pool two_motor_group "M3").bind
        (fun g1 => remove_element nested_pool g1 "M3") = .ok two_motor_group ∧
    (add_element nested_pool two_motor_group "g2").map (fun g1 => g1.phys_group_elt) =
      .ok ["m1", "m2", "m3"] :=
  ⟨rfl, rfl, rfl⟩

end MotorGroup_ns

namespace MotorGroup_ns

open Pool_ns

theorem elt_type_eq_motor (pool : Pool) (n : String)
    (h : elt_type pool n = some GrpEltType.MOTOR) :
    ∃ m, pool.get_motor_from_name n = some m := by
  unfold elt_type at h
  cases hm : pool.get_motor_from_name n with
  | some m => exact ⟨m, rfl⟩
  | none =>
    simp only [hm, Option.isSome_none, Bool.false_eq_true, if_false] at h
    split at h
    · cases h
    · split at h <;> cases h

theorem elt_type_eq_group (pool : Pool) (n : String)
    (h : elt_type pool n = some GrpEltType.GROUP) :
    pool.get_motor_from_name n = none ∧ ∃ g, pool.get_motor_group_from_name n = some g := by
  unfold elt_type at h
  cases hm : pool.get_motor_from_name n with
  | some m => simp [hm] at h
  | none =>
    simp only [hm, Option.isSome_none, Bool.false_eq_true, if_false] at h
    cases hg : pool.get_motor_group_from_name n with
    | some g => exact ⟨rfl, g, rfl⟩
    | none =>
      simp only [hg, Option.isSome_none, Bool.false_eq_true, if_false] at h
      split at h <;> cases h

theorem elt_type_eq_psm (pool : Pool) (n : String)
    (h : elt_type pool n = some GrpEltType.PSEUDO_MOTOR) :
    pool.get_motor_from_name n = none ∧ pool.get_motor_group_from_name n = none ∧
      ∃ p, pool.get_pseudo_motor_from_name n = some p := by
  unfold elt_type at h
  cases hm : pool.get_motor_from_name n with
  | some m => simp [hm] at h
  | none =>
    simp only [hm, Option.isSome_none, Bool.false_eq_true, if_false] at h
    cases hg : pool.get_motor_group_from_name n with
    | some g => simp [hg] at h
    | none =>
      simp only [hg, Option.isSome_none, Bool.false_eq_true, if_false] at h
      cases hp : pool.get_pseudo_motor_from_name n with
      | some p => exact ⟨rfl, rfl, p, rfl⟩
      | none => simp [hp] at h

end MotorGroup_ns

namespace MotorGroup_ns

open Pool_ns

end MotorGroup_ns

namespace MotorGroup_ns

open Pool_ns

end MotorGroup_ns

namespace MotorGroup_ns

open Pool_ns

end MotorGroup_ns

namespace MotorGroup_ns

open Pool_ns

end MotorGroup_ns

namespace MotorGroup_ns

open Pool_ns

/-- A motor group and a pseudo motor that use the same motor are not both
user elements of a group that `add_element` builds: in either order the second
call throws `MotorGroup_BadArgument`, and so does the add of the motor `b`
itself after the motor group of `b`. -/
theorem add_element_refuses_shared_motor :
    apply_ops shared_pool [GroupOp.add "gb", GroupOp.add "pmx"] (MotorGroup.empty 100) =
      .error (Fault.DevFailed "MotorGroup_BadArgument") ∧
    apply_ops shared_pool [GroupOp.add "pmx", GroupOp.add "gb"] (MotorGroup.empty 100) =
      .error (Fault.DevFailed "MotorGroup_BadArgument") ∧
    apply_ops shared_pool [GroupOp.add "gb", GroupOp.add "b"] (MotorGroup.empty 100) =
      .error (Fault.DevFailed "MotorGroup_BadArgument") ∧
    (apply_ops shared_pool [GroupOp.add "gb", GroupOp.add "a"] (MotorGroup.empty 100)).map
      (fun g => (g.user_group_elt, g.phys_group_elt)) = .ok (["gb", "a"], ["b", "a"]) := by
  refine ⟨rfl, rfl, rfl, rfl⟩

end MotorGroup_ns

